import Mathlib

/-!
# Client context cache of the GSS keyring policy

A shallow embedding of `lustre/ptlrpc/gss/gss_keyring.c`.

* Pointers to contexts and to keys are natural numbers, a nullable pointer is an
  `Option Nat`, and the two heaps are total maps from pointers to records.
* `atomic_t` reference counts are integers (no wrap-around is modelled).
* The bits of `cc_flags` and the `KEY_FLAG_REVOKED` bit of `key->flags` are Boolean
  fields, one per named bit.
* An operation returns `none` exactly when an `LASSERT` (or `LBUG`) on its path
  fires; otherwise it returns the state it leaves behind.
* Every operation is one sequential step. Of the locks only the mutex
  `gsk_root_uc_lock` is tracked, as the flag "held".
* Calls that leave `gss_keyring.c` (`sptlrpc_gc_add_ctx`, `key_unlink`, ...) are
  recorded in `State.trace`, most recent first.
* Functions that `gss_keyring.c` calls but does not define are the fields of `Helpers`.
-/

namespace GssKeyring

/-! ## Data model -/

/-- The bits of `cc_flags` that `gss_keyring.c` names (`PTLRPC_CTX_*_BIT`). -/
structure CtxFlags where
  NEW : Bool
  UPTODATE : Bool
  DEAD : Bool
  ERROR : Bool
  CACHED : Bool
  deriving DecidableEq, Repr

/-- A client context: the fields of `struct ptlrpc_cli_ctx`, `struct gss_cli_ctx` and
`struct gss_cli_ctx_keyring` that `gss_keyring.c` reads or writes. -/
structure Ctx where
  cc_refcount : Int
  cc_flags : CtxFlags
  cc_expire : Int
  cc_early_expire : Bool
  vc_uid : Nat
  gc_win : Nat
  gc_seq : Int
  gc_handle : List Nat
  gc_svc_handle : List Nat
  gc_mechctx : Option Nat
  gck_key : Option Nat
  gck_timer : Option Int
  deriving DecidableEq, Repr

/-- A key of type `gss_key_type`: usage count, `KEY_FLAG_REVOKED`, payload slot 0 and
description. -/
structure Key where
  usage : Int
  revoked : Bool
  payload : Option Nat
  description : String
  deriving DecidableEq, Repr

/-- Calls that leave `gss_keyring.c`, in the order they are made. -/
inductive Event where
  | destroy (ctx : Nat)
  | free (ctx : Nat)
  | gc_add (ctx : Nat)
  | wakeup (ctx : Nat)
  | update_sequence (handle : List Nat) (seq : Nat)
  | key_unlink (ring key : Nat)
  deriving DecidableEq, Repr

/-- One `struct gss_sec_keyring` with the contexts and keys around it. -/
structure State where
  ctxs : Nat → Ctx
  keys : Nat → Key
  gsk_clist : List Nat
  gsk_root_ctx : Option Nat
  ps_refcount : Int
  ps_nctx : Int
  sec_reverse : Bool
  sec_rootonly : Bool
  gs_rvs_hdl : Nat
  ctx_index : Nat
  trace : List Event
  gsk_root_uc_lock : Bool := false

/-- A byte cursor: the `data` pointer and the 32-bit `datalen32` that travel together
through the extraction helpers. -/
structure Buf where
  data : List Nat
  len : Nat
  deriving DecidableEq, Repr

/-- Functions that `gss_keyring.c` calls and that are defined elsewhere
(`lustre_sec.h`, `sec_gss.c`, `gss_rawobj.c`, the kernel key service), with the clock
and the global `obd_timeout`. Each function acts on the single object it is handed.
Extraction helpers return `(rc, value, rest)`; the value and the rest are meaningful
when `rc = 0`. -/
structure Helpers where
  cli_ctx_expire : Ctx → Ctx
  cli_ctx_check_death : Ctx → Bool × Ctx
  cli_ctx_is_ready : Ctx → Bool
  cli_ctx_is_refreshed : Ctx → Bool
  gss_cli_ctx_uptodate : Ctx → Ctx
  gss_cli_ctx_fini_common : Ctx → Bool
  request_key_ring : Option Nat
  key_validate : Key → Int
  buffer_extract_u32 : Buf → Int × Nat × Buf
  rawobj_extract_local_alloc : Buf → Int × List Nat × Buf
  rawobj_extract_local : Buf → Int × List Nat × Buf
  lgss_import_sec_context : List Nat → Nat × Option Nat
  gss_cli_ctx_init_common : Ctx → Nat → Option Ctx
  ktime_get_real_seconds : Int
  obd_timeout : Int

/-- A zero-filled context, as `OBD_ALLOC_PTR` returns it. -/
def zeroCtx : Ctx :=
  { cc_refcount := 0,
    cc_flags := { NEW := false, UPTODATE := false, DEAD := false, ERROR := false, CACHED := false },
    cc_expire := 0, cc_early_expire := false, vc_uid := 0, gc_win := 0, gc_seq := 0,
    gc_handle := [], gc_svc_handle := [], gc_mechctx := none, gck_key := none,
    gck_timer := none }

/-- Replace the record of context `c`. -/
def State.modCtx (s : State) (c : Nat) (f : Ctx → Ctx) : State :=
  { s with ctxs := Function.update s.ctxs c (f (s.ctxs c)) }

/-- Replace the record of key `k`. -/
def State.modKey (s : State) (k : Nat) (f : Key → Key) : State :=
  { s with keys := Function.update s.keys k (f (s.keys k)) }

/-- Append a call to the trace. -/
def State.log (s : State) (e : Event) : State :=
  { s with trace := e :: s.trace }

/-- The `atomic_inc(&ctx->cc_refcount)` step. -/
def State.ref_inc (s : State) (c : Nat) : State :=
  s.modCtx c fun x => { x with cc_refcount := x.cc_refcount + 1 }

/-- The `atomic_dec(&ctx->cc_refcount)` step. -/
def State.ref_dec (s : State) (c : Nat) : State :=
  s.modCtx c fun x => { x with cc_refcount := x.cc_refcount - 1 }

/-- The `mutex_lock(&gsec_kr->gsk_root_uc_lock)` step. -/
def State.mutex_lock (s : State) : State := { s with gsk_root_uc_lock := true }

/-- The `mutex_unlock(&gsec_kr->gsk_root_uc_lock)` step. -/
def State.mutex_unlock (s : State) : State := { s with gsk_root_uc_lock := false }

/-- The `key_get(key)` step. -/
def key_get (k : Nat) (s : State) : State :=
  s.modKey k fun x => { x with usage := x.usage + 1 }

/-- The `key_put(key)` step. -/
def key_put (k : Nat) (s : State) : State :=
  s.modKey k fun x => { x with usage := x.usage - 1 }

/-! ## Internal helpers -/

/-- The `key_revoke_locked`: set `KEY_FLAG_REVOKED`. -/
def key_revoke_locked (k : Nat) (s : State) : State :=
  s.modKey k fun x => { x with revoked := true }

/-- The timer callback `ctx_upcall_timeout_kr`. -/
def ctx_upcall_timeout_kr (H : Helpers) (c : Nat) (s : State) : Option State :=
  match (s.ctxs c).gck_key with
  | none => none
  | some k => some (key_revoke_locked k (s.modCtx c H.cli_ctx_expire))

/-- The `ctx_start_timer_kr`: arm the upcall timer. -/
def ctx_start_timer_kr (c : Nat) (timeout : Int) (s : State) : State :=
  s.modCtx c fun x => { x with gck_timer := some timeout }

/-- The `ctx_clear_timer_kr`: cancel the upcall timer. -/
def ctx_clear_timer_kr (c : Nat) (s : State) : State :=
  s.modCtx c fun x => { x with gck_timer := none }

/-- The `KEYRING_UPCALL_TIMEOUT` macro. -/
def KEYRING_UPCALL_TIMEOUT (obd_timeout : Int) : Int := obd_timeout + obd_timeout

/-- The `ctx_destroy_kr`. -/
def ctx_destroy_kr (H : Helpers) (c : Nat) (s : State) : Option State :=
  let s0 := s.log (Event.destroy c)
  if 0 < s0.ps_refcount ∧ 0 < s0.ps_nctx ∧ (s0.ctxs c).cc_flags.CACHED = false ∧
      (s0.ctxs c).gck_key = none then
    let s1 := ctx_clear_timer_kr c s0
    if H.gss_cli_ctx_fini_common (s1.ctxs c) then some s1
    else
      let s2 := s1.log (Event.free c)
      some { s2 with ps_nctx := s2.ps_nctx - 1, ps_refcount := s2.ps_refcount - 1 }
  else none

/-- The `ctx_release_kr`. -/
def ctx_release_kr (H : Helpers) (c : Nat) (sync : Int) (s : State) : Option State :=
  if sync ≠ 0 then ctx_destroy_kr H c s
  else some ((s.ref_inc c).log (Event.gc_add c))

/-- The `ctx_put_kr`. -/
def ctx_put_kr (H : Helpers) (c : Nat) (sync : Int) (s : State) : Option State :=
  if 0 < (s.ctxs c).cc_refcount then
    let s1 := s.ref_dec c
    if (s1.ctxs c).cc_refcount = 0 then ctx_release_kr H c sync s1 else some s1
  else none

/-- The `ctx_enlist_kr`. -/
def ctx_enlist_kr (c : Nat) (is_root : Bool) (s : State) : Option State :=
  if (s.ctxs c).cc_flags.CACHED = false ∧ 0 < (s.ctxs c).cc_refcount then
    let s1 := s.ref_inc c
    let s2 := s1.modCtx c fun x => { x with cc_flags := { x.cc_flags with CACHED := true } }
    let s3 := { s2 with gsk_clist := c :: s2.gsk_clist }
    some (if is_root then { s3 with gsk_root_ctx := some c } else s3)
  else none

/-- The `ctx_unlist_kr`: returns whether this call unlisted the context. -/
def ctx_unlist_kr (c : Nat) (s : State) : Bool × State :=
  if (s.ctxs c).cc_flags.CACHED = false then (false, s)
  else
    let s1 := s.modCtx c fun x => { x with cc_flags := { x.cc_flags with CACHED := false } }
    let s2 := if s1.gsk_root_ctx = some c then { s1 with gsk_root_ctx := none } else s1
    let s3 := { s2 with gsk_clist := s2.gsk_clist.filter (fun x => x != c) }
    (true, s3.ref_dec c)

/-- The `key_get_payload(key, 0)`. -/
def key_get_payload (k : Nat) (s : State) : Option Nat := (s.keys k).payload

/-- The `key_set_payload(key, 0, ctx)`. -/
def key_set_payload (k : Nat) (p : Option Nat) (s : State) : State :=
  s.modKey k fun x => { x with payload := p }

/-- The `bind_key_ctx`. -/
def bind_key_ctx (k c : Nat) (s : State) : Option State :=
  if 0 < (s.ctxs c).cc_refcount ∧ 0 < (s.keys k).usage ∧ (s.ctxs c).gck_key = none ∧
      key_get_payload k s = none then
    let s1 := key_get k s
    let s2 := s1.ref_inc c
    let s3 := s2.modCtx c fun x => { x with gck_key := some k }
    some (key_set_payload k (some c) s3)
  else none

/-- The `unbind_key_ctx`. -/
def unbind_key_ctx (H : Helpers) (k c : Nat) (s : State) : Option State :=
  if key_get_payload k s = some c ∧ (s.ctxs c).cc_flags.CACHED = false then
    let s1 := key_revoke_locked k s
    let s2 := key_set_payload k none s1
    let s3 := s2.modCtx c fun x => { x with gck_key := none }
    let s4 := ctx_clear_timer_kr c s3
    (ctx_put_kr H c 1 s4).map (key_put k)
  else none

/-- The `request_key_unlink`: the ring chosen from the caller's credentials is
`H.request_key_ring`. -/
def request_key_unlink (H : Helpers) (k : Nat) (s : State) : Option State :=
  match H.request_key_ring with
  | none => none
  | some ring => some (s.log (Event.key_unlink ring k))

/-- The `unbind_ctx_kr`. -/
def unbind_ctx_kr (H : Helpers) (c : Nat) (s : State) : Option State :=
  match (s.ctxs c).gck_key with
  | none => some s
  | some k =>
    if key_get_payload k s = some c then
      ((unbind_key_ctx H k c (key_get k s)).map (key_put k)).bind (request_key_unlink H k)
    else none

/-- The `unbind_key_locked`. -/
def unbind_key_locked (H : Helpers) (k : Nat) (s : State) : Option State :=
  match key_get_payload k s with
  | none => some s
  | some c => unbind_key_ctx H k c s

/-- The `kill_ctx_kr`. -/
def kill_ctx_kr (H : Helpers) (c : Nat) (s : State) : Option State :=
  let r := ctx_unlist_kr c s
  if r.1 then unbind_ctx_kr H c r.2 else some r.2

/-- The `kill_key_locked`. -/
def kill_key_locked (H : Helpers) (k : Nat) (s : State) : Option State :=
  match key_get_payload k s with
  | none => some s
  | some c =>
    let r := ctx_unlist_kr c s
    if r.1 then unbind_key_locked H k r.2 else some r.2

/-- The binding relation: payload slot 0 of key `k` holds context `c` exactly when the
`gck_key` field of `c` is `k`. -/
def binding_inv (s : State) : Prop :=
  ∀ k c, (s.keys k).payload = some c ↔ (s.ctxs c).gck_key = some k

/-! ## Context lookup -/

/-- The loop of `sec_lookup_root_ctx_kr` over `gsk_clist`: the running choice `ctx` is
replaced by `tmp` when it is `NULL`, has expiry 0, or expires later than `tmp`. -/
def root_scan (s : State) (ctx : Option Nat) (l : List Nat) : Option Nat :=
  l.foldl (fun ctx tmp =>
    match ctx with
    | none => some tmp
    | some c =>
      if (s.ctxs c).cc_expire = 0 ∨ (s.ctxs c).cc_expire > (s.ctxs tmp).cc_expire then some tmp
      else some c) ctx

/-- The `sec_lookup_root_ctx_kr`: the root context with a reference taken, or `NULL`. -/
def sec_lookup_root_ctx_kr (s : State) : Option (Option Nat × State) :=
  let ctx := s.gsk_root_ctx
  let ctx1 := if ctx = none ∧ s.sec_reverse = true then root_scan s none s.gsk_clist else ctx
  let s1 := if ctx = none ∧ s.sec_reverse = true ∧ ctx1 ≠ none then
              { s with gsk_root_ctx := ctx1 } else s
  match ctx1 with
  | none => some (none, s1)
  | some c =>
    if 0 < (s1.ctxs c).cc_refcount ∧ s1.gsk_clist ≠ [] then some (some c, s1.ref_inc c)
    else none

/-- Reinterpret a 32-bit word as a signed `int`. -/
def toInt32 (n : Nat) : Int :=
  if n % 2 ^ 32 < 2 ^ 31 then (n % 2 ^ 32 : Nat) else ((n % 2 ^ 32 : Nat) : Int) - 2 ^ 32

/-- Lower-case hexadecimal digits of a number (`%x`). -/
def hexString (n : Nat) : String := String.mk (Nat.toDigits 16 n)

/-- The `construct_key_desc`: `snprintf(buf, bufsize, "%d@%x", uid, sec->ps_id)` followed
by the forced terminator; the result is the string held by the buffer. -/
def construct_key_desc (bufsize : Nat) (ps_id uid : Nat) : String :=
  let full := toString (toInt32 uid) ++ "@" ++ hexString (ps_id % 2 ^ 32)
  String.mk (full.toList.take (bufsize - 1))

/-- The `gss_get_next_ctx_index`: post-increment of the 64-bit global `__ctx_index`. -/
def gss_get_next_ctx_index (s : State) : Nat × State :=
  (s.ctx_index, { s with ctx_index := (s.ctx_index + 1) % 2 ^ 64 })

/-- Values of `sec->ps_part` that `gss_sec_lookup_ctx_kr` distinguishes. -/
inductive SecPart where
  | MDT | OST | MGC | CLI | MGS | other
  deriving DecidableEq, Repr

/-- Values of `SPTLRPC_FLVR_SVC(sec->ps_flvr.sf_rpc)`. -/
inductive SvcType where
  | NULL | AUTH | INTG | PRIV | other
  deriving DecidableEq, Repr

/-- What one call of `gss_sec_lookup_ctx_kr` reads from its surroundings: the obd type
name of the import and the five supported names, fields of the sec, whether the
callout buffer can be allocated, the key `request_key` returns for a description
(`none` for an error pointer) and the pointer `OBD_ALLOC_PTR` returns for a new
context (`none` for `NULL`). -/
structure LookupEnv where
  typ_name : String
  LUSTRE_MDC_NAME : String
  LUSTRE_OSC_NAME : String
  LUSTRE_MGC_NAME : String
  LUSTRE_LWP_NAME : String
  LUSTRE_OSP_NAME : String
  ps_id : Nat
  ps_part : SecPart
  svc : SvcType
  coinfo_alloc : Bool
  request_key : String → Option Nat
  alloc_ctx : Option Nat

/-- The `ctx_create_kr`: the new context (or `NULL`) and the heap holding it. -/
def ctx_create_kr (H : Helpers) (E : LookupEnv) (vc_uid : Nat) (s : State) :
    Option Nat × State :=
  match E.alloc_ctx with
  | none => (none, s)
  | some p =>
    match H.gss_cli_ctx_init_common { zeroCtx with gck_timer := none } vc_uid with
    | none => (none, s)
    | some c0 =>
      let c1 : Ctx :=
        { c0 with cc_expire := H.ktime_get_real_seconds + KEYRING_UPCALL_TIMEOUT H.obd_timeout,
                  cc_flags := { c0.cc_flags with NEW := false },
                  cc_refcount := c0.cc_refcount + 1 }
      (some p, s.modCtx p fun _ => c1)

/-- The `user_is_root`. -/
def user_is_root (s : State) (vc_uid : Nat) : Bool := s.sec_rootonly || vc_uid == 0

/-- The part of `gss_sec_lookup_ctx_kr` that runs under `key->sem` once `request_key`
has returned key `k`, up to the final `key_put`. -/
def lookup_key_section (H : Helpers) (E : LookupEnv) (vc_uid : Nat) (is_root : Bool) (k : Nat)
    (s : State) : Option (Option Nat × State) :=
  match key_get_payload k s with
  | some c =>
    if 1 ≤ (s.ctxs c).cc_refcount ∧ (s.ctxs c).gck_key = some k ∧ 2 ≤ (s.keys k).usage then
      some (some c, key_put k (s.ref_inc c))
    else none
  | none =>
    let r := ctx_create_kr H E vc_uid s
    let res : Option State :=
      match r.1 with
      | some p =>
        ((ctx_enlist_kr p is_root r.2).bind (bind_key_ctx k p)).map
          (ctx_start_timer_kr p (KEYRING_UPCALL_TIMEOUT H.obd_timeout))
      | none => some (key_revoke_locked k r.2)
    let res1 := if is_root then res.bind (request_key_unlink H k) else res
    res1.map fun t => (r.1, key_put k t)

/-- The label `out` of `gss_sec_lookup_ctx_kr`: a root lookup releases
`gsk_root_uc_lock`. -/
def lookup_out (is_root : Bool) (s : State) : State :=
  if is_root then s.mutex_unlock else s

/-- The part of `gss_sec_lookup_ctx_kr` before `request_key`: `some (Sum.inl r)` when the
function returns `r` without asking for a key, `some (Sum.inr t)` when it goes on to
`request_key` in state `t`. -/
def lookup_prologue (E : LookupEnv) (vc_uid : Nat) (create : Int) (s : State) :
    Option (Sum (Option Nat × State) State) :=
  let is_root := user_is_root s vc_uid
  let fast : Option (Option Nat × State) := if is_root then sec_lookup_root_ctx_kr s else some (none, s)
  fast.bind fun r =>
    if is_root = true ∧ (r.1 ≠ none ∨ s.sec_reverse = true) then some (Sum.inl r)
    else if create = 0 then none
    else
      let r1 := if is_root then r.2.mutex_lock else r.2
      let again : Option (Option Nat × State) :=
        if is_root then sec_lookup_root_ctx_kr r1 else some (none, r1)
      again.bind fun r2 =>
        if is_root = true ∧ r2.1 ≠ none then some (Sum.inl (r2.1, lookup_out is_root r2.2))
        else
          let s2 := if is_root then
              let i := gss_get_next_ctx_index r2.2
              { i.2 with gs_rvs_hdl := i.1 }
            else r2.2
          if is_root = true ∧ (E.ps_part = SecPart.MGS ∨ E.ps_part = SecPart.other ∨
              E.svc = SvcType.other) then none
          else if E.typ_name ≠ E.LUSTRE_MDC_NAME ∧ E.typ_name ≠ E.LUSTRE_OSC_NAME ∧
              E.typ_name ≠ E.LUSTRE_MGC_NAME ∧ E.typ_name ≠ E.LUSTRE_LWP_NAME ∧
              E.typ_name ≠ E.LUSTRE_OSP_NAME then some (Sum.inl (none, lookup_out is_root s2))
          else if E.coinfo_alloc = false then some (Sum.inl (none, lookup_out is_root s2))
          else some (Sum.inr s2)

/-- The `gss_sec_lookup_ctx_kr`. -/
def gss_sec_lookup_ctx_kr (H : Helpers) (E : LookupEnv) (vc_uid : Nat) (create : Int)
    (s : State) : Option (Option Nat × State) :=
  (lookup_prologue E vc_uid create s).bind fun r =>
    match r with
    | Sum.inl out => some out
    | Sum.inr t =>
      match E.request_key (construct_key_desc 24 E.ps_id vc_uid) with
      | none => some (none, lookup_out (user_is_root s vc_uid) t)
      | some k =>
        (lookup_key_section H E vc_uid (user_is_root s vc_uid) k t).map fun x =>
          (x.1, lookup_out (user_is_root s vc_uid) x.2)

/-- The `gss_sec_release_ctx_kr`. -/
def gss_sec_release_ctx_kr (H : Helpers) (c : Nat) (sync : Int) (s : State) : Option State :=
  if 0 < s.ps_refcount ∧ (s.ctxs c).cc_refcount = 0 then ctx_release_kr H c sync s else none

/-! ## Context operations -/

/-- The `gss_cli_ctx_validate_kr`: the return value and the state left behind. -/
def gss_cli_ctx_validate_kr (H : Helpers) (c : Nat) (s : State) : Option (Int × State) :=
  if 0 < (s.ctxs c).cc_refcount then
    let d := H.cli_ctx_check_death (s.ctxs c)
    let s1 := s.modCtx c fun _ => d.2
    if d.1 then (kill_ctx_kr H c s1).map fun t => (1, t)
    else if H.cli_ctx_is_ready (s1.ctxs c) then some (0, s1)
    else some (1, s1)
  else none

/-- The `gss_cli_ctx_die_kr`. -/
def gss_cli_ctx_die_kr (H : Helpers) (c : Nat) (grace : Int) (s : State) : Option State :=
  let _ := grace
  if 0 < (s.ctxs c).cc_refcount then kill_ctx_kr H c (s.modCtx c H.cli_ctx_expire)
  else none

/-- What is assumed of the helpers defined outside the file: expiring a context and
testing it for death leave its reference count, its `CACHED` bit, its key pointer and
its timer alone, and whether a context counts as refreshed does not depend on the
keyring timer. -/
structure Helpers.Framed (H : Helpers) : Prop where
  expire_refcount : ∀ c, (H.cli_ctx_expire c).cc_refcount = c.cc_refcount
  expire_cached : ∀ c, (H.cli_ctx_expire c).cc_flags.CACHED = c.cc_flags.CACHED
  expire_key : ∀ c, (H.cli_ctx_expire c).gck_key = c.gck_key
  expire_timer : ∀ c, (H.cli_ctx_expire c).gck_timer = c.gck_timer
  death_refcount : ∀ c, (H.cli_ctx_check_death c).2.cc_refcount = c.cc_refcount
  death_cached : ∀ c, (H.cli_ctx_check_death c).2.cc_flags.CACHED = c.cc_flags.CACHED
  death_key : ∀ c, (H.cli_ctx_check_death c).2.gck_key = c.gck_key
  death_timer : ∀ c, (H.cli_ctx_check_death c).2.gck_timer = c.gck_timer
  refreshed_timer : ∀ c t, H.cli_ctx_is_refreshed { c with gck_timer := t } =
    H.cli_ctx_is_refreshed c

/-- A context record without its reference count and timer. -/
def Ctx.core (c : Ctx) : Ctx := { c with cc_refcount := 0, gck_timer := none }

/-- Successive calls `ctx_put_kr(ctx, sync)` on the same context, one per element of
`syncs`. -/
def ctx_put_kr_n (H : Helpers) (c : Nat) : List Int → State → Option State
  | [], s => some s
  | sync :: rest, s => (ctx_put_kr H c sync s).bind (ctx_put_kr_n H c rest)

/-! ## Key type operations -/

/-- Linux `errno` values used by the file. -/
def EAGAIN : Int := 11
/-- See `EAGAIN`. -/
def EACCES : Int := 13
/-- See `EAGAIN`. -/
def EINVAL : Int := 22
/-- See `EAGAIN`. -/
def ERESTART : Int := 85
/-- The GSS major status of a completed call. -/
def GSS_S_COMPLETE : Nat := 0

/-- Modelled from the spec: `sptlrpc_cli_ctx_get`, defined in `sec.c`, takes one
reference on the context ("incrementing its reference"). -/
def sptlrpc_cli_ctx_get (c : Nat) (s : State) : State := s.ref_inc c

/-- Modelled from the spec: `sptlrpc_cli_ctx_put`, defined in `sec.c`, is the `release`
operation, which "decrements reference count; on reaching zero, either destroys
immediately or hands the context to an asynchronous garbage-collection queue"; the
policy's release operation is `gss_sec_release_ctx_kr`. -/
def sptlrpc_cli_ctx_put (H : Helpers) (c : Nat) (sync : Int) (s : State) : Option State :=
  let s1 := s.ref_dec c
  if (s1.ctxs c).cc_refcount = 0 then gss_sec_release_ctx_kr H c sync s1 else some s1

/-- The parsing part of `gss_kt_update`, from the first `buffer_extract_bytes` to the
label `out`: the value of `rc` there and the state with the fields of context `c` that
were written on the way. -/
def kt_update_parse (H : Helpers) (c : Nat) (b : Buf) (s : State) : Int × State :=
  let e1 := H.buffer_extract_u32 b
  if e1.1 ≠ 0 then (e1.1, s)
  else
    let s1 := s.modCtx c fun x => { x with gc_win := e1.2.1 }
    if e1.2.1 = 0 then
      let e2 := H.buffer_extract_u32 e1.2.2
      if e2.1 ≠ 0 then (e2.1, s1)
      else
        let e3 := H.buffer_extract_u32 e2.2.2
        if e3.1 ≠ 0 then (e3.1, s1)
        else (if e2.2.1 ≠ 0 then toInt32 e2.2.1 else -EACCES, s1)
    else
      let h := H.rawobj_extract_local_alloc e1.2.2
      if h.1 ≠ 0 then (h.1, s1)
      else
        let s2 := s1.modCtx c fun x => { x with gc_handle := h.2.1 }
        let m := H.rawobj_extract_local h.2.2
        if m.1 ≠ 0 then (m.1, s2)
        else
          let imp := H.lgss_import_sec_context m.2.1
          let s3 := s2.modCtx c fun x => { x with gc_mechctx := imp.2 }
          (if imp.1 ≠ GSS_S_COMPLETE then toInt32 imp.1 else 0, s3)

/-- The part of `gss_kt_update` after the label `out`, up to the final
`sptlrpc_cli_ctx_put`. -/
def kt_update_out (H : Helpers) (k c : Nat) (rc : Int) (s : State) : Option State :=
  let r : Option State :=
    if rc = 0 then some (s.modCtx c H.gss_cli_ctx_uptodate)
    else
      (kill_key_locked H k s).map fun t =>
        let t1 := t.modCtx c H.cli_ctx_expire
        if rc ≠ -ERESTART then
          t1.modCtx c fun x => { x with cc_flags := { x.cc_flags with ERROR := true } }
        else t1
  r.bind (sptlrpc_cli_ctx_put H c 1)

/-- The `gss_kt_update`: `data` is the payload pointer (`none` for `NULL`) and `datalen`
its `size_t` length; the result is the return value and the state left behind. -/
def gss_kt_update (H : Helpers) (k : Nat) (data : Option (List Nat)) (datalen : Nat)
    (s : State) : Option (Int × State) :=
  let datalen32 := datalen % 2 ^ 32
  match data with
  | none => some (-EINVAL, s)
  | some d =>
    if datalen32 = 0 then some (-EINVAL, s)
    else
      match key_get_payload k s with
      | none =>
        let rc := H.key_validate (s.keys k)
        if rc = 0 then some (-EAGAIN, s) else some (rc, s)
      | some c =>
        if 0 < (s.ctxs c).cc_refcount then
          let s1 := ctx_clear_timer_kr c s
          if H.cli_ctx_is_refreshed (s1.ctxs c) then some (0, s1)
          else
            let s2 := sptlrpc_cli_ctx_get c s1
            let p := kt_update_parse H c { data := d, len := datalen32 } s2
            (kt_update_out H k c p.1 p.2).map fun t => (0, t)
        else none

/-- The `gss_kt_match`. -/
def gss_kt_match (k : Nat) (desc : String) (s : State) : Bool :=
  (s.keys k).description == desc && !(s.keys k).revoked

/-! ## Flushing the context cache -/

/-- The value `(uid_t)-1`. -/
def UID_ALL : Nat := 2 ^ 32 - 1

/-- One iteration of the loop of `flush_spec_ctx_cache_kr` on context `c`, with the
state and the local `freelist` (most recently added first). -/
def flush_spec_step (uid : Nat) (grace force : Int) (c : Nat) (a : State × List Nat) :
    Option (State × List Nat) :=
  let s := a.1
  if 0 < (s.ctxs c).cc_refcount then
    if uid ≠ UID_ALL ∧ uid ≠ (s.ctxs c).vc_uid then some a
    else if 2 < (s.ctxs c).cc_refcount ∧ force = 0 then some a
    else
      let s1 := s.modCtx c fun x => { x with cc_flags := { x.cc_flags with DEAD := true } }
      let s2 := if grace = 0 then
          s1.modCtx c fun x => { x with cc_flags := { x.cc_flags with UPTODATE := false } }
        else s1
      let s3 := s2.ref_inc c
      let r := ctx_unlist_kr c s3
      if r.1 then some (r.2, c :: a.2)
      else if 2 ≤ (r.2.ctxs c).cc_refcount then some (r.2.ref_dec c, a.2)
      else none
  else none

/-- The loop of `flush_spec_ctx_cache_kr` over the contexts of `gsk_clist`. -/
def flush_spec_scan (uid : Nat) (grace force : Int) :
    List Nat → State × List Nat → Option (State × List Nat)
  | [], a => some a
  | c :: rest, a => (flush_spec_step uid grace force c a).bind (flush_spec_scan uid grace force rest)

/-- The `dispose_ctx_list_kr`. -/
def dispose_ctx_list_kr (H : Helpers) : List Nat → State → Option State
  | [], s => some s
  | c :: rest, s =>
    let s1 := if (s.ctxs c).gc_svc_handle ≠ [] ∧ s.sec_reverse = true then
        s.log (Event.update_sequence (s.ctxs c).gc_svc_handle ((s.ctxs c).gc_seq % 2 ^ 32).toNat)
      else s
    let s2 := s1.log (Event.wakeup c)
    ((unbind_ctx_kr H c s2).bind (ctx_put_kr H c 0)).bind (dispose_ctx_list_kr H rest)

/-- The `flush_spec_ctx_cache_kr`. -/
def flush_spec_ctx_cache_kr (H : Helpers) (uid : Nat) (grace force : Int) (s : State) :
    Option State :=
  (flush_spec_scan uid grace force s.gsk_clist (s, [])).bind fun a =>
    dispose_ctx_list_kr H a.2 a.1

/-- The `flush_user_ctx_cache_kr`; `found` lists the keys that the successive
`request_key` calls of the loop return before the first error pointer. -/
def flush_user_ctx_cache_kr (H : Helpers) (found : List Nat) (s : State) : Option State :=
  if s.sec_reverse = true ∨ s.sec_rootonly = true then some s
  else
    found.foldlM (fun t k =>
      ((kill_key_locked H k t).map (key_revoke_locked k)).bind fun u =>
        (request_key_unlink H k u).map (key_put k)) s

/-- The `gss_sec_flush_ctx_cache_kr`. -/
def gss_sec_flush_ctx_cache_kr (H : Helpers) (found : List Nat) (uid : Nat) (grace force : Int)
    (s : State) : Option (Int × State) :=
  let r := if uid ≠ UID_ALL ∧ uid ≠ 0 then flush_user_ctx_cache_kr H found s
           else flush_spec_ctx_cache_kr H uid grace force s
  r.map fun t => (0, t)

/-- Whether the loop of `flush_spec_ctx_cache_kr` passes over a context: its uid does not
match a `uid` other than `-1`, or it holds more than two references and `force` is 0. -/
def flush_skip (uid : Nat) (force : Int) (c0 : Ctx) : Bool :=
  decide (uid ≠ UID_ALL ∧ uid ≠ c0.vc_uid) || decide (2 < c0.cc_refcount ∧ force = 0)

/-- The flags the loop of `flush_spec_ctx_cache_kr` leaves on a context it does not pass
over: `DEAD` set, `UPTODATE` cleared when `grace` is 0, `CACHED` clear. -/
def flush_mark (grace : Int) (c0 : Ctx) : Ctx :=
  { c0 with cc_flags :=
      { c0.cc_flags with DEAD := true,
                         UPTODATE := if grace = 0 then false else c0.cc_flags.UPTODATE,
                         CACHED := false } }

/-- Value of a hexadecimal (or decimal) digit character, 16 for any other character. -/
def digitVal (c : Char) : Nat :=
  if c = '0' then 0 else if c = '1' then 1 else if c = '2' then 2 else if c = '3' then 3
  else if c = '4' then 4 else if c = '5' then 5 else if c = '6' then 6 else if c = '7' then 7
  else if c = '8' then 8 else if c = '9' then 9 else if c = 'a' then 10 else if c = 'b' then 11
  else if c = 'c' then 12 else if c = 'd' then 13 else if c = 'e' then 14
  else if c = 'f' then 15 else 16

/-- Value of a digit string in base `b`, most significant digit first. -/
def digitsVal (b : Nat) (l : List Char) : Nat := l.foldl (fun a c => a * b + digitVal c) 0

/-- Value of a signed decimal string as `%d` prints it. -/
def intVal (l : List Char) : Int :=
  match l with
  | '-' :: t => -(digitsVal 10 t : Int)
  | l => (digitsVal 10 l : Int)

/-- One iteration of the loop of `gss_sec_gc_ctx_kr` on context `c`, with the state and
the local `freelist` (most recently added first). -/
def gc_step (H : Helpers) (c : Nat) (a : State × List Nat) : Option (State × List Nat) :=
  let s := a.1
  if 0 < (s.ctxs c).cc_refcount then
    let s1 := s.ref_inc c
    let d := H.cli_ctx_check_death (s1.ctxs c)
    let s2 := s1.modCtx c fun _ => d.2
    let r : Bool × State := if d.1 then ctx_unlist_kr c s2 else (false, s2)
    if r.1 then some (r.2, c :: a.2)
    else if 2 ≤ (r.2.ctxs c).cc_refcount then some (r.2.ref_dec c, a.2)
    else none
  else none

/-- The loop of `gss_sec_gc_ctx_kr` over the contexts of `gsk_clist`. -/
def gc_scan (H : Helpers) : List Nat → State × List Nat → Option (State × List Nat)
  | [], a => some a
  | c :: rest, a => (gc_step H c a).bind (gc_scan H rest)

/-- The `gss_sec_gc_ctx_kr`. -/
def gss_sec_gc_ctx_kr (H : Helpers) (s : State) : Option State :=
  (gc_scan H s.gsk_clist (s, [])).bind fun a => dispose_ctx_list_kr H a.2 a.1

/-- What `cli_ctx_check_death` answers for a context inside the loop of
`gss_sec_gc_ctx_kr`, where the loop holds one more reference on it. -/
def gc_dead (H : Helpers) (c0 : Ctx) : Bool :=
  (H.cli_ctx_check_death { c0 with cc_refcount := c0.cc_refcount + 1 }).1

/-- The record that the loop of `gss_sec_gc_ctx_kr` leaves of a listed context: as
`cli_ctx_check_death` left it, without the `CACHED` bit when it was found dead, and
with the reference count it had before. -/
def gc_mark (H : Helpers) (c0 : Ctx) : Ctx :=
  let d := H.cli_ctx_check_death { c0 with cc_refcount := c0.cc_refcount + 1 }
  { d.2 with cc_refcount := d.2.cc_refcount - 1,
             cc_flags := { d.2.cc_flags with CACHED := d.2.cc_flags.CACHED && !d.1 } }

/-! ## Worked example data -/

/-- A key with no payload and no reference. -/
def zeroKey : Key := { usage := 0, revoked := false, payload := none, description := "" }

/-- Read a little-endian 32-bit word from the front of a byte list. -/
def le32 (l : List Nat) : Nat :=
  l.getD 0 0 % 256 + 256 * (l.getD 1 0 % 256) + 65536 * (l.getD 2 0 % 256) +
    16777216 * (l.getD 3 0 % 256)

/-- An instance of the helper interface for the worked examples: a context dies when
it carries `DEAD` or `ERROR` or when its non-zero expiry is not after `now`; expiring
sets `DEAD` and, unless early expiry was requested, clears `UPTODATE`. -/
def refHelpers (now : Int) : Helpers :=
  let expire : Ctx → Ctx := fun c =>
    if c.cc_flags.DEAD then c
    else { c with cc_flags := { c.cc_flags with
            DEAD := true,
            UPTODATE := if c.cc_early_expire then c.cc_flags.UPTODATE else false } }
  let extract : Buf → Int × Nat × Buf := fun b =>
    if b.len < 4 then (-22, 0, b)
    else (0, le32 b.data, { data := b.data.drop 4, len := b.len - 4 })
  let rawobj : Buf → Int × List Nat × Buf := fun b =>
    if b.len < 4 then (-22, [], b)
    else
      let n := le32 b.data
      let padded := (n + 3) / 4 * 4
      if b.len - 4 < padded then (-22, [], b)
      else (0, (b.data.drop 4).take n,
            { data := b.data.drop (4 + padded), len := b.len - 4 - padded })
  { cli_ctx_expire := expire,
    cli_ctx_check_death := fun c =>
      if c.cc_flags.DEAD || c.cc_flags.ERROR then (true, c)
      else if c.cc_expire = 0 then (false, c)
      else if now < c.cc_expire then (false, c)
      else (true, expire c),
    cli_ctx_is_ready := fun c => c.cc_flags.UPTODATE && !c.cc_flags.DEAD && !c.cc_flags.ERROR,
    cli_ctx_is_refreshed := fun c => c.cc_flags.UPTODATE || c.cc_flags.DEAD || c.cc_flags.ERROR,
    gss_cli_ctx_uptodate := fun c =>
      { c with cc_expire := now + 3600, cc_flags := { c.cc_flags with UPTODATE := true } },
    gss_cli_ctx_fini_common := fun _ => false,
    request_key_ring := some 100,
    key_validate := fun k => if k.revoked then -128 else 0,
    buffer_extract_u32 := extract,
    rawobj_extract_local_alloc := rawobj,
    rawobj_extract_local := rawobj,
    lgss_import_sec_context := fun tok => if tok = [] then (851968, none) else (0, some 1),
    gss_cli_ctx_init_common := fun c uid =>
      some { c with cc_refcount := 0, cc_expire := 0, vc_uid := uid, gc_win := 0, gc_seq := 0,
                    cc_flags := { c.cc_flags with NEW := true } },
    ktime_get_real_seconds := now,
    obd_timeout := 100 }

/-- A state with one context (pointer 1, uid 1000) that is listed, bound to key 7 and
referenced once more by a caller. -/
def demoBound : State :=
  { ctxs := fun c =>
      if c = 1 then
        { zeroCtx with cc_refcount := 3, cc_flags := { zeroCtx.cc_flags with CACHED := true },
                       cc_expire := 200, vc_uid := 1000, gck_key := some 7,
                       gck_timer := some 200 }
      else zeroCtx,
    keys := fun k =>
      if k = 7 then { usage := 2, revoked := false, payload := some 1, description := "1000@2a" }
      else zeroKey,
    gsk_clist := [1], gsk_root_ctx := none, ps_refcount := 2, ps_nctx := 1,
    sec_reverse := false, sec_rootonly := false, gs_rvs_hdl := 0, ctx_index := 0, trace := [] }

/-- A state with an unlisted, unbound context (pointer 1) holding one reference and an
empty key 7 holding one reference. -/
def demoFresh : State :=
  { ctxs := fun c => if c = 1 then { zeroCtx with cc_refcount := 1, vc_uid := 1000 } else zeroCtx,
    keys := fun k =>
      if k = 7 then { usage := 1, revoked := false, payload := none, description := "1000@2a" }
      else zeroKey,
    gsk_clist := [], gsk_root_ctx := none, ps_refcount := 2, ps_nctx := 1,
    sec_reverse := false, sec_rootonly := false, gs_rvs_hdl := 0, ctx_index := 0, trace := [] }

/-- A lookup environment for uid 1000 on an `mdc` import of sec `0x2a`: `request_key`
answers the description `1000@2a` with key 7, and a new context is allocated at
pointer 1. -/
def demoEnv : LookupEnv :=
  { typ_name := "mdc", LUSTRE_MDC_NAME := "mdc", LUSTRE_OSC_NAME := "osc",
    LUSTRE_MGC_NAME := "mgc", LUSTRE_LWP_NAME := "lwp", LUSTRE_OSP_NAME := "osp",
    ps_id := 42, ps_part := SecPart.CLI, svc := SvcType.NULL, coinfo_alloc := true,
    request_key := fun d => if d = "1000@2a" then some 7 else none,
    alloc_ctx := some 1 }

/-- A state without contexts in which key 7 was just returned by `request_key`. -/
def demoEmpty : State :=
  { ctxs := fun _ => zeroCtx,
    keys := fun k =>
      if k = 7 then { usage := 1, revoked := false, payload := none, description := "1000@2a" }
      else zeroKey,
    gsk_clist := [], gsk_root_ctx := none, ps_refcount := 1, ps_nctx := 0,
    sec_reverse := false, sec_rootonly := false, gs_rvs_hdl := 0, ctx_index := 0, trace := [] }

/-- A state with an unlisted, unbound context (pointer 1) holding three references. -/
def demoHeld : State :=
  { demoFresh with
    ctxs := fun c => if c = 1 then { zeroCtx with cc_refcount := 3, vc_uid := 1000 } else zeroCtx }

/-- The state of `demoBound` after the upcall has established context 1. -/
def demoEstablished : State :=
  { demoBound with
    ctxs := fun c =>
      if c = 1 then
        { zeroCtx with cc_refcount := 3,
                       cc_flags := { zeroCtx.cc_flags with CACHED := true, UPTODATE := true },
                       cc_expire := 3700, vc_uid := 1000, gc_win := 128, gc_handle := [1, 2],
                       gc_mechctx := some 1, gck_key := some 7, gck_timer := none }
      else zeroCtx }

/-- A cache with three listed contexts that all hold outstanding references: context 1
(uid 0, bound to key 11, two extra references), context 2 (uid 0, bound to key 12, no
extra reference) and context 3 (uid 1000, unbound, one extra reference); context 1 is the
root context. -/
def demoThree : State :=
  { ctxs := fun c =>
      if c = 1 then
        { zeroCtx with cc_refcount := 4, cc_expire := 3700, gck_key := some 11,
                       cc_flags := { zeroCtx.cc_flags with CACHED := true, UPTODATE := true } }
      else if c = 2 then
        { zeroCtx with cc_refcount := 2, cc_expire := 3700, gck_key := some 12,
                       cc_flags := { zeroCtx.cc_flags with CACHED := true, UPTODATE := true } }
      else if c = 3 then
        { zeroCtx with cc_refcount := 2, cc_expire := 3700, vc_uid := 1000,
                       cc_flags := { zeroCtx.cc_flags with CACHED := true, UPTODATE := true } }
      else zeroCtx,
    keys := fun k =>
      if k = 11 then { usage := 2, revoked := false, payload := some 1, description := "0@2a" }
      else if k = 12 then { usage := 2, revoked := false, payload := some 2, description := "0@2b" }
      else zeroKey,
    gsk_clist := [3, 2, 1], gsk_root_ctx := some 1, ps_refcount := 4, ps_nctx := 3,
    sec_reverse := false, sec_rootonly := false, gs_rvs_hdl := 0, ctx_index := 0, trace := [] }

/-- The lookup environment of `demoEnv` on an import of an obd type that is not
supported. -/
def demoUnsupported : LookupEnv := { demoEnv with typ_name := "echo_client" }

/-- A reverse sec without root context whose list holds context 1, which never expires
(`cc_expire` 0), before context 2, which expires at 7. -/
def demoReverse : State :=
  { ctxs := fun c =>
      if c = 1 then
        { zeroCtx with cc_refcount := 1, cc_expire := 0,
                       cc_flags := { zeroCtx.cc_flags with CACHED := true, UPTODATE := true } }
      else if c = 2 then
        { zeroCtx with cc_refcount := 1, cc_expire := 7,
                       cc_flags := { zeroCtx.cc_flags with CACHED := true, UPTODATE := true } }
      else zeroCtx,
    keys := fun _ => zeroKey,
    gsk_clist := [1, 2], gsk_root_ctx := none, ps_refcount := 3, ps_nctx := 2,
    sec_reverse := true, sec_rootonly := false, gs_rvs_hdl := 0, ctx_index := 0, trace := [] }

/-- A sec with three listed contexts for the collector: context 1 (bound to key 11,
expiry 50) and context 3 (unbound, expiry 60) are past their expiry at time 100,
context 2 (bound to key 12, expiry 3700) is not. -/
def demoGc : State :=
  { demoThree with
    ctxs := fun c =>
      if c = 1 then { demoThree.ctxs 1 with cc_expire := 50 }
      else if c = 3 then { demoThree.ctxs 3 with cc_expire := 60 }
      else demoThree.ctxs c,
    gsk_root_ctx := none }

end GssKeyring

namespace GssSvcUpcall

open GssKeyring

/-! ## Server caches: data model -/

/-- Further Linux `errno` values used by `gss_svc_upcall.c`. -/
def ENOENT : Int := 2
/-- See `ENOENT`. -/
def ENOMEM : Int := 12
/-- See `ENOENT`. -/
def ETIMEDOUT : Int := 110

/-- The fields of the kernel's `struct cache_head` that `gss_svc_upcall.c` reads or
writes: the flag bits `CACHE_VALID`, `CACHE_NEGATIVE` and `CACHE_PENDING`, the expiry
time and the reference count. -/
structure CacheHead where
  VALID : Bool
  NEGATIVE : Bool
  PENDING : Bool
  expiry_time : Int
  ref : Int
  deriving DecidableEq, Repr

/-- One entry of the init cache: `struct rsi`. A `rawobj_t` is the list of its bytes
(`len` is the length of the list), `nm_name` is the content of the character array. -/
structure Rsi where
  h : CacheHead
  lustre_svc : Nat
  nid4 : Nat
  nm_name : List Nat
  in_handle : List Nat
  in_token : List Nat
  out_handle : List Nat
  out_token : List Nat
  major_status : Int
  minor_status : Int
  deriving DecidableEq, Repr

/-- The hash function slot of a mechanism context. -/
inductive HashFunc where
  | unset | gss_digest_hash | gss_digest_hash_compat
  deriving DecidableEq, Repr

/-- What `gss_svc_upcall.c` touches of a mechanism context (`struct gss_ctx`): the name
of its mechanism type and its hash function. -/
structure GssCtx where
  gm_name : String
  hash_func : HashFunc
  deriving DecidableEq, Repr

/-- The fields of `struct gss_svc_ctx` that `gss_svc_upcall.c` names. The sequence data
`gsc_seqdata` is kept as one value, 0 when zero-filled. -/
structure SvcCtx where
  gsc_mechctx : Option GssCtx
  gsc_seqdata : Nat
  gsc_rvs_hdl : List Nat
  gsc_rvs_seq : Nat
  gsc_uid : Nat
  gsc_gid : Nat
  gsc_mapped_uid : Nat
  gsc_remote : Bool
  gsc_usr_root : Bool
  gsc_usr_mds : Bool
  gsc_usr_oss : Bool
  deriving DecidableEq, Repr

/-- One entry of the context cache: `struct rsc`. -/
structure Rsc where
  h : CacheHead
  target : Option Nat
  handle : List Nat
  ctx : SvcCtx
  deriving DecidableEq, Repr

/-- One cache of the kernel's cache layer: the entries by address, the addresses linked
into the hash table (most recently added first) and the addresses given back to the
allocator. -/
structure Cache (α : Type) where
  ents : Nat → α
  table : List Nat
  freed : List Nat

/-- The callbacks of a `struct cache_detail` that the cache layer calls, the embedded
`struct cache_head` of an entry, and the zero-filled entry that `alloc` hands out. -/
structure CacheDetail (α : Type) where
  h : α → CacheHead
  set_h : α → CacheHead → α
  cache_put : Nat → Cache α → Option (Cache α)
  is_match : α → α → Bool
  init : α → α → α
  update : α → α → Option α
  alloc : α

/-- Calls that leave `gss_svc_upcall.c` or that the theorems count, most recent first. -/
inductive SvcEvent where
  | wake_up (rsi : Nat)
  | rsi_update (old : Nat)
  | rsc_update (old : Nat)
  | cache_check_rsi (rsi : Nat)
  | schedule_timeout (seconds : Nat)
  | gss_pack_err_notify (major minor : Int)
  | lustre_pack_reply_v2
  deriving DecidableEq, Repr

/-- Whether an event is a `cache_check` on an entry of the init cache. -/
def SvcEvent.is_cache_check : SvcEvent → Bool
  | SvcEvent.cache_check_rsi _ => true
  | _ => false

/-- Whether an event is a `schedule_timeout`. -/
def SvcEvent.is_schedule_timeout : SvcEvent → Bool
  | SvcEvent.schedule_timeout _ => true
  | _ => false

/-- The two server caches with the global `krb5_allow_old_client_csum`. -/
structure SvcState where
  rsi : Cache Rsi
  rsc : Cache Rsc
  krb5_allow_old_client_csum : Nat
  trace : List SvcEvent

/-- Functions that `gss_svc_upcall.c` calls and that are defined elsewhere (the kernel's
cache layer and string helpers, `gss_rawobj.c`), with the two clocks and the addresses
the allocator hands out. `qword_get` returns `(len, dest, rest)`, `get_expiry` returns
`(expiry, rest)`, `get_int` returns `(rv, value, rest)`, `kstrtoint` returns
`(status, value)`; `rawobj_alloc` and `rawobj_dup` return `none` when they are out of
memory; `obj_bytes size v` are the `size` bytes that an integer object of value `v`
occupies in memory, in the byte order of the machine. -/
structure SvcHelpers where
  qword_get : List Char → Int × List Nat × List Char
  get_expiry : List Char → Int × List Char
  get_int : List Char → Int × Int × List Char
  kstrtoint : List Nat → Int × Int
  rawobj_alloc : List Nat → Int → Option (List Nat)
  rawobj_dup : List Nat → Option (List Nat)
  rsi_alloc : Option Nat
  rsc_alloc : Option Nat
  seconds_since_boot : Int
  ktime_get_real_seconds : Int
  obj_bytes : Nat → Nat → List Nat

/-- Replace the record of the entry at address `p`. -/
def Cache.mod {α : Type} (c : Cache α) (p : Nat) (f : α → α) : Cache α :=
  { c with ents := Function.update c.ents p (f (c.ents p)) }

/-- Append a call to the trace. -/
def SvcState.log (s : SvcState) (e : SvcEvent) : SvcState := { s with trace := e :: s.trace }

/-- A cleared `struct cache_head`. -/
def zeroHead : CacheHead :=
  { VALID := false, NEGATIVE := false, PENDING := false, expiry_time := 0, ref := 0 }

/-- The `CACHE_NEW_EXPIRY` of the kernel's cache layer, in seconds. -/
def CACHE_NEW_EXPIRY : Int := 120

/-- Modelled from the spec: `cache_get` of the kernel's cache layer, which takes one
reference on an entry ("reference counting to keep an entry alive"). -/
def cache_get {α : Type} (cd : CacheDetail α) (p : Nat) (c : Cache α) : Cache α :=
  c.mod p fun e => cd.set_h e { cd.h e with ref := (cd.h e).ref + 1 }

/-- Modelled from the spec: `cache_put` of the kernel's cache layer, which drops one
reference on an entry and hands the entry to the `cache_put` callback of its cache when
that was the last one ("reference counting to keep an entry alive"). -/
def cache_put {α : Type} (cd : CacheDetail α) (p : Nat) (c : Cache α) : Option (Cache α) :=
  let c1 := c.mod p fun e => cd.set_h e { cd.h e with ref := (cd.h e).ref - 1 }
  if (cd.h (c1.ents p)).ref = 0 then cd.cache_put p c1 else some c1

/-- Modelled from the spec: `sunrpc_cache_lookup` of the kernel's cache layer, which
"looks up or creates an entry": the first entry of the hash table that the `match`
callback accepts for the key is returned with a reference taken; when there is none an
entry is allocated (`NULL` on failure), initialised from the key by the `init` callback
with cleared flags and linked into the table, holding one reference for the table and
one for the caller. -/
def sunrpc_cache_lookup {α : Type} (cd : CacheDetail α) (alloc : Option Nat) (now : Int)
    (key : α) (c : Cache α) : Option Nat × Cache α :=
  match c.table.find? (fun p => cd.is_match (c.ents p) key) with
  | some p => (some p, cache_get cd p c)
  | none =>
    match alloc with
    | none => (none, c)
    | some p =>
      let fresh := cd.set_h cd.alloc { zeroHead with expiry_time := now + CACHE_NEW_EXPIRY, ref := 2 }
      ((some p), { c with ents := Function.update c.ents p (cd.init fresh key),
                          table := p :: c.table })

/-- Modelled from the spec: what `sunrpc_cache_update` of the kernel's cache layer does
to the head of the entry that receives the new content: it takes over the expiry time,
becomes valid and stops being pending ("transitions it to valid and wakes all
waiters"). -/
def cache_fresh (h : CacheHead) (expiry : Int) : CacheHead :=
  { h with expiry_time := expiry, VALID := true, PENDING := false }

/-- Modelled from the spec: the content step of `sunrpc_cache_update`: a negative `new`
marks the target negative ("entry is negative (explicitly invalid)"), any other `new`
goes through the `update` callback. -/
def cache_fill {α : Type} (cd : CacheDetail α) (target new : α) : Option α :=
  if (cd.h new).NEGATIVE then some (cd.set_h target { cd.h target with NEGATIVE := true })
  else cd.update target new

/-- Modelled from the spec: `sunrpc_cache_update` of the kernel's cache layer
("transitions it to valid and wakes all waiters"). An entry `old` that is not yet valid
receives the content of `new` in place and is returned. A valid `old` is replaced: a new
entry is allocated (on failure the reference on `old` is dropped and `NULL` returned),
initialised from `old`, filled from `new`, linked into the table and returned with a
reference, while `old` expires at once and loses the caller's reference. -/
def sunrpc_cache_update {α : Type} (cd : CacheDetail α) (alloc : Option Nat) (now : Int)
    (new : α) (old : Nat) (c : Cache α) : Option (Option Nat × Cache α) :=
  if (cd.h (c.ents old)).VALID = false then
    (cache_fill cd (c.ents old) new).map fun e =>
      (some old, c.mod old fun _ => cd.set_h e (cache_fresh (cd.h e) (cd.h new).expiry_time))
  else
    match alloc with
    | none => (cache_put cd old c).map fun c1 => (none, c1)
    | some p =>
      let fresh := cd.set_h cd.alloc { zeroHead with expiry_time := now + CACHE_NEW_EXPIRY, ref := 1 }
      (cache_fill cd (cd.init fresh (c.ents old)) new).bind fun e =>
        let e1 := cd.set_h e (cache_fresh { cd.h e with ref := (cd.h e).ref + 1 }
          (cd.h new).expiry_time)
        let c1 : Cache α := { c with ents := Function.update c.ents p e1, table := p :: c.table }
        let c2 := c1.mod old fun o => cd.set_h o (cache_fresh (cd.h o) 0)
        (cache_put cd old c2).map fun c3 => (some p, c3)

/-- Modelled from the spec: whether an entry is past its expiry time on the clock of the
cache layer ("entries whose expiry timestamp has passed"). -/
def cache_is_expired (h : CacheHead) (now : Int) : Bool := decide (h.expiry_time < now)

/-- Modelled from the spec: the result of `cache_check` of the kernel's cache layer when
no upcall may be made (its last argument is `NULL`): 0 for a "valid (non-negative,
non-expired) entry", `-ENOENT` for any other. -/
def cache_check_rv (h : CacheHead) (now : Int) : Int :=
  if h.VALID = true ∧ cache_is_expired h now = false ∧ h.NEGATIVE = false then 0 else -ENOENT

/-- The reference rule of `cache_check`, as the comment in `gss_svc_upcall_handle_init`
states it: a non-zero result drops one reference on the entry. -/
def cache_check_put {α : Type} (cd : CacheDetail α) (rv : Int) (p : Nat) (c : Cache α) :
    Option (Cache α) :=
  if rv ≠ 0 then cache_put cd p c else some c

/-- Modelled from the spec: `rawobj_equal` of `gss_rawobj.c`, the "byte-exact equality"
of two opaque byte strings: equal lengths and no position at which the bytes differ. -/
def rawobj_equal (a b : List Nat) : Bool :=
  a.length == b.length && (List.zip a b).all fun x => x.1 == x.2

/-- The `__rsi_match`. -/
def __rsi_match (item tmp : Rsi) : Bool :=
  rawobj_equal item.in_handle tmp.in_handle && rawobj_equal item.in_token tmp.in_token

/-- The `rsi_match`. -/
def rsi_match (a b : Rsi) : Bool := __rsi_match a b

/-- The `__rsi_init`: the entry `new` after taking over the key of `item`. -/
def __rsi_init (new item : Rsi) : Rsi :=
  { new with out_handle := [], out_token := [], in_handle := item.in_handle,
             in_token := item.in_token, lustre_svc := item.lustre_svc, nid4 := item.nid4,
             nm_name := item.nm_name }

/-- The `rsi_init`. -/
def rsi_init (cnew citem : Rsi) : Rsi := __rsi_init cnew citem

/-- The `__rsi_update`: the entry `new` after taking over the result held by `item`. -/
def __rsi_update (new item : Rsi) : Option Rsi :=
  if new.out_handle.length = 0 ∧ new.out_token.length = 0 then
    some { new with out_handle := item.out_handle, out_token := item.out_token,
                    major_status := item.major_status, minor_status := item.minor_status }
  else none

/-- The `update_rsi`. -/
def update_rsi (cnew citem : Rsi) : Option Rsi := __rsi_update cnew citem

/-- The `rsi_put`: the entry must be out of the hash table; its buffers and the entry
itself are freed. -/
def rsi_put (p : Nat) (c : Cache Rsi) : Option (Cache Rsi) :=
  if p ∈ c.table then none else some { c with freed := p :: c.freed }

/-- A zero-filled `struct rsi`, as `memset` or `OBD_ALLOC_PTR` leave it. -/
def zeroRsi : Rsi :=
  { h := zeroHead, lustre_svc := 0, nid4 := 0, nm_name := [], in_handle := [], in_token := [],
    out_handle := [], out_token := [], major_status := 0, minor_status := 0 }

/-- The `rsi_cache`: the callbacks of the init cache. -/
def rsi_cache : CacheDetail Rsi :=
  { h := fun e => e.h, set_h := fun e h => { e with h := h }, cache_put := rsi_put,
    is_match := rsi_match, init := rsi_init, update := update_rsi, alloc := zeroRsi }

/-- The `rsi_lookup`: the entry found or created for the key, and the caches after the
lookup. -/
def rsi_lookup (H : SvcHelpers) (item : Rsi) (s : SvcState) : Option Nat × SvcState :=
  let r := sunrpc_cache_lookup rsi_cache H.rsi_alloc H.seconds_since_boot item s.rsi
  (r.1, { s with rsi := r.2 })

/-- The `rsi_update`. -/
def rsi_update (H : SvcHelpers) (new : Rsi) (old : Nat) (s : SvcState) :
    Option (Option Nat × SvcState) :=
  let s1 := s.log (SvcEvent.rsi_update old)
  (sunrpc_cache_update rsi_cache H.rsi_alloc H.seconds_since_boot new old s1.rsi).map fun r =>
    (r.1, { s1 with rsi := r.2 })

/-- The label `out` of `rsi_parse`: the local key is freed; an entry that was looked up
has its waiters woken and its reference dropped; without one the status is
`-ENOMEM`. -/
def rsi_parse_out (rsip : Option Nat) (status : Int) (s : SvcState) : Option (Int × SvcState) :=
  match rsip with
  | some p =>
    let s1 := s.log (SvcEvent.wake_up p)
    (cache_put rsi_cache p s1.rsi).map fun c => (status, { s1 with rsi := c })
  | none => some (-ENOMEM, s)

/-- The part of `rsi_parse` that follows the test of `CACHE_PENDING`: expiry, major and
minor status, output handle and output token are read from `mesg` into the local
`rsii`, which then replaces the content of the entry `rsip`. -/
def rsi_parse_fields (H : SvcHelpers) (rsii : Rsi) (rsip : Nat) (mesg : List Char)
    (s : SvcState) : Option (Int × SvcState) :=
  let rsii := { rsii with h := { rsii.h with VALID := false, NEGATIVE := false, PENDING := false } }
  let e := H.get_expiry mesg
  if e.1 = 0 then rsi_parse_out (some rsip) (-EINVAL) s
  else
    let q1 := H.qword_get e.2
    if q1.1 ≤ 0 then rsi_parse_out (some rsip) (-EINVAL) s
    else
      let k1 := H.kstrtoint q1.2.1
      if k1.1 ≠ 0 then rsi_parse_out (some rsip) k1.1 s
      else
        let rsii := { rsii with major_status := k1.2 }
        let q2 := H.qword_get q1.2.2
        if q2.1 ≤ 0 then rsi_parse_out (some rsip) (-EINVAL) s
        else
          let k2 := H.kstrtoint q2.2.1
          if k2.1 ≠ 0 then rsi_parse_out (some rsip) k2.1 s
          else
            let rsii := { rsii with minor_status := k2.2 }
            let q3 := H.qword_get q2.2.2
            if q3.1 < 0 then rsi_parse_out (some rsip) k2.1 s
            else
              match H.rawobj_alloc q3.2.1 q3.1 with
              | none => rsi_parse_out (some rsip) (-ENOMEM) s
              | some oh =>
                let rsii := { rsii with out_handle := oh }
                let q4 := H.qword_get q3.2.2
                if q4.1 < 0 then rsi_parse_out (some rsip) k2.1 s
                else
                  match H.rawobj_alloc q4.2.1 q4.1 with
                  | none => rsi_parse_out (some rsip) (-ENOMEM) s
                  | some ot =>
                    let rsii := { rsii with out_token := ot,
                                            h := { rsii.h with expiry_time := e.1 } }
                    (rsi_update H rsii rsip s).bind fun r => rsi_parse_out r.1 0 r.2

/-- The `rsi_parse`: the return value and the caches left behind. -/
def rsi_parse (H : SvcHelpers) (mesg : List Char) (s : SvcState) : Option (Int × SvcState) :=
  let q1 := H.qword_get mesg
  if q1.1 < 0 then rsi_parse_out none (-EINVAL) s
  else
    match H.rawobj_alloc q1.2.1 q1.1 with
    | none => rsi_parse_out none (-ENOMEM) s
    | some ih =>
      let q2 := H.qword_get q1.2.2
      if q2.1 < 0 then rsi_parse_out none (-EINVAL) s
      else
        match H.rawobj_alloc q2.2.1 q2.1 with
        | none => rsi_parse_out none (-ENOMEM) s
        | some it =>
          let rsii := { zeroRsi with in_handle := ih, in_token := it }
          let l := rsi_lookup H rsii s
          match l.1 with
          | none => rsi_parse_out none (-EINVAL) l.2
          | some rsip =>
            if ((l.2.rsi.ents rsip).h.PENDING) = false then
              rsi_parse_out (some rsip) (-EINVAL) l.2
            else rsi_parse_fields H rsii rsip q2.2.2 l.2

/-- Modelled from the spec: `hex_byte_pack` of the kernel, the two lower-case
hexadecimal digits of a byte ("hex-encoded"). -/
def hex_byte_pack (b : Nat) : List Char := [Nat.digitChar (b / 16 % 16), Nat.digitChar (b % 16)]

/-- Modelled from the spec: the loop of `qword_addhex` that writes the bytes of a field
while at least two characters of room are left; the result is the unwritten bytes, the
text and the room. -/
def qword_addhex_loop : List Nat → List Char → Int → List Nat × List Char × Int
  | [], bp, len => ([], bp, len)
  | b :: rest, bp, len =>
    if 2 ≤ len then qword_addhex_loop rest (bp ++ hex_byte_pack b) (len - 2)
    else (b :: rest, bp, len)

/-- Modelled from the spec: `qword_addhex` of the kernel's cache layer, which appends one
"hex-encoded" field to the request line: the two characters `\x`, two digits for each
byte and a blank. The pair is the text written so far and the room left in the buffer;
the room is negative once a field did not fit, and then nothing more is written. -/
def qword_addhex (o : List Char × Int) (buf : List Nat) : List Char × Int :=
  if o.2 < 0 then o
  else
    let r : List Nat × List Char × Int :=
      if 2 < o.2 then qword_addhex_loop buf (o.1 ++ ['\\', 'x']) (o.2 - 2) else (buf, o.1, o.2)
    if r.1 ≠ [] ∨ r.2.2 < 1 then (r.2.1, -1) else (r.2.1 ++ [' '], r.2.2 - 1)

/-- The `strlen` of a character array: the number of bytes before the first NUL. -/
def strlen (l : List Nat) : Nat := (l.takeWhile fun b => b != 0).length

/-- The `rsi_request`: the text of the request line (`none` when nothing was written, so
that the final store would fall before the buffer), the room left in the buffer, and
the state holding the global `__ctx_index`. -/
def rsi_request (H : SvcHelpers) (rsi : Rsi) (blen : Int) (g : State) :
    Option (List Char) × Int × State :=
  let i : Nat × State := if rsi.in_handle.length = 0 then gss_get_next_ctx_index g else (0, g)
  let o1 := qword_addhex ([], blen) (H.obj_bytes 4 rsi.lustre_svc)
  let o2 := qword_addhex o1 (H.obj_bytes 8 rsi.nid4)
  let o3 := qword_addhex o2 (H.obj_bytes 8 i.1)
  let o4 := qword_addhex o3 (rsi.nm_name.take (strlen rsi.nm_name + 1))
  let o5 := qword_addhex o4 rsi.in_handle
  let o6 := qword_addhex o5 rsi.in_token
  (if o6.1 = [] then none else some (o6.1.dropLast ++ ['\n']), o6.2, i.2)

/-- The `__rsc_match`. -/
def __rsc_match (new tmp : Rsc) : Bool := rawobj_equal new.handle tmp.handle

/-- The `rsc_match`. -/
def rsc_match (a b : Rsc) : Bool := __rsc_match a b

/-- A zero-filled `struct gss_svc_ctx`. -/
def zeroSvcCtx : SvcCtx :=
  { gsc_mechctx := none, gsc_seqdata := 0, gsc_rvs_hdl := [], gsc_rvs_seq := 0, gsc_uid := 0,
    gsc_gid := 0, gsc_mapped_uid := 0, gsc_remote := false, gsc_usr_root := false,
    gsc_usr_mds := false, gsc_usr_oss := false }

/-- A zero-filled `struct rsc`. -/
def zeroRsc : Rsc := { h := zeroHead, target := none, handle := [], ctx := zeroSvcCtx }

/-- The `__rsc_init`: the entry `new` after taking over the handle of `tmp`. -/
def __rsc_init (new tmp : Rsc) : Rsc :=
  { new with handle := tmp.handle, target := none,
             ctx := { zeroSvcCtx with gsc_rvs_hdl := [] } }

/-- The `rsc_init`. -/
def rsc_init (cnew ctmp : Rsc) : Rsc := __rsc_init cnew ctmp

/-- The `__rsc_update`: the entry `new` after taking over the context of `tmp`, with
fresh sequence data. -/
def __rsc_update (new tmp : Rsc) : Rsc :=
  { new with ctx := { tmp.ctx with gsc_seqdata := 0 } }

/-- The `update_rsc`. -/
def update_rsc (cnew ctmp : Rsc) : Option Rsc := some (__rsc_update cnew ctmp)

/-- The `rsc_put`: the entry must be out of the hash table; its handle, reverse handle,
mechanism context and the entry itself are freed. -/
def rsc_put (p : Nat) (c : Cache Rsc) : Option (Cache Rsc) :=
  if p ∈ c.table then none else some { c with freed := p :: c.freed }

/-- The `rsc_cache`: the callbacks of the context cache. -/
def rsc_cache : CacheDetail Rsc :=
  { h := fun e => e.h, set_h := fun e h => { e with h := h }, cache_put := rsc_put,
    is_match := rsc_match, init := rsc_init, update := update_rsc, alloc := zeroRsc }

/-- The `rsc_lookup`: the entry found or created for the key, and the caches after the
lookup. -/
def rsc_lookup (H : SvcHelpers) (item : Rsc) (s : SvcState) : Option Nat × SvcState :=
  let r := sunrpc_cache_lookup rsc_cache H.rsc_alloc H.seconds_since_boot item s.rsc
  (r.1, { s with rsc := r.2 })

/-- The `rsc_update`. -/
def rsc_update (H : SvcHelpers) (new : Rsc) (old : Nat) (s : SvcState) :
    Option (Option Nat × SvcState) :=
  let s1 := s.log (SvcEvent.rsc_update old)
  (sunrpc_cache_update rsc_cache H.rsc_alloc H.seconds_since_boot new old s1.rsc).map fun r =>
    (r.1, { s1 with rsc := r.2 })

/-- The `COMPAT_RSC_PUT` on the context cache. -/
def COMPAT_RSC_PUT (p : Nat) (s : SvcState) : Option SvcState :=
  (cache_put rsc_cache p s.rsc).map fun c => { s with rsc := c }

/-- The `gss_svc_searchbyctx`: the entry of the context cache for a handle when
`cache_check` accepts it, with the reference of the lookup; `NULL` otherwise. -/
def gss_svc_searchbyctx (H : SvcHelpers) (handle : List Nat) (s : SvcState) :
    Option (Option Nat × SvcState) :=
  match H.rawobj_dup handle with
  | none => some (none, s)
  | some hd =>
    let l := rsc_lookup H { zeroRsc with handle := hd } s
    match l.1 with
    | none => some (none, l.2)
    | some found =>
      let rv := cache_check_rv (l.2.rsc.ents found).h H.seconds_since_boot
      (cache_check_put rsc_cache rv found l.2.rsc).map fun c =>
        (if rv ≠ 0 then none else some found, { l.2 with rsc := c })

/-- The `gss_svc_upcall_update_sequence`: `seq` is a 32-bit value. -/
def gss_svc_upcall_update_sequence (H : SvcHelpers) (handle : List Nat) (seq : Nat)
    (s : SvcState) : Option (Int × SvcState) :=
  (gss_svc_searchbyctx H handle s).bind fun r =>
    match r.1 with
    | some rscp =>
      let s1 := { r.2 with rsc := r.2.rsc.mod rscp fun e =>
        { e with ctx := { e.ctx with gsc_rvs_seq := (seq + 1) % 2 ^ 32 } } }
      (COMPAT_RSC_PUT rscp s1).map fun t => (0, t)
    | none => some (0, r.2)

/-- The `gss_svc_upcall_get_ctx`: the context is named by the address of the entry that
embeds it. -/
def gss_svc_upcall_get_ctx (H : SvcHelpers) (gw_handle : List Nat) (s : SvcState) :
    Option (Option Nat × SvcState) :=
  gss_svc_searchbyctx H gw_handle s

/-- The `gss_svc_upcall_put_ctx`. -/
def gss_svc_upcall_put_ctx (ctx : Nat) (s : SvcState) : Option SvcState := COMPAT_RSC_PUT ctx s

/-- The `gss_svc_upcall_destroy_ctx`. -/
def gss_svc_upcall_destroy_ctx (ctx : Nat) (s : SvcState) : SvcState :=
  let s1 := { s with rsc := s.rsc.mod ctx fun e => { e with h := { e.h with NEGATIVE := true } } }
  { s1 with rsc := s1.rsc.mod ctx fun e => { e with h := { e.h with expiry_time := 1 } } }

/-- Values of `enum secsvc_accept_res`. -/
def SECSVC_OK : Int := 0
/-- See `SECSVC_OK`. -/
def SECSVC_COMPLETE : Int := 1
/-- See `SECSVC_OK`. -/
def SECSVC_DROP : Int := 2

/-- The `GSS_SVC_UPCALL_TIMEOUT`, in seconds. -/
def GSS_SVC_UPCALL_TIMEOUT : Nat := 20

/-- The arguments of `gss_svc_upcall_handle_init` as far as the function reads them: the
primary NID of the request source as a 4-byte NID, the nodemap name of the peer, the
handle of the wire context and whether its flags carry `LUSTRE_GSS_PACK_KCSUM`, the
target, the service, the reverse handle and the input token. -/
structure InitReq where
  nid4 : Nat
  nm_name : List Nat
  gw_handle : List Nat
  gw_kcsum : Bool
  target : Nat
  lustre_svc : Nat
  rvs_hdl : List Nat
  in_token : List Nat

/-- What one call of `gss_svc_upcall_handle_init` meets outside the file: the result
of the n-th `cache_check` on the init entry, what the rest of the system does to the
two caches while the caller sleeps in `schedule_timeout`, the results of
`gss_pack_err_notify` and `lustre_pack_reply_v2`, the shape of the reply buffer, the
result of `lustre_shrink_msg`, and constants declared in headers. -/
structure InitEnv where
  cache_check : Nat → Int
  schedule_timeout : Cache Rsi × Cache Rsc → Cache Rsi × Cache Rsc
  gss_pack_err_notify : Int → Int → Int
  lustre_pack_reply_v2 : Int
  lm_bufcount : Nat
  lm_buflens0 : Nat
  lm_buflens2 : Nat
  lustre_shrink_msg : Nat → Nat
  sizeof_rephdr : Nat
  PTLRPC_GSS_MAX_HANDLE_SIZE : Nat
  GSS_S_FAILURE : Int
  PTLRPC_GSS_VERSION : Nat
  PTLRPC_GSS_PROC_ERR : Nat
  GSS_SEQ_WIN : Nat

/-- The fields of `struct gss_svc_reqctx` that the function writes. -/
structure Grctx where
  src_ctx : Option Nat
  src_init : Bool
  src_reserve_len : Nat
  deriving DecidableEq, Repr

/-- The reply that the function packs: the fields of the `struct gss_rep_header` in
buffer 0, the token in buffer 2 and `rs_repdata_len`. -/
structure Reply where
  gh_version : Nat
  gh_flags : Nat
  gh_proc : Nat
  gh_major : Int
  gh_minor : Int
  gh_seqwin : Nat
  gh_handle : List Nat
  token : List Nat
  rs_repdata_len : Nat
  deriving DecidableEq, Repr

/-- What `gss_svc_upcall_handle_init` leaves behind: its return value, the request
context, the reply if one was packed, and the caches. -/
structure InitResult where
  rc : Int
  grctx : Grctx
  reply : Option Reply
  s : SvcState

/-- One `cache_check(&rsi_cache, &rsip->h, &cache_upcall_chandle)`: the result comes
from outside, a non-zero result drops one reference on the entry. -/
def cache_check_rsi (E : InitEnv) (n : Nat) (rsip : Nat) (s : SvcState) :
    Option (Int × SvcState) :=
  let rv := E.cache_check n
  let s1 := s.log (SvcEvent.cache_check_rsi rsip)
  (cache_check_put rsi_cache rv rsip s1.rsi).map fun c => (rv, { s1 with rsi := c })

/-- The end of the wait in `gss_svc_upcall_handle_init`: `remove_wait_queue` and the
`cache_put` that follow the `switch`. -/
def handle_init_wait_done (rsip : Nat) (rc : Int) (t : SvcState) : Option (Int × SvcState) :=
  (cache_put rsi_cache rsip t.rsi).map fun c => (rc, { t with rsi := c })

/-- The second round of the wait in `gss_svc_upcall_handle_init`, entered through
`goto cache_check` with `first_check = 0`: a result of 0 gives back the reference taken
for the retry. -/
def handle_init_wait_retry (E : InitEnv) (rsip : Nat) (s : SvcState) :
    Option (Int × SvcState) :=
  (cache_check_rsi E 1 rsip s).bind fun r2 =>
    if r2.1 = -ETIMEDOUT ∨ r2.1 = -EAGAIN then handle_init_wait_done rsip r2.1 r2.2
    else if r2.1 = -ENOENT then handle_init_wait_done rsip r2.1 r2.2
    else if r2.1 = 0 then
      (cache_put rsi_cache rsip r2.2.rsi).bind fun c =>
        handle_init_wait_done rsip r2.1 { r2.2 with rsi := c }
    else handle_init_wait_done rsip r2.1 r2.2

/-- The part of `gss_svc_upcall_handle_init` from the label `cache_check` to the
`cache_put` that follows the `switch`: the last result of `cache_check` and the caches.
The first round runs with `first_check = 1`; after a timeout the caller sleeps unless
the entry is valid, takes a reference and goes through the second round. -/
def handle_init_wait (E : InitEnv) (rsip : Nat) (s : SvcState) : Option (Int × SvcState) :=
  (cache_check_rsi E 0 rsip s).bind fun r1 =>
    if r1.1 = -ETIMEDOUT ∨ r1.1 = -EAGAIN then
      let valid := (r1.2.rsi.ents rsip).h.VALID
      let s2 := if valid = false then
          let t := r1.2.log (SvcEvent.schedule_timeout GSS_SVC_UPCALL_TIMEOUT)
          { t with rsi := (E.schedule_timeout (t.rsi, t.rsc)).1,
                   rsc := (E.schedule_timeout (t.rsi, t.rsc)).2 }
        else r1.2
      handle_init_wait_retry E rsip { s2 with rsi := cache_get rsi_cache rsip s2.rsi }
    else handle_init_wait_done rsip r1.1 r1.2

/-- The label `out` of `gss_svc_upcall_handle_init`: a context entry that was found is
marked negative unless the result is `SECSVC_OK`, and loses one reference. -/
def handle_init_out (rsci : Option Nat) (rc : Int) (grctx : Grctx) (reply : Option Reply)
    (s : SvcState) : Option InitResult :=
  match rsci with
  | some p =>
    let s1 := if rc ≠ SECSVC_OK then
        { s with rsc := s.rsc.mod p fun e => { e with h := { e.h with NEGATIVE := true } } }
      else s
    (COMPAT_RSC_PUT p s1).map fun t => { rc := rc, grctx := grctx, reply := reply, s := t }
  | none => some { rc := rc, grctx := grctx, reply := reply, s := s }

/-- The part of `gss_svc_upcall_handle_init` from the copy of the reverse handle to
`rc = SECSVC_OK`. -/
def handle_init_pack (H : SvcHelpers) (E : InitEnv) (req : InitReq) (grctx : Grctx)
    (rsip rsci : Nat) (s2 : SvcState) : Option InitResult :=
  match H.rawobj_dup req.rvs_hdl with
  | none => handle_init_out (some rsci) SECSVC_DROP grctx none s2
  | some rh =>
    let s3 := { s2 with rsc := s2.rsc.mod rsci fun e =>
        { e with ctx := { e.ctx with gsc_rvs_hdl := rh }, target := some req.target } }
    let r := s3.rsi.ents rsip
    if E.PTLRPC_GSS_MAX_HANDLE_SIZE < r.out_handle.length then
      handle_init_out (some rsci) SECSVC_DROP grctx none s3
    else
      let grctx := { grctx with src_init := true,
                                src_reserve_len := (r.out_token.length + 3) / 4 * 4 }
      let s4 := s3.log SvcEvent.lustre_pack_reply_v2
      if E.lustre_pack_reply_v2 ≠ 0 then
        handle_init_out (some rsci) SECSVC_DROP grctx none s4
      else if E.lm_bufcount = 3 ∧ E.sizeof_rephdr + r.out_handle.length ≤ E.lm_buflens0 ∧
          r.out_token.length ≤ E.lm_buflens2 then
        let reply : Reply :=
          { gh_version := E.PTLRPC_GSS_VERSION, gh_flags := 0,
            gh_proc := E.PTLRPC_GSS_PROC_ERR, gh_major := r.major_status,
            gh_minor := r.minor_status, gh_seqwin := E.GSS_SEQ_WIN,
            gh_handle := r.out_handle, token := r.out_token,
            rs_repdata_len := E.lustre_shrink_msg r.out_token.length }
        handle_init_out (some rsci) SECSVC_OK grctx (some reply) s4
      else none

/-- The part of `gss_svc_upcall_handle_init` that runs once a context entry `rsci` was
found for the output handle of the init entry `rsip`. -/
def handle_init_reply (H : SvcHelpers) (E : InitEnv) (req : InitReq) (grctx : Grctx)
    (rsip rsci : Nat) (s : SvcState) : Option InitResult :=
  let s1 := { s with rsc := cache_get rsc_cache rsci s.rsc }
  let grctx := { grctx with src_ctx := some rsci }
  match (s1.rsc.ents rsci).ctx.gsc_mechctx with
  | none => none
  | some m =>
    let set_hash (f : HashFunc) : SvcState :=
      { s1 with rsc := s1.rsc.mod rsci fun e =>
          { e with ctx := { e.ctx with gsc_mechctx := some { m with hash_func := f } } } }
    if req.gw_kcsum = false ∧ m.gm_name = "krb5" ∧ s1.krb5_allow_old_client_csum = 0 then
      handle_init_out (some rsci) SECSVC_DROP grctx none s1
    else
      handle_init_pack H E req grctx rsip rsci
        (if req.gw_kcsum then set_hash HashFunc.gss_digest_hash
         else set_hash HashFunc.gss_digest_hash_compat)

/-- The local `rsikey` of `gss_svc_upcall_handle_init` once both copies are made. -/
def rsikey (req : InitReq) (ih it : List Nat) : Rsi :=
  { zeroRsi with lustre_svc := req.lustre_svc, nid4 := req.nid4, nm_name := req.nm_name,
                 in_handle := ih, in_token := it }

/-- The `gss_svc_upcall_handle_init`. -/
def gss_svc_upcall_handle_init (H : SvcHelpers) (E : InitEnv) (req : InitReq) (grctx : Grctx)
    (s : SvcState) : Option InitResult :=
  match H.rawobj_dup req.gw_handle with
  | none => handle_init_out none SECSVC_DROP grctx none s
  | some ih =>
    match H.rawobj_dup req.in_token with
    | none => handle_init_out none SECSVC_DROP grctx none s
    | some it =>
      let l := rsi_lookup H (rsikey req ih it) s
      match l.1 with
      | none =>
        let s1 := l.2.log (SvcEvent.gss_pack_err_notify E.GSS_S_FAILURE 0)
        handle_init_out none
          (if E.gss_pack_err_notify E.GSS_S_FAILURE 0 = 0 then SECSVC_COMPLETE else SECSVC_DROP)
          grctx none s1
      | some rsip =>
        let s1 := { l.2 with rsi := cache_get rsi_cache rsip l.2.rsi }
        (handle_init_wait E rsip s1).bind fun w =>
          if w.1 ≠ 0 then handle_init_out none SECSVC_DROP grctx none w.2
          else
            let r := w.2.rsi.ents rsip
            (gss_svc_searchbyctx H r.out_handle w.2).bind fun f =>
              match f.1 with
              | none =>
                let s2 := f.2.log (SvcEvent.gss_pack_err_notify r.major_status r.minor_status)
                handle_init_out none
                  (if E.gss_pack_err_notify r.major_status r.minor_status = 0 then SECSVC_COMPLETE
                   else SECSVC_DROP)
                  grctx none s2
              | some rsci => handle_init_reply H E req grctx rsip rsci f.2

/-- The hex-encoded form of a field of the request line, without its separator: `\x`
followed by two digits for each byte. -/
def hexField (buf : List Nat) : List Char := ['\\', 'x'] ++ buf.flatMap hex_byte_pack

/-- The `gss_cli_ctx_refresh_kr` of `gss_keyring.c`, which calls into the context cache:
the return value, the client state (the call is recorded in its trace) and the caches.
The context is `NULL` or a pointer into the client state. -/
def gss_cli_ctx_refresh_kr (H : SvcHelpers) (ctx : Option Nat) (g : State) (s : SvcState) :
    Option (Int × State × SvcState) :=
  match ctx with
  | none => some (0, g, s)
  | some c =>
    if (g.ctxs c).gc_svc_handle ≠ [] ∧ g.sec_reverse = true then
      (gss_svc_upcall_update_sequence H (g.ctxs c).gc_svc_handle
          ((g.ctxs c).gc_seq % 2 ^ 32).toNat s).map fun r =>
        (r.1, g.log (Event.update_sequence (g.ctxs c).gc_svc_handle
          ((g.ctxs c).gc_seq % 2 ^ 32).toNat), r.2)
    else some (0, g, s)

/-- A further Linux `errno` value used by `rsc_parse`. -/
def EOPNOTSUPP : Int := 95

/-- Functions of the GSS mechanism layer (`gss_mech_switch.c`) and the clock that
`rsc_parse` calls: `lgss_name_to_mech` returns the name of the mechanism or `NULL`,
`lgss_import_sec_context` returns the imported context or fails, and
`lgss_inquire_context` returns the end time of a context or fails. -/
structure MechHelpers where
  lgss_name_to_mech : List Nat → Option String
  lgss_import_sec_context : List Nat → String → Option GssCtx
  lgss_inquire_context : GssCtx → Option Int
  ktime_get_seconds : Int

/-- The label `out` of `rsc_parse`: the local entry is freed; an entry that was looked up
loses its reference; without one the status is `-ENOMEM`. -/
def rsc_parse_out (rscp : Option Nat) (status : Int) (s : SvcState) : Option (Int × SvcState) :=
  match rscp with
  | some p => (cache_put rsc_cache p s.rsc).map fun c => (status, { s with rsc := c })
  | none => some (-ENOMEM, s)

/-- The part of `rsc_parse` that reads the remote, root, mds and oss flags and the
mapped uid into the local `rsci`: the filled entry and the rest of the line, or `none`
when one of the five `get_int` calls fails and the function goes to `out`. -/
def rsc_parse_flags (H : SvcHelpers) (rsci : Rsc) (mesg : List Char) :
    Option (Rsc × List Char) :=
  let i1 := H.get_int mesg
  if i1.1 ≠ 0 then none
  else
    let rsci := { rsci with ctx := { rsci.ctx with gsc_remote := decide (i1.2.1 ≠ 0) } }
    let i2 := H.get_int i1.2.2
    if i2.1 ≠ 0 then none
    else
      let rsci := { rsci with ctx := { rsci.ctx with gsc_usr_root := decide (i2.2.1 ≠ 0) } }
      let i3 := H.get_int i2.2.2
      if i3.1 ≠ 0 then none
      else
        let rsci := { rsci with ctx := { rsci.ctx with gsc_usr_mds := decide (i3.2.1 ≠ 0) } }
        let i4 := H.get_int i3.2.2
        if i4.1 ≠ 0 then none
        else
          let rsci := { rsci with ctx := { rsci.ctx with gsc_usr_oss := decide (i4.2.1 ≠ 0) } }
          let i5 := H.get_int i4.2.2
          if i5.1 ≠ 0 then none
          else
            some ({ rsci with ctx := { rsci.ctx with
                      gsc_mapped_uid := (i5.2.1 % 2 ^ 32).toNat } }, i5.2.2)

/-- The part of `rsc_parse` that follows `rsc_lookup`: the uid field decides between a
negative entry and an established one, whose gid, mechanism and mechanism data are read
and imported; the entry `rscp` is then updated from the local `rsci`. -/
def rsc_parse_ctx (H : SvcHelpers) (M : MechHelpers) (rsci : Rsc) (expiry : Int) (rscp : Nat)
    (mesg : List Char) (s : SvcState) : Option (Int × SvcState) :=
  let u := H.get_int mesg
  if u.1 = -EINVAL then rsc_parse_out (some rscp) (-EINVAL) s
  else if u.1 = -ENOENT then
    let rsci := { rsci with h := { rsci.h with NEGATIVE := true, expiry_time := expiry } }
    (rsc_update H rsci rscp s).bind fun r => rsc_parse_out r.1 0 r.2
  else
    let rsci := { rsci with ctx := { rsci.ctx with gsc_uid := (u.2.1 % 2 ^ 32).toNat } }
    let g := H.get_int u.2.2
    if g.1 ≠ 0 then rsc_parse_out (some rscp) (-EINVAL) s
    else
      let rsci := { rsci with ctx := { rsci.ctx with gsc_gid := (g.2.1 % 2 ^ 32).toNat } }
      let q1 := H.qword_get g.2.2
      if q1.1 < 0 then rsc_parse_out (some rscp) (-EINVAL) s
      else
        match M.lgss_name_to_mech q1.2.1 with
        | none => rsc_parse_out (some rscp) (-EOPNOTSUPP) s
        | some gm =>
          let q2 := H.qword_get q1.2.2
          if q2.1 < 0 then rsc_parse_out (some rscp) (-EINVAL) s
          else
            match M.lgss_import_sec_context (q2.2.1.take q2.1.toNat) gm with
            | none => rsc_parse_out (some rscp) (-EINVAL) s
            | some mechctx =>
              let rsci := { rsci with ctx := { rsci.ctx with gsc_mechctx := some mechctx } }
              match M.lgss_inquire_context mechctx with
              | none => rsc_parse_out (some rscp) (-EINVAL) s
              | some ctx_expiry =>
                let expiry := M.ktime_get_seconds + (ctx_expiry - H.ktime_get_real_seconds)
                let rsci := { rsci with h := { rsci.h with expiry_time := expiry } }
                (rsc_update H rsci rscp s).bind fun r => rsc_parse_out r.1 0 r.2

/-- The `rsc_parse`: the return value and the caches left behind. -/
def rsc_parse (H : SvcHelpers) (M : MechHelpers) (mesg : List Char) (s : SvcState) :
    Option (Int × SvcState) :=
  let q := H.qword_get mesg
  if q.1 < 0 then rsc_parse_out none (-EINVAL) s
  else
    match H.rawobj_alloc q.2.1 q.1 with
    | none => rsc_parse_out none (-ENOMEM) s
    | some hdl =>
      let rsci := { zeroRsc with handle := hdl }
      let e := H.get_expiry q.2.2
      if e.1 = 0 then rsc_parse_out none (-EINVAL) s
      else
        match rsc_parse_flags H rsci e.2 with
        | none => rsc_parse_out none (-EINVAL) s
        | some f =>
          let l := rsc_lookup H f.1 s
          match l.1 with
          | none => rsc_parse_out none (-EINVAL) l.2
          | some rscp => rsc_parse_ctx H M f.1 e.1 rscp f.2 l.2

/-- The local `rsci` of `rsc_parse` once the handle, the four flags and the mapped uid
have been read from the values `v1` to `v5`. -/
def rsc_parse_rsci (hdl : List Nat) (v1 v2 v3 v4 v5 : Int) : Rsc :=
  { zeroRsc with
    handle := hdl,
    ctx := { zeroSvcCtx with
             gsc_remote := decide (v1 ≠ 0), gsc_usr_root := decide (v2 ≠ 0),
             gsc_usr_mds := decide (v3 ≠ 0), gsc_usr_oss := decide (v4 ≠ 0),
             gsc_mapped_uid := (v5 % 2 ^ 32).toNat } }

/-- The `INT_MAX` of a 32-bit `int`. -/
def INT_MAX : Int := 2 ^ 31 - 1

/-- The `RSI_HASHBITS`. -/
def RSI_HASHBITS : Nat := 6

/-- The `RSI_HASHMAX`. -/
def RSI_HASHMAX : Nat := 2 ^ RSI_HASHBITS

/-- The `RSC_HASHBITS`. -/
def RSC_HASHBITS : Nat := 10

/-- The `RSC_HASHMAX`. -/
def RSC_HASHMAX : Nat := 2 ^ RSC_HASHBITS

/-- What `hash_mem` takes from the kernel headers: the width of `unsigned long` and
`hash_long(val, bits)`. -/
structure HashEnv where
  BITS_PER_LONG : Nat
  hash_long : Nat → Nat → Nat

/-- The locals of `hash_mem` during its loop: `hash`, `l`, `len`, the offset of `buf`
from the start of the buffer, and for the account of the run the offsets read so far
and the number of rounds done. -/
structure HashSt where
  hash : Nat
  l : Nat
  len : Int
  buf : Nat
  reads : List Nat
  rounds : Nat
  deriving DecidableEq, Repr

/-- One round of the `do … while (len)` loop of `hash_mem` over the memory `mem`: the
round that meets `len == length` mixes in the low byte of the length and sets `len` to
-1, any other reads `*buf++`. The values of `unsigned long` are kept below
`2 ^ BITS_PER_LONG`; `len++` on `INT_MAX` has no result. After `len++` the value of
`len` is not negative, so `len & (BITS_PER_LONG/8-1)` is taken on its natural value. -/
def hash_mem_round (E : HashEnv) (mem : Nat → Nat) (length : Int) (st : HashSt) :
    Option HashSt :=
  let last : Bool := decide (st.len = length)
  let c : Nat := if last then (st.len % 256).toNat else mem st.buf % 256
  let len0 : Int := if last then -1 else st.len
  if len0 = INT_MAX then none
  else
    let l := (st.l * 2 ^ 8 % 2 ^ E.BITS_PER_LONG) ||| c
    let len1 := len0 + 1
    some { hash := if len1.toNat &&& (E.BITS_PER_LONG / 8 - 1) = 0 then
                     E.hash_long (st.hash ^^^ l) E.BITS_PER_LONG % 2 ^ E.BITS_PER_LONG
                   else st.hash,
           l := l, len := len1,
           buf := if last then st.buf else st.buf + 1,
           reads := if last then st.reads else st.reads ++ [st.buf],
           rounds := st.rounds + 1 }

/-- The `do … while (len)` loop of `hash_mem`, run for at most `fuel` rounds. -/
def hash_mem_loop (E : HashEnv) (mem : Nat → Nat) (length : Int) : Nat → HashSt → Option HashSt
  | 0, _ => none
  | fuel + 1, st =>
    (hash_mem_round E mem length st).bind fun st1 =>
      if st1.len ≠ 0 then hash_mem_loop E mem length fuel st1 else some st1

/-- The result of `hash_mem` with the account of its run: the value returned, the
offsets of the buffer that were read, in order, and the number of rounds of the loop. -/
structure HashOut where
  value : Nat
  reads : List Nat
  rounds : Nat
  deriving DecidableEq, Repr

/-- The `hash_mem` over the memory `mem` at `buf`, run for at most `fuel` rounds. -/
def hash_mem (E : HashEnv) (fuel : Nat) (mem : Nat → Nat) (length : Int) (bits : Nat) :
    Option HashOut :=
  (hash_mem_loop E mem length fuel
      { hash := 0, l := 0, len := 0, buf := 0, reads := [], rounds := 0 }).map fun st =>
    { value := st.hash >>> (E.BITS_PER_LONG - bits), reads := st.reads, rounds := st.rounds }

/-- The memory behind the `data` pointer of a `rawobj_t` holding the bytes `o`. -/
def rawobj_data (o : List Nat) : Nat → Nat := fun i => o.getD i 0

/-- The `rsi_hash`: the `__u32` lengths are passed as `int`, the result is returned as
`int`. -/
def rsi_hash (E : HashEnv) (fuel : Nat) (item : Rsi) : Option Int :=
  (hash_mem E fuel (rawobj_data item.in_handle) (toInt32 item.in_handle.length)
      RSI_HASHBITS).bind fun a =>
    (hash_mem E fuel (rawobj_data item.in_token) (toInt32 item.in_token.length)
        RSI_HASHBITS).map fun b => toInt32 (a.value ^^^ b.value)

/-- The `rsc_hash`. -/
def rsc_hash (E : HashEnv) (fuel : Nat) (rsci : Rsc) : Option Int :=
  (hash_mem E fuel (rawobj_data rsci.handle) (toInt32 rsci.handle.length)
      RSC_HASHBITS).map fun a => toInt32 a.value

/-- The request line for an init entry as the spec describes it: the six hex-encoded
fields service, peer NID, suggested index `idx`, nodemap name with its NUL, input handle
and input token, separated by blanks and ended by a newline. -/
def requestLine (H : SvcHelpers) (rsi : Rsi) (idx : Nat) : List Char :=
  hexField (H.obj_bytes 4 rsi.lustre_svc) ++ [' '] ++
  hexField (H.obj_bytes 8 rsi.nid4) ++ [' '] ++
  hexField (H.obj_bytes 8 idx) ++ [' '] ++
  hexField (rsi.nm_name.take (strlen rsi.nm_name + 1)) ++ [' '] ++
  hexField rsi.in_handle ++ [' '] ++
  hexField rsi.in_token ++ ['\n']

/-! ## Server worked example data -/

/-- Decode pairs of hexadecimal digits from the front of a text: the bytes and the rest. -/
def demoHexPairs : List Char → List Nat × List Char
  | a :: b :: rest =>
    if digitVal a < 16 ∧ digitVal b < 16 then
      ((digitVal a * 16 + digitVal b) :: (demoHexPairs rest).1, (demoHexPairs rest).2)
    else ([], a :: b :: rest)
  | l => ([], l)

/-- A `qword_get` for the worked examples: blanks are skipped, a word that starts with
`\x` is decoded from hexadecimal, any other word is taken as it is, and a word must end
at a blank, a newline or the end of the text. -/
def demoQwordGet (m : List Char) : Int × List Nat × List Char :=
  let bp := m.dropWhile fun c => c == ' '
  let r : List Nat × List Char :=
    match bp with
    | '\\' :: 'x' :: rest => demoHexPairs rest
    | _ => ((bp.takeWhile fun c => c != ' ' && c != '\n').map Char.toNat,
            bp.dropWhile fun c => c != ' ' && c != '\n')
  match r.2 with
  | [] => (r.1.length, r.1, [])
  | c :: rest =>
    if c = ' ' ∨ c = '\n' then (r.1.length, r.1, (c :: rest).dropWhile fun c => c == ' ')
    else (-1, [], m)

/-- A `kstrtoint` for the worked examples: an optional minus sign and decimal digits. -/
def demoKstrtoint (buf : List Nat) : Int × Int :=
  let neg := buf.head? == some 45
  let ds := if neg then buf.tail else buf
  if ds ≠ [] ∧ ds.all (fun b => decide (48 ≤ b) && decide (b ≤ 57)) = true then
    let v : Int := ds.foldl (fun a b => a * 10 + ((b - 48 : Nat) : Int)) 0
    (0, if neg then -v else v)
  else (-EINVAL, 0)

/-- An instance of the helper interface for the worked examples, with the cache clock
at `now` and `fresh` the address the allocator hands out: allocation never fails,
integers are laid out little-endian, the expiry of a reply line is used as it is. -/
def demoSvcHelpers (now : Int) (fresh : Nat) : SvcHelpers :=
  { qword_get := demoQwordGet,
    get_expiry := fun m =>
      let q := demoQwordGet m
      if q.1 ≤ 0 then (0, q.2.2)
      else
        let k := demoKstrtoint q.2.1
        if k.1 ≠ 0 ∨ k.2 < 0 then (0, q.2.2) else (k.2, q.2.2),
    get_int := fun m =>
      let q := demoQwordGet m
      if q.1 < 0 then (-EINVAL, 0, q.2.2)
      else if q.1 = 0 then (-ENOENT, 0, q.2.2)
      else
        let k := demoKstrtoint q.2.1
        if k.1 ≠ 0 then (-EINVAL, 0, q.2.2) else (0, k.2, q.2.2),
    kstrtoint := demoKstrtoint,
    rawobj_alloc := fun buf len => some (buf.take len.toNat),
    rawobj_dup := fun buf => some buf,
    rsi_alloc := some fresh,
    rsc_alloc := some fresh,
    seconds_since_boot := now,
    ktime_get_real_seconds := now,
    obj_bytes := fun size v => (List.range size).map fun i => v / 256 ^ i % 256 }

/-- An established context entry at address 5: handle `07 07`, valid until 1000, held
by the hash table only, with a `krb5` mechanism context. -/
def demoRsc : Rsc :=
  { h := { VALID := true, NEGATIVE := false, PENDING := false, expiry_time := 1000, ref := 1 },
    target := some 9, handle := [7, 7],
    ctx := { zeroSvcCtx with
             gsc_mechctx := some { gm_name := "krb5", hash_func := HashFunc.unset },
             gsc_uid := 1000, gsc_gid := 1000, gsc_mapped_uid := 1000, gsc_rvs_seq := 4 } }

/-- A negotiation entry at address 1 for an empty input handle and the input token
`01 02 03`, already answered with the output handle `07 07`. -/
def demoRsi : Rsi :=
  { zeroRsi with
    h := { VALID := true, NEGATIVE := false, PENDING := false, expiry_time := 1000, ref := 1 },
    lustre_svc := 1, nid4 := 10, nm_name := [100, 0, 0, 0], in_token := [1, 2, 3],
    out_handle := [7, 7], out_token := [4, 4, 4, 4, 4] }

/-- The two caches with the answered negotiation entry 1 and the established context
entry 5. -/
def demoSvc : SvcState :=
  { rsi := { ents := fun p => if p = 1 then demoRsi else zeroRsi, table := [1], freed := [] },
    rsc := { ents := fun p => if p = 5 then demoRsc else zeroRsc, table := [5], freed := [] },
    krb5_allow_old_client_csum := 0, trace := [] }

/-- The caches of `demoSvc` while negotiation entry 1 still waits for its answer. -/
def demoSvcPending : SvcState :=
  { demoSvc with
    rsi := { ents := fun p =>
               if p = 1 then
                 { demoRsi with
                   h := { VALID := false, NEGATIVE := false, PENDING := true,
                          expiry_time := 120, ref := 1 },
                   out_handle := [], out_token := [] }
               else zeroRsi,
             table := [1], freed := [] } }

/-- A reply line of the init channel for the key of entry 1: empty input handle, input
token `01 02 03`, expiry 500, major and minor status 0, output handle `07 07`, output
token `04`. -/
def demoReply : List Char := "\\x \\x010203 500 0 0 \\x0707 \\x04\n".toList

/-- A trial environment for the worked examples of `gss_svc_upcall_handle_init`: the n-th
`cache_check` answers `cc n`, nothing happens to the caches during a sleep, packing
succeeds and the reply buffer has room. -/
def demoInitEnv (cc : Nat → Int) : InitEnv :=
  { cache_check := cc,
    schedule_timeout := fun c => c,
    gss_pack_err_notify := fun _ _ => 0,
    lustre_pack_reply_v2 := 0,
    lm_bufcount := 3, lm_buflens0 := 1024, lm_buflens2 := 1024,
    lustre_shrink_msg := fun n => 200 + n,
    sizeof_rephdr := 36,
    PTLRPC_GSS_MAX_HANDLE_SIZE := 8,
    GSS_S_FAILURE := 851968,
    PTLRPC_GSS_VERSION := 1, PTLRPC_GSS_PROC_ERR := 4, GSS_SEQ_WIN := 2048 }

/-- A negotiation request for the worked examples, with the key of entry 1 of `demoSvc`. -/
def demoInitReq : InitReq :=
  { nid4 := 10, nm_name := [100, 0, 0, 0], gw_handle := [], gw_kcsum := true, target := 9,
    lustre_svc := 1, rvs_hdl := [8, 8], in_token := [1, 2, 3] }

/-- The request context before the call in the worked examples. -/
def demoGrctx : Grctx := { src_ctx := none, src_init := false, src_reserve_len := 0 }

/-- A reverse sec whose context 1 is paired with the server context of handle `07 07`
and has used sequence number 41. -/
def demoRvsCli : State :=
  { demoReverse with
    ctxs := fun c =>
      if c = 1 then { demoReverse.ctxs 1 with gc_svc_handle := [7, 7], gc_seq := 41 }
      else demoReverse.ctxs c }

/-- A mechanism layer for the worked examples: only `krb5` is known, mechanism data
that starts with the byte 1 imports, any other is refused, and an imported context ends
at wall-clock time 4000; the clock since boot reads 70. -/
def demoMech : MechHelpers :=
  { lgss_name_to_mech := fun n => if n = [107, 114, 98, 53] then some "krb5" else none,
    lgss_import_sec_context := fun d gm =>
      if d.head? = some 1 then some { gm_name := gm, hash_func := HashFunc.unset } else none,
    lgss_inquire_context := fun _ => some 4000,
    ktime_get_seconds := 70 }

/-- A reply line of the context channel for the handle `09 09`: expiry 500, the flags
remote 0, root 2, mds 0, oss 1, mapped uid 1000, and no uid field. -/
def demoRscNegative : List Char := "\\x0909 500 0 2 0 1 1000\n".toList

/-- A reply line of the context channel for the handle `09 09` whose mechanism data the
mechanism refuses. -/
def demoRscRefused : List Char := "\\x0909 500 0 1 0 0 1000 1000 1000 krb5 \\x02ff\n".toList

/-- A reply line of the context channel for the handle `09 09` whose mechanism data
imports. -/
def demoRscGood : List Char := "\\x0909 500 0 1 0 0 1000 1000 1000 krb5 \\x01ff\n".toList

/-- A reply line of the context channel with the handle `09 09` and expiry 0. -/
def demoRscNoExpiry : List Char := "\\x0909 0 0 1 0 0 1000\n".toList

/-- A reply line of the context channel with the handle `09 09` whose root flag is not
an integer. -/
def demoRscBadFlag : List Char := "\\x0909 500 0 yes 0 0 1000\n".toList

/-- A reply line of the init channel for the key of entry 1 whose output handle field is
not well-formed hexadecimal. -/
def demoReplyBadHandle : List Char := "\\x \\x010203 500 0 0 \\x07zz \\x04\n".toList

/-- A reply line of the init channel for the key of entry 1 whose output token field is
not well-formed hexadecimal. -/
def demoReplyBadToken : List Char := "\\x \\x010203 500 0 0 \\x0707 \\x0g\n".toList

/-- A header environment for the worked examples: 64-bit `unsigned long` and a
multiplicative `hash_long`. -/
def demoHashEnv : HashEnv :=
  { BITS_PER_LONG := 64,
    hash_long := fun v bits => (v * 7046029254386353131 % 2 ^ 64) >>> (64 - bits) }

/-- An init entry with the key of `demoRsi` and an input token of 2100 bytes. -/
def demoRsiLong : Rsi := { demoRsi with in_token := List.replicate 2100 7 }

/-- A reply line of the context channel for the handle `07 07` of the established entry
`demoRsc` that carries the flags and the mapped uid but no uid. -/
def demoRscNegativeOld : List Char := "\\x0707 500 0 2 0 1 1000\n".toList

end GssSvcUpcall

namespace GssKeyring

/-! ## Theorems -/

section projections

variable (s : State) (c k x : Nat) (f : Ctx → Ctx) (g : Key → Key) (e : Event)

@[simp] theorem modCtx_ctxs : (s.modCtx c f).ctxs x = if x = c then f (s.ctxs c) else s.ctxs x := by
  simp [State.modCtx, Function.update_apply]
@[simp] theorem modCtx_keys : (s.modCtx c f).keys = s.keys := rfl
@[simp] theorem modCtx_gsk_clist : (s.modCtx c f).gsk_clist = s.gsk_clist := rfl
@[simp] theorem modCtx_gsk_root_ctx : (s.modCtx c f).gsk_root_ctx = s.gsk_root_ctx := rfl
@[simp] theorem modCtx_ps_refcount : (s.modCtx c f).ps_refcount = s.ps_refcount := rfl
@[simp] theorem modCtx_ps_nctx : (s.modCtx c f).ps_nctx = s.ps_nctx := rfl
@[simp] theorem modCtx_sec_reverse : (s.modCtx c f).sec_reverse = s.sec_reverse := rfl
@[simp] theorem modCtx_sec_rootonly : (s.modCtx c f).sec_rootonly = s.sec_rootonly := rfl
@[simp] theorem modCtx_gs_rvs_hdl : (s.modCtx c f).gs_rvs_hdl = s.gs_rvs_hdl := rfl
@[simp] theorem modCtx_ctx_index : (s.modCtx c f).ctx_index = s.ctx_index := rfl
@[simp] theorem modCtx_trace : (s.modCtx c f).trace = s.trace := rfl

@[simp] theorem modKey_keys : (s.modKey k g).keys x = if x = k then g (s.keys k) else s.keys x := by
  simp [State.modKey, Function.update_apply]
@[simp] theorem modKey_ctxs : (s.modKey k g).ctxs = s.ctxs := rfl
@[simp] theorem modKey_gsk_clist : (s.modKey k g).gsk_clist = s.gsk_clist := rfl
@[simp] theorem modKey_gsk_root_ctx : (s.modKey k g).gsk_root_ctx = s.gsk_root_ctx := rfl
@[simp] theorem modKey_ps_refcount : (s.modKey k g).ps_refcount = s.ps_refcount := rfl
@[simp] theorem modKey_ps_nctx : (s.modKey k g).ps_nctx = s.ps_nctx := rfl
@[simp] theorem modKey_sec_reverse : (s.modKey k g).sec_reverse = s.sec_reverse := rfl
@[simp] theorem modKey_sec_rootonly : (s.modKey k g).sec_rootonly = s.sec_rootonly := rfl
@[simp] theorem modKey_gs_rvs_hdl : (s.modKey k g).gs_rvs_hdl = s.gs_rvs_hdl := rfl
@[simp] theorem modKey_ctx_index : (s.modKey k g).ctx_index = s.ctx_index := rfl
@[simp] theorem modKey_trace : (s.modKey k g).trace = s.trace := rfl

@[simp] theorem log_ctxs : (s.log e).ctxs = s.ctxs := rfl
@[simp] theorem log_keys : (s.log e).keys = s.keys := rfl
@[simp] theorem log_gsk_clist : (s.log e).gsk_clist = s.gsk_clist := rfl
@[simp] theorem log_gsk_root_ctx : (s.log e).gsk_root_ctx = s.gsk_root_ctx := rfl
@[simp] theorem log_ps_refcount : (s.log e).ps_refcount = s.ps_refcount := rfl
@[simp] theorem log_ps_nctx : (s.log e).ps_nctx = s.ps_nctx := rfl
@[simp] theorem log_sec_reverse : (s.log e).sec_reverse = s.sec_reverse := rfl
@[simp] theorem log_sec_rootonly : (s.log e).sec_rootonly = s.sec_rootonly := rfl
@[simp] theorem log_gs_rvs_hdl : (s.log e).gs_rvs_hdl = s.gs_rvs_hdl := rfl
@[simp] theorem log_ctx_index : (s.log e).ctx_index = s.ctx_index := rfl
@[simp] theorem log_trace : (s.log e).trace = e :: s.trace := rfl

end projections

section frame

variable (H : Helpers)

theorem ctx_destroy_kr_frame {c : Nat} {s s' : State} (h : ctx_destroy_kr H c s = some s') :
    s'.keys = s.keys ∧ s'.gsk_clist = s.gsk_clist ∧ s'.gsk_root_ctx = s.gsk_root_ctx ∧
    (∀ x, (s'.ctxs x).gck_key = (s.ctxs x).gck_key) ∧
    (∀ x, (s'.ctxs x).cc_flags = (s.ctxs x).cc_flags) ∧
    (∀ x, (s'.ctxs x).cc_refcount = (s.ctxs x).cc_refcount) ∧
    (∀ x, x ≠ c → s'.ctxs x = s.ctxs x) := by
  unfold ctx_destroy_kr at h
  simp only [ctx_clear_timer_kr] at h
  split at h
  · split at h <;> cases h <;>
      refine ⟨rfl, rfl, rfl, ?_, ?_, ?_, ?_⟩ <;> intro x <;> by_cases hx : x = c <;> simp [hx]
  · cases h

theorem ctx_put_kr_frame {c : Nat} {sync : Int} {s s' : State}
    (h : ctx_put_kr H c sync s = some s') :
    s'.keys = s.keys ∧ s'.gsk_clist = s.gsk_clist ∧ s'.gsk_root_ctx = s.gsk_root_ctx ∧
    (∀ x, (s'.ctxs x).gck_key = (s.ctxs x).gck_key) ∧
    (∀ x, (s'.ctxs x).cc_flags = (s.ctxs x).cc_flags) ∧
    (∀ x, x ≠ c → s'.ctxs x = s.ctxs x) := by
  unfold ctx_put_kr at h
  split at h
  · simp only [] at h
    split at h
    · unfold ctx_release_kr at h
      split at h
      · obtain ⟨h1, h2, h3, h4, h5, -, h7⟩ := ctx_destroy_kr_frame H h
        refine ⟨h1, h2, h3, ?_, ?_, ?_⟩
        · intro x; rw [h4]; by_cases hx : x = c <;> simp [State.ref_dec, hx]
        · intro x; rw [h5]; by_cases hx : x = c <;> simp [State.ref_dec, hx]
        · intro x hx; rw [h7 x hx]; simp [State.ref_dec, hx]
      · cases h
        refine ⟨rfl, rfl, rfl, ?_, ?_, ?_⟩ <;> intro x <;> by_cases hx : x = c <;>
          simp [State.ref_dec, State.ref_inc, hx]
    · cases h
      refine ⟨rfl, rfl, rfl, ?_, ?_, ?_⟩ <;> intro x <;> by_cases hx : x = c <;>
          simp [State.ref_dec, hx]
  · cases h
theorem unbind_key_ctx_binding {k c : Nat} {s s' : State}
    (h : unbind_key_ctx H k c s = some s') :
    (s.keys k).payload = some c ∧
    (∀ k', (s'.keys k').payload = if k' = k then none else (s.keys k').payload) ∧
    (∀ c', (s'.ctxs c').gck_key = if c' = c then none else (s.ctxs c').gck_key) := by
  unfold unbind_key_ctx at h
  split at h
  · rename_i hpre
    simp only [Option.map_eq_some'] at h
    obtain ⟨t, ht, rfl⟩ := h
    obtain ⟨h1, -, -, h4, -, -⟩ := ctx_put_kr_frame H ht
    refine ⟨hpre.1, ?_, ?_⟩
    · intro k'
      by_cases hk : k' = k <;>
        simp [key_put, h1, ctx_clear_timer_kr, key_set_payload, key_revoke_locked, hk]
    · intro c'
      rw [show (key_put k t).ctxs = t.ctxs from rfl, h4]
      by_cases hc : c' = c <;>
        simp [ctx_clear_timer_kr, key_set_payload, key_revoke_locked, hc]
  · cases h

theorem binding_inv_unbind {k c : Nat} {s s' : State} (hinv : binding_inv s)
    (hp : (s.keys k).payload = some c)
    (hpay : ∀ k', (s'.keys k').payload = if k' = k then none else (s.keys k').payload)
    (hback : ∀ c', (s'.ctxs c').gck_key = if c' = c then none else (s.ctxs c').gck_key) :
    binding_inv s' := by
  intro k' c'
  rw [hpay, hback]
  by_cases hk : k' = k <;> by_cases hc : c' = c
  · simp [hk, hc]
  · subst hk
    simp only [hc, if_true, if_false]
    constructor
    · intro h; cases h
    · intro h
      have := (hinv k' c').2 h
      rw [hp] at this
      exact absurd (Option.some.inj this).symm hc
  · subst hc
    simp only [hk, if_true, if_false]
    constructor
    · intro h
      have := (hinv k' c').1 h
      rw [(hinv k c').1 hp] at this
      exact absurd (Option.some.inj this).symm hk
    · intro h; cases h
  · simp only [hk, hc, if_false]
    exact hinv k' c'

theorem binding_inv_same {s s' : State} (hinv : binding_inv s)
    (hpay : ∀ k', (s'.keys k').payload = (s.keys k').payload)
    (hback : ∀ c', (s'.ctxs c').gck_key = (s.ctxs c').gck_key) :
    binding_inv s' := by
  intro k' c'
  rw [hpay, hback]
  exact hinv k' c'

theorem ctx_unlist_kr_binding (c : Nat) (s : State) :
    (ctx_unlist_kr c s).2.keys = s.keys ∧
    (∀ c', (((ctx_unlist_kr c s).2).ctxs c').gck_key = (s.ctxs c').gck_key) := by
  unfold ctx_unlist_kr
  split
  · exact ⟨rfl, fun _ => rfl⟩
  · refine ⟨?_, ?_⟩
    · simp only [State.ref_dec, modCtx_keys]
      split <;> rfl
    · intro c'
      simp only [State.ref_dec, modCtx_ctxs]
      by_cases hc : c' = c
      · simp only [hc, if_true]; split <;> simp
      · simp only [hc, if_false]; split <;> simp [hc]

theorem bind_key_ctx_inv {k c : Nat} {s s' : State} (hinv : binding_inv s)
    (h : bind_key_ctx k c s = some s') : binding_inv s' := by
  unfold bind_key_ctx at h
  split at h
  · rename_i hpre
    obtain ⟨-, -, hb, hp⟩ := hpre
    cases h
    intro k' c'
    simp only [key_get_payload] at hp
    by_cases hk : k' = k <;> by_cases hc : c' = c
    · simp [key_set_payload, key_get, State.ref_inc, hk, hc]
    · subst hk
      simp only [key_set_payload, key_get, State.ref_inc, modKey_keys, modCtx_keys, modCtx_ctxs, modKey_ctxs, hc,
        if_true, if_false]
      constructor
      · intro h; exact absurd (Option.some.inj h).symm hc
      · intro h
        have := (hinv k' c').2 h
        rw [hp] at this; cases this
    · subst hc
      simp only [key_set_payload, key_get, State.ref_inc, modKey_keys, modCtx_keys, modCtx_ctxs, modKey_ctxs, hk,
        if_true, if_false]
      constructor
      · intro h
        have := (hinv k' c').1 h
        rw [hb] at this; cases this
      · intro h; exact absurd (Option.some.inj h).symm hk
    · simp only [key_set_payload, key_get, State.ref_inc, modKey_keys, modCtx_keys, modCtx_ctxs, modKey_ctxs, hk,
        hc, if_false]
      exact hinv k' c'
  · cases h

theorem unbind_key_ctx_inv {k c : Nat} {s s' : State} (hinv : binding_inv s)
    (h : unbind_key_ctx H k c s = some s') : binding_inv s' := by
  obtain ⟨hp, hpay, hback⟩ := unbind_key_ctx_binding H h
  exact binding_inv_unbind hinv hp hpay hback

theorem unbind_ctx_kr_inv {c : Nat} {s s' : State} (hinv : binding_inv s)
    (h : unbind_ctx_kr H c s = some s') : binding_inv s' := by
  unfold unbind_ctx_kr at h
  split at h
  · cases h; exact hinv
  · rename_i k hk
    split at h
    · rename_i hp
      simp only [Option.bind_eq_some, Option.map_eq_some'] at h
      obtain ⟨t, ⟨u, hu, rfl⟩, ht⟩ := h
      have hinv1 : binding_inv (key_get k s) :=
        binding_inv_same hinv (fun k' => by by_cases hk' : k' = k <;> simp [key_get, hk'])
          (fun _ => rfl)
      have hinv2 := unbind_key_ctx_inv H hinv1 hu
      unfold request_key_unlink at ht
      split at ht
      · cases ht
      · cases ht
        exact binding_inv_same hinv2
          (fun k' => by by_cases hk' : k' = k <;> simp [key_put, hk']) (fun _ => rfl)
    · cases h

theorem unbind_key_locked_inv {k : Nat} {s s' : State} (hinv : binding_inv s)
    (h : unbind_key_locked H k s = some s') : binding_inv s' := by
  unfold unbind_key_locked at h
  split at h
  · cases h; exact hinv
  · exact unbind_key_ctx_inv H hinv h

theorem ctx_unlist_kr_inv (c : Nat) {s : State} (hinv : binding_inv s) :
    binding_inv (ctx_unlist_kr c s).2 := by
  obtain ⟨h1, h2⟩ := ctx_unlist_kr_binding c s
  exact binding_inv_same hinv (fun k' => by rw [h1]) h2

theorem kill_ctx_kr_inv {c : Nat} {s s' : State} (hinv : binding_inv s)
    (h : kill_ctx_kr H c s = some s') : binding_inv s' := by
  unfold kill_ctx_kr at h
  simp only [] at h
  split at h
  · exact unbind_ctx_kr_inv H (ctx_unlist_kr_inv c hinv) h
  · cases h; exact ctx_unlist_kr_inv c hinv

theorem kill_key_locked_inv {k : Nat} {s s' : State} (hinv : binding_inv s)
    (h : kill_key_locked H k s = some s') : binding_inv s' := by
  unfold kill_key_locked at h
  split at h
  · cases h; exact hinv
  · rename_i c hc
    simp only [] at h
    split at h
    · exact unbind_key_locked_inv H (ctx_unlist_kr_inv c hinv) h
    · cases h; exact ctx_unlist_kr_inv c hinv

/-- C1: the binding relation between keys and contexts is preserved by each of
`bind_key_ctx`, `unbind_key_ctx`, `unbind_ctx_kr`, `unbind_key_locked`, `kill_ctx_kr` and
`kill_key_locked` whenever the operation runs to its end (none of its `LASSERT`s fires);
and in any state with the relation, so in each resulting state, a key payload never points
to a context whose back-reference is `NULL` or another key. -/
theorem binding_invariant_preserved (H : Helpers) (s : State) (hinv : binding_inv s) :
    (∀ k c s', bind_key_ctx k c s = some s' → binding_inv s') ∧
    (∀ k c s', unbind_key_ctx H k c s = some s' → binding_inv s') ∧
    (∀ c s', unbind_ctx_kr H c s = some s' → binding_inv s') ∧
    (∀ k s', unbind_key_locked H k s = some s' → binding_inv s') ∧
    (∀ c s', kill_ctx_kr H c s = some s' → binding_inv s') ∧
    (∀ k s', kill_key_locked H k s = some s' → binding_inv s') ∧
    (∀ t, binding_inv t → ∀ k c, (t.keys k).payload = some c →
      (t.ctxs c).gck_key ≠ none ∧ ∀ k', (t.ctxs c).gck_key = some k' → k' = k) :=
  ⟨fun _ _ _ h => bind_key_ctx_inv hinv h,
   fun _ _ _ h => unbind_key_ctx_inv H hinv h,
   fun _ _ h => unbind_ctx_kr_inv H hinv h,
   fun _ _ h => unbind_key_locked_inv H hinv h,
   fun _ _ h => kill_ctx_kr_inv H hinv h,
   fun _ _ h => kill_key_locked_inv H hinv h,
   fun t ht k c h => by
    have hb := (ht k c).1 h
    exact ⟨by rw [hb]; simp, fun k' hk' => by rw [hb] at hk'; exact (Option.some.inj hk').symm⟩⟩

end frame

theorem demoBound_binding_inv : binding_inv demoBound := by
  intro k c
  by_cases hk : k = 7 <;> by_cases hc : c = 1 <;> simp [demoBound, zeroCtx, zeroKey, hk, hc]
  · exact fun h => hc h.symm
  · exact fun h => hk h.symm

theorem demoFresh_binding_inv : binding_inv demoFresh := by
  intro k c
  by_cases hk : k = 7 <;> by_cases hc : c = 1 <;> simp [demoFresh, zeroCtx, zeroKey, hk, hc]

/-- Worked example for C1: binding the fresh context to the empty key succeeds and keeps
the relation, and so does killing the bound context of `demoBound`. -/
theorem binding_invariant_preserved_witness :
    binding_inv demoFresh ∧
    (bind_key_ctx 7 1 demoFresh).isSome = true ∧
    (∀ s', bind_key_ctx 7 1 demoFresh = some s' → binding_inv s') ∧
    (kill_ctx_kr (refHelpers 100) 1 demoBound).isSome = true ∧
    (∀ s', kill_ctx_kr (refHelpers 100) 1 demoBound = some s' → binding_inv s') :=
  ⟨demoFresh_binding_inv, by decide,
   fun s' h => (binding_invariant_preserved (refHelpers 100) demoFresh demoFresh_binding_inv).1 7 1 s' h,
   by decide,
   fun s' h =>
    (binding_invariant_preserved (refHelpers 100) demoBound demoBound_binding_inv).2.2.2.2.1 1 s' h⟩

@[simp] theorem lookup_out_ctxs (b : Bool) (s : State) : (lookup_out b s).ctxs = s.ctxs := by
  cases b <;> rfl
@[simp] theorem lookup_out_keys (b : Bool) (s : State) : (lookup_out b s).keys = s.keys := by
  cases b <;> rfl
@[simp] theorem lookup_out_gsk_clist (b : Bool) (s : State) :
    (lookup_out b s).gsk_clist = s.gsk_clist := by
  cases b <;> rfl
@[simp] theorem lookup_out_gsk_root_ctx (b : Bool) (s : State) :
    (lookup_out b s).gsk_root_ctx = s.gsk_root_ctx := by
  cases b <;> rfl
@[simp] theorem lookup_out_trace (b : Bool) (s : State) : (lookup_out b s).trace = s.trace := by
  cases b <;> rfl
@[simp] theorem lookup_out_lock (s : State) : (lookup_out true s).gsk_root_uc_lock = false := rfl

theorem lookup_key_section_reuse {H : Helpers} {E : LookupEnv} {vc : Nat} {root : Bool}
    {k c : Nat} {s s' : State} {r : Option Nat} (hp : (s.keys k).payload = some c)
    (h : lookup_key_section H E vc root k s = some (r, s')) :
    r = some c ∧ s' = key_put k (s.ref_inc c) := by
  unfold lookup_key_section at h
  simp only [key_get_payload, hp] at h
  split at h
  · cases h; exact ⟨rfl, rfl⟩
  · cases h

theorem request_key_unlink_frame {H : Helpers} {k : Nat} {s s' : State} {b : Bool}
    (h : (if b then (some s).bind (request_key_unlink H k) else some s) = some s') :
    s'.ctxs = s.ctxs ∧ s'.keys = s.keys ∧ s'.gsk_clist = s.gsk_clist ∧
      s'.gsk_root_ctx = s.gsk_root_ctx := by
  cases b
  · simp at h; cases h; exact ⟨rfl, rfl, rfl, rfl⟩
  · simp [request_key_unlink] at h
    split at h
    · cases h
    · cases h; exact ⟨rfl, rfl, rfl, rfl⟩

theorem lookup_key_section_create {H : Helpers} {E : LookupEnv} {vc : Nat} {root : Bool}
    {k p : Nat} {s s1 s' : State} {r : Option Nat} (hp : (s.keys k).payload = none)
    (hc : ctx_create_kr H E vc s = (some p, s1))
    (h : lookup_key_section H E vc root k s = some (r, s')) :
    r = some p ∧ (s'.ctxs p).cc_flags.CACHED = true ∧ p ∈ s'.gsk_clist ∧
      (s'.keys k).payload = some p ∧ (s'.ctxs p).gck_key = some k ∧
      (s'.ctxs p).cc_refcount = (s1.ctxs p).cc_refcount + 2 ∧
      (s'.ctxs p).gck_timer = some (KEYRING_UPCALL_TIMEOUT H.obd_timeout) := by
  unfold lookup_key_section at h
  simp only [key_get_payload, hp, hc] at h
  simp only [Option.map_eq_some'] at h
  obtain ⟨t, ht, hs⟩ := h
  cases hs
  refine ⟨rfl, ?_⟩
  have key : ∃ t2, ((ctx_enlist_kr p root s1).bind (bind_key_ctx k p)).map
      (ctx_start_timer_kr p (KEYRING_UPCALL_TIMEOUT H.obd_timeout)) = some t2 ∧
      t.ctxs = t2.ctxs ∧ t.keys = t2.keys ∧ t.gsk_clist = t2.gsk_clist := by
    cases hres : ((ctx_enlist_kr p root s1).bind (bind_key_ctx k p)).map
      (ctx_start_timer_kr p (KEYRING_UPCALL_TIMEOUT H.obd_timeout)) with
    | none => rw [hres] at ht; cases root <;> simp at ht
    | some t2 =>
      rw [hres] at ht
      obtain ⟨h1, h2, h3, -⟩ := request_key_unlink_frame ht
      exact ⟨t2, rfl, h1, h2, h3⟩
  obtain ⟨t2, ht2, e1, e2, e3⟩ := key
  simp only [Option.map_eq_some', Option.bind_eq_some] at ht2
  obtain ⟨t3, ⟨t4, hen, hbind⟩, rfl⟩ := ht2
  unfold ctx_enlist_kr at hen
  split at hen
  · simp only [Option.some.injEq] at hen
    unfold bind_key_ctx at hbind
    split at hbind
    · cases hbind
      subst hen
      simp only [key_put, modKey_ctxs, modKey_keys, modKey_gsk_clist, e1, e2, e3]
      cases root <;>
        simp [ctx_start_timer_kr, key_set_payload, key_get, State.ref_inc] <;> ring
    · cases hbind
  · cases hen

theorem lookup_key_section_fail {H : Helpers} {E : LookupEnv} {vc : Nat} {root : Bool}
    {k : Nat} {s s' : State} {r : Option Nat} (hp : (s.keys k).payload = none)
    (hc : (ctx_create_kr H E vc s).1 = none)
    (h : lookup_key_section H E vc root k s = some (r, s')) :
    r = none ∧ (s'.keys k).revoked = true := by
  unfold lookup_key_section at h
  simp only [key_get_payload, hp, hc] at h
  simp only [Option.map_eq_some'] at h
  obtain ⟨t, ht, hs⟩ := h
  cases hs
  refine ⟨rfl, ?_⟩
  obtain ⟨-, h2, -, -⟩ := request_key_unlink_frame ht
  simp [key_put, h2, key_revoke_locked]

/-- C2: postcondition of `gss_sec_lookup_ctx_kr` once `request_key` has returned key `k`
in state `s`. Whenever the call returns: a context already in payload slot 0 is returned
with one more reference and nothing else about contexts, list, root, payloads or trace
changes; a context created by `ctx_create_kr` comes back cached, listed, bound both ways,
with two more references than `ctx_create_kr` gave it and with the upcall timer armed; if
`ctx_create_kr` fails the result is `NULL` and the key is revoked; and a later lookup that
finds the same payload returns the same context. The call does return when the assertions
on its path hold: on reuse, the context holds a reference, points back at the key, and the
key holds two references; on creation, the new context is unlisted, unbound and
referenced, and the key is referenced (for the root user, a keyring to unlink from must be
found). -/
theorem lookup_postcondition (H : Helpers) (E : LookupEnv) (vc_uid : Nat) (create : Int)
    (s0 s : State) (k : Nat)
    (hpro : lookup_prologue E vc_uid create s0 = some (Sum.inr s))
    (hkey : E.request_key (construct_key_desc 24 E.ps_id vc_uid) = some k) :
    (∀ r s', gss_sec_lookup_ctx_kr H E vc_uid create s0 = some (r, s') →
      (∀ c, (s.keys k).payload = some c →
        r = some c ∧
        s'.ctxs c = { s.ctxs c with cc_refcount := (s.ctxs c).cc_refcount + 1 } ∧
        (∀ x, x ≠ c → s'.ctxs x = s.ctxs x) ∧
        s'.gsk_clist = s.gsk_clist ∧ s'.gsk_root_ctx = s.gsk_root_ctx ∧
        (∀ x, (s'.keys x).payload = (s.keys x).payload) ∧
        (∀ x, (s'.keys x).revoked = (s.keys x).revoked) ∧
        s'.trace = s.trace) ∧
      ((s.keys k).payload = none → ∀ p s1, ctx_create_kr H E vc_uid s = (some p, s1) →
        r = some p ∧ (s'.ctxs p).cc_flags.CACHED = true ∧ p ∈ s'.gsk_clist ∧
        (s'.keys k).payload = some p ∧ (s'.ctxs p).gck_key = some k ∧
        (s'.ctxs p).cc_refcount = (s1.ctxs p).cc_refcount + 2 ∧
        (s'.ctxs p).gck_timer = some (KEYRING_UPCALL_TIMEOUT H.obd_timeout)) ∧
      ((s.keys k).payload = none → (ctx_create_kr H E vc_uid s).1 = none →
        r = none ∧ (s'.keys k).revoked = true) ∧
      (r ≠ none → (s'.keys k).payload = r ∧
        ∀ vc2 root2 t r2 t', (t.keys k).payload = (s'.keys k).payload →
          lookup_key_section H E vc2 root2 k t = some (r2, t') → r2 = r)) ∧
    (∀ c, (s.keys k).payload = some c → 1 ≤ (s.ctxs c).cc_refcount →
      (s.ctxs c).gck_key = some k → 2 ≤ (s.keys k).usage →
      (gss_sec_lookup_ctx_kr H E vc_uid create s0).isSome = true) ∧
    ((s.keys k).payload = none → ∀ p s1, ctx_create_kr H E vc_uid s = (some p, s1) →
      (s1.ctxs p).cc_flags.CACHED = false → 0 < (s1.ctxs p).cc_refcount →
      (s1.ctxs p).gck_key = none → 0 < (s1.keys k).usage →
      (user_is_root s0 vc_uid = true → H.request_key_ring ≠ none) →
      (gss_sec_lookup_ctx_kr H E vc_uid create s0).isSome = true) := by
  have hfun : gss_sec_lookup_ctx_kr H E vc_uid create s0 =
      (lookup_key_section H E vc_uid (user_is_root s0 vc_uid) k s).map fun x =>
        (x.1, lookup_out (user_is_root s0 vc_uid) x.2) := by
    simp [gss_sec_lookup_ctx_kr, hpro, hkey]
  refine ⟨?_, ?_, ?_⟩
  · intro rf sf hret
    rw [hfun] at hret
    simp only [Option.map_eq_some', Prod.mk.injEq] at hret
    obtain ⟨⟨r, s'⟩, hsec, hr0, hsf⟩ := hret
    simp only at hr0 hsf
    subst hr0
    subst hsf
    simp only [lookup_out_ctxs, lookup_out_keys, lookup_out_gsk_clist, lookup_out_gsk_root_ctx,
      lookup_out_trace]
    have hreuse : ∀ c, (s.keys k).payload = some c →
        r = some c ∧ s' = key_put k (s.ref_inc c) :=
      fun c hp => lookup_key_section_reuse hp hsec
    have hpay : r ≠ none → (s'.keys k).payload = r := by
      intro hr
      cases hp : (s.keys k).payload with
      | some c =>
        obtain ⟨rfl, rfl⟩ := hreuse c hp
        simp [key_put, State.ref_inc, hp]
      | none =>
        cases hc : (ctx_create_kr H E vc_uid s).1 with
        | none => exact absurd (lookup_key_section_fail hp hc hsec).1 hr
        | some p =>
          have hc' : ctx_create_kr H E vc_uid s = (some p, (ctx_create_kr H E vc_uid s).2) := by
            rw [← hc]
          obtain ⟨rfl, -, -, h4, -⟩ := lookup_key_section_create hp hc' hsec
          exact h4
    refine ⟨?_, ?_, ?_, ?_⟩
    · intro c hp
      obtain ⟨rfl, rfl⟩ := hreuse c hp
      refine ⟨rfl, ?_, ?_, rfl, rfl, ?_, ?_, rfl⟩
      · simp [key_put, State.ref_inc]
      · intro x hx; simp [key_put, State.ref_inc, hx]
      · intro x; by_cases hx : x = k <;> simp [key_put, State.ref_inc, hx]
      · intro x; by_cases hx : x = k <;> simp [key_put, State.ref_inc, hx]
    · intro hp p s1 hc
      exact lookup_key_section_create hp hc hsec
    · intro hp hc
      exact lookup_key_section_fail hp hc hsec
    · intro hr
      refine ⟨hpay hr, ?_⟩
      intro vc2 root2 t r2 t' ht h2
      rw [hpay hr] at ht
      cases r with
      | none => exact absurd rfl hr
      | some c => exact (lookup_key_section_reuse ht h2).1
  · intro c hp h1 h2 h3
    rw [hfun]
    simp [lookup_key_section, key_get_payload, hp, h1, h2, h3]
  · intro hp p s1 hc h1 h2 h3 h4 hring
    rw [hfun]
    have hpay1 : (s1.keys k).payload = none := by
      have hk : s1.keys = s.keys := by
        unfold ctx_create_kr at hc
        split at hc
        · cases hc
        · split at hc
          · cases hc
          · simp only [Prod.mk.injEq] at hc
            rw [← hc.2]; rfl
      rw [hk]; exact hp
    have h2' : 0 < (s1.ctxs p).cc_refcount + 1 := by omega
    cases hroot : user_is_root s0 vc_uid with
    | false =>
      simp [lookup_key_section, key_get_payload, hp, hc, ctx_enlist_kr, h1, h2, bind_key_ctx,
        State.ref_inc, h3, hpay1, h4, h2']
    | true =>
      obtain ⟨ring, hring'⟩ := Option.ne_none_iff_exists'.mp (hring hroot)
      simp [lookup_key_section, key_get_payload, hp, hc, ctx_enlist_kr, h1, h2, bind_key_ctx,
        State.ref_inc, h3, hpay1, h4, request_key_unlink, hring', h2']

/-- Worked example for C2: the first lookup of uid 1000 creates context 1 for key 7, and
the key section of a second lookup on the resulting state (after `request_key` took its
reference) returns context 1 again. -/
theorem lookup_postcondition_witness :
    ∃ s', gss_sec_lookup_ctx_kr (refHelpers 100) demoEnv 1000 1 demoEmpty = some (some 1, s') ∧
      (s'.ctxs 1).cc_flags.CACHED = true ∧ 1 ∈ s'.gsk_clist ∧ (s'.keys 7).payload = some 1 ∧
      (s'.ctxs 1).gck_key = some 7 ∧ (s'.ctxs 1).cc_refcount = 3 ∧
      ∀ r2 t', lookup_key_section (refHelpers 100) demoEnv 1000 false 7 (key_get 7 s') =
        some (r2, t') → r2 = some 1 := by
  have hpro : lookup_prologue demoEnv 1000 1 demoEmpty = some (Sum.inr demoEmpty) := rfl
  have hkey : demoEnv.request_key (construct_key_desc 24 demoEnv.ps_id 1000) = some 7 := by decide
  have hcr : ctx_create_kr (refHelpers 100) demoEnv 1000 demoEmpty =
      (some 1, (ctx_create_kr (refHelpers 100) demoEnv 1000 demoEmpty).2) := rfl
  obtain ⟨hpost, -, hcomp⟩ :=
    lookup_postcondition (refHelpers 100) demoEnv 1000 1 demoEmpty demoEmpty 7 hpro hkey
  have hsome := hcomp (by decide) 1 _ hcr (by decide) (by decide) (by decide) (by decide)
    (by decide)
  cases hret : gss_sec_lookup_ctx_kr (refHelpers 100) demoEnv 1000 1 demoEmpty with
  | none => rw [hret] at hsome; cases hsome
  | some rs =>
    obtain ⟨r, s'⟩ := rs
    obtain ⟨-, hb, -, hd⟩ := hpost r s' hret
    obtain ⟨h1, h2, h3, h4, h5, h6, -⟩ := hb rfl 1 _ hcr
    subst h1
    refine ⟨s', rfl, h2, h3, h4, h5, ?_, ?_⟩
    · rw [h6]; decide
    · intro r2 t' h
      exact (hd (by simp)).2 1000 false (key_get 7 s') r2 t' (by simp [key_get]) h

theorem ctx_destroy_kr_core {H : Helpers} {c : Nat} {s s' : State}
    (h : ctx_destroy_kr H c s = some s') :
    (∀ x, (s'.ctxs x).core = (s.ctxs x).core) ∧
    (∀ x, (s'.ctxs x).cc_refcount = (s.ctxs x).cc_refcount) := by
  unfold ctx_destroy_kr at h
  simp only [ctx_clear_timer_kr] at h
  split at h
  · split at h <;> cases h <;>
      refine ⟨?_, ?_⟩ <;> intro x <;> by_cases hx : x = c <;> simp [hx, Ctx.core]
  · cases h

theorem ctx_put_kr_core {H : Helpers} {c : Nat} {sync : Int} {s s' : State}
    (h : ctx_put_kr H c sync s = some s') :
    ∀ x, (s'.ctxs x).core = (s.ctxs x).core := by
  unfold ctx_put_kr at h
  split at h
  · simp only [] at h
    split at h
    · unfold ctx_release_kr at h
      split at h
      · intro x
        rw [(ctx_destroy_kr_core h).1 x]
        by_cases hx : x = c <;> simp [State.ref_dec, hx, Ctx.core]
      · cases h
        intro x; by_cases hx : x = c <;> simp [State.ref_dec, State.ref_inc, hx, Ctx.core]
    · cases h
      intro x; by_cases hx : x = c <;> simp [State.ref_dec, hx, Ctx.core]
  · cases h

theorem ctx_put_kr_sync_refcount {H : Helpers} {c : Nat} {sync : Int} {s s' : State}
    (hs : sync ≠ 0) (h : ctx_put_kr H c sync s = some s') :
    0 < (s.ctxs c).cc_refcount ∧ (s'.ctxs c).cc_refcount = (s.ctxs c).cc_refcount - 1 := by
  unfold ctx_put_kr at h
  split at h
  · rename_i hpos
    refine ⟨hpos, ?_⟩
    simp only [] at h
    split at h
    · unfold ctx_release_kr at h
      rw [if_pos hs] at h
      rw [(ctx_destroy_kr_core h).2 c]
      simp [State.ref_dec]
    · cases h
      simp [State.ref_dec]
  · cases h

/-- What `unbind_key_ctx` leaves behind. -/
theorem unbind_key_ctx_post {H : Helpers} {k c : Nat} {s s' : State}
    (h : unbind_key_ctx H k c s = some s') :
    (s.keys k).payload = some c ∧ (s.ctxs c).cc_flags.CACHED = false ∧
    1 ≤ (s.ctxs c).cc_refcount ∧
    s'.gsk_clist = s.gsk_clist ∧ s'.gsk_root_ctx = s.gsk_root_ctx ∧
    (∀ x, x ≠ k → s'.keys x = s.keys x) ∧
    s'.keys k = { s.keys k with usage := (s.keys k).usage - 1, revoked := true, payload := none } ∧
    (∀ x, x ≠ c → s'.ctxs x = s.ctxs x) ∧
    (s'.ctxs c).core = { (s.ctxs c).core with gck_key := none } ∧
    (s'.ctxs c).cc_refcount = (s.ctxs c).cc_refcount - 1 := by
  unfold unbind_key_ctx at h
  split at h
  · rename_i hpre
    simp only [Option.map_eq_some'] at h
    obtain ⟨t, ht, rfl⟩ := h
    obtain ⟨h1, h2, h3, -, -, h6⟩ := ctx_put_kr_frame H ht
    have hcore := ctx_put_kr_core ht
    obtain ⟨hpos, href⟩ := ctx_put_kr_sync_refcount (by decide) ht
    refine ⟨hpre.1, hpre.2, ?_, ?_, ?_, ?_, ?_, ?_, ?_, ?_⟩
    · simpa [ctx_clear_timer_kr, key_set_payload, key_revoke_locked] using hpos
    · simp [key_put, h2, ctx_clear_timer_kr, key_set_payload, key_revoke_locked]
    · simp [key_put, h3, ctx_clear_timer_kr, key_set_payload, key_revoke_locked]
    · intro x hx
      simp [key_put, h1, ctx_clear_timer_kr, key_set_payload, key_revoke_locked, hx]
    · simp [key_put, h1, ctx_clear_timer_kr, key_set_payload, key_revoke_locked]
    · intro x hx
      rw [show (key_put k t).ctxs = t.ctxs from rfl, h6 x hx]
      simp [ctx_clear_timer_kr, key_set_payload, key_revoke_locked, hx]
    · rw [show (key_put k t).ctxs = t.ctxs from rfl, hcore c]
      simp [ctx_clear_timer_kr, key_set_payload, key_revoke_locked, Ctx.core]
    · rw [show (key_put k t).ctxs = t.ctxs from rfl, href]
      simp [ctx_clear_timer_kr, key_set_payload, key_revoke_locked]
  · cases h

theorem ctx_unlist_kr_not_cached {c : Nat} {s : State}
    (h : (s.ctxs c).cc_flags.CACHED = false) : ctx_unlist_kr c s = (false, s) := by
  simp [ctx_unlist_kr, h]

/-- What `ctx_unlist_kr` does to a context that carries the `CACHED` bit. -/
theorem ctx_unlist_kr_cached {c : Nat} {s : State} (h : (s.ctxs c).cc_flags.CACHED = true) :
    (ctx_unlist_kr c s).1 = true ∧
    (ctx_unlist_kr c s).2.keys = s.keys ∧
    (ctx_unlist_kr c s).2.trace = s.trace ∧
    (ctx_unlist_kr c s).2.gsk_clist = s.gsk_clist.filter (fun x => x != c) ∧
    (ctx_unlist_kr c s).2.gsk_root_ctx = (if s.gsk_root_ctx = some c then none else s.gsk_root_ctx) ∧
    (∀ x, x ≠ c → (ctx_unlist_kr c s).2.ctxs x = s.ctxs x) ∧
    (ctx_unlist_kr c s).2.ctxs c =
      { s.ctxs c with cc_flags := { (s.ctxs c).cc_flags with CACHED := false },
                      cc_refcount := (s.ctxs c).cc_refcount - 1 } := by
  unfold ctx_unlist_kr
  rw [if_neg (by simp [h])]
  refine ⟨rfl, ?_, ?_, ?_, ?_, ?_, ?_⟩
  · simp only [State.ref_dec, modCtx_keys]; split <;> rfl
  · simp only [State.ref_dec, modCtx_trace]; split <;> rfl
  · simp only [State.ref_dec, modCtx_gsk_clist]; split <;> rfl
  · simp only [State.ref_dec, modCtx_gsk_root_ctx]; split <;> simp_all
  · intro x hx
    simp only [State.ref_dec, modCtx_ctxs, hx, if_false]; split <;> simp [hx]
  · simp only [State.ref_dec, modCtx_ctxs, if_true]; split <;> simp

/-- What `unbind_ctx_kr` does to a context whose `gck_key` is `k`. -/
theorem unbind_ctx_kr_post {H : Helpers} {k c : Nat} {s s' : State}
    (hk : (s.ctxs c).gck_key = some k) (h : unbind_ctx_kr H c s = some s') :
    (s.keys k).payload = some c ∧ (s.ctxs c).cc_flags.CACHED = false ∧
    1 ≤ (s.ctxs c).cc_refcount ∧
    s'.gsk_clist = s.gsk_clist ∧ s'.gsk_root_ctx = s.gsk_root_ctx ∧
    (∀ x, x ≠ k → s'.keys x = s.keys x) ∧
    s'.keys k = { s.keys k with usage := (s.keys k).usage - 1, revoked := true, payload := none } ∧
    (∀ x, x ≠ c → s'.ctxs x = s.ctxs x) ∧
    (s'.ctxs c).core = { (s.ctxs c).core with gck_key := none } ∧
    (s'.ctxs c).cc_refcount = (s.ctxs c).cc_refcount - 1 := by
  unfold unbind_ctx_kr at h
  simp only [hk] at h
  split at h
  · rename_i hp
    simp only [Option.bind_eq_some, Option.map_eq_some'] at h
    obtain ⟨t, ⟨u, hu, rfl⟩, ht⟩ := h
    obtain ⟨-, h2, h3, h4, h5, h6, h7, h8, h9, h10⟩ := unbind_key_ctx_post hu
    unfold request_key_unlink at ht
    split at ht
    · cases ht
    · cases ht
      refine ⟨hp, h2, h3, ?_, ?_, ?_, ?_, ?_, ?_, ?_⟩
      · simp [key_put, h4, key_get]
      · simp [key_put, h5, key_get]
      · intro x hx; simp [key_put, hx, h6 x hx, key_get]
      · simp [key_put, h7, key_get]
      · intro x hx; simp [key_put, h8 x hx, key_get]
      · simpa [key_put, key_get] using h9
      · simpa [key_put, key_get] using h10
  · cases h

/-- What `kill_ctx_kr` does to a cached context bound to key `k`. -/
theorem kill_ctx_kr_bound {H : Helpers} {k c : Nat} {s s' : State}
    (hc : (s.ctxs c).cc_flags.CACHED = true) (hk : (s.ctxs c).gck_key = some k)
    (h : kill_ctx_kr H c s = some s') :
    (s.keys k).payload = some c ∧ 2 ≤ (s.ctxs c).cc_refcount ∧
    s'.gsk_clist = s.gsk_clist.filter (fun x => x != c) ∧
    s'.gsk_root_ctx = (if s.gsk_root_ctx = some c then none else s.gsk_root_ctx) ∧
    (∀ x, x ≠ k → s'.keys x = s.keys x) ∧
    s'.keys k = { s.keys k with usage := (s.keys k).usage - 1, revoked := true, payload := none } ∧
    (∀ x, x ≠ c → s'.ctxs x = s.ctxs x) ∧
    (s'.ctxs c).core =
      { (s.ctxs c).core with cc_flags := { (s.ctxs c).cc_flags with CACHED := false },
                             gck_key := none } ∧
    (s'.ctxs c).cc_refcount = (s.ctxs c).cc_refcount - 2 := by
  obtain ⟨u1, u2, -, u4, u5, u6, u7⟩ := ctx_unlist_kr_cached hc
  unfold kill_ctx_kr at h
  simp only [u1, if_true] at h
  have hk' : ((ctx_unlist_kr c s).2.ctxs c).gck_key = some k := by rw [u7]; exact hk
  obtain ⟨p1, -, p3, p4, p5, p6, p7, p8, p9, p10⟩ := unbind_ctx_kr_post hk' h
  rw [u7] at p3 p9 p10
  rw [u2] at p1 p7
  refine ⟨p1, ?_, ?_, ?_, ?_, p7, ?_, ?_, ?_⟩
  · simp only at p3; omega
  · rw [p4, u4]
  · rw [p5, u5]
  · intro x hx; rw [p6 x hx, u2]
  · intro x hx; rw [p8 x hx, u6 x hx]
  · rw [p9]; simp [Ctx.core]
  · rw [p10]; simp only; ring

theorem kill_ctx_kr_not_cached {H : Helpers} {c : Nat} {s : State}
    (hc : (s.ctxs c).cc_flags.CACHED = false) : kill_ctx_kr H c s = some s := by
  simp [kill_ctx_kr, ctx_unlist_kr_not_cached hc]

theorem refHelpers_framed (now : Int) : (refHelpers now).Framed := by
  constructor
  case refreshed_timer => intro c t; rfl
  all_goals (intro c; simp only [refHelpers]; repeat' split)
  all_goals simp

/-- Sufficient conditions for `kill_ctx_kr` to run to its end on a listed, bound context:
the key points back at the context, the context holds a reference beyond the list's and
the key's, and a keyring to unlink from is found. -/
theorem kill_ctx_kr_completes {H : Helpers} {k c : Nat} {s : State}
    (hc : (s.ctxs c).cc_flags.CACHED = true) (hk : (s.ctxs c).gck_key = some k)
    (hp : (s.keys k).payload = some c) (href : 3 ≤ (s.ctxs c).cc_refcount)
    (hring : H.request_key_ring ≠ none) : ∃ s', kill_ctx_kr H c s = some s' := by
  obtain ⟨u1, u2, -, -, -, -, u7⟩ := ctx_unlist_kr_cached hc
  obtain ⟨ring, hring'⟩ := Option.ne_none_iff_exists'.mp hring
  have hne : ¬ ((s.ctxs c).cc_refcount - 1 - 1 = 0) := by omega
  have hpos : 0 < (s.ctxs c).cc_refcount - 1 := by omega
  simp [kill_ctx_kr, u1, unbind_ctx_kr, u7, hk, key_get_payload, u2, hp, unbind_key_ctx, key_get,
    key_revoke_locked, key_set_payload, ctx_clear_timer_kr, ctx_put_kr, State.ref_dec, hne, hpos,
    request_key_unlink, hring']

/-- C3: `gss_cli_ctx_validate_kr` on a context holding a reference. If the death check
says alive, the call returns 0 when the context (as the check leaves it) is ready and 1
otherwise. If the death check says dead, every completed call returns 1, and a context that
was cached and bound to key `k` is then no longer cached nor in `gsk_clist`, its `gck_key` is
`NULL`, and the key has an empty payload and is revoked. So the result is 0 exactly when the
context is not dead and ready, and 1 in every other case. On the dead branch the call
completes when the key points back at the context, the context holds a reference beyond
the list's and the key's, and a keyring to unlink from is found. -/
theorem validate_kr_result (H : Helpers) (hH : H.Framed) (s : State) (c : Nat)
    (hpos : 0 < (s.ctxs c).cc_refcount) :
    ((H.cli_ctx_check_death (s.ctxs c)).1 = false →
      gss_cli_ctx_validate_kr H c s =
        some (if H.cli_ctx_is_ready (H.cli_ctx_check_death (s.ctxs c)).2 then 0 else 1,
              s.modCtx c fun _ => (H.cli_ctx_check_death (s.ctxs c)).2)) ∧
    (∀ r s', gss_cli_ctx_validate_kr H c s = some (r, s') →
      (r = 0 ↔ (H.cli_ctx_check_death (s.ctxs c)).1 = false ∧
               H.cli_ctx_is_ready (H.cli_ctx_check_death (s.ctxs c)).2 = true) ∧
      (r ≠ 0 → r = 1) ∧
      ((H.cli_ctx_check_death (s.ctxs c)).1 = true → ∀ k,
        (s.ctxs c).cc_flags.CACHED = true → (s.ctxs c).gck_key = some k →
        (s'.ctxs c).cc_flags.CACHED = false ∧ c ∉ s'.gsk_clist ∧ (s'.ctxs c).gck_key = none ∧
        (s'.keys k).payload = none ∧ (s'.keys k).revoked = true)) ∧
    ((H.cli_ctx_check_death (s.ctxs c)).1 = true → ∀ k,
      (s.ctxs c).cc_flags.CACHED = true → (s.ctxs c).gck_key = some k →
      (s.keys k).payload = some c → 3 ≤ (s.ctxs c).cc_refcount → H.request_key_ring ≠ none →
      (gss_cli_ctx_validate_kr H c s).isSome = true) := by
  refine ⟨?_, ?_, ?_⟩
  · intro hd
    simp only [gss_cli_ctx_validate_kr, if_pos hpos, hd, modCtx_ctxs, if_true]
    cases H.cli_ctx_is_ready (H.cli_ctx_check_death (s.ctxs c)).2 <;> simp
  · intro r s' hret
    simp only [gss_cli_ctx_validate_kr, if_pos hpos, modCtx_ctxs, if_true] at hret
    cases hd : (H.cli_ctx_check_death (s.ctxs c)).1 with
    | false =>
      simp only [hd] at hret
      cases hr : H.cli_ctx_is_ready (H.cli_ctx_check_death (s.ctxs c)).2 <;>
        simp [hr] at hret <;> obtain ⟨rfl, rfl⟩ := hret <;> simp
    | true =>
      simp only [hd, if_true, Option.map_eq_some'] at hret
      obtain ⟨t, ht, hrs⟩ := hret
      cases hrs
      refine ⟨by simp, by simp, ?_⟩
      intro _ k hc hk
      have hc' : (((s.modCtx c fun _ => (H.cli_ctx_check_death (s.ctxs c)).2).ctxs c)).cc_flags.CACHED
          = true := by simp [hH.death_cached, hc]
      have hk' : (((s.modCtx c fun _ => (H.cli_ctx_check_death (s.ctxs c)).2).ctxs c)).gck_key
          = some k := by simp [hH.death_key, hk]
      obtain ⟨-, -, q3, -, -, q6, -, q8, -⟩ := kill_ctx_kr_bound hc' hk' ht
      have hcore := congrArg Ctx.cc_flags q8
      have hkey := congrArg Ctx.gck_key q8
      simp only [Ctx.core] at hcore hkey
      refine ⟨by rw [hcore], ?_, hkey, by rw [q6], by rw [q6]⟩
      rw [q3]; simp
  · intro hd k hc hk hp href hring
    have hc' : (((s.modCtx c fun _ => (H.cli_ctx_check_death (s.ctxs c)).2).ctxs c)).cc_flags.CACHED
        = true := by simp [hH.death_cached, hc]
    have hk' : (((s.modCtx c fun _ => (H.cli_ctx_check_death (s.ctxs c)).2).ctxs c)).gck_key
        = some k := by simp [hH.death_key, hk]
    have href' : 3 ≤ (((s.modCtx c fun _ => (H.cli_ctx_check_death (s.ctxs c)).2).ctxs
        c)).cc_refcount := by simp [hH.death_refcount, href]
    obtain ⟨t, ht⟩ := kill_ctx_kr_completes hc' hk' (by simpa using hp) href' hring
    simp [gss_cli_ctx_validate_kr, hpos, hd, ht]

/-- Worked example for C3: at time 300 the listed, bound context of `demoBound` (expiry
200) is dead; validation returns 1 and tears the binding down. -/
theorem validate_kr_result_witness :
    (refHelpers 300).Framed ∧ 0 < (demoBound.ctxs 1).cc_refcount ∧
    ∃ s', gss_cli_ctx_validate_kr (refHelpers 300) 1 demoBound = some (1, s') ∧
      (s'.ctxs 1).cc_flags.CACHED = false ∧ 1 ∉ s'.gsk_clist ∧ (s'.ctxs 1).gck_key = none ∧
      (s'.keys 7).payload = none ∧ (s'.keys 7).revoked = true := by
  have hpos : 0 < (demoBound.ctxs 1).cc_refcount := by decide
  have hsome := (validate_kr_result (refHelpers 300) (refHelpers_framed 300) demoBound 1 hpos).2.2
    (by decide) 7 (by decide) (by decide) (by decide) (by decide) (by decide)
  refine ⟨refHelpers_framed 300, hpos, ?_⟩
  cases hret : gss_cli_ctx_validate_kr (refHelpers 300) 1 demoBound with
  | none => rw [hret] at hsome; cases hsome
  | some rs =>
    obtain ⟨r, s'⟩ := rs
    obtain ⟨h0, h1, h2⟩ :=
      (validate_kr_result (refHelpers 300) (refHelpers_framed 300) demoBound 1 hpos).2.1 r s' hret
    have hr : r = 1 := h1 (fun h => by
      have := (h0.1 h).1
      revert this; decide)
    subst hr
    exact ⟨s', rfl, h2 (by decide) 7 (by decide) (by decide)⟩

/-- C4: `gss_cli_ctx_die_kr` on a context holding a reference. On a cached context bound
to key `k`, every completed call leaves the context as `cli_ctx_expire` made it except that
it is no longer cached nor in `gsk_clist`, its `gck_key` is `NULL`, it holds two references
fewer and its timer is cancelled, and leaves the key with an empty payload and revoked;
the call completes when the key points back at the context, the context holds a reference
beyond the list's and the key's, and a keyring to unlink from is found. The outcome does
not depend on `grace`. On a context without the `CACHED` bit the call only applies
`cli_ctx_expire`: no key and no `gck_key` changes. -/
theorem die_kr_post (H : Helpers) (hH : H.Framed) (s : State) (c : Nat)
    (hpos : 0 < (s.ctxs c).cc_refcount) :
    (∀ k grace s', (s.ctxs c).cc_flags.CACHED = true → (s.ctxs c).gck_key = some k →
      gss_cli_ctx_die_kr H c grace s = some s' →
      (s'.ctxs c).core =
        { (H.cli_ctx_expire (s.ctxs c)).core with
          cc_flags := { (H.cli_ctx_expire (s.ctxs c)).cc_flags with CACHED := false },
          gck_key := none } ∧
      (s'.ctxs c).cc_refcount = (s.ctxs c).cc_refcount - 2 ∧
      (s'.ctxs c).cc_flags.CACHED = false ∧ c ∉ s'.gsk_clist ∧ (s'.ctxs c).gck_key = none ∧
      (s'.keys k).payload = none ∧ (s'.keys k).revoked = true) ∧
    (∀ k grace, (s.ctxs c).cc_flags.CACHED = true → (s.ctxs c).gck_key = some k →
      (s.keys k).payload = some c → 3 ≤ (s.ctxs c).cc_refcount → H.request_key_ring ≠ none →
      (gss_cli_ctx_die_kr H c grace s).isSome = true) ∧
    (∀ g1 g2, gss_cli_ctx_die_kr H c g1 s = gss_cli_ctx_die_kr H c g2 s) ∧
    ((s.ctxs c).cc_flags.CACHED = false → ∀ grace,
      gss_cli_ctx_die_kr H c grace s = some (s.modCtx c H.cli_ctx_expire) ∧
      (s.modCtx c H.cli_ctx_expire).keys = s.keys ∧
      ((s.modCtx c H.cli_ctx_expire).ctxs c).gck_key = (s.ctxs c).gck_key) := by
  refine ⟨?_, ?_, fun _ _ => rfl, ?_⟩
  · intro k grace s' hc hk hret
    simp only [gss_cli_ctx_die_kr, if_pos hpos] at hret
    have hc' : ((s.modCtx c H.cli_ctx_expire).ctxs c).cc_flags.CACHED = true := by
      simp [hH.expire_cached, hc]
    have hk' : ((s.modCtx c H.cli_ctx_expire).ctxs c).gck_key = some k := by
      simp [hH.expire_key, hk]
    obtain ⟨-, -, q3, -, -, q6, -, q8, q9⟩ := kill_ctx_kr_bound hc' hk' hret
    have hflags := congrArg Ctx.cc_flags q8
    have hkey := congrArg Ctx.gck_key q8
    simp only [Ctx.core] at hflags hkey
    refine ⟨?_, ?_, by rw [hflags], ?_, hkey, by rw [q6], by rw [q6]⟩
    · rw [q8]; simp
    · rw [q9]; simp [hH.expire_refcount]
    · rw [q3]; simp
  · intro k grace hc hk hp href hring
    have hc' : ((s.modCtx c H.cli_ctx_expire).ctxs c).cc_flags.CACHED = true := by
      simp [hH.expire_cached, hc]
    have hk' : ((s.modCtx c H.cli_ctx_expire).ctxs c).gck_key = some k := by
      simp [hH.expire_key, hk]
    have href' : 3 ≤ ((s.modCtx c H.cli_ctx_expire).ctxs c).cc_refcount := by
      simp [hH.expire_refcount, href]
    obtain ⟨t, ht⟩ := kill_ctx_kr_completes hc' hk' (by simpa using hp) href' hring
    simp [gss_cli_ctx_die_kr, hpos, ht]
  · intro hc grace
    have hc' : ((s.modCtx c H.cli_ctx_expire).ctxs c).cc_flags.CACHED = false := by
      simp [hH.expire_cached, hc]
    refine ⟨?_, rfl, ?_⟩
    · simp only [gss_cli_ctx_die_kr, if_pos hpos]
      exact kill_ctx_kr_not_cached hc'
    · simp [hH.expire_key]

/-- Worked example for C4: killing the listed, bound context of `demoBound`. -/
theorem die_kr_post_witness :
    (refHelpers 100).Framed ∧ 0 < (demoBound.ctxs 1).cc_refcount ∧
    ∃ s', gss_cli_ctx_die_kr (refHelpers 100) 1 0 demoBound = some s' ∧
      (s'.ctxs 1).cc_flags.DEAD = true ∧ (s'.ctxs 1).cc_refcount = 1 ∧
      (s'.ctxs 1).cc_flags.CACHED = false ∧ 1 ∉ s'.gsk_clist ∧ (s'.ctxs 1).gck_key = none ∧
      (s'.keys 7).payload = none ∧ (s'.keys 7).revoked = true := by
  have hpos : 0 < (demoBound.ctxs 1).cc_refcount := by decide
  have hsome := (die_kr_post (refHelpers 100) (refHelpers_framed 100) demoBound 1 hpos).2.1
    7 0 (by decide) (by decide) (by decide) (by decide) (by decide)
  refine ⟨refHelpers_framed 100, hpos, ?_⟩
  cases hret : gss_cli_ctx_die_kr (refHelpers 100) 1 0 demoBound with
  | none => rw [hret] at hsome; cases hsome
  | some s' =>
    obtain ⟨h1, h2, h3⟩ :=
      (die_kr_post (refHelpers 100) (refHelpers_framed 100) demoBound 1 hpos).1 7 0 s'
        (by decide) (by decide) hret
    refine ⟨s', rfl, ?_, ?_, h3⟩
    · have := congrArg (fun x => x.cc_flags.DEAD) h1
      simp only [Ctx.core] at this
      rw [this]; decide
    · rw [h2]; decide

theorem modCtx_modCtx (s : State) (c : Nat) (f g : Ctx → Ctx) :
    (s.modCtx c f).modCtx c g = s.modCtx c (fun x => g (f x)) := by
  simp [State.modCtx]

theorem ctx_put_kr_n_append (H : Helpers) (c : Nat) (l1 l2 : List Int) (s : State) :
    ctx_put_kr_n H c (l1 ++ l2) s = (ctx_put_kr_n H c l1 s).bind (ctx_put_kr_n H c l2) := by
  induction l1 generalizing s with
  | nil => simp [ctx_put_kr_n]
  | cons a l ih =>
    simp only [List.cons_append, ctx_put_kr_n]
    cases h : ctx_put_kr H c a s with
    | none => simp
    | some t => simp [ih]

/-- While references remain, each `ctx_put_kr` only decrements the count. -/
theorem ctx_put_kr_n_dec (H : Helpers) (c : Nat) (syncs : List Int) (s : State)
    (h : (syncs.length : Int) < (s.ctxs c).cc_refcount) :
    ctx_put_kr_n H c syncs s =
      some (s.modCtx c fun x => { x with cc_refcount := x.cc_refcount - syncs.length }) := by
  induction syncs generalizing s with
  | nil =>
    simp only [ctx_put_kr_n, List.length_nil, Nat.cast_zero, sub_zero]
    congr 1
    simp [State.modCtx]
  | cons a l ih =>
    simp only [List.length_cons, Nat.cast_add, Nat.cast_one] at h
    have hpos : 0 < (s.ctxs c).cc_refcount := by omega
    have hne : ¬ (((s.ref_dec c).ctxs c).cc_refcount = 0) := by
      simp [State.ref_dec]; omega
    have hstep : ctx_put_kr H c a s = some (s.ref_dec c) := by
      simp only [ctx_put_kr, if_pos hpos, if_neg hne]
    have hlt : (l.length : Int) < ((s.ref_dec c).ctxs c).cc_refcount := by
      simp [State.ref_dec]; omega
    simp only [ctx_put_kr_n, hstep, Option.some_bind, ih _ hlt]
    congr 1
    simp only [State.ref_dec, modCtx_modCtx, List.length_cons, Nat.cast_add, Nat.cast_one]
    congr 1
    funext x
    congr 1
    ring

theorem ctx_destroy_kr_trace {H : Helpers} {c : Nat} {s s' : State}
    (h : ctx_destroy_kr H c s = some s') :
    s'.trace.count (Event.destroy c) = s.trace.count (Event.destroy c) + 1 ∧
    s'.trace.count (Event.gc_add c) = s.trace.count (Event.gc_add c) := by
  unfold ctx_destroy_kr at h
  simp only [ctx_clear_timer_kr] at h
  split at h
  · split at h <;> cases h <;> simp [List.count_cons]
  · cases h

/-- C5: `N` successive `ctx_put_kr` calls on an unlisted, unbound context holding `N`
references (`N ≥ 1` as soon as there is an `N`-th call). Any number of calls below `N` only decrements the count, which stays positive.
The `N`-th call brings the count to zero and releases once: with a non-zero `sync` it is
`ctx_destroy_kr` on the context at count zero, so a completed run has entered
`ctx_destroy_kr` exactly once more, queued nothing, and runs to completion on a live sec;
with `sync = 0` the count is taken back to one and the context is handed to
`sptlrpc_gc_add_ctx` once, without `ctx_destroy_kr`. -/
theorem put_kr_n_times (H : Helpers) (s : State) (c N : Nat)
    (href : (s.ctxs c).cc_refcount = N) (hunl : (s.ctxs c).cc_flags.CACHED = false)
    (hunb : (s.ctxs c).gck_key = none) :
    (∀ syncs : List Int, syncs.length < N →
      ctx_put_kr_n H c syncs s =
        some (s.modCtx c fun x => { x with cc_refcount := (N : Int) - syncs.length }) ∧
      0 < (N : Int) - syncs.length) ∧
    (∀ (syncs : List Int) (sync : Int), syncs.length + 1 = N → sync ≠ 0 →
      ctx_put_kr_n H c (syncs ++ [sync]) s =
        ctx_destroy_kr H c (s.modCtx c fun x => { x with cc_refcount := 0 }) ∧
      (∀ s', ctx_put_kr_n H c (syncs ++ [sync]) s = some s' →
        s'.trace.count (Event.destroy c) = s.trace.count (Event.destroy c) + 1 ∧
        s'.trace.count (Event.gc_add c) = s.trace.count (Event.gc_add c) ∧
        (s'.ctxs c).cc_refcount = 0) ∧
      (0 < s.ps_refcount → 0 < s.ps_nctx →
        (ctx_put_kr_n H c (syncs ++ [sync]) s).isSome = true)) ∧
    (∀ syncs : List Int, syncs.length + 1 = N →
      ctx_put_kr_n H c (syncs ++ [0]) s =
        some ((s.modCtx c fun x => { x with cc_refcount := 1 }).log (Event.gc_add c))) := by
  have hdec : ∀ syncs : List Int, syncs.length < N →
      ctx_put_kr_n H c syncs s =
        some (s.modCtx c fun x => { x with cc_refcount := (N : Int) - syncs.length }) := by
    intro syncs hlt
    have h := ctx_put_kr_n_dec H c syncs s (by rw [href]; exact_mod_cast hlt)
    rw [h]
    congr 1
    simp only [State.modCtx, href]
  have hlast : ∀ (syncs : List Int) (sync : Int), syncs.length + 1 = N →
      ctx_put_kr_n H c (syncs ++ [sync]) s =
        ctx_release_kr H c sync (s.modCtx c fun x => { x with cc_refcount := 0 }) := by
    intro syncs sync hlen
    have hN' : (N : Int) - syncs.length = 1 := by
      have : (N : Int) = syncs.length + 1 := by exact_mod_cast hlen.symm
      omega
    rw [ctx_put_kr_n_append, hdec syncs (by omega), hN']
    simp only [Option.some_bind, ctx_put_kr_n, Option.bind_some]
    simp only [ctx_put_kr, modCtx_ctxs, if_true, State.ref_dec, modCtx_modCtx]
    simp
  refine ⟨?_, ?_, ?_⟩
  · intro syncs hlt
    refine ⟨hdec syncs hlt, ?_⟩
    have : (syncs.length : Int) < N := by exact_mod_cast hlt
    omega
  · intro syncs sync hlen hsync
    have heq := hlast syncs sync hlen
    simp only [ctx_release_kr, if_pos hsync] at heq
    refine ⟨heq, ?_, ?_⟩
    · intro s' hs'
      rw [heq] at hs'
      obtain ⟨h1, h2⟩ := ctx_destroy_kr_trace hs'
      refine ⟨by simpa using h1, by simpa using h2, ?_⟩
      rw [(ctx_destroy_kr_core hs').2 c]
      simp
    · intro h1 h2
      rw [heq]
      simp only [ctx_destroy_kr, log_ps_refcount, modCtx_ps_refcount, log_ps_nctx, modCtx_ps_nctx,
        log_ctxs, modCtx_ctxs, if_true, hunl, hunb, h1, h2, and_self]
      split <;> rfl
  · intro syncs hlen
    have heq := hlast syncs 0 hlen
    simp only [ctx_release_kr, ne_eq, not_true_eq_false, if_false] at heq
    rw [heq]
    simp only [State.ref_inc, modCtx_modCtx]
    simp

/-- Worked example for C5: three references dropped one by one. -/
theorem put_kr_n_times_witness :
    (demoHeld.ctxs 1).cc_refcount = ((3 : Nat) : Int) ∧
    ((ctx_put_kr_n (refHelpers 100) 1 [1, 0] demoHeld).map fun t => (t.ctxs 1).cc_refcount) =
      some 1 ∧
    ((ctx_put_kr_n (refHelpers 100) 1 [1, 0, 1] demoHeld).map fun t => t.trace) =
      some [Event.free 1, Event.destroy 1] ∧
    ((ctx_put_kr_n (refHelpers 100) 1 [1, 1, 0] demoHeld).map fun t =>
      (t.trace, (t.ctxs 1).cc_refcount)) = some ([Event.gc_add 1], 1) := by
  have h := put_kr_n_times (refHelpers 100) demoHeld 1 3 (by decide) (by decide) (by decide)
  refine ⟨by decide, ?_, ?_, ?_⟩
  · rw [(h.1 [1, 0] (by decide)).1]; decide
  · have e := (h.2.1 [1, 0] 1 (by decide) (by decide)).1
    simp only [List.cons_append, List.nil_append] at e
    rw [e]; decide
  · have e := h.2.2 [1, 1] (by decide)
    simp only [List.cons_append, List.nil_append] at e
    rw [e]; decide

/-- C6: `gss_kt_update` with a non-`NULL` payload of non-zero 32-bit length (every
non-empty payload shorter than `2 ^ 32` bytes) on a key whose bound context is already
refreshed. Every completed call returns 0 and only cancels the upcall timer: the
context keeps its window, handle, mechanism context, flags, expiry, reference count and
key pointer, and no other context, no key, neither the list nor the root pointer
changes. The call completes when the context holds a reference. -/
theorem kt_update_refreshed (H : Helpers) (hH : H.Framed) (s : State) (k c : Nat)
    (d : List Nat) (datalen : Nat) (hp : (s.keys k).payload = some c)
    (href : H.cli_ctx_is_refreshed (s.ctxs c) = true) (hlen : datalen % 2 ^ 32 ≠ 0) :
    (∀ r s', gss_kt_update H k (some d) datalen s = some (r, s') →
      r = 0 ∧ s' = ctx_clear_timer_kr c s ∧
      (s'.ctxs c).core = (s.ctxs c).core ∧
      (s'.ctxs c).gc_win = (s.ctxs c).gc_win ∧
      (s'.ctxs c).cc_refcount = (s.ctxs c).cc_refcount ∧
      (s'.ctxs c).gck_timer = none ∧
      (∀ x, x ≠ c → s'.ctxs x = s.ctxs x) ∧
      s'.keys = s.keys ∧ s'.gsk_clist = s.gsk_clist ∧ s'.gsk_root_ctx = s.gsk_root_ctx ∧
      s'.trace = s.trace) ∧
    (0 < (s.ctxs c).cc_refcount →
      gss_kt_update H k (some d) datalen s = some (0, ctx_clear_timer_kr c s)) ∧
    (0 < datalen → datalen < 2 ^ 32 → datalen % 2 ^ 32 ≠ 0) := by
  have hr : H.cli_ctx_is_refreshed ((ctx_clear_timer_kr c s).ctxs c) = true := by
    simp only [ctx_clear_timer_kr, modCtx_ctxs, if_true]
    rw [hH.refreshed_timer]; exact href
  have hval : gss_kt_update H k (some d) datalen s =
      if 0 < (s.ctxs c).cc_refcount then some (0, ctx_clear_timer_kr c s) else none := by
    simp only [gss_kt_update, hlen, if_false, key_get_payload, hp, hr, if_true]
  refine ⟨?_, ?_, ?_⟩
  · intro r s' h
    rw [hval] at h
    split at h
    · simp only [Option.some.injEq, Prod.mk.injEq] at h
      obtain ⟨rfl, rfl⟩ := h
      refine ⟨rfl, rfl, ?_, ?_, ?_, ?_, ?_, rfl, rfl, rfl, rfl⟩
      · simp [ctx_clear_timer_kr, Ctx.core]
      · simp [ctx_clear_timer_kr]
      · simp [ctx_clear_timer_kr]
      · simp [ctx_clear_timer_kr]
      · intro x hx; simp [ctx_clear_timer_kr, hx]
    · cases h
  · intro hpos
    rw [hval, if_pos hpos]
  · intro h0 h1
    rw [Nat.mod_eq_of_lt h1]
    omega

/-- Worked example for C6: a 12-byte payload delivered to the established context of
`demoEstablished` returns 0 and leaves the sequence window at 128. -/
theorem kt_update_refreshed_witness :
    (refHelpers 100).Framed ∧ (demoEstablished.keys 7).payload = some 1 ∧
    0 < (demoEstablished.ctxs 1).cc_refcount ∧
    (refHelpers 100).cli_ctx_is_refreshed (demoEstablished.ctxs 1) = true ∧
    ∃ s', gss_kt_update (refHelpers 100) 7 (some [64, 0, 0, 0, 0, 0, 0, 0, 0, 0, 0, 0]) 12
        demoEstablished = some (0, s') ∧
      (s'.ctxs 1).gc_win = 128 ∧ (s'.ctxs 1).cc_refcount = 3 := by
  have h := kt_update_refreshed (refHelpers 100) (refHelpers_framed 100) demoEstablished 7 1
    [64, 0, 0, 0, 0, 0, 0, 0, 0, 0, 0, 0] 12 (by decide) (by decide) (by decide)
  have hrun := h.2.1 (by decide)
  obtain ⟨-, -, -, hwin, hrefc, -⟩ := h.1 0 _ hrun
  refine ⟨refHelpers_framed 100, by decide, by decide, by decide,
    ctx_clear_timer_kr 1 demoEstablished, hrun, ?_, ?_⟩
  · rw [hwin]; decide
  · rw [hrefc]; decide

/-- The length test of `gss_kt_update`: a payload whose 32-bit length is 0 is answered
`-EINVAL` before the key is looked at, and nothing changes. -/
theorem kt_update_zero_length (H : Helpers) (k : Nat) (d : List Nat) (datalen : Nat)
    (s : State) (h : datalen % 2 ^ 32 = 0) :
    gss_kt_update H k (some d) datalen s = some (-EINVAL, s) := by
  simp only [gss_kt_update, h, if_true]

/-- What `kill_key_locked` does when the payload of `k` is a cached context `c`. -/
theorem kill_key_locked_bound {H : Helpers} {k c : Nat} {s s' : State}
    (hp : (s.keys k).payload = some c) (hc : (s.ctxs c).cc_flags.CACHED = true)
    (h : kill_key_locked H k s = some s') :
    2 ≤ (s.ctxs c).cc_refcount ∧
    s'.gsk_clist = s.gsk_clist.filter (fun x => x != c) ∧
    s'.gsk_root_ctx = (if s.gsk_root_ctx = some c then none else s.gsk_root_ctx) ∧
    (∀ x, x ≠ k → s'.keys x = s.keys x) ∧
    s'.keys k = { s.keys k with usage := (s.keys k).usage - 1, revoked := true, payload := none } ∧
    (∀ x, x ≠ c → s'.ctxs x = s.ctxs x) ∧
    (s'.ctxs c).core =
      { (s.ctxs c).core with cc_flags := { (s.ctxs c).cc_flags with CACHED := false },
                             gck_key := none } ∧
    (s'.ctxs c).cc_refcount = (s.ctxs c).cc_refcount - 2 := by
  obtain ⟨u1, u2, -, u4, u5, u6, u7⟩ := ctx_unlist_kr_cached hc
  unfold kill_key_locked at h
  simp only [key_get_payload, hp, u1, if_true, unbind_key_locked, u2] at h
  obtain ⟨-, -, p3, p4, p5, p6, p7, p8, p9, p10⟩ := unbind_key_ctx_post h
  rw [u7] at p3 p9 p10
  rw [u2] at p7
  refine ⟨?_, ?_, ?_, ?_, p7, ?_, ?_, ?_⟩
  · simp only at p3; omega
  · rw [p4, u4]
  · rw [p5, u5]
  · intro x hx; rw [p6 x hx, u2]
  · intro x hx; rw [p8 x hx, u6 x hx]
  · rw [p9]; simp [Ctx.core]
  · rw [p10]; simp only; ring

/-- What the final `sptlrpc_cli_ctx_put(ctx, 1)` changes. -/
theorem sptlrpc_cli_ctx_put_post {H : Helpers} {c : Nat} {s s' : State}
    (h : sptlrpc_cli_ctx_put H c 1 s = some s') :
    s'.keys = s.keys ∧ s'.gsk_clist = s.gsk_clist ∧ s'.gsk_root_ctx = s.gsk_root_ctx ∧
    (∀ x, x ≠ c → s'.ctxs x = s.ctxs x) ∧ (s'.ctxs c).core = (s.ctxs c).core ∧
    (s'.ctxs c).cc_refcount = (s.ctxs c).cc_refcount - 1 := by
  unfold sptlrpc_cli_ctx_put at h
  simp only at h
  split at h
  · unfold gss_sec_release_ctx_kr at h
    split at h
    · simp only [ctx_release_kr, ne_eq, one_ne_zero, not_false_eq_true, if_true] at h
      obtain ⟨h1, h2, h3, -, -, -, h7⟩ := ctx_destroy_kr_frame H h
      obtain ⟨h8, h9⟩ := ctx_destroy_kr_core h
      refine ⟨h1, h2, h3, ?_, ?_, ?_⟩
      · intro x hx; rw [h7 x hx]; simp [State.ref_dec, hx]
      · rw [h8]; simp [State.ref_dec, Ctx.core]
      · rw [h9]; simp [State.ref_dec]
    · cases h
  · cases h
    refine ⟨rfl, rfl, rfl, ?_, ?_, ?_⟩
    · intro x hx; simp [State.ref_dec, hx]
    · simp [State.ref_dec, Ctx.core]
    · simp [State.ref_dec]

/-- The value of `rc` at the label `out` for a failure payload: window 0, then the two
error words. -/
theorem kt_update_parse_failure {H : Helpers} {c : Nat} {b b1 b2 b3 : Buf} {rpc gss : Nat}
    {s : State} (h1 : H.buffer_extract_u32 b = (0, 0, b1))
    (h2 : H.buffer_extract_u32 b1 = (0, rpc, b2)) (h3 : H.buffer_extract_u32 b2 = (0, gss, b3)) :
    kt_update_parse H c b s =
      (if rpc ≠ 0 then toInt32 rpc else -EACCES, s.modCtx c fun x => { x with gc_win := 0 }) := by
  simp [kt_update_parse, h1, h2, h3]

theorem toInt32_ne_zero {n : Nat} (h0 : n ≠ 0) (hlt : n < 2 ^ 32) : toInt32 n ≠ 0 := by
  unfold toInt32
  rw [Nat.mod_eq_of_lt hlt]
  split
  · exact_mod_cast h0
  · have : ((n : Nat) : Int) < 2 ^ 32 := by exact_mod_cast hlt
    omega

theorem Ctx.eq_of_core {a b : Ctx} (h : a.core = b.core) (hr : a.cc_refcount = b.cc_refcount)
    (ht : a.gck_timer = b.gck_timer) : a = b := by
  cases a; cases b
  simp only [Ctx.core, Ctx.mk.injEq] at h
  simp only at hr ht
  simp only [Ctx.mk.injEq]
  tauto

theorem ctx_put_kr_timer {H : Helpers} {c : Nat} {sync : Int} {s s' : State}
    (h : ctx_put_kr H c sync s = some s') (ht : (s.ctxs c).gck_timer = none) :
    (s'.ctxs c).gck_timer = none := by
  unfold ctx_put_kr at h
  split at h
  · simp only [] at h
    split at h
    · unfold ctx_release_kr at h
      split at h
      · unfold ctx_destroy_kr at h
        simp only [ctx_clear_timer_kr] at h
        split at h
        · split at h <;> cases h <;> simp
        · cases h
      · cases h; simp [State.ref_dec, State.ref_inc, ht]
    · cases h; simp [State.ref_dec, ht]
  · cases h

theorem unbind_key_ctx_timer {H : Helpers} {k c : Nat} {s s' : State}
    (h : unbind_key_ctx H k c s = some s') : (s'.ctxs c).gck_timer = none := by
  unfold unbind_key_ctx at h
  split at h
  · simp only [Option.map_eq_some'] at h
    obtain ⟨t, ht, rfl⟩ := h
    rw [show (key_put k t).ctxs = t.ctxs from rfl]
    exact ctx_put_kr_timer ht (by simp [ctx_clear_timer_kr])
  · cases h

theorem kill_key_locked_timer {H : Helpers} {k c : Nat} {s s' : State}
    (hp : (s.keys k).payload = some c) (hc : (s.ctxs c).cc_flags.CACHED = true)
    (h : kill_key_locked H k s = some s') : (s'.ctxs c).gck_timer = none := by
  obtain ⟨u1, u2, -⟩ := ctx_unlist_kr_cached hc
  unfold kill_key_locked at h
  simp only [key_get_payload, hp, u1, if_true, unbind_key_locked, u2] at h
  exact unbind_key_ctx_timer h

/-- Sufficient conditions for `kill_key_locked` to run to its end: the payload is a
cached context that holds a reference beyond the list's and the key's. -/
theorem kill_key_locked_completes {H : Helpers} {k c : Nat} {s : State}
    (hp : (s.keys k).payload = some c) (hc : (s.ctxs c).cc_flags.CACHED = true)
    (href : 3 ≤ (s.ctxs c).cc_refcount) : ∃ s', kill_key_locked H k s = some s' := by
  obtain ⟨u1, u2, -, -, -, -, u7⟩ := ctx_unlist_kr_cached hc
  have hne : ¬ ((s.ctxs c).cc_refcount - 1 - 1 = 0) := by omega
  have hpos : 0 < (s.ctxs c).cc_refcount - 1 := by omega
  simp [kill_key_locked, key_get_payload, hp, u1, unbind_key_locked, u2, unbind_key_ctx, u7,
    key_revoke_locked, key_set_payload, ctx_clear_timer_kr, ctx_put_kr, State.ref_dec, hne, hpos]

/-- C7: failure delivery through `gss_kt_update`. The key `k` holds the cached,
not-yet-refreshed context `c`; the payload is read as window 0, then `rpc_error`, then
`gss_error`. With `rc` the effective code (`rpc_error` as an `int` when non-zero, else
`-EACCES`), every completed call returns 0 and leaves the context exactly as
`cli_ctx_expire` makes the killed context (window 0, timer off, `CACHED` clear, `gck_key`
`NULL`), with `ERROR` set on top when `rc ≠ -ERESTART` and not otherwise, and with two
references fewer; `gss_cli_ctx_uptodate` is not applied. The context is out of `gsk_clist`
and the key has an empty payload and is revoked. The call completes whenever the context
holds a reference beyond the list's and the key's. -/
theorem kt_update_failure (H : Helpers) (hH : H.Framed) (s : State) (k c : Nat)
    (d : List Nat) (datalen rpc gss : Nat) (b1 b2 b3 : Buf)
    (hp : (s.keys k).payload = some c) (hc : (s.ctxs c).cc_flags.CACHED = true)
    (href : H.cli_ctx_is_refreshed (s.ctxs c) = false) (hlen : datalen % 2 ^ 32 ≠ 0)
    (h1 : H.buffer_extract_u32 { data := d, len := datalen % 2 ^ 32 } = (0, 0, b1))
    (h2 : H.buffer_extract_u32 b1 = (0, rpc, b2)) (h3 : H.buffer_extract_u32 b2 = (0, gss, b3))
    (hrpc : rpc < 2 ^ 32) :
    (∀ r s', gss_kt_update H k (some d) datalen s = some (r, s') →
      r = 0 ∧
      (s'.ctxs c).core =
        (let killed : Ctx :=
           { s.ctxs c with gc_win := 0, gck_timer := none, gck_key := none,
                           cc_flags := { (s.ctxs c).cc_flags with CACHED := false },
                           cc_refcount := (s.ctxs c).cc_refcount - 1 }
         let expired := H.cli_ctx_expire killed
         if (if rpc ≠ 0 then toInt32 rpc else -EACCES) ≠ -ERESTART then
           { expired with cc_flags := { expired.cc_flags with ERROR := true } }
         else expired).core ∧
      (s'.ctxs c).cc_refcount = (s.ctxs c).cc_refcount - 2 ∧
      (s'.ctxs c).cc_flags.CACHED = false ∧ c ∉ s'.gsk_clist ∧ (s'.ctxs c).gck_key = none ∧
      (s'.keys k).payload = none ∧ (s'.keys k).revoked = true) ∧
    (3 ≤ (s.ctxs c).cc_refcount → (gss_kt_update H k (some d) datalen s).isSome = true) := by
  have hr : H.cli_ctx_is_refreshed ((ctx_clear_timer_kr c s).ctxs c) = false := by
    simp only [ctx_clear_timer_kr, modCtx_ctxs, if_true]
    rw [hH.refreshed_timer]; exact href
  have hrc : (if rpc ≠ 0 then toInt32 rpc else -EACCES) ≠ 0 := by
    split
    · rename_i h0; exact toInt32_ne_zero h0 hrpc
    · simp [EACCES]
  set rc : Int := if rpc ≠ 0 then toInt32 rpc else -EACCES with hrcdef
  -- the state at the label `out`
  set t0 : State := (sptlrpc_cli_ctx_get c (ctx_clear_timer_kr c s)).modCtx c
    fun x => { x with gc_win := 0 } with ht0
  have hpt0 : (t0.keys k).payload = some c := by
    simp [ht0, sptlrpc_cli_ctx_get, State.ref_inc, ctx_clear_timer_kr, hp]
  have hct0 : (t0.ctxs c).cc_flags.CACHED = true := by
    simp [ht0, sptlrpc_cli_ctx_get, State.ref_inc, ctx_clear_timer_kr, hc]
  have hctx0 : t0.ctxs c =
      { s.ctxs c with gc_win := 0, gck_timer := none,
                      cc_refcount := (s.ctxs c).cc_refcount + 1 } := by
    simp [ht0, sptlrpc_cli_ctx_get, State.ref_inc, ctx_clear_timer_kr]
  have hlist0 : t0.gsk_clist = s.gsk_clist := rfl
  have hkeys0 : t0.keys = s.keys := rfl
  have hupd : ∀ pos : 0 < (s.ctxs c).cc_refcount,
      gss_kt_update H k (some d) datalen s =
        (kt_update_out H k c rc t0).map fun t => (0, t) := by
    intro pos
    simp only [gss_kt_update, hlen, if_false, key_get_payload, hp, if_pos pos, hr,
      kt_update_parse_failure h1 h2 h3, Bool.false_eq_true]
  refine ⟨?_, ?_⟩
  · intro r s' hret
    have pos : 0 < (s.ctxs c).cc_refcount := by
      by_contra hn
      simp only [gss_kt_update, hlen, if_false, key_get_payload, hp, if_neg hn] at hret
      cases hret
    rw [hupd pos] at hret
    simp only [Option.map_eq_some', Prod.mk.injEq] at hret
    obtain ⟨t, ht, rfl, rfl⟩ := hret
    simp only [kt_update_out, if_neg hrc, Option.bind_eq_some, Option.map_eq_some'] at ht
    obtain ⟨u, ⟨v, hv, rfl⟩, hput⟩ := ht
    obtain ⟨-, q2, -, -, q5, -, q7, q8⟩ := kill_key_locked_bound hpt0 hct0 hv
    have q9 := kill_key_locked_timer hpt0 hct0 hv
    obtain ⟨p1, p2, -, -, p5, p6⟩ := sptlrpc_cli_ctx_put_post hput
    rw [hctx0] at q7 q8
    simp only at q8
    have hv_ctx : v.ctxs c =
        { s.ctxs c with gc_win := 0, gck_timer := none, gck_key := none,
                        cc_flags := { (s.ctxs c).cc_flags with CACHED := false },
                        cc_refcount := (s.ctxs c).cc_refcount - 1 } := by
      apply Ctx.eq_of_core
      · rw [q7]; simp [Ctx.core]
      · rw [q8]; simp only; ring
      · rw [q9]
    -- the context once expired and flagged
    have hu_ctx : ∀ u' : State, u' = (if rc ≠ -ERESTART then
          (v.modCtx c H.cli_ctx_expire).modCtx c fun x =>
            { x with cc_flags := { x.cc_flags with ERROR := true } }
        else v.modCtx c H.cli_ctx_expire) →
        u'.keys = v.keys ∧ u'.gsk_clist = v.gsk_clist ∧
        u'.ctxs c = (if rc ≠ -ERESTART then
            { H.cli_ctx_expire (v.ctxs c) with
              cc_flags := { (H.cli_ctx_expire (v.ctxs c)).cc_flags with ERROR := true } }
          else H.cli_ctx_expire (v.ctxs c)) := by
      intro u' hu'
      subst hu'
      split <;> simp
    obtain ⟨e1, e2, e3⟩ := hu_ctx _ rfl
    rw [e3] at p5 p6
    rw [hv_ctx] at p5 p6
    refine ⟨rfl, p5, ?_, ?_, ?_, ?_, ?_, ?_⟩
    · rw [p6]; split <;> simp [hH.expire_refcount] <;> ring
    · have := congrArg (fun x => x.cc_flags.CACHED) p5
      simp only [Ctx.core] at this
      rw [this]; split <;> simp [hH.expire_cached]
    · rw [p2, e2, q2, hlist0]; simp
    · have := congrArg Ctx.gck_key p5
      simp only [Ctx.core] at this
      rw [this]; split <;> simp [hH.expire_key]
    · rw [p1, e1, q5]
    · rw [p1, e1, q5]
  · intro h3'
    have pos : 0 < (s.ctxs c).cc_refcount := by omega
    rw [hupd pos]
    have h3t : 3 ≤ (t0.ctxs c).cc_refcount := by rw [hctx0]; simp only; omega
    obtain ⟨v, hv⟩ := @kill_key_locked_completes H k c t0 hpt0 hct0 h3t
    obtain ⟨-, -, -, -, -, -, -, q8⟩ := kill_key_locked_bound hpt0 hct0 hv
    rw [hctx0] at q8
    simp only at q8
    have hvref : (v.ctxs c).cc_refcount - 1 ≠ 0 := by omega
    simp only [kt_update_out, if_neg hrc, hv, Option.map_some', Option.some_bind,
      sptlrpc_cli_ctx_put, State.ref_dec, Option.isSome_map']
    split <;> simp [hH.expire_refcount, hvref]

/-- Worked example for C7: the helper reports `rpc_error = -110` for the pending context
of `demoBound`; the update returns 0, and the context ends dead, flagged `ERROR`, not up
to date, unlisted and unbound, with key 7 emptied and revoked. -/
theorem kt_update_failure_witness :
    (refHelpers 100).Framed ∧ (demoBound.keys 7).payload = some 1 ∧
    (demoBound.ctxs 1).cc_flags.CACHED = true ∧
    (refHelpers 100).cli_ctx_is_refreshed (demoBound.ctxs 1) = false ∧
    ∃ s', gss_kt_update (refHelpers 100) 7
        (some [0, 0, 0, 0, 146, 255, 255, 255, 0, 0, 13, 0]) 12 demoBound = some (0, s') ∧
      (s'.ctxs 1).cc_flags.ERROR = true ∧ (s'.ctxs 1).cc_flags.DEAD = true ∧
      (s'.ctxs 1).cc_flags.UPTODATE = false ∧ (s'.ctxs 1).cc_refcount = 1 ∧
      (s'.ctxs 1).cc_flags.CACHED = false ∧ 1 ∉ s'.gsk_clist ∧ (s'.ctxs 1).gck_key = none ∧
      (s'.keys 7).payload = none ∧ (s'.keys 7).revoked = true := by
  have h := kt_update_failure (refHelpers 100) (refHelpers_framed 100) demoBound 7 1
    [0, 0, 0, 0, 146, 255, 255, 255, 0, 0, 13, 0] 12 4294967186 851968
    { data := [146, 255, 255, 255, 0, 0, 13, 0], len := 8 } { data := [0, 0, 13, 0], len := 4 }
    { data := [], len := 0 } (by decide) (by decide) (by decide) (by decide) (by decide)
    (by decide) (by decide) (by decide)
  have hsome := h.2 (by decide)
  refine ⟨refHelpers_framed 100, by decide, by decide, by decide, ?_⟩
  cases hret : gss_kt_update (refHelpers 100) 7
      (some [0, 0, 0, 0, 146, 255, 255, 255, 0, 0, 13, 0]) 12 demoBound with
  | none => rw [hret] at hsome; cases hsome
  | some rs =>
    obtain ⟨r, s'⟩ := rs
    obtain ⟨h0, hcore, href, hrest⟩ := h.1 r s' hret
    subst h0
    have hflags := congrArg Ctx.cc_flags hcore
    simp only [Ctx.core] at hflags
    refine ⟨s', rfl, ?_, ?_, ?_, ?_, hrest⟩
    · rw [hflags]; decide
    · rw [hflags]; decide
    · rw [hflags]; decide
    · rw [href]; decide

/-- C8: the upcall timeout. When `ctx_upcall_timeout_kr` fires for a context whose
`gck_key` is `k`, it completes, the context is what `cli_ctx_expire` makes of it, `k` is
revoked, and afterwards `gss_kt_match` rejects `k` for every description. In any state
`t`, when the allocation gives the pointer `p` and `gss_cli_ctx_init_common` succeeds
with the record `c0`, `ctx_create_kr` returns `p` and leaves there `c0` with the expiry
`now + KEYRING_UPCALL_TIMEOUT`, which is `now + 2 * obd_timeout`, the `NEW` bit cleared
and one more reference, and no other context changes; when the allocation or
`gss_cli_ctx_init_common` fails it returns `NULL` and changes nothing. So every context
that `ctx_create_kr` returns has that expiry. -/
theorem upcall_timeout_revokes (H : Helpers) (s : State) (c k : Nat)
    (hk : (s.ctxs c).gck_key = some k) :
    (∃ s', ctx_upcall_timeout_kr H c s = some s' ∧
      s'.ctxs c = H.cli_ctx_expire (s.ctxs c) ∧ (∀ x, x ≠ c → s'.ctxs x = s.ctxs x) ∧
      (s'.keys k).revoked = true ∧ ∀ desc, gss_kt_match k desc s' = false) ∧
    (∀ (E : LookupEnv) (vc_uid p : Nat) (c0 : Ctx) (t : State),
      E.alloc_ctx = some p →
      H.gss_cli_ctx_init_common { zeroCtx with gck_timer := none } vc_uid = some c0 →
      ∃ t1, ctx_create_kr H E vc_uid t = (some p, t1) ∧
        (t1.ctxs p).cc_expire = H.ktime_get_real_seconds + KEYRING_UPCALL_TIMEOUT H.obd_timeout ∧
        (t1.ctxs p).cc_expire = H.ktime_get_real_seconds + 2 * H.obd_timeout ∧
        t1.ctxs p =
          { c0 with
            cc_expire := H.ktime_get_real_seconds + KEYRING_UPCALL_TIMEOUT H.obd_timeout,
            cc_flags := { c0.cc_flags with NEW := false },
            cc_refcount := c0.cc_refcount + 1 } ∧
        (∀ x, x ≠ p → t1.ctxs x = t.ctxs x) ∧ t1.keys = t.keys ∧
        t1.gsk_clist = t.gsk_clist ∧ t1.trace = t.trace) ∧
    (∀ (E : LookupEnv) (vc_uid : Nat) (t : State),
      (E.alloc_ctx = none ∨
        H.gss_cli_ctx_init_common { zeroCtx with gck_timer := none } vc_uid = none) →
      ctx_create_kr H E vc_uid t = (none, t)) ∧
    (∀ (E : LookupEnv) (vc_uid p : Nat) (t t1 : State),
      ctx_create_kr H E vc_uid t = (some p, t1) →
      (t1.ctxs p).cc_expire = H.ktime_get_real_seconds + 2 * H.obd_timeout) ∧
    KEYRING_UPCALL_TIMEOUT H.obd_timeout = 2 * H.obd_timeout := by
  have htwice : KEYRING_UPCALL_TIMEOUT H.obd_timeout = 2 * H.obd_timeout := by
    simp only [KEYRING_UPCALL_TIMEOUT]; ring
  refine ⟨⟨key_revoke_locked k (s.modCtx c H.cli_ctx_expire), ?_, ?_, ?_, ?_, ?_⟩, ?_, ?_, ?_,
    htwice⟩
  · simp [ctx_upcall_timeout_kr, hk]
  · simp [key_revoke_locked]
  · intro x hx; simp [key_revoke_locked, hx]
  · simp [key_revoke_locked]
  · intro desc; simp [gss_kt_match, key_revoke_locked]
  · intro E vc_uid p c0 t ha hi
    refine ⟨t.modCtx p fun _ =>
      { c0 with
        cc_expire := H.ktime_get_real_seconds + KEYRING_UPCALL_TIMEOUT H.obd_timeout,
        cc_flags := { c0.cc_flags with NEW := false },
        cc_refcount := c0.cc_refcount + 1 }, ?_, ?_, ?_, ?_, ?_, ?_, ?_, ?_⟩
    · simp only [ctx_create_kr, ha, hi]
    · simp
    · simp [htwice]
    · simp
    · intro x hx; simp [hx]
    · simp
    · simp
    · simp
  · intro E vc_uid t h
    rcases h with h | h
    · simp only [ctx_create_kr, h]
    · unfold ctx_create_kr
      split
      · rfl
      · simp only [h]
  · intro E vc_uid p t t1 h
    unfold ctx_create_kr at h
    split at h
    · cases h
    · split at h
      · cases h
      · simp only [Prod.mk.injEq, Option.some.injEq] at h
        obtain ⟨rfl, rfl⟩ := h
        simp [htwice]

/-- Worked example for C8: the timer of the pending context of `demoBound` fires; and in
the state `demoEmpty` at time 100 with `obd_timeout` 100, `ctx_create_kr` returns the
context at pointer 1 with expiry 300. -/
theorem upcall_timeout_revokes_witness :
    (demoBound.ctxs 1).gck_key = some 7 ∧
    (∃ s', ctx_upcall_timeout_kr (refHelpers 100) 1 demoBound = some s' ∧
      (s'.ctxs 1).cc_flags.DEAD = true ∧ (s'.keys 7).revoked = true ∧
      gss_kt_match 7 "1000@2a" s' = false ∧ gss_kt_match 7 "1000@2a" demoBound = true) ∧
    demoEnv.alloc_ctx = some 1 ∧
    ∃ t1, ctx_create_kr (refHelpers 100) demoEnv 1000 demoEmpty = (some 1, t1) ∧
      (t1.ctxs 1).cc_expire = 300 ∧ (t1.ctxs 1).cc_refcount = 1 ∧
      (t1.ctxs 1).cc_flags.NEW = false ∧ (t1.ctxs 1).vc_uid = 1000 := by
  obtain ⟨⟨s', h1, h2, -, h4, h5⟩, hcreate, -, -, -⟩ :=
    upcall_timeout_revokes (refHelpers 100) demoBound 1 7 (by decide)
  obtain ⟨t1, g1, -, g3, g4, -⟩ := hcreate demoEnv 1000 1 _ demoEmpty rfl rfl
  refine ⟨by decide, ⟨s', h1, ?_, h4, h5 _, by decide⟩, rfl, t1, g1, ?_, ?_, ?_, ?_⟩
  · rw [h2]; decide
  · rw [g3]; decide
  · rw [g4]; decide
  · rw [g4]
  · rw [g4]

theorem flush_skip_mark (uid : Nat) (grace force : Int) (c0 : Ctx) :
    flush_skip uid force (flush_mark grace c0) = flush_skip uid force c0 := rfl

theorem flush_mark_mark (grace : Int) (c0 : Ctx) :
    flush_mark grace (flush_mark grace c0) = flush_mark grace c0 := by
  simp only [flush_mark]
  split <;> rfl

/-- One loop iteration of `flush_spec_ctx_cache_kr`, spelled out. -/
theorem flush_spec_step_spec {uid : Nat} {grace force : Int} {c : Nat} {s s1 : State}
    {fl fl1 : List Nat} (h : flush_spec_step uid grace force c (s, fl) = some (s1, fl1)) :
    0 < (s.ctxs c).cc_refcount ∧ s1.keys = s.keys ∧ s1.trace = s.trace ∧
    (∀ x, x ≠ c → s1.ctxs x = s.ctxs x) ∧
    (flush_skip uid force (s.ctxs c) = true → s1 = s ∧ fl1 = fl) ∧
    (flush_skip uid force (s.ctxs c) = false →
      s1.ctxs c = flush_mark grace (s.ctxs c) ∧
      ((s.ctxs c).cc_flags.CACHED = true →
        s1.gsk_clist = s.gsk_clist.filter (fun x => x != c) ∧
        s1.gsk_root_ctx = (if s.gsk_root_ctx = some c then none else s.gsk_root_ctx) ∧
        fl1 = c :: fl) ∧
      ((s.ctxs c).cc_flags.CACHED = false →
        s1.gsk_clist = s.gsk_clist ∧ s1.gsk_root_ctx = s.gsk_root_ctx ∧ fl1 = fl)) := by
  unfold flush_spec_step at h
  simp only at h
  split at h
  · rename_i hpos
    refine ⟨hpos, ?_⟩
    split at h
    · rename_i huid
      simp only [Option.some.injEq, Prod.mk.injEq] at h
      obtain ⟨rfl, rfl⟩ := h
      refine ⟨rfl, rfl, fun _ _ => rfl, fun _ => ⟨rfl, rfl⟩, ?_⟩
      intro hs; simp [flush_skip, huid] at hs
    · rename_i huid
      split at h
      · rename_i hbusy
        simp only [Option.some.injEq, Prod.mk.injEq] at h
        obtain ⟨rfl, rfl⟩ := h
        refine ⟨rfl, rfl, fun _ _ => rfl, fun _ => ⟨rfl, rfl⟩, ?_⟩
        intro hs; simp [flush_skip, hbusy] at hs
      · rename_i hbusy
        have hskip : flush_skip uid force (s.ctxs c) = false := by
          simp only [flush_skip, Bool.or_eq_false_iff, decide_eq_false_iff_not]
          exact ⟨huid, hbusy⟩
        -- the state handed to `ctx_unlist_kr`
        generalize hs3 : ((if grace = 0 then
            (s.modCtx c fun x => { x with cc_flags := { x.cc_flags with DEAD := true } }).modCtx c
              fun x => { x with cc_flags := { x.cc_flags with UPTODATE := false } }
          else s.modCtx c fun x => { x with cc_flags := { x.cc_flags with DEAD := true } }).ref_inc
            c) = s3 at h
        have e_keys : s3.keys = s.keys := by subst hs3; split <;> rfl
        have e_trace : s3.trace = s.trace := by subst hs3; split <;> rfl
        have e_list : s3.gsk_clist = s.gsk_clist := by subst hs3; split <;> rfl
        have e_root : s3.gsk_root_ctx = s.gsk_root_ctx := by subst hs3; split <;> rfl
        have e_other : ∀ x, x ≠ c → s3.ctxs x = s.ctxs x := by
          intro x hx; subst hs3; split <;> simp [State.ref_inc, hx]
        have e_c : s3.ctxs c =
            { s.ctxs c with
              cc_refcount := (s.ctxs c).cc_refcount + 1,
              cc_flags := { (s.ctxs c).cc_flags with
                DEAD := true,
                UPTODATE := if grace = 0 then false else (s.ctxs c).cc_flags.UPTODATE } } := by
          subst hs3; split <;> simp [State.ref_inc]
        cases hcache : (s.ctxs c).cc_flags.CACHED with
        | false =>
          have hc3 : (s3.ctxs c).cc_flags.CACHED = false := by rw [e_c]; exact hcache
          rw [ctx_unlist_kr_not_cached hc3] at h
          simp only [Bool.false_eq_true, if_false] at h
          split at h
          · simp only [Option.some.injEq, Prod.mk.injEq] at h
            obtain ⟨rfl, rfl⟩ := h
            refine ⟨e_keys, e_trace, ?_, ?_, ?_⟩
            · intro x hx; simp [State.ref_dec, hx, e_other x hx]
            · intro hs; rw [hskip] at hs; cases hs
            · intro _
              refine ⟨?_, ?_, ?_⟩
              · simp only [State.ref_dec, modCtx_ctxs, if_true, e_c, flush_mark]
                cases hx : s.ctxs c
                rw [hx] at hcache
                simp only at hcache
                simp [hcache]
              · intro hh; cases hh
              · intro _; exact ⟨e_list, e_root, rfl⟩
          · cases h
        | true =>
          have hc3 : (s3.ctxs c).cc_flags.CACHED = true := by rw [e_c]; exact hcache
          obtain ⟨u1, u2, u3, u4, u5, u6, u7⟩ := ctx_unlist_kr_cached hc3
          simp only [u1, if_true, Option.some.injEq, Prod.mk.injEq] at h
          obtain ⟨rfl, rfl⟩ := h
          refine ⟨u2.trans e_keys, u3.trans e_trace, ?_, ?_, ?_⟩
          · intro x hx; rw [u6 x hx, e_other x hx]
          · intro hs; rw [hskip] at hs; cases hs
          · intro _
            refine ⟨?_, ?_, ?_⟩
            · rw [u7, e_c]; simp [flush_mark]
            · intro _; exact ⟨by rw [u4, e_list], by rw [u5, e_root], rfl⟩
            · intro hh; cases hh
  · cases h

/-- The loop of `flush_spec_ctx_cache_kr` over a list `l` of contexts, in closed form:
contexts of `l` that are not passed over get the flags of `flush_mark`; those of them that
carried `CACHED` leave `gsk_clist` (and the root slot) and make up the free list. -/
theorem flush_spec_scan_spec {uid : Nat} {grace force : Int} (l : List Nat) {s sf : State}
    {fl flf : List Nat} (h : flush_spec_scan uid grace force l (s, fl) = some (sf, flf)) :
    sf.keys = s.keys ∧ sf.trace = s.trace ∧
    (∀ x, sf.ctxs x = if x ∈ l ∧ flush_skip uid force (s.ctxs x) = false
      then flush_mark grace (s.ctxs x) else s.ctxs x) ∧
    sf.gsk_clist = s.gsk_clist.filter (fun x =>
      !(decide (x ∈ l) && !flush_skip uid force (s.ctxs x) && (s.ctxs x).cc_flags.CACHED)) ∧
    (∀ r, sf.gsk_root_ctx = some r ↔ s.gsk_root_ctx = some r ∧
      ¬ (r ∈ l ∧ flush_skip uid force (s.ctxs r) = false ∧ (s.ctxs r).cc_flags.CACHED = true)) ∧
    (∀ x, x ∈ flf ↔ x ∈ fl ∨
      (x ∈ l ∧ flush_skip uid force (s.ctxs x) = false ∧ (s.ctxs x).cc_flags.CACHED = true)) := by
  induction l generalizing s fl with
  | nil =>
    simp only [flush_spec_scan, Option.some.injEq, Prod.mk.injEq] at h
    obtain ⟨rfl, rfl⟩ := h
    simp
  | cons c rest ih =>
    simp only [flush_spec_scan, Option.bind_eq_some] at h
    obtain ⟨⟨s1, fl1⟩, hstep, hrest⟩ := h
    obtain ⟨-, k1, k2, k3, k4, k5⟩ := flush_spec_step_spec hstep
    obtain ⟨i1, i2, i3, i4, i5, i6⟩ := ih hrest
    -- the record of every context after the step
    have hctx : ∀ x, s1.ctxs x =
        if x = c ∧ flush_skip uid force (s.ctxs x) = false then flush_mark grace (s.ctxs x)
        else s.ctxs x := by
      intro x
      by_cases hx : x = c
      · subst hx
        cases hsk : flush_skip uid force (s.ctxs x) with
        | true => rw [(k4 hsk).1]; simp
        | false => rw [(k5 hsk).1]; simp
      · rw [k3 x hx]; simp [hx]
    have hskip : ∀ x, flush_skip uid force (s1.ctxs x) = flush_skip uid force (s.ctxs x) := by
      intro x; rw [hctx]; split
      · exact flush_skip_mark _ _ _ _
      · rfl
    refine ⟨i1.trans k1, i2.trans k2, ?_, ?_, ?_, ?_⟩
    · intro x
      rw [i3 x, hskip x, hctx x]
      by_cases hx : x = c
      · subst hx
        cases hsk : flush_skip uid force (s.ctxs x) <;> simp [flush_mark_mark]
      · simp [hx]
    · rw [i4]
      cases hsk : flush_skip uid force (s.ctxs c) with
      | true =>
        obtain ⟨rfl, -⟩ := k4 hsk
        apply List.filter_congr
        intro x _
        by_cases hx : x = c
        · subst hx; simp [hsk]
        · simp [hx]
      | false =>
        cases hca : (s.ctxs c).cc_flags.CACHED with
        | false =>
          rw [((k5 hsk).2.2 hca).1]
          apply List.filter_congr
          intro x _
          by_cases hx : x = c
          · subst hx
            rw [hskip, hctx]
            simp [hsk, hca, flush_mark]
          · rw [hskip, k3 x hx]; simp [hx]
        | true =>
          rw [((k5 hsk).2.1 hca).1, List.filter_filter]
          apply List.filter_congr
          intro x _
          by_cases hx : x = c
          · subst hx; simp [hsk, hca]
          · rw [hskip, k3 x hx]; simp [hx]
    · intro r
      rw [i5 r, hskip r]
      cases hsk : flush_skip uid force (s.ctxs c) with
      | true =>
        obtain ⟨rfl, -⟩ := k4 hsk
        by_cases hr : r = c
        · subst hr; simp [hsk]
        · simp [hr]
      | false =>
        cases hca : (s.ctxs c).cc_flags.CACHED with
        | false =>
          rw [((k5 hsk).2.2 hca).2.1]
          by_cases hr : r = c
          · subst hr; rw [hctx]; simp [hsk, hca, flush_mark]
          · rw [k3 r hr]; simp [hr]
        | true =>
          rw [((k5 hsk).2.1 hca).2.1]
          by_cases hr : r = c
          · subst hr; simp [hsk, hca]
          · rw [k3 r hr]
            by_cases hroot : s.gsk_root_ctx = some c
            · simp [hroot, hr]
              intro h; exact absurd h.symm hr
            · simp [hroot, hr]
    · intro x
      rw [i6 x, hskip x]
      cases hsk : flush_skip uid force (s.ctxs c) with
      | true =>
        obtain ⟨rfl, rfl⟩ := k4 hsk
        by_cases hx : x = c
        · subst hx; simp [hsk]
        · simp [hx]
      | false =>
        cases hca : (s.ctxs c).cc_flags.CACHED with
        | false =>
          rw [((k5 hsk).2.2 hca).2.2]
          by_cases hx : x = c
          · subst hx; rw [hctx]; simp [hsk, hca, flush_mark]
          · rw [k3 x hx]; simp [hx]
        | true =>
          rw [((k5 hsk).2.1 hca).2.2]
          by_cases hx : x = c
          · subst hx; simp [hsk, hca]
          · rw [k3 x hx]; simp [hx]

/-- What `dispose_ctx_list_kr` does with the first context of its list. -/
theorem dispose_head_spec {H : Helpers} {c : Nat} {s2 s1 : State}
    (h : (unbind_ctx_kr H c s2).bind (ctx_put_kr H c 0) = some s1) :
    (∀ x, x ≠ c → s1.ctxs x = s2.ctxs x) ∧
    (∀ x, (s1.ctxs x).cc_flags = (s2.ctxs x).cc_flags) ∧
    (s1.ctxs c).gck_key = none ∧
    s1.gsk_clist = s2.gsk_clist ∧ s1.gsk_root_ctx = s2.gsk_root_ctx ∧
    (∀ k, (s2.ctxs c).gck_key ≠ some k → s1.keys k = s2.keys k) ∧
    (∀ k, (s2.ctxs c).gck_key = some k →
      (s2.keys k).payload = some c ∧ (s1.keys k).payload = none ∧ (s1.keys k).revoked = true) := by
  simp only [Option.bind_eq_some] at h
  obtain ⟨t, hu, hput⟩ := h
  obtain ⟨f1, f2, f3, f4, f5, f6⟩ := ctx_put_kr_frame H hput
  cases hk : (s2.ctxs c).gck_key with
  | none =>
    simp only [unbind_ctx_kr, hk, Option.some.injEq] at hu
    subst hu
    refine ⟨f6, f5, by rw [f4, hk], f2, f3, fun k _ => by rw [f1], ?_⟩
    intro k hk'; cases hk'
  | some k0 =>
    obtain ⟨p1, -, -, p4, p5, p6, p7, p8, p9, -⟩ := unbind_ctx_kr_post hk hu
    refine ⟨?_, ?_, ?_, by rw [f2, p4], by rw [f3, p5], ?_, ?_⟩
    · intro x hx; rw [f6 x hx, p8 x hx]
    · intro x
      rw [f5]
      by_cases hx : x = c
      · subst hx
        have := congrArg Ctx.cc_flags p9
        simpa [Ctx.core] using this
      · rw [p8 x hx]
    · rw [f4]
      have := congrArg Ctx.gck_key p9
      simpa [Ctx.core] using this
    · intro k hne
      have hk' : k ≠ k0 := fun e => hne (by rw [e])
      rw [f1, p6 k hk']
    · intro k hk'
      cases hk'
      rw [f1, p7]
      exact ⟨p1, rfl, rfl⟩

/-- What `dispose_ctx_list_kr` leaves behind. -/
theorem dispose_ctx_list_kr_spec {H : Helpers} (fl : List Nat) {s sf : State}
    (h : dispose_ctx_list_kr H fl s = some sf) :
    (∀ x, x ∉ fl → sf.ctxs x = s.ctxs x) ∧
    (∀ x, (sf.ctxs x).cc_flags = (s.ctxs x).cc_flags) ∧
    (∀ x, x ∈ fl ∨ (s.ctxs x).gck_key = none → (sf.ctxs x).gck_key = none) ∧
    sf.gsk_clist = s.gsk_clist ∧ sf.gsk_root_ctx = s.gsk_root_ctx ∧
    (∀ k, (∀ x ∈ fl, (s.ctxs x).gck_key ≠ some k) → sf.keys k = s.keys k) ∧
    (∀ k, (s.keys k).payload = none ∧ (s.keys k).revoked = true →
      (sf.keys k).payload = none ∧ (sf.keys k).revoked = true) ∧
    (∀ x ∈ fl, ∀ k, (s.ctxs x).gck_key = some k →
      (sf.keys k).payload = none ∧ (sf.keys k).revoked = true) ∧
    (∀ x ∈ fl, ∀ k, (s.ctxs x).gck_key = some k → (s.keys k).payload = some x) := by
  induction fl generalizing s with
  | nil =>
    simp only [dispose_ctx_list_kr, Option.some.injEq] at h
    subst h
    simp
  | cons c rest ih =>
    simp only [dispose_ctx_list_kr] at h
    generalize hs2 : ((if (s.ctxs c).gc_svc_handle ≠ [] ∧ s.sec_reverse = true then
        s.log (Event.update_sequence (s.ctxs c).gc_svc_handle
          ((s.ctxs c).gc_seq % 2 ^ 32).toNat)
      else s).log (Event.wakeup c)) = s2 at h
    have e_ctxs : s2.ctxs = s.ctxs := by subst hs2; split <;> rfl
    have e_keys : s2.keys = s.keys := by subst hs2; split <;> rfl
    have e_list : s2.gsk_clist = s.gsk_clist := by subst hs2; split <;> rfl
    have e_root : s2.gsk_root_ctx = s.gsk_root_ctx := by subst hs2; split <;> rfl
    rw [Option.bind_eq_some] at h
    obtain ⟨s1, hhead, hrest⟩ := h
    obtain ⟨a1, a2, a3, a4, a5, a6, a7⟩ := dispose_head_spec hhead
    obtain ⟨i1, i2, i3, i4, i5, i6, i7, i8, i9⟩ := ih hrest
    rw [e_ctxs] at a1 a2 a6 a7
    rw [e_keys] at a6 a7
    rw [e_list] at a4
    rw [e_root] at a5
    -- a key that is empty and revoked stays so through the head step
    have hmono : ∀ k, (s.keys k).payload = none ∧ (s.keys k).revoked = true →
        (s1.keys k).payload = none ∧ (s1.keys k).revoked = true := by
      intro k hk
      by_cases hck : (s.ctxs c).gck_key = some k
      · exact (a7 k hck).2
      · rw [a6 k hck]; exact hk
    refine ⟨?_, ?_, ?_, by rw [i4, a4], by rw [i5, a5], ?_, ?_, ?_, ?_⟩
    · intro x hx
      simp only [List.mem_cons, not_or] at hx
      rw [i1 x hx.2, a1 x hx.1]
    · intro x; rw [i2, a2]
    · intro x hx
      by_cases hxc : x = c
      · subst hxc; exact i3 x (Or.inr a3)
      · apply i3
        rcases hx with hx | hx
        · simp only [List.mem_cons] at hx
          rcases hx with hx | hx
          · exact absurd hx hxc
          · exact Or.inl hx
        · right; rw [a1 x hxc]; exact hx
    · intro k hk
      have h1 : ∀ x ∈ rest, (s1.ctxs x).gck_key ≠ some k := by
        intro x hx
        by_cases hxc : x = c
        · subst hxc; rw [a3]; simp
        · rw [a1 x hxc]; exact hk x (List.mem_cons_of_mem _ hx)
      rw [i6 k h1, a6 k (hk c (List.mem_cons_self _ _))]
    · intro k hk
      exact i7 k (hmono k hk)
    · intro x hx k hxk
      by_cases hxc : x = c
      · subst hxc
        exact i7 k (a7 k hxk).2
      · simp only [List.mem_cons] at hx
        rcases hx with hx | hx
        · exact absurd hx hxc
        · apply i8 x hx k
          rw [a1 x hxc]; exact hxk
    · intro x hx k hxk
      by_cases hxc : x = c
      · subst hxc
        exact (a7 k hxk).1
      · simp only [List.mem_cons] at hx
        rcases hx with hx | hx
        · exact absurd hx hxc
        · have h1 := i9 x hx k (by rw [a1 x hxc]; exact hxk)
          by_cases hck : (s.ctxs c).gck_key = some k
          · rw [(a7 k hck).2.1] at h1; cases h1
          · rw [a6 k hck] at h1; exact h1

theorem flush_skip_forced (c0 : Ctx) : flush_skip UID_ALL 1 c0 = false := by
  simp [flush_skip]

theorem flush_skip_unforced (uid : Nat) (c0 : Ctx) :
    flush_skip uid 0 c0 = true ↔ 2 < c0.cc_refcount ∨ (uid ≠ UID_ALL ∧ uid ≠ c0.vc_uid) := by
  simp only [flush_skip, Bool.or_eq_true, decide_eq_true_eq, and_true]
  exact Or.comm

/-- The loop of `flush_spec_ctx_cache_kr` runs to its end when every context it visits
holds a reference. -/
theorem flush_spec_scan_completes {uid : Nat} {grace force : Int} (l : List Nat) (s : State)
    (fl : List Nat) (h : ∀ c ∈ l, 0 < (s.ctxs c).cc_refcount) :
    ∃ a, flush_spec_scan uid grace force l (s, fl) = some a := by
  induction l generalizing s fl with
  | nil => exact ⟨(s, fl), rfl⟩
  | cons c rest ih =>
    have hpos : 0 < (s.ctxs c).cc_refcount := h c (List.mem_cons_self _ _)
    have hstep : ∃ a, flush_spec_step uid grace force c (s, fl) = some a := by
      unfold flush_spec_step
      simp only [if_pos hpos]
      by_cases huid : uid ≠ UID_ALL ∧ uid ≠ (s.ctxs c).vc_uid
      · rw [if_pos huid]; exact ⟨_, rfl⟩
      · rw [if_neg huid]
        by_cases hbusy : 2 < (s.ctxs c).cc_refcount ∧ force = 0
        · rw [if_pos hbusy]; exact ⟨_, rfl⟩
        · rw [if_neg hbusy]
          generalize hs3 : ((if grace = 0 then
              (s.modCtx c fun x => { x with cc_flags := { x.cc_flags with DEAD := true } }).modCtx
                c fun x => { x with cc_flags := { x.cc_flags with UPTODATE := false } }
            else s.modCtx c fun x =>
              { x with cc_flags := { x.cc_flags with DEAD := true } }).ref_inc c) = s3
          have href3 : 2 ≤ (s3.ctxs c).cc_refcount := by
            subst hs3
            split <;> simp [State.ref_inc] <;> omega
          cases hu : (ctx_unlist_kr c s3).1 with
          | true => simp
          | false =>
            have hstate : (ctx_unlist_kr c s3).2 = s3 := by
              unfold ctx_unlist_kr at hu ⊢
              split
              · rfl
              · rename_i hcc; rw [if_neg hcc] at hu; cases hu
            simp [hstate, href3]
    obtain ⟨⟨s1, fl1⟩, hs1⟩ := hstep
    obtain ⟨-, -, -, k3, k4, k5⟩ := flush_spec_step_spec hs1
    have hrest : ∀ x ∈ rest, 0 < (s1.ctxs x).cc_refcount := by
      intro x hx
      have hx0 := h x (List.mem_cons_of_mem _ hx)
      by_cases hxc : x = c
      · subst hxc
        cases hsk : flush_skip uid force (s.ctxs x) with
        | true => rw [(k4 hsk).1]; exact hx0
        | false => rw [(k5 hsk).1]; exact hx0
      · rw [k3 x hxc]; exact hx0
    obtain ⟨a, ha⟩ := ih s1 fl1 hrest
    exact ⟨a, by simp only [flush_spec_scan, hs1, Option.some_bind, ha]⟩

/-- The free list built by the loop of `flush_spec_ctx_cache_kr` has no repetition, and
its members have lost their `CACHED` bit. -/
theorem flush_spec_scan_nodup {uid : Nat} {grace force : Int} (l : List Nat) {s sf : State}
    {fl flf : List Nat} (hn : fl.Nodup) (hc : ∀ x ∈ fl, (s.ctxs x).cc_flags.CACHED = false)
    (h : flush_spec_scan uid grace force l (s, fl) = some (sf, flf)) :
    flf.Nodup ∧ ∀ x ∈ flf, (sf.ctxs x).cc_flags.CACHED = false := by
  induction l generalizing s fl with
  | nil =>
    simp only [flush_spec_scan, Option.some.injEq, Prod.mk.injEq] at h
    obtain ⟨rfl, rfl⟩ := h
    exact ⟨hn, hc⟩
  | cons c rest ih =>
    simp only [flush_spec_scan, Option.bind_eq_some] at h
    obtain ⟨⟨s1, fl1⟩, hstep, hrest⟩ := h
    obtain ⟨-, -, -, k3, k4, k5⟩ := flush_spec_step_spec hstep
    apply ih _ _ hrest
    · cases hsk : flush_skip uid force (s.ctxs c) with
      | true => obtain ⟨-, rfl⟩ := k4 hsk; exact hn
      | false =>
        cases hca : (s.ctxs c).cc_flags.CACHED with
        | false => rw [((k5 hsk).2.2 hca).2.2]; exact hn
        | true =>
          rw [((k5 hsk).2.1 hca).2.2]
          refine List.nodup_cons.mpr ⟨?_, hn⟩
          intro hmem
          rw [hc c hmem] at hca; cases hca
    · intro x hx
      cases hsk : flush_skip uid force (s.ctxs c) with
      | true => obtain ⟨rfl, rfl⟩ := k4 hsk; exact hc x hx
      | false =>
        by_cases hxc : x = c
        · subst hxc; rw [(k5 hsk).1]; rfl
        · rw [k3 x hxc]
          apply hc
          cases hca : (s.ctxs c).cc_flags.CACHED with
          | false => rw [((k5 hsk).2.2 hca).2.2] at hx; exact hx
          | true =>
            rw [((k5 hsk).2.1 hca).2.2] at hx
            simp only [List.mem_cons] at hx
            rcases hx with hx | hx
            · exact absurd hx hxc
            · exact hx

/-- The `dispose_ctx_list_kr` runs to its end on a list without repetition whose members
are either unbound and referenced, or unlisted, bound to a key that points back, and
holding two references, provided a keyring to unlink from is found. -/
theorem dispose_ctx_list_kr_completes {H : Helpers} (hring : H.request_key_ring ≠ none)
    (fl : List Nat) (s : State) (hn : fl.Nodup)
    (h : ∀ c ∈ fl, ((s.ctxs c).gck_key = none ∧ 1 ≤ (s.ctxs c).cc_refcount) ∨
      ∃ k, (s.ctxs c).gck_key = some k ∧ (s.keys k).payload = some c ∧
        (s.ctxs c).cc_flags.CACHED = false ∧ 2 ≤ (s.ctxs c).cc_refcount) :
    ∃ sf, dispose_ctx_list_kr H fl s = some sf := by
  obtain ⟨ring, hring'⟩ := Option.ne_none_iff_exists'.mp hring
  induction fl generalizing s with
  | nil => exact ⟨s, rfl⟩
  | cons c rest ih =>
    simp only [dispose_ctx_list_kr]
    generalize hs2 : ((if (s.ctxs c).gc_svc_handle ≠ [] ∧ s.sec_reverse = true then
        s.log (Event.update_sequence (s.ctxs c).gc_svc_handle
          ((s.ctxs c).gc_seq % 2 ^ 32).toNat)
      else s).log (Event.wakeup c)) = s2
    have e_ctxs : s2.ctxs = s.ctxs := by subst hs2; split <;> rfl
    have e_keys : s2.keys = s.keys := by subst hs2; split <;> rfl
    have hhead : ∃ s1, (unbind_ctx_kr H c s2).bind (ctx_put_kr H c 0) = some s1 := by
      rcases h c (List.mem_cons_self _ _) with ⟨hk, href⟩ | ⟨k, hk, hp, hca, href⟩
      · have hpos : 0 < (s.ctxs c).cc_refcount := by omega
        simp only [unbind_ctx_kr, e_ctxs, hk, Option.some_bind, ctx_put_kr, if_pos hpos,
          ctx_release_kr, ne_eq, not_true_eq_false, if_false]
        split <;> exact ⟨_, rfl⟩
      · have hne : ¬ ((s.ctxs c).cc_refcount - 1 = 0) := by omega
        have hpos : 0 < (s.ctxs c).cc_refcount := by omega
        have hpos1 : 0 < (s.ctxs c).cc_refcount - 1 := by omega
        simp only [unbind_ctx_kr, e_ctxs, hk, key_get_payload, e_keys, hp, if_true,
          unbind_key_ctx, key_get, modKey_keys, modKey_ctxs, hca, and_self,
          key_revoke_locked, key_set_payload, ctx_clear_timer_kr, ctx_put_kr, modCtx_ctxs,
          State.ref_dec, hpos, hne, if_false, Option.map_some', Option.some_bind,
          request_key_unlink, hring', key_put, log_ctxs, hpos1, ctx_release_kr, ne_eq,
          not_true_eq_false]
        split <;> exact ⟨_, rfl⟩
    obtain ⟨s1, hs1⟩ := hhead
    obtain ⟨a1, -, -, -, -, a6, a7⟩ := dispose_head_spec hs1
    rw [e_ctxs] at a1 a6 a7
    rw [e_keys] at a6 a7
    have hc_notin : c ∉ rest := (List.nodup_cons.mp hn).1
    have hrest : ∀ x ∈ rest, ((s1.ctxs x).gck_key = none ∧ 1 ≤ (s1.ctxs x).cc_refcount) ∨
        ∃ k, (s1.ctxs x).gck_key = some k ∧ (s1.keys k).payload = some x ∧
          (s1.ctxs x).cc_flags.CACHED = false ∧ 2 ≤ (s1.ctxs x).cc_refcount := by
      intro x hx
      have hxc : x ≠ c := fun e => hc_notin (e ▸ hx)
      rw [a1 x hxc]
      rcases h x (List.mem_cons_of_mem _ hx) with hu | ⟨k, hk, hp, hca, href⟩
      · exact Or.inl hu
      · refine Or.inr ⟨k, hk, ?_, hca, href⟩
        have hck : (s.ctxs c).gck_key ≠ some k := by
          intro hck
          have := (a7 k hck).1
          rw [hp] at this
          exact hxc (Option.some.inj this)
        rw [a6 k hck]; exact hp
    obtain ⟨sf, hsf⟩ := ih s1 (List.nodup_cons.mp hn).2 hrest
    exact ⟨sf, by rw [hs1]; simpa using hsf⟩

/-- The `flush_spec_ctx_cache_kr` runs to its end when every listed context holds a
reference and every listed context with a key is the payload of that key and holds two
references, provided a keyring to unlink from is found. -/
theorem flush_spec_ctx_cache_kr_completes {H : Helpers} (hring : H.request_key_ring ≠ none)
    (uid : Nat) (grace force : Int) (s : State)
    (hpos : ∀ c ∈ s.gsk_clist, 0 < (s.ctxs c).cc_refcount)
    (hbound : ∀ c ∈ s.gsk_clist, ∀ k, (s.ctxs c).gck_key = some k →
      (s.keys k).payload = some c ∧ 2 ≤ (s.ctxs c).cc_refcount) :
    ∃ s', flush_spec_ctx_cache_kr H uid grace force s = some s' := by
  obtain ⟨⟨s1, fl⟩, hscan⟩ := @flush_spec_scan_completes uid grace force s.gsk_clist s [] hpos
  obtain ⟨a1, -, a3, -, -, a6⟩ := flush_spec_scan_spec _ hscan
  obtain ⟨n1, n2⟩ := flush_spec_scan_nodup _ List.nodup_nil (by simp) hscan
  have hfl : ∀ c ∈ fl, ((s1.ctxs c).gck_key = none ∧ 1 ≤ (s1.ctxs c).cc_refcount) ∨
      ∃ k, (s1.ctxs c).gck_key = some k ∧ (s1.keys k).payload = some c ∧
        (s1.ctxs c).cc_flags.CACHED = false ∧ 2 ≤ (s1.ctxs c).cc_refcount := by
    intro c hc
    have hmem := (a6 c).1 hc
    simp only [List.not_mem_nil, false_or] at hmem
    obtain ⟨hcl, hsk, -⟩ := hmem
    have hrec : s1.ctxs c = flush_mark grace (s.ctxs c) := by
      rw [a3, if_pos ⟨hcl, hsk⟩]
    cases hk : (s.ctxs c).gck_key with
    | none =>
      left
      rw [hrec]
      exact ⟨hk, hpos c hcl⟩
    | some k =>
      right
      obtain ⟨hp, href⟩ := hbound c hcl k hk
      refine ⟨k, by rw [hrec]; exact hk, by rw [a1]; exact hp, n2 c hc, by rw [hrec]; exact href⟩
  obtain ⟨sf, hsf⟩ := dispose_ctx_list_kr_completes hring fl s1 n1 hfl
  exact ⟨sf, by simp only [flush_spec_ctx_cache_kr, hscan, Option.some_bind]; exact hsf⟩

/-- C9: forced flush of all users. From a state in which every context of `gsk_clist`
carries `CACHED` and holds a reference and `gsk_root_ctx` is `NULL` or listed, every
completed call `gss_sec_flush_ctx_cache_kr(sec, -1, 0, 1)` returns 0 and leaves every
formerly listed context with `DEAD` set, `UPTODATE` and `CACHED` clear and `gck_key`
`NULL`, the key it was bound to with an empty payload and revoked, `gsk_clist` empty and
`gsk_root_ctx` `NULL`, whatever the reference counts were. The call completes when each
listed context with a key is the payload of that key and holds the two base references,
and a keyring to unlink from is found. -/
theorem flush_all_forced (H : Helpers) (found : List Nat) (s : State)
    (hwf : ∀ c ∈ s.gsk_clist, (s.ctxs c).cc_flags.CACHED = true ∧ 0 < (s.ctxs c).cc_refcount)
    (hroot : s.gsk_root_ctx = none ∨ ∃ c ∈ s.gsk_clist, s.gsk_root_ctx = some c) :
    (∀ r s', gss_sec_flush_ctx_cache_kr H found UID_ALL 0 1 s = some (r, s') →
      r = 0 ∧
      (∀ c ∈ s.gsk_clist,
        (s'.ctxs c).cc_flags.DEAD = true ∧ (s'.ctxs c).cc_flags.UPTODATE = false ∧
        (s'.ctxs c).cc_flags.CACHED = false ∧ (s'.ctxs c).gck_key = none ∧
        ∀ k, (s.ctxs c).gck_key = some k →
          (s'.keys k).payload = none ∧ (s'.keys k).revoked = true) ∧
      s'.gsk_clist = [] ∧ s'.gsk_root_ctx = none) ∧
    ((∀ c ∈ s.gsk_clist, ∀ k, (s.ctxs c).gck_key = some k →
        (s.keys k).payload = some c ∧ 2 ≤ (s.ctxs c).cc_refcount) →
      H.request_key_ring ≠ none →
      (gss_sec_flush_ctx_cache_kr H found UID_ALL 0 1 s).isSome = true) := by
  refine ⟨?_, ?_⟩
  · intro r s' hret
    simp only [gss_sec_flush_ctx_cache_kr, ne_eq, not_true_eq_false, false_and, if_false,
      Option.map_eq_some', Prod.mk.injEq] at hret
    obtain ⟨t, ht, rfl, rfl⟩ := hret
    simp only [flush_spec_ctx_cache_kr, Option.bind_eq_some] at ht
    obtain ⟨⟨s1, fl⟩, hscan, hdisp⟩ := ht
    obtain ⟨-, -, a3, a4, a5, a6⟩ := flush_spec_scan_spec _ hscan
    obtain ⟨-, d2, d3, d4, d5, -, -, d8, -⟩ := dispose_ctx_list_kr_spec _ hdisp
    simp only at d2 d3 d4 d5 d8
    have hmem : ∀ c ∈ s.gsk_clist, c ∈ fl := by
      intro c hc
      rw [a6]
      exact Or.inr ⟨hc, flush_skip_forced _, (hwf c hc).1⟩
    have hctx : ∀ c ∈ s.gsk_clist, s1.ctxs c = flush_mark 0 (s.ctxs c) := by
      intro c hc
      rw [a3, if_pos ⟨hc, flush_skip_forced _⟩]
    refine ⟨rfl, ?_, ?_, ?_⟩
    · intro c hc
      have hf := d2 c
      rw [hctx c hc] at hf
      refine ⟨by rw [hf]; rfl, by rw [hf]; simp [flush_mark], by rw [hf]; rfl,
        d3 c (Or.inl (hmem c hc)), ?_⟩
      intro k hk
      apply d8 c (hmem c hc) k
      rw [hctx c hc]; exact hk
    · rw [d4, a4, List.filter_eq_nil_iff]
      intro x hx
      simp [hx, flush_skip_forced, (hwf x hx).1]
    · rw [d5]
      cases hr : s1.gsk_root_ctx with
      | none => rfl
      | some r0 =>
        obtain ⟨h1, h2⟩ := (a5 r0).1 hr
        exfalso
        apply h2
        rcases hroot with h | ⟨c, hc, h⟩
        · rw [h] at h1; cases h1
        · rw [h] at h1
          have e : c = r0 := Option.some.inj h1
          rw [← e]
          exact ⟨hc, flush_skip_forced _, (hwf c hc).1⟩
  · intro hbound hring
    obtain ⟨t, ht⟩ := flush_spec_ctx_cache_kr_completes hring UID_ALL 0 1 s
      (fun c hc => (hwf c hc).2) hbound
    simp [gss_sec_flush_ctx_cache_kr, ht]

/-- Worked example for C9: the forced flush of `demoThree` kills and unlists all three
contexts, busy or not. -/
theorem flush_all_forced_witness :
    (∀ c ∈ demoThree.gsk_clist,
      (demoThree.ctxs c).cc_flags.CACHED = true ∧ 0 < (demoThree.ctxs c).cc_refcount) ∧
    (∃ c ∈ demoThree.gsk_clist, demoThree.gsk_root_ctx = some c) ∧
    ∃ s', gss_sec_flush_ctx_cache_kr (refHelpers 100) [] UID_ALL 0 1 demoThree = some (0, s') ∧
      (∀ c ∈ [1, 2, 3], (s'.ctxs c).cc_flags.DEAD = true ∧
        (s'.ctxs c).cc_flags.UPTODATE = false ∧ (s'.ctxs c).gck_key = none) ∧
      (s'.keys 11).payload = none ∧ (s'.keys 12).revoked = true ∧
      s'.gsk_clist = [] ∧ s'.gsk_root_ctx = none := by
  have hwf : ∀ c ∈ demoThree.gsk_clist,
      (demoThree.ctxs c).cc_flags.CACHED = true ∧ 0 < (demoThree.ctxs c).cc_refcount := by
    decide
  have hroot : ∃ c ∈ demoThree.gsk_clist, demoThree.gsk_root_ctx = some c := ⟨1, by decide⟩
  obtain ⟨hpost, hcomp⟩ := flush_all_forced (refHelpers 100) [] demoThree hwf (Or.inr hroot)
  have hsome := hcomp (by decide) (by decide)
  refine ⟨hwf, hroot, ?_⟩
  cases hret : gss_sec_flush_ctx_cache_kr (refHelpers 100) [] UID_ALL 0 1 demoThree with
  | none => rw [hret] at hsome; cases hsome
  | some rs =>
    obtain ⟨r, s'⟩ := rs
    obtain ⟨h0, h1, h2, h3⟩ := hpost r s' hret
    subst h0
    refine ⟨s', rfl, ?_, ((h1 1 (by decide)).2.2.2.2 11 (by decide)).1,
      ((h1 2 (by decide)).2.2.2.2 12 (by decide)).2, h2, h3⟩
    intro c hc
    have hc' : c ∈ demoThree.gsk_clist := by
      simp only [List.mem_cons, List.mem_singleton, List.not_mem_nil, or_false] at hc
      rcases hc with rfl | rfl | rfl <;> decide
    exact ⟨(h1 c hc').1, (h1 c hc').2.1, (h1 c hc').2.2.2.1⟩

/-- C10: unforced flush. In every completed `flush_spec_ctx_cache_kr` with `force = 0`, a
listed context that holds more than two references, or whose uid differs from a `uid`
argument other than `-1`, keeps its whole record (flags, reference count, key pointer),
stays in `gsk_clist`, and a key whose payload it is keeps its record; every other listed
context (in `gsk_clist` with its `CACHED` bit) ends with `DEAD` set, out of `gsk_clist`,
`CACHED` clear, and with `UPTODATE` cleared when `grace` is 0 and left as it was
otherwise. The call completes when every listed context holds a reference, each listed
context with a key is the payload of that key and holds the two base references, and a
keyring to unlink from is found. -/
theorem flush_unforced (H : Helpers) (uid : Nat) (grace : Int) (s : State) :
    (∀ s', flush_spec_ctx_cache_kr H uid grace 0 s = some s' →
      (∀ c ∈ s.gsk_clist,
        (2 < (s.ctxs c).cc_refcount ∨ (uid ≠ UID_ALL ∧ uid ≠ (s.ctxs c).vc_uid)) →
        s'.ctxs c = s.ctxs c ∧ c ∈ s'.gsk_clist ∧
        ∀ k, (s.keys k).payload = some c → s'.keys k = s.keys k) ∧
      (∀ c ∈ s.gsk_clist,
        ¬ (2 < (s.ctxs c).cc_refcount ∨ (uid ≠ UID_ALL ∧ uid ≠ (s.ctxs c).vc_uid)) →
        (s.ctxs c).cc_flags.CACHED = true →
        (s'.ctxs c).cc_flags.DEAD = true ∧ c ∉ s'.gsk_clist ∧
        (s'.ctxs c).cc_flags.CACHED = false ∧
        (s'.ctxs c).cc_flags.UPTODATE =
          (if grace = 0 then false else (s.ctxs c).cc_flags.UPTODATE))) ∧
    ((∀ c ∈ s.gsk_clist, 0 < (s.ctxs c).cc_refcount) →
      (∀ c ∈ s.gsk_clist, ∀ k, (s.ctxs c).gck_key = some k →
        (s.keys k).payload = some c ∧ 2 ≤ (s.ctxs c).cc_refcount) →
      H.request_key_ring ≠ none →
      (flush_spec_ctx_cache_kr H uid grace 0 s).isSome = true) := by
  refine ⟨?_, ?_⟩
  · intro s' hret
    simp only [flush_spec_ctx_cache_kr, Option.bind_eq_some] at hret
    obtain ⟨⟨s1, fl⟩, hscan, hdisp⟩ := hret
    obtain ⟨a1, -, a3, a4, -, a6⟩ := flush_spec_scan_spec _ hscan
    obtain ⟨d1, d2, -, d4, -, d6, -, -, d9⟩ := dispose_ctx_list_kr_spec _ hdisp
    simp only at d1 d2 d4 d6 d9
    refine ⟨?_, ?_⟩
    · intro c hc hskip
      have hsk : flush_skip uid 0 (s.ctxs c) = true := (flush_skip_unforced uid _).2 hskip
      have hnfl : c ∉ fl := by
        rw [a6]; simp [hsk]
      have hc1 : s1.ctxs c = s.ctxs c := by
        rw [a3]; simp [hsk]
      refine ⟨by rw [d1 c hnfl, hc1], ?_, ?_⟩
      · rw [d4, a4, List.mem_filter]
        exact ⟨hc, by simp [hsk]⟩
      · intro k hk
        rw [d6 k, a1]
        intro x hx hxk
        have := d9 x hx k hxk
        rw [a1, hk] at this
        exact hnfl (by rw [Option.some.inj this]; exact hx)
    · intro c hc hskip hcached
      have hsk : flush_skip uid 0 (s.ctxs c) = false := by
        cases h : flush_skip uid 0 (s.ctxs c) with
        | false => rfl
        | true => exact absurd ((flush_skip_unforced uid _).1 h) hskip
      have hf := d2 c
      rw [a3, if_pos ⟨hc, hsk⟩] at hf
      refine ⟨by rw [hf]; rfl, ?_, by rw [hf]; rfl, by rw [hf]; rfl⟩
      rw [d4, a4, List.mem_filter]
      simp [hc, hsk, hcached]
  · intro hpos hbound hring
    obtain ⟨t, ht⟩ := flush_spec_ctx_cache_kr_completes hring uid grace 0 s hpos hbound
    simp [ht]

/-- Worked example for C10: the unforced, graceful flush of all users on `demoThree`
leaves the busy context 1 (four references) alone with its key 11, and kills and
unlists contexts 2 and 3, whose `UPTODATE` bit stays. -/
theorem flush_unforced_witness :
    ∃ s', flush_spec_ctx_cache_kr (refHelpers 100) UID_ALL 1 0 demoThree = some s' ∧
      s'.ctxs 1 = demoThree.ctxs 1 ∧ 1 ∈ s'.gsk_clist ∧ s'.keys 11 = demoThree.keys 11 ∧
      (s'.ctxs 2).cc_flags.DEAD = true ∧ 2 ∉ s'.gsk_clist ∧
      (s'.ctxs 2).cc_flags.UPTODATE = true ∧
      (s'.ctxs 3).cc_flags.DEAD = true ∧ 3 ∉ s'.gsk_clist := by
  obtain ⟨hpost, hcomp⟩ := flush_unforced (refHelpers 100) UID_ALL 1 demoThree
  have hsome := hcomp (by decide) (by decide) (by decide)
  cases hret : flush_spec_ctx_cache_kr (refHelpers 100) UID_ALL 1 0 demoThree with
  | none => rw [hret] at hsome; cases hsome
  | some s' =>
    obtain ⟨h1, h2⟩ := hpost s' hret
    obtain ⟨b1, b2, b3⟩ := h1 1 (by decide) (by decide)
    obtain ⟨c1, c2, -, c4⟩ := h2 2 (by decide) (by decide) (by decide)
    obtain ⟨e1, e2, -, -⟩ := h2 3 (by decide) (by decide) (by decide)
    refine ⟨s', rfl, b1, b2, b3 11 (by decide), c1, c2, ?_, e1, e2⟩
    rw [c4]; decide

theorem sec_lookup_root_ctx_kr_none {s : State} (h1 : s.gsk_root_ctx = none)
    (h2 : s.sec_reverse = false) : sec_lookup_root_ctx_kr s = some (none, s) := by
  simp [sec_lookup_root_ctx_kr, h1, h2]

theorem lookup_prologue_unsupported (E : LookupEnv) (vc_uid : Nat) (create : Int) (s : State)
    (hty : E.typ_name ≠ E.LUSTRE_MDC_NAME ∧ E.typ_name ≠ E.LUSTRE_OSC_NAME ∧
      E.typ_name ≠ E.LUSTRE_MGC_NAME ∧ E.typ_name ≠ E.LUSTRE_LWP_NAME ∧
      E.typ_name ≠ E.LUSTRE_OSP_NAME)
    (hslow : user_is_root s vc_uid = true → s.gsk_root_ctx = none ∧ s.sec_reverse = false) :
    lookup_prologue E vc_uid create s =
      if create = 0 then none
      else if user_is_root s vc_uid = true ∧
          (E.ps_part = SecPart.MGS ∨ E.ps_part = SecPart.other ∨ E.svc = SvcType.other) then none
      else some (Sum.inl (none,
        if user_is_root s vc_uid then
          { s with gs_rvs_hdl := s.ctx_index, ctx_index := (s.ctx_index + 1) % 2 ^ 64,
                   gsk_root_uc_lock := false }
        else s)) := by
  obtain ⟨t1, t2, t3, t4, t5⟩ := hty
  cases hroot : user_is_root s vc_uid with
  | false =>
    simp [lookup_prologue, hroot, t1, t2, t3, t4, t5, lookup_out]
  | true =>
    obtain ⟨h1, h2⟩ := hslow hroot
    have e1 := sec_lookup_root_ctx_kr_none h1 h2
    have e2 : sec_lookup_root_ctx_kr s.mutex_lock = some (none, s.mutex_lock) :=
      sec_lookup_root_ctx_kr_none h1 h2
    by_cases hc : create = 0
    · simp [lookup_prologue, hroot, e1, h2, hc]
    · simp only [lookup_prologue, hroot, e1, e2, h2, hc, t1, t2, t3, t4, t5, if_true, if_false,
        Option.some_bind, ne_eq, not_true_eq_false, not_false_eq_true, or_self, and_false,
        and_true, true_and, and_self]
      by_cases hp : E.ps_part = SecPart.MGS ∨ E.ps_part = SecPart.other ∨ E.svc = SvcType.other
      · simp [hp]
      · simp [hp, h2, lookup_out, gss_get_next_ctx_index, State.mutex_lock, State.mutex_unlock]


/-- C11: an import whose obd type name is none of the five supported names. For a lookup
that does not return from the root fast path (for the root user: no root context is
cached and the sec is not a reverse sec), every completed call returns `NULL` from the
part of the function before `request_key`; no context record, key, list, root pointer or
trace entry changes, a root lookup leaves `gsk_root_uc_lock` released and a non-root
lookup leaves the whole state as it was. The outcome is the same whatever `request_key`,
the allocators and the sec id are. The call completes when `create` is non-zero and, for
a root lookup, `ps_part` and the service type pass the two `LBUG` switches; a root lookup
then only draws a new reverse handle index. -/
theorem lookup_unsupported_type (H : Helpers) (E : LookupEnv) (vc_uid : Nat) (create : Int)
    (s : State)
    (hty : E.typ_name ≠ E.LUSTRE_MDC_NAME ∧ E.typ_name ≠ E.LUSTRE_OSC_NAME ∧
      E.typ_name ≠ E.LUSTRE_MGC_NAME ∧ E.typ_name ≠ E.LUSTRE_LWP_NAME ∧
      E.typ_name ≠ E.LUSTRE_OSP_NAME)
    (hslow : user_is_root s vc_uid = true → s.gsk_root_ctx = none ∧ s.sec_reverse = false) :
    (∀ r s', gss_sec_lookup_ctx_kr H E vc_uid create s = some (r, s') →
      r = none ∧ lookup_prologue E vc_uid create s = some (Sum.inl (none, s')) ∧
      s'.ctxs = s.ctxs ∧ s'.keys = s.keys ∧ s'.gsk_clist = s.gsk_clist ∧
      s'.gsk_root_ctx = s.gsk_root_ctx ∧ s'.ps_nctx = s.ps_nctx ∧ s'.trace = s.trace ∧
      (user_is_root s vc_uid = true → s'.gsk_root_uc_lock = false) ∧
      (user_is_root s vc_uid = false → s' = s)) ∧
    (∀ (H2 : Helpers) (E2 : LookupEnv), E2.typ_name = E.typ_name →
      E2.LUSTRE_MDC_NAME = E.LUSTRE_MDC_NAME → E2.LUSTRE_OSC_NAME = E.LUSTRE_OSC_NAME →
      E2.LUSTRE_MGC_NAME = E.LUSTRE_MGC_NAME → E2.LUSTRE_LWP_NAME = E.LUSTRE_LWP_NAME →
      E2.LUSTRE_OSP_NAME = E.LUSTRE_OSP_NAME → E2.ps_part = E.ps_part → E2.svc = E.svc →
      gss_sec_lookup_ctx_kr H2 E2 vc_uid create s = gss_sec_lookup_ctx_kr H E vc_uid create s) ∧
    (create ≠ 0 →
      (user_is_root s vc_uid = true →
        E.ps_part ≠ SecPart.MGS ∧ E.ps_part ≠ SecPart.other ∧ E.svc ≠ SvcType.other) →
      gss_sec_lookup_ctx_kr H E vc_uid create s =
        some (none,
          if user_is_root s vc_uid then
            { s with gs_rvs_hdl := s.ctx_index, ctx_index := (s.ctx_index + 1) % 2 ^ 64,
                     gsk_root_uc_lock := false }
          else s)) := by
  have hpro := lookup_prologue_unsupported E vc_uid create s hty hslow
  refine ⟨?_, ?_, ?_⟩
  · intro r s' hret
    by_cases hc : create = 0
    · rw [if_pos hc] at hpro
      simp [gss_sec_lookup_ctx_kr, hpro] at hret
    · by_cases hp : user_is_root s vc_uid = true ∧
          (E.ps_part = SecPart.MGS ∨ E.ps_part = SecPart.other ∨ E.svc = SvcType.other)
      · rw [if_neg hc, if_pos hp] at hpro
        simp [gss_sec_lookup_ctx_kr, hpro] at hret
      · rw [if_neg hc, if_neg hp] at hpro
        simp only [gss_sec_lookup_ctx_kr, hpro, Option.some_bind, Option.some.injEq,
          Prod.mk.injEq] at hret
        obtain ⟨rfl, rfl⟩ := hret
        refine ⟨rfl, hpro, ?_, ?_, ?_, ?_, ?_, ?_, ?_, ?_⟩
        all_goals cases hroot : user_is_root s vc_uid <;> simp
  · intro H2 E2 e0 e1 e2 e3 e4 e5 e6 e7
    have hpro2 := lookup_prologue_unsupported E2 vc_uid create s
      (by rw [e0, e1, e2, e3, e4, e5]; exact hty) hslow
    rw [e6, e7] at hpro2
    by_cases hc : create = 0
    · rw [if_pos hc] at hpro hpro2
      simp only [gss_sec_lookup_ctx_kr, hpro, hpro2, Option.none_bind]
    · by_cases hp : user_is_root s vc_uid = true ∧
          (E.ps_part = SecPart.MGS ∨ E.ps_part = SecPart.other ∨ E.svc = SvcType.other)
      · rw [if_neg hc, if_pos hp] at hpro hpro2
        simp only [gss_sec_lookup_ctx_kr, hpro, hpro2, Option.none_bind]
      · rw [if_neg hc, if_neg hp] at hpro hpro2
        simp only [gss_sec_lookup_ctx_kr, hpro, hpro2, Option.some_bind]
  · intro hc hparts
    have hp : ¬ (user_is_root s vc_uid = true ∧
        (E.ps_part = SecPart.MGS ∨ E.ps_part = SecPart.other ∨ E.svc = SvcType.other)) := by
      rintro ⟨hr, h⟩
      obtain ⟨a, b, c⟩ := hparts hr
      rcases h with h | h | h
      · exact a h
      · exact b h
      · exact c h
    rw [if_neg hc, if_neg hp] at hpro
    simp only [gss_sec_lookup_ctx_kr, hpro, Option.some_bind]


/-- Worked example for C11: a root lookup (uid 0) through an `echo_client` import returns
`NULL`, draws reverse handle index 0, caches nothing and leaves the mutex released. -/
theorem lookup_unsupported_type_witness :
    ∃ s', gss_sec_lookup_ctx_kr (refHelpers 100) demoUnsupported 0 1 demoEmpty = some (none, s') ∧
      s'.gsk_root_uc_lock = false ∧ s'.gsk_clist = [] ∧ s'.gs_rvs_hdl = 0 ∧ s'.ctx_index = 1 ∧
      s'.trace = [] := by
  have h := (lookup_unsupported_type (refHelpers 100) demoUnsupported 0 1 demoEmpty
    (by decide) (fun _ => ⟨rfl, rfl⟩)).2.2 (by decide) (fun _ => by decide)
  exact ⟨_, h, rfl, rfl, rfl, rfl, rfl⟩

theorem digitVal_digitChar (k : Nat) (hk : k < 16) : digitVal (Nat.digitChar k) = k := by
  interval_cases k <;> rfl

theorem digitsVal_append (b : Nat) (l : List Char) (c : Char) :
    digitsVal b (l ++ [c]) = digitsVal b l * b + digitVal c := by
  simp [digitsVal, List.foldl_append]

theorem toDigitsCore_spec (b : Nat) (hb : 2 ≤ b) (hb16 : b ≤ 16) :
    ∀ (f n : Nat) (ds : List Char), n < f →
      ∃ l, Nat.toDigitsCore b f n ds = l ++ ds ∧ digitsVal b l = n ∧ l ≠ [] ∧
        ∀ c ∈ l, digitVal c < 16 := by
  intro f
  induction f with
  | zero => intro n ds h; omega
  | succ f ih =>
    intro n ds hn
    have hmod : n % b < 16 := lt_of_lt_of_le (Nat.mod_lt _ (by omega)) hb16
    simp only [Nat.toDigitsCore]
    by_cases h0 : n / b = 0
    · simp only [h0, if_true]
      refine ⟨[Nat.digitChar (n % b)], rfl, ?_, by simp, ?_⟩
      · have hnb : n < b := (Nat.div_eq_zero_iff (by omega)).mp h0
        have hn16 : n < 16 := by omega
        simp [digitsVal, Nat.mod_eq_of_lt hnb, digitVal_digitChar _ hn16]
      · intro c hc
        simp only [List.mem_singleton] at hc
        rw [hc, digitVal_digitChar _ hmod]; exact hmod
    · simp only [h0, if_false]
      have hlt : n / b < f := by
        have : n / b < n := Nat.div_lt_self (by
          rcases Nat.eq_zero_or_pos n with h | h
          · rw [h] at h0; simp at h0
          · exact h) hb
        omega
      obtain ⟨l, h1, h2, h3, h4⟩ := ih (n / b) (Nat.digitChar (n % b) :: ds) hlt
      refine ⟨l ++ [Nat.digitChar (n % b)], by rw [h1]; simp, ?_, by simp, ?_⟩
      · rw [digitsVal_append, h2, digitVal_digitChar _ hmod]
        exact Nat.div_add_mod' n b
      · intro c hc
        rcases List.mem_append.mp hc with h | h
        · exact h4 c h
        · simp only [List.mem_singleton] at h
          rw [h, digitVal_digitChar _ hmod]; exact hmod

theorem toDigits_spec (b : Nat) (hb : 2 ≤ b) (hb16 : b ≤ 16) (n : Nat) :
    digitsVal b (Nat.toDigits b n) = n ∧ Nat.toDigits b n ≠ [] ∧
      ∀ c ∈ Nat.toDigits b n, digitVal c < 16 := by
  obtain ⟨l, h1, h2, h3, h4⟩ := toDigitsCore_spec b hb hb16 (n + 1) n [] (by omega)
  simp only [Nat.toDigits, h1, List.append_nil]
  exact ⟨h2, h3, h4⟩

theorem toString_int_data (i : Int) :
    (toString i).data =
      if 0 ≤ i then Nat.toDigits 10 i.toNat else '-' :: Nat.toDigits 10 (-i).toNat := by
  cases i with
  | ofNat m =>
    simp only [Int.ofNat_eq_coe, Int.natCast_nonneg, if_true, Int.toNat_ofNat]
    rfl
  | negSucc m =>
    have hneg : ¬ (0 : Int) ≤ Int.negSucc m := by simp
    simp only [hneg, if_false]
    rfl

theorem construct_key_desc_data (ps_id uid : Nat) :
    (construct_key_desc 24 ps_id uid).data =
      ((toString (toInt32 uid)).data ++ '@' :: Nat.toDigits 16 (ps_id % 2 ^ 32)).take 23 := by
  simp [construct_key_desc, hexString]

theorem intVal_toString (i : Int) : intVal (toString i).data = i := by
  rw [toString_int_data]
  by_cases h : 0 ≤ i
  · simp only [h, if_true]
    obtain ⟨h1, h2, h3⟩ := toDigits_spec 10 (by decide) (by decide) i.toNat
    cases hl : Nat.toDigits 10 i.toNat with
    | nil => exact absurd hl h2
    | cons c t =>
      have hc : c ≠ '-' := by
        intro e
        have := h3 c (by rw [hl]; simp)
        rw [e] at this
        exact absurd this (by decide)
      rw [hl] at h1
      have : intVal (c :: t) = (digitsVal 10 (c :: t) : Int) := by
        unfold intVal
        split
        · rename_i heq
          exact absurd (List.cons.inj heq).1 hc
        · rfl
      rw [this, h1]
      exact Int.toNat_of_nonneg h
  · simp only [h, if_false]
    obtain ⟨h1, -, -⟩ := toDigits_spec 10 (by decide) (by decide) (-i).toNat
    show -(digitsVal 10 (Nat.toDigits 10 (-i).toNat) : Int) = i
    rw [h1, Int.toNat_of_nonneg (by omega)]
    omega

theorem toDigits_length_le (b : Nat) (hb : 2 ≤ b) (n e : Nat) (h : n < b ^ e) (he : 0 < e) :
    (Nat.toDigits b n).length ≤ e :=
  Nat.toDigitsCore_length b hb (n + 1) n e h he

theorem toString_toInt32_length (uid : Nat) : (toString (toInt32 uid)).data.length ≤ 11 := by
  rw [toString_int_data]
  have hm : uid % 2 ^ 32 < 2 ^ 32 := Nat.mod_lt _ (by norm_num)
  unfold toInt32
  by_cases h : uid % 2 ^ 32 < 2 ^ 31
  · simp only [h, if_true, Int.natCast_nonneg, Int.toNat_ofNat]
    have := toDigits_length_le 10 (by decide) (uid % 2 ^ 32) 10 (by omega) (by decide)
    omega
  · have hneg : ¬ (0 : Int) ≤ ((uid % 2 ^ 32 : Nat) : Int) - 2 ^ 32 := by omega
    simp only [h, if_false, hneg, List.length_cons]
    have hlt : (-(((uid % 2 ^ 32 : Nat) : Int) - 2 ^ 32)).toNat < 10 ^ 10 := by omega
    have := toDigits_length_le 10 (by decide) _ 10 hlt (by decide)
    omega

theorem toInt32_inj {a b : Nat} (ha : a < 2 ^ 32) (hb : b < 2 ^ 32)
    (h : toInt32 a = toInt32 b) : a = b := by
  unfold toInt32 at h
  rw [Nat.mod_eq_of_lt ha, Nat.mod_eq_of_lt hb] at h
  split at h <;> split at h <;> omega

theorem sep_not_mem_toString (i : Int) : '@' ∉ (toString i).data := by
  rw [toString_int_data]
  intro hmem
  by_cases h : 0 ≤ i
  · simp only [h, if_true] at hmem
    have := (toDigits_spec 10 (by decide) (by decide) i.toNat).2.2 _ hmem
    exact absurd this (by decide)
  · simp only [h, if_false, List.mem_cons] at hmem
    rcases hmem with hmem | hmem
    · exact absurd hmem (by decide)
    · have := (toDigits_spec 10 (by decide) (by decide) (-i).toNat).2.2 _ hmem
      exact absurd this (by decide)

theorem split_at_sep {c : Char} : ∀ {l1 l2 r1 r2 : List Char}, c ∉ l1 → c ∉ l2 →
    l1 ++ c :: r1 = l2 ++ c :: r2 → l1 = l2 ∧ r1 = r2 := by
  intro l1
  induction l1 with
  | nil =>
    intro l2 r1 r2 _ h2 h
    cases l2 with
    | nil => simpa using h
    | cons x t =>
      simp only [List.nil_append, List.cons_append, List.cons.injEq] at h
      exact absurd (by rw [h.1]; simp) h2
  | cons y l1 ih =>
    intro l2 r1 r2 h1 h2 h
    cases l2 with
    | nil =>
      simp only [List.nil_append, List.cons_append, List.cons.injEq] at h
      exact absurd (by rw [← h.1]; simp) h1
    | cons x t =>
      simp only [List.cons_append, List.cons.injEq] at h
      obtain ⟨e1, e2⟩ := ih (fun hm => h1 (List.mem_cons_of_mem _ hm))
        (fun hm => h2 (List.mem_cons_of_mem _ hm)) h.2
      exact ⟨by rw [h.1, e1], e2⟩

theorem construct_key_desc_full (ps_id uid : Nat) (hp : ps_id < 2 ^ 32) :
    (construct_key_desc 24 ps_id uid).data =
      (toString (toInt32 uid)).data ++ '@' :: Nat.toDigits 16 ps_id ∧
    (construct_key_desc 24 ps_id uid).data.length ≤ 20 := by
  have h1 := toString_toInt32_length uid
  have h2 := toDigits_length_le 16 (by decide) ps_id 8 (by omega) (by decide)
  have hlen : ((toString (toInt32 uid)).data ++ '@' :: Nat.toDigits 16 ps_id).length ≤ 20 := by
    simp only [List.length_append, List.length_cons]; omega
  rw [construct_key_desc_data, Nat.mod_eq_of_lt hp, List.take_of_length_le (by omega)]
  exact ⟨rfl, hlen⟩

/-- C12: for a 32-bit uid and a 32-bit sec id, `construct_key_desc` with the 24-byte buffer
leaves the whole text `<uid printed with %d>@<sec id printed with %x>` in the buffer: at
most 20 characters, so nothing is cut off and the terminator fits. The uid is printed as
a signed `int` (for a uid below `2 ^ 31` this is its plain decimal form). Two different
pairs (uid, sec id) never give the same descriptor. -/
theorem key_desc_exact_injective (ps_id uid : Nat) (hu : uid < 2 ^ 32) (hp : ps_id < 2 ^ 32) :
    construct_key_desc 24 ps_id uid = toString (toInt32 uid) ++ "@" ++ hexString ps_id ∧
    (construct_key_desc 24 ps_id uid).length ≤ 20 ∧
    (uid < 2 ^ 31 → toInt32 uid = (uid : Int) ∧ toString (toInt32 uid) = toString uid) ∧
    (∀ ps_id2 uid2, uid2 < 2 ^ 32 → ps_id2 < 2 ^ 32 →
      construct_key_desc 24 ps_id2 uid2 = construct_key_desc 24 ps_id uid →
      uid2 = uid ∧ ps_id2 = ps_id) := by
  obtain ⟨hd, hl⟩ := construct_key_desc_full ps_id uid hp
  refine ⟨?_, hl, ?_, ?_⟩
  · apply String.ext
    rw [hd]
    simp [hexString]
  · intro h
    have e : toInt32 uid = (uid : Int) := by
      unfold toInt32
      rw [Nat.mod_eq_of_lt hu, if_pos h]
    exact ⟨e, by rw [e]; rfl⟩
  · intro ps_id2 uid2 hu2 hp2 heq
    obtain ⟨hd2, -⟩ := construct_key_desc_full ps_id2 uid2 hp2
    have hdata := congrArg String.data heq
    rw [hd, hd2] at hdata
    obtain ⟨e1, e2⟩ := split_at_sep (sep_not_mem_toString _) (sep_not_mem_toString _) hdata
    have i1 := congrArg intVal e1
    rw [intVal_toString, intVal_toString] at i1
    have i2 := congrArg (digitsVal 16) e2
    rw [(toDigits_spec 16 (by decide) (by decide) ps_id2).1,
      (toDigits_spec 16 (by decide) (by decide) ps_id).1] at i2
    exact ⟨toInt32_inj hu2 hu i1, i2⟩

/-- Worked example for C12: uid 1000 in sec `0x2a` has descriptor `1000@2a`, the largest
uid in the largest sec id has the 11-character descriptor `-1@ffffffff`, and the 20
characters of `-2147483648@ffffffff` fit the buffer. -/
theorem key_desc_exact_injective_witness :
    construct_key_desc 24 42 1000 = "1000@2a" ∧
    construct_key_desc 24 4294967295 4294967295 = "-1@ffffffff" ∧
    construct_key_desc 24 4294967295 2147483648 = "-2147483648@ffffffff" ∧
    (construct_key_desc 24 4294967295 2147483648).length ≤ 20 ∧
    (∀ ps_id2 uid2, uid2 < 2 ^ 32 → ps_id2 < 2 ^ 32 →
      construct_key_desc 24 ps_id2 uid2 = construct_key_desc 24 42 1000 →
      uid2 = 1000 ∧ ps_id2 = 42) := by
  have h := key_desc_exact_injective 4294967295 2147483648 (by norm_num) (by norm_num)
  have h2 := key_desc_exact_injective 42 1000 (by norm_num) (by norm_num)
  exact ⟨by decide, by decide, by decide, h.2.1, h2.2.2.2⟩

/-- The choice that the loop of `sec_lookup_root_ctx_kr` ends with is a context of the
list, or the choice it started with. -/
theorem root_scan_mem (s : State) : ∀ (l : List Nat) (ctx : Option Nat) (c : Nat),
    root_scan s ctx l = some c → c ∈ l ∨ ctx = some c := by
  intro l
  induction l with
  | nil => intro ctx c h; exact Or.inr h
  | cons t rest ih =>
    intro ctx c h
    simp only [root_scan, List.foldl_cons] at h ih
    rcases ih _ c h with hm | hm
    · exact Or.inl (List.mem_cons_of_mem _ hm)
    · cases ctx with
      | none =>
        simp only [Option.some.injEq] at hm
        exact Or.inl (hm ▸ List.mem_cons_self _ _)
      | some c0 =>
        simp only at hm
        split at hm
        · simp only [Option.some.injEq] at hm
          exact Or.inl (hm ▸ List.mem_cons_self _ _)
        · exact Or.inr hm

/-- The loop of `sec_lookup_root_ctx_kr` over a non-empty list ends with a choice. -/
theorem root_scan_some (s : State) : ∀ (l : List Nat) (ctx : Option Nat),
    (l ≠ [] ∨ ctx ≠ none) → ∃ c, root_scan s ctx l = some c := by
  intro l
  induction l with
  | nil =>
    intro ctx h
    rcases h with h | h
    · exact absurd rfl h
    · exact Option.ne_none_iff_exists'.mp h
  | cons t rest ih =>
    intro ctx _
    simp only [root_scan, List.foldl_cons] at ih ⊢
    apply ih
    right
    cases ctx with
    | none => simp
    | some c0 => simp only; split <;> simp

/-- When no context of the list has expiry 0, the choice of the loop of
`sec_lookup_root_ctx_kr` expires no later than any context of the list and than the
choice it started with. -/
theorem root_scan_min (s : State) : ∀ (l : List Nat) (ctx : Option Nat) (c : Nat),
    (∀ x ∈ l, (s.ctxs x).cc_expire ≠ 0) →
    (∀ c0, ctx = some c0 → (s.ctxs c0).cc_expire ≠ 0) →
    root_scan s ctx l = some c →
    (s.ctxs c).cc_expire ≠ 0 ∧
    (∀ x ∈ l, (s.ctxs c).cc_expire ≤ (s.ctxs x).cc_expire) ∧
    (∀ c0, ctx = some c0 → (s.ctxs c).cc_expire ≤ (s.ctxs c0).cc_expire) := by
  intro l
  induction l with
  | nil =>
    intro ctx c _ h0 h
    simp only [root_scan, List.foldl_nil] at h
    refine ⟨h0 c h, ?_, ?_⟩
    · intro x hx
      simp at hx
    intro c0 hc0
    rw [h] at hc0
    cases hc0
    exact le_refl _
  | cons t rest ih =>
    intro ctx c hl h0 h
    simp only [root_scan, List.foldl_cons] at h ih
    have ht : (s.ctxs t).cc_expire ≠ 0 := hl t (List.mem_cons_self _ _)
    have hrest : ∀ x ∈ rest, (s.ctxs x).cc_expire ≠ 0 :=
      fun x hx => hl x (List.mem_cons_of_mem _ hx)
    cases ctx with
    | none =>
      obtain ⟨i1, i2, i3⟩ := ih (some t) c hrest (fun c0 hc0 => by cases hc0; exact ht) h
      refine ⟨i1, ?_, fun c0 hc0 => by cases hc0⟩
      intro x hx
      simp only [List.mem_cons] at hx
      rcases hx with rfl | hx
      · exact i3 x rfl
      · exact i2 x hx
    | some c0 =>
      have hc0 : (s.ctxs c0).cc_expire ≠ 0 := h0 c0 rfl
      simp only at h
      by_cases hgt : (s.ctxs c0).cc_expire > (s.ctxs t).cc_expire
      · rw [if_pos (Or.inr hgt)] at h
        obtain ⟨i1, i2, i3⟩ := ih (some t) c hrest (fun c1 hc1 => by cases hc1; exact ht) h
        refine ⟨i1, ?_, ?_⟩
        · intro x hx
          simp only [List.mem_cons] at hx
          rcases hx with rfl | hx
          · exact i3 x rfl
          · exact i2 x hx
        · intro c1 hc1
          cases hc1
          have := i3 t rfl
          omega
      · rw [if_neg (by rintro (h1 | h1); exact hc0 h1; exact hgt h1)] at h
        obtain ⟨i1, i2, i3⟩ := ih (some c0) c hrest (fun c1 hc1 => by cases hc1; exact hc0) h
        refine ⟨i1, ?_, ?_⟩
        · intro x hx
          simp only [List.mem_cons] at hx
          rcases hx with rfl | hx
          · have := i3 c0 rfl
            omega
          · exact i2 x hx
        · intro c1 hc1
          cases hc1
          exact i3 c0 rfl

/-- A choice of the loop of `sec_lookup_root_ctx_kr` that has expiry 0 is the last
context of the list, or the choice the loop started with on an empty list. -/
theorem root_scan_zero_last (s : State) : ∀ (l : List Nat) (ctx : Option Nat) (c : Nat),
    root_scan s ctx l = some c → (s.ctxs c).cc_expire = 0 →
    l.getLast? = some c ∨ (l = [] ∧ ctx = some c) := by
  intro l
  induction l with
  | nil => intro ctx c h _; exact Or.inr ⟨rfl, h⟩
  | cons t rest ih =>
    intro ctx c h hz
    simp only [root_scan, List.foldl_cons] at h ih
    left
    rcases ih _ c h hz with hl | ⟨hnil, hc⟩
    · cases rest with
      | nil => simp at hl
      | cons r rs => rw [List.getLast?_cons_cons]; exact hl
    · subst hnil
      cases ctx with
      | none =>
        simp only [Option.some.injEq] at hc
        simp [hc]
      | some c0 =>
        simp only at hc
        split at hc
        · simp only [Option.some.injEq] at hc
          simp [hc]
        · rename_i hno
          simp only [Option.some.injEq] at hc
          subst hc
          exact absurd (Or.inl hz) hno

/-- C26 (amended): root-context selection by `sec_lookup_root_ctx_kr`. When
`gsk_root_ctx` is set, every completed call returns that context with one more
reference and changes nothing else, and the call completes when the context holds a
reference and the list is not empty. On a reverse sec with `gsk_root_ctx` `NULL` and a
non-empty list, every completed call returns a context of the list, promotes it to
`gsk_root_ctx` and adds exactly one reference to it; when no listed context has
`cc_expire` 0 its expire time is the shortest of the list; a context with `cc_expire` 0
(no expiry) is returned only when it is the last of the list, since the scan drops it
for any context that follows it. The call completes when every listed context holds a
reference. The result is `NULL` exactly when `gsk_root_ctx` is `NULL` and the sec is not
reverse or the list is empty, and then nothing changes. -/
theorem root_ctx_selection (s : State) :
    (∀ root, s.gsk_root_ctx = some root →
      (∀ r s', sec_lookup_root_ctx_kr s = some (r, s') → r = some root ∧ s' = s.ref_inc root) ∧
      (0 < (s.ctxs root).cc_refcount → s.gsk_clist ≠ [] →
        sec_lookup_root_ctx_kr s = some (some root, s.ref_inc root))) ∧
    (s.gsk_root_ctx = none → s.sec_reverse = true → s.gsk_clist ≠ [] →
      (∀ r s', sec_lookup_root_ctx_kr s = some (r, s') →
        ∃ c, r = some c ∧ c ∈ s.gsk_clist ∧
          s' = ({ s with gsk_root_ctx := some c } : State).ref_inc c ∧
          s'.gsk_root_ctx = some c ∧
          (s'.ctxs c).cc_refcount = (s.ctxs c).cc_refcount + 1 ∧
          ((∀ x ∈ s.gsk_clist, (s.ctxs x).cc_expire ≠ 0) →
            ∀ x ∈ s.gsk_clist, (s.ctxs c).cc_expire ≤ (s.ctxs x).cc_expire) ∧
          ((s.ctxs c).cc_expire = 0 → s.gsk_clist.getLast? = some c)) ∧
      ((∀ x ∈ s.gsk_clist, 0 < (s.ctxs x).cc_refcount) →
        (sec_lookup_root_ctx_kr s).isSome = true)) ∧
    (∀ r s', sec_lookup_root_ctx_kr s = some (r, s') →
      (r = none ↔ s.gsk_root_ctx = none ∧ (s.sec_reverse = false ∨ s.gsk_clist = []))) ∧
    (s.gsk_root_ctx = none ∧ (s.sec_reverse = false ∨ s.gsk_clist = []) →
      sec_lookup_root_ctx_kr s = some (none, s)) := by
  have hscan : s.gsk_root_ctx = none → s.sec_reverse = true → ∀ c,
      root_scan s none s.gsk_clist = some c →
      sec_lookup_root_ctx_kr s =
        if 0 < (s.ctxs c).cc_refcount ∧ s.gsk_clist ≠ [] then
          some (some c, ({ s with gsk_root_ctx := some c } : State).ref_inc c)
        else none := by
    intro h1 h2 c hc
    simp only [sec_lookup_root_ctx_kr, h1, h2, hc, true_and, and_self, if_true, ne_eq,
      not_false_eq_true, reduceCtorEq]
  have hnone : s.gsk_root_ctx = none ∧ (s.sec_reverse = false ∨ s.gsk_clist = []) →
      sec_lookup_root_ctx_kr s = some (none, s) := by
    rintro ⟨h1, h2⟩
    rcases h2 with h2 | h2
    · simp [sec_lookup_root_ctx_kr, h1, h2]
    · simp [sec_lookup_root_ctx_kr, h1, h2, root_scan]
  refine ⟨?_, ?_, ?_, hnone⟩
  · intro root hroot
    have e : sec_lookup_root_ctx_kr s =
        if 0 < (s.ctxs root).cc_refcount ∧ s.gsk_clist ≠ [] then
          some (some root, s.ref_inc root) else none := by
      simp [sec_lookup_root_ctx_kr, hroot]
    refine ⟨?_, ?_⟩
    · intro r s' h
      rw [e] at h
      split at h
      · simp only [Option.some.injEq, Prod.mk.injEq] at h
        exact ⟨h.1.symm, h.2.symm⟩
      · cases h
    · intro hpos hne
      rw [e, if_pos ⟨hpos, hne⟩]
  · intro h1 h2 h3
    obtain ⟨c, hc⟩ := root_scan_some s s.gsk_clist none (Or.inl h3)
    have hmem : c ∈ s.gsk_clist := by
      rcases root_scan_mem s _ _ _ hc with h | h
      · exact h
      · cases h
    refine ⟨?_, ?_⟩
    · intro r s' h
      rw [hscan h1 h2 c hc] at h
      split at h
      · simp only [Option.some.injEq, Prod.mk.injEq] at h
        obtain ⟨rfl, rfl⟩ := h
        refine ⟨c, rfl, hmem, rfl, rfl, by simp [State.ref_inc], ?_, ?_⟩
        · intro hnz
          exact (root_scan_min s _ none c hnz (fun c0 h0 => by cases h0) hc).2.1
        · intro hz
          rcases root_scan_zero_last s _ none c hc hz with h | ⟨-, h⟩
          · exact h
          · cases h
      · cases h
    · intro hpos
      rw [hscan h1 h2 c hc, if_pos ⟨hpos c hmem, h3⟩]
      rfl
  · intro r s' h
    constructor
    · intro hr
      subst hr
      cases hroot : s.gsk_root_ctx with
      | some root =>
        exfalso
        have e : sec_lookup_root_ctx_kr s =
            if 0 < (s.ctxs root).cc_refcount ∧ s.gsk_clist ≠ [] then
              some (some root, s.ref_inc root) else none := by
          simp [sec_lookup_root_ctx_kr, hroot]
        rw [e] at h
        split at h
        · simp at h
        · cases h
      | none =>
        refine ⟨rfl, ?_⟩
        cases hrev : s.sec_reverse with
        | false => exact Or.inl rfl
        | true =>
          right
          by_contra hne
          obtain ⟨c, hc⟩ := root_scan_some s s.gsk_clist none (Or.inl hne)
          rw [hscan hroot hrev c hc] at h
          split at h
          · simp at h
          · cases h
    · intro hcond
      rw [hnone hcond] at h
      simp only [Option.some.injEq, Prod.mk.injEq] at h
      exact h.1.symm

/-- Worked example for C26: on a reverse sec whose list holds context 2 (expiry 7)
before context 3 (expiry 5) the lookup returns context 3, promoted to root, with one
more reference. -/
theorem root_ctx_selection_witness :
    ∃ s', sec_lookup_root_ctx_kr
        { demoReverse with
          ctxs := fun c => if c = 3 then { demoReverse.ctxs 2 with cc_expire := 5 }
                           else demoReverse.ctxs c,
          gsk_clist := [2, 3] } = some (some 3, s') ∧
      s'.gsk_root_ctx = some 3 ∧ (s'.ctxs 3).cc_refcount = 2 := by
  obtain ⟨-, h2, -, -⟩ := root_ctx_selection
    { demoReverse with
      ctxs := fun c => if c = 3 then { demoReverse.ctxs 2 with cc_expire := 5 }
                       else demoReverse.ctxs c,
      gsk_clist := [2, 3] }
  obtain ⟨hpost, hcomp⟩ := h2 rfl rfl (by decide)
  have hsome := hcomp (by decide)
  cases hret : sec_lookup_root_ctx_kr
      { demoReverse with
        ctxs := fun c => if c = 3 then { demoReverse.ctxs 2 with cc_expire := 5 }
                         else demoReverse.ctxs c,
        gsk_clist := [2, 3] } with
  | none => rw [hret] at hsome; cases hsome
  | some rs =>
    obtain ⟨r, s'⟩ := rs
    obtain ⟨c, hr, hmem, -, hroot, href, hmin, -⟩ := hpost r s' hret
    have h23 : c = 2 ∨ c = 3 := by simpa using hmem
    have hle := hmin (by decide) 3 (by decide)
    rcases h23 with rfl | rfl
    · exact absurd hle (by decide)
    · exact ⟨s', by rw [hr], hroot, by rw [href]; decide⟩

/-- Counterexample to C26 as stated: on `demoReverse` the list holds context 1 with
`cc_expire` 0 before context 2 with `cc_expire` 7, and the lookup returns context 2,
whose expire time is not less than or equal to that of context 1. -/
theorem root_ctx_selection_counterexample :
    (sec_lookup_root_ctx_kr demoReverse).map (fun r => r.1) = some (some 2) ∧
    2 ∈ demoReverse.gsk_clist ∧ 1 ∈ demoReverse.gsk_clist ∧
    demoReverse.gsk_root_ctx = none ∧ demoReverse.sec_reverse = true ∧
    ¬ ((demoReverse.ctxs 2).cc_expire ≤ (demoReverse.ctxs 1).cc_expire) := by
  decide

/-- One loop iteration of `gss_sec_gc_ctx_kr` on a context that carries `CACHED`,
spelled out. -/
theorem gc_step_spec {H : Helpers} (hF : H.Framed) {c : Nat} {s s1 : State}
    {fl fl1 : List Nat} (hc : (s.ctxs c).cc_flags.CACHED = true)
    (h : gc_step H c (s, fl) = some (s1, fl1)) :
    0 < (s.ctxs c).cc_refcount ∧ s1.keys = s.keys ∧ s1.trace = s.trace ∧
    s1.sec_reverse = s.sec_reverse ∧
    (∀ x, x ≠ c → s1.ctxs x = s.ctxs x) ∧
    s1.ctxs c = gc_mark H (s.ctxs c) ∧
    (gc_dead H (s.ctxs c) = true →
      s1.gsk_clist = s.gsk_clist.filter (fun x => x != c) ∧
      s1.gsk_root_ctx = (if s.gsk_root_ctx = some c then none else s.gsk_root_ctx) ∧
      fl1 = c :: fl) ∧
    (gc_dead H (s.ctxs c) = false →
      s1.gsk_clist = s.gsk_clist ∧ s1.gsk_root_ctx = s.gsk_root_ctx ∧ fl1 = fl) := by
  unfold gc_step at h
  simp only at h
  split at h
  · rename_i hpos
    refine ⟨hpos, ?_⟩
    have e1 : (s.ref_inc c).ctxs c =
        { s.ctxs c with cc_refcount := (s.ctxs c).cc_refcount + 1 } := by
      simp [State.ref_inc]
    rw [e1] at h
    generalize hd : H.cli_ctx_check_death
      { s.ctxs c with cc_refcount := (s.ctxs c).cc_refcount + 1 } = d at h
    have hdead : gc_dead H (s.ctxs c) = d.1 := by rw [gc_dead, hd]
    have hmark : gc_mark H (s.ctxs c) =
        { d.2 with cc_refcount := d.2.cc_refcount - 1,
                   cc_flags := { d.2.cc_flags with CACHED := d.2.cc_flags.CACHED && !d.1 } } := by
      rw [gc_mark, hd]
    have hdc : d.2.cc_flags.CACHED = true := by
      rw [← hd, hF.death_cached]; exact hc
    generalize hs2 : ((s.ref_inc c).modCtx c fun _ => d.2) = s2 at h
    have e_keys : s2.keys = s.keys := by subst hs2; rfl
    have e_trace : s2.trace = s.trace := by subst hs2; rfl
    have e_rev : s2.sec_reverse = s.sec_reverse := by subst hs2; rfl
    have e_list : s2.gsk_clist = s.gsk_clist := by subst hs2; rfl
    have e_root : s2.gsk_root_ctx = s.gsk_root_ctx := by subst hs2; rfl
    have e_other : ∀ x, x ≠ c → s2.ctxs x = s.ctxs x := by
      intro x hx; subst hs2; simp [State.ref_inc, hx]
    have e_c : s2.ctxs c = d.2 := by subst hs2; simp
    cases hd1 : d.1 with
    | true =>
      rw [hd1] at h
      simp only [if_true] at h
      have hc2 : (s2.ctxs c).cc_flags.CACHED = true := by rw [e_c]; exact hdc
      obtain ⟨u1, u2, u3, u4, u5, u6, u7⟩ := ctx_unlist_kr_cached hc2
      have urev : (ctx_unlist_kr c s2).2.sec_reverse = s2.sec_reverse := by
        simp only [ctx_unlist_kr, hc2, Bool.true_eq_false, if_false]
        split <;> rfl
      simp only [u1, if_true, Option.some.injEq, Prod.mk.injEq] at h
      obtain ⟨rfl, rfl⟩ := h
      refine ⟨u2.trans e_keys, u3.trans e_trace, urev.trans e_rev, ?_, ?_, ?_, ?_⟩
      · intro x hx; rw [u6 x hx, e_other x hx]
      · rw [u7, e_c, hmark, hd1]; simp
      · intro _; exact ⟨by rw [u4, e_list], by rw [u5, e_root], rfl⟩
      · intro hx; rw [hdead, hd1] at hx; cases hx
    | false =>
      rw [hd1] at h
      simp only [Bool.false_eq_true, if_false] at h
      split at h
      · simp only [Option.some.injEq, Prod.mk.injEq] at h
        obtain ⟨rfl, rfl⟩ := h
        refine ⟨e_keys, e_trace, e_rev, ?_, ?_, ?_, ?_⟩
        · intro x hx; simp [State.ref_dec, hx, e_other x hx]
        · simp only [State.ref_dec, modCtx_ctxs, if_true, e_c, hmark, hd1]
          simp
        · intro hx; rw [hdead, hd1] at hx; cases hx
        · intro _; exact ⟨e_list, e_root, rfl⟩
      · cases h
  · cases h

/-- The loop of `gss_sec_gc_ctx_kr` over a list `l` of distinct contexts that carry
`CACHED`, in closed form. -/
theorem gc_scan_spec {H : Helpers} (hF : H.Framed) (l : List Nat) {s sf : State}
    {fl flf : List Nat} (hn : l.Nodup) (hc : ∀ x ∈ l, (s.ctxs x).cc_flags.CACHED = true)
    (h : gc_scan H l (s, fl) = some (sf, flf)) :
    sf.keys = s.keys ∧ sf.trace = s.trace ∧ sf.sec_reverse = s.sec_reverse ∧
    (∀ x, sf.ctxs x = if x ∈ l then gc_mark H (s.ctxs x) else s.ctxs x) ∧
    sf.gsk_clist = s.gsk_clist.filter (fun x => !(decide (x ∈ l) && gc_dead H (s.ctxs x))) ∧
    (∀ r, sf.gsk_root_ctx = some r ↔
      s.gsk_root_ctx = some r ∧ ¬ (r ∈ l ∧ gc_dead H (s.ctxs r) = true)) ∧
    flf = (l.filter fun x => gc_dead H (s.ctxs x)).reverse ++ fl ∧
    (∀ x ∈ l, 0 < (s.ctxs x).cc_refcount) := by
  induction l generalizing s fl with
  | nil =>
    simp only [gc_scan, Option.some.injEq, Prod.mk.injEq] at h
    obtain ⟨rfl, rfl⟩ := h
    simp
  | cons c rest ih =>
    simp only [gc_scan, Option.bind_eq_some] at h
    obtain ⟨⟨s1, fl1⟩, hstep, hrest⟩ := h
    have hcc := hc c (List.mem_cons_self _ _)
    obtain ⟨k0, k1, k2, kr, k3, k4, k5, k6⟩ := gc_step_spec hF hcc hstep
    have hnot : c ∉ rest := (List.nodup_cons.mp hn).1
    have hne : ∀ x ∈ rest, x ≠ c := fun x hx e => hnot (e ▸ hx)
    have hc1 : ∀ x ∈ rest, (s1.ctxs x).cc_flags.CACHED = true := by
      intro x hx
      rw [k3 x (hne x hx)]
      exact hc x (List.mem_cons_of_mem _ hx)
    obtain ⟨i1, i2, ir, i3, i4, i5, i6, i7⟩ := ih (List.nodup_cons.mp hn).2 hc1 hrest
    have hdead : ∀ x, x ≠ c → gc_dead H (s1.ctxs x) = gc_dead H (s.ctxs x) := by
      intro x hx; rw [k3 x hx]
    refine ⟨i1.trans k1, i2.trans k2, ir.trans kr, ?_, ?_, ?_, ?_, ?_⟩
    · intro x
      rw [i3 x]
      by_cases hx : x = c
      · subst hx
        simp [hnot, k4]
      · by_cases hxr : x ∈ rest
        · simp [hxr, k3 x hx]
        · simp [hxr, hx, k3 x hx]
    · rw [i4]
      cases hd : gc_dead H (s.ctxs c) with
      | true =>
        rw [(k5 hd).1, List.filter_filter]
        apply List.filter_congr
        intro x _
        by_cases hx : x = c
        · subst hx; simp [hd]
        · rw [hdead x hx]; simp [hx]
      | false =>
        rw [(k6 hd).1]
        apply List.filter_congr
        intro x _
        by_cases hx : x = c
        · subst hx; simp [hd, hnot]
        · rw [hdead x hx]; simp [hx]
    · intro r
      rw [i5 r]
      cases hd : gc_dead H (s.ctxs c) with
      | true =>
        rw [(k5 hd).2.1]
        by_cases hr : r = c
        · subst hr; simp [hd]
        · rw [hdead r hr]
          by_cases hroot : s.gsk_root_ctx = some c
          · simp [hroot, hr]
            intro h; exact absurd h.symm hr
          · simp [hroot, hr]
      | false =>
        rw [(k6 hd).2.1]
        by_cases hr : r = c
        · subst hr; simp [hd, hnot]
        · rw [hdead r hr]; simp [hr]
    · rw [i6]
      have hfil : (rest.filter fun x => gc_dead H (s1.ctxs x)) =
          rest.filter fun x => gc_dead H (s.ctxs x) := by
        apply List.filter_congr
        intro x hx
        rw [hdead x (hne x hx)]
      rw [hfil]
      cases hd : gc_dead H (s.ctxs c) with
      | true => rw [(k5 hd).2.2]; simp [List.filter_cons, hd]
      | false => rw [(k6 hd).2.2]; simp [List.filter_cons, hd]
    · intro x hx
      simp only [List.mem_cons] at hx
      rcases hx with rfl | hx
      · exact k0
      · have := i7 x hx
        rw [k3 x (hne x hx)] at this
        exact this

/-- The loop of `gss_sec_gc_ctx_kr` runs to its end when every context it visits
carries `CACHED` and holds a reference. -/
theorem gc_scan_completes {H : Helpers} (hF : H.Framed) (l : List Nat) (s : State)
    (fl : List Nat) (hn : l.Nodup)
    (h : ∀ c ∈ l, (s.ctxs c).cc_flags.CACHED = true ∧ 0 < (s.ctxs c).cc_refcount) :
    ∃ a, gc_scan H l (s, fl) = some a := by
  induction l generalizing s fl with
  | nil => exact ⟨(s, fl), rfl⟩
  | cons c rest ih =>
    obtain ⟨hcc, hpos⟩ := h c (List.mem_cons_self _ _)
    have hstep : ∃ a, gc_step H c (s, fl) = some a := by
      unfold gc_step
      simp only [if_pos hpos]
      have e1 : (s.ref_inc c).ctxs c =
          { s.ctxs c with cc_refcount := (s.ctxs c).cc_refcount + 1 } := by
        simp [State.ref_inc]
      rw [e1]
      generalize hd : H.cli_ctx_check_death
        { s.ctxs c with cc_refcount := (s.ctxs c).cc_refcount + 1 } = d
      have hdc : d.2.cc_flags.CACHED = true := by
        rw [← hd, hF.death_cached]; exact hcc
      have hdr : d.2.cc_refcount = (s.ctxs c).cc_refcount + 1 := by
        rw [← hd, hF.death_refcount]
      cases hd1 : d.1 with
      | true =>
        have hc2 : (((s.ref_inc c).modCtx c fun _ => d.2).ctxs c).cc_flags.CACHED = true := by
          simp [hdc]
        have u1 := (ctx_unlist_kr_cached hc2).1
        simp [u1]
      | false =>
        have : 2 ≤ d.2.cc_refcount := by omega
        simp [this]
    obtain ⟨⟨s1, fl1⟩, hs1⟩ := hstep
    obtain ⟨-, -, -, -, k3, -, -, -⟩ := gc_step_spec hF hcc hs1
    have hnot : c ∉ rest := (List.nodup_cons.mp hn).1
    have hrest : ∀ x ∈ rest, (s1.ctxs x).cc_flags.CACHED = true ∧ 0 < (s1.ctxs x).cc_refcount := by
      intro x hx
      have hxc : x ≠ c := fun e => hnot (e ▸ hx)
      rw [k3 x hxc]
      exact h x (List.mem_cons_of_mem _ hx)
    obtain ⟨a, ha⟩ := ih s1 fl1 (List.nodup_cons.mp hn).2 hrest
    exact ⟨a, by simp only [gc_scan, hs1, Option.some_bind, ha]⟩

/-- The reference count that `ctx_put_kr(ctx, 0)` leaves: one less, or 1 when the last
reference went and the context was queued for the asynchronous collector. -/
theorem ctx_put_kr_async_refcount {H : Helpers} {c : Nat} {s s' : State}
    (h : ctx_put_kr H c 0 s = some s') :
    0 < (s.ctxs c).cc_refcount ∧
    (s'.ctxs c).cc_refcount =
      (if (s.ctxs c).cc_refcount - 1 = 0 then 1 else (s.ctxs c).cc_refcount - 1) := by
  unfold ctx_put_kr at h
  split at h
  · rename_i hpos
    refine ⟨hpos, ?_⟩
    simp only [State.ref_dec, modCtx_ctxs, if_true] at h
    split at h
    · rename_i hz
      simp only [ctx_release_kr, ne_eq, not_true_eq_false, if_false, Option.some.injEq] at h
      subst h
      rw [if_pos hz]
      simp [State.ref_inc, State.ref_dec, hz]
    · rename_i hz
      simp only [Option.some.injEq] at h
      subst h
      rw [if_neg hz]
      simp
  · cases h

/-- The reference count of a context after `dispose_ctx_list_kr` handled it: the
reference of its key, if it had one, and one more are gone; when none is left the
context holds the one of the asynchronous collector. -/
theorem dispose_head_refcount {H : Helpers} {c : Nat} {s2 s1 : State}
    (h : (unbind_ctx_kr H c s2).bind (ctx_put_kr H c 0) = some s1) :
    (s1.ctxs c).cc_refcount =
      (if (s2.ctxs c).cc_refcount - (if (s2.ctxs c).gck_key = none then 0 else 1) - 1 = 0 then 1
       else (s2.ctxs c).cc_refcount - (if (s2.ctxs c).gck_key = none then 0 else 1) - 1) := by
  simp only [Option.bind_eq_some] at h
  obtain ⟨t, hu, hput⟩ := h
  obtain ⟨-, hr⟩ := ctx_put_kr_async_refcount hput
  cases hk : (s2.ctxs c).gck_key with
  | none =>
    simp only [unbind_ctx_kr, hk, Option.some.injEq] at hu
    subst hu
    rw [hr]
    simp
  | some k0 =>
    obtain ⟨-, -, -, -, -, -, -, -, -, p10⟩ := unbind_ctx_kr_post hk hu
    rw [hr, p10]
    simp

/-- The reference counts that `dispose_ctx_list_kr` leaves on the contexts of a list
without repetition. -/
theorem dispose_ctx_list_kr_refcount {H : Helpers} (fl : List Nat) {s sf : State}
    (hn : fl.Nodup) (h : dispose_ctx_list_kr H fl s = some sf) :
    ∀ c ∈ fl, (sf.ctxs c).cc_refcount =
      (if (s.ctxs c).cc_refcount - (if (s.ctxs c).gck_key = none then 0 else 1) - 1 = 0 then 1
       else (s.ctxs c).cc_refcount - (if (s.ctxs c).gck_key = none then 0 else 1) - 1) := by
  induction fl generalizing s with
  | nil => intro c hc; cases hc
  | cons c rest ih =>
    simp only [dispose_ctx_list_kr] at h
    generalize hs2 : ((if (s.ctxs c).gc_svc_handle ≠ [] ∧ s.sec_reverse = true then
        s.log (Event.update_sequence (s.ctxs c).gc_svc_handle
          ((s.ctxs c).gc_seq % 2 ^ 32).toNat)
      else s).log (Event.wakeup c)) = s2 at h
    have e_ctxs : s2.ctxs = s.ctxs := by subst hs2; split <;> rfl
    rw [Option.bind_eq_some] at h
    obtain ⟨s1, hhead, hrest⟩ := h
    have hrc := dispose_head_refcount hhead
    obtain ⟨a1, -, -, -, -, -, -⟩ := dispose_head_spec hhead
    obtain ⟨i1, -, -, -, -, -, -, -, -⟩ := dispose_ctx_list_kr_spec _ hrest
    rw [e_ctxs] at hrc a1
    have hnot : c ∉ rest := (List.nodup_cons.mp hn).1
    intro x hx
    simp only [List.mem_cons] at hx
    rcases hx with rfl | hx
    · rw [i1 x hnot, hrc]
    · have hxc : x ≠ c := fun e => hnot (e ▸ hx)
      rw [ih (List.nodup_cons.mp hn).2 hrest x hx, a1 x hxc]

theorem gc_mark_refcount {H : Helpers} (hF : H.Framed) (c0 : Ctx) :
    (gc_mark H c0).cc_refcount = c0.cc_refcount := by
  simp only [gc_mark, hF.death_refcount]
  omega

theorem gc_mark_key {H : Helpers} (hF : H.Framed) (c0 : Ctx) :
    (gc_mark H c0).gck_key = c0.gck_key := by
  simp only [gc_mark, hF.death_key]

theorem gc_mark_cached {H : Helpers} (hF : H.Framed) (c0 : Ctx) :
    (gc_mark H c0).cc_flags.CACHED = (c0.cc_flags.CACHED && !gc_dead H c0) := by
  simp only [gc_mark, hF.death_cached, gc_dead]

/-- C24: the client garbage-collection sweep `gss_sec_gc_ctx_kr`, from a state in which
the contexts of `gsk_clist` are distinct, carry `CACHED` and hold a reference. The sweep
tests each listed context with `cli_ctx_check_death` while it holds one more reference
on it (`gc_dead`; this is the answer of `cli_ctx_check_death` on the context itself
whenever that answer does not depend on the reference count). After every completed
call `gsk_clist` is the former list without the contexts found dead, in the former
order; a context found alive is still listed, with its reference count, its `CACHED`
bit and its key pointer as before, and a key that points to it keeps its record; a
context found dead is out of the list, its `CACHED` bit is clear, its key pointer is
`NULL`, the key it was bound to has an empty payload and is revoked, and its reference
count is lower by the reference of the list and, if it was bound, by that of the key
(when none is left it holds the one reference of the asynchronous collector). The call
completes when each listed context with a key is the payload of that key and holds the
two base references and a keyring to unlink from is found. -/
theorem gc_ctx_kr_sweep (H : Helpers) (hF : H.Framed) (s : State) (hn : s.gsk_clist.Nodup)
    (hwf : ∀ c ∈ s.gsk_clist, (s.ctxs c).cc_flags.CACHED = true ∧ 0 < (s.ctxs c).cc_refcount) :
    (∀ s', gss_sec_gc_ctx_kr H s = some s' →
      s'.gsk_clist = s.gsk_clist.filter (fun c => !gc_dead H (s.ctxs c)) ∧
      (∀ c ∈ s.gsk_clist, gc_dead H (s.ctxs c) = false →
        c ∈ s'.gsk_clist ∧ (s'.ctxs c).cc_refcount = (s.ctxs c).cc_refcount ∧
        (s'.ctxs c).cc_flags.CACHED = true ∧ (s'.ctxs c).gck_key = (s.ctxs c).gck_key ∧
        ∀ k, (s.keys k).payload = some c → s'.keys k = s.keys k) ∧
      (∀ c ∈ s.gsk_clist, gc_dead H (s.ctxs c) = true →
        c ∉ s'.gsk_clist ∧ (s'.ctxs c).cc_flags.CACHED = false ∧
        (s'.ctxs c).gck_key = none ∧
        (∀ k, (s.ctxs c).gck_key = some k →
          (s'.keys k).payload = none ∧ (s'.keys k).revoked = true) ∧
        (s'.ctxs c).cc_refcount =
          (if (s.ctxs c).cc_refcount - 1 - (if (s.ctxs c).gck_key = none then 0 else 1) = 0
           then 1
           else (s.ctxs c).cc_refcount - 1 -
             (if (s.ctxs c).gck_key = none then 0 else 1)))) ∧
    ((∀ c0 n, (H.cli_ctx_check_death { c0 with cc_refcount := n }).1 =
        (H.cli_ctx_check_death c0).1) →
      ∀ c0, gc_dead H c0 = (H.cli_ctx_check_death c0).1) ∧
    ((∀ c ∈ s.gsk_clist, ∀ k, (s.ctxs c).gck_key = some k →
        (s.keys k).payload = some c ∧ 2 ≤ (s.ctxs c).cc_refcount) →
      H.request_key_ring ≠ none →
      (gss_sec_gc_ctx_kr H s).isSome = true) := by
  have hcached : ∀ x ∈ s.gsk_clist, (s.ctxs x).cc_flags.CACHED = true := fun x hx => (hwf x hx).1
  refine ⟨?_, ?_, ?_⟩
  · intro s' hret
    simp only [gss_sec_gc_ctx_kr, Option.bind_eq_some] at hret
    obtain ⟨⟨s1, fl⟩, hscan, hdisp⟩ := hret
    obtain ⟨a1, -, -, a3, a4, -, a6, -⟩ := gc_scan_spec hF _ hn hcached hscan
    simp only [List.append_nil] at a6
    obtain ⟨d1, d2, d3, d4, -, d6, -, d8, d9⟩ := dispose_ctx_list_kr_spec _ hdisp
    simp only at d1 d2 d3 d4 d6 d8 d9
    have hflmem : ∀ x, x ∈ fl ↔ x ∈ s.gsk_clist ∧ gc_dead H (s.ctxs x) = true := by
      intro x; rw [a6]; simp [List.mem_filter]
    have hfln : fl.Nodup := by
      rw [a6]
      exact List.nodup_reverse.mpr (hn.filter _)
    have hrc := dispose_ctx_list_kr_refcount _ hfln hdisp
    have hlist : s'.gsk_clist = s.gsk_clist.filter (fun c => !gc_dead H (s.ctxs c)) := by
      rw [d4, a4]
      apply List.filter_congr
      intro x hx
      simp [hx]
    refine ⟨hlist, ?_, ?_⟩
    · intro c hc hd
      have hnfl : c ∉ fl := by rw [hflmem]; simp [hd]
      have hrec : s'.ctxs c = gc_mark H (s.ctxs c) := by
        rw [d1 c hnfl, a3, if_pos hc]
      refine ⟨?_, ?_, ?_, ?_, ?_⟩
      · rw [hlist, List.mem_filter]; exact ⟨hc, by simp [hd]⟩
      · rw [hrec, gc_mark_refcount hF]
      · rw [hrec, gc_mark_cached hF, hd, hcached c hc]; rfl
      · rw [hrec, gc_mark_key hF]
      · intro k hk
        rw [d6 k, a1]
        intro x hx hxk
        have := d9 x hx k hxk
        rw [a1, hk] at this
        exact hnfl (by rw [Option.some.inj this]; exact hx)
    · intro c hc hd
      have hfl : c ∈ fl := (hflmem c).2 ⟨hc, hd⟩
      have hrec : s1.ctxs c = gc_mark H (s.ctxs c) := by rw [a3, if_pos hc]
      refine ⟨?_, ?_, d3 c (Or.inl hfl), ?_, ?_⟩
      · rw [hlist, List.mem_filter]; simp [hd]
      · rw [d2, hrec, gc_mark_cached hF, hd]; simp
      · intro k hk
        apply d8 c hfl k
        rw [hrec, gc_mark_key hF]; exact hk
      · rw [hrc c hfl, hrec, gc_mark_refcount hF, gc_mark_key hF]
        have e : (s.ctxs c).cc_refcount - (if (s.ctxs c).gck_key = none then 0 else 1) - 1 =
            (s.ctxs c).cc_refcount - 1 - (if (s.ctxs c).gck_key = none then 0 else 1) := by
          omega
        rw [e]
  · intro hind c0
    rw [gc_dead, hind]
  · intro hbound hring
    obtain ⟨⟨s1, fl⟩, hscan⟩ := gc_scan_completes hF s.gsk_clist s [] hn hwf
    obtain ⟨a1, -, -, a3, -, -, a6, -⟩ := gc_scan_spec hF _ hn hcached hscan
    simp only [List.append_nil] at a6
    have hflmem : ∀ x, x ∈ fl ↔ x ∈ s.gsk_clist ∧ gc_dead H (s.ctxs x) = true := by
      intro x; rw [a6]; simp [List.mem_filter]
    have hfln : fl.Nodup := by
      rw [a6]
      exact List.nodup_reverse.mpr (hn.filter _)
    have hfl : ∀ c ∈ fl, ((s1.ctxs c).gck_key = none ∧ 1 ≤ (s1.ctxs c).cc_refcount) ∨
        ∃ k, (s1.ctxs c).gck_key = some k ∧ (s1.keys k).payload = some c ∧
          (s1.ctxs c).cc_flags.CACHED = false ∧ 2 ≤ (s1.ctxs c).cc_refcount := by
      intro c hc
      obtain ⟨hcl, hd⟩ := (hflmem c).1 hc
      have hrec : s1.ctxs c = gc_mark H (s.ctxs c) := by rw [a3, if_pos hcl]
      rw [hrec, gc_mark_key hF, gc_mark_refcount hF, gc_mark_cached hF, hd]
      cases hk : (s.ctxs c).gck_key with
      | none =>
        left
        exact ⟨rfl, (hwf c hcl).2⟩
      | some k =>
        right
        obtain ⟨hp, href⟩ := hbound c hcl k hk
        exact ⟨k, rfl, by rw [a1]; exact hp, by simp, href⟩
    obtain ⟨sf, hsf⟩ := dispose_ctx_list_kr_completes hring fl s1 hfln hfl
    simp only [gss_sec_gc_ctx_kr, hscan, Option.some_bind]
    rw [hsf]
    rfl

/-- Worked example for C24: at time 100 the sweep of `demoGc` keeps context 2 alone in
the list with its two references, and unlists and unbinds contexts 1 and 3. -/
theorem gc_ctx_kr_sweep_witness :
    ∃ s', gss_sec_gc_ctx_kr (refHelpers 100) demoGc = some s' ∧
      s'.gsk_clist = [2] ∧ (s'.ctxs 2).cc_refcount = 2 ∧
      (s'.ctxs 1).cc_flags.CACHED = false ∧ (s'.ctxs 1).gck_key = none ∧
      (s'.keys 11).payload = none ∧ (s'.ctxs 1).cc_refcount = 2 ∧
      (s'.ctxs 3).cc_refcount = 1 := by
  have hn : demoGc.gsk_clist.Nodup := by decide
  have hwf : ∀ c ∈ demoGc.gsk_clist,
      (demoGc.ctxs c).cc_flags.CACHED = true ∧ 0 < (demoGc.ctxs c).cc_refcount := by decide
  obtain ⟨hpost, -, hcomp⟩ := gc_ctx_kr_sweep (refHelpers 100) (refHelpers_framed 100) demoGc hn hwf
  have hsome := hcomp (by decide) (by decide)
  cases hret : gss_sec_gc_ctx_kr (refHelpers 100) demoGc with
  | none => rw [hret] at hsome; cases hsome
  | some s' =>
    obtain ⟨h1, h2, h3⟩ := hpost s' hret
    have d1 := h3 1 (by decide) (by decide)
    have d3 := h3 3 (by decide) (by decide)
    have a2 := h2 2 (by decide) (by decide)
    refine ⟨s', rfl, ?_, ?_, d1.2.1, d1.2.2.1, (d1.2.2.2.1 11 (by decide)).1, ?_, ?_⟩
    · rw [h1]; decide
    · rw [a2.2.1]; decide
    · rw [d1.2.2.2.2]; decide
    · rw [d3.2.2.2.2]; decide

end GssKeyring

namespace GssSvcUpcall

open GssKeyring

/-! ## Theorems on the server caches -/

theorem rawobj_equal_iff (a b : List Nat) : rawobj_equal a b = true ↔ a = b := by
  induction a generalizing b with
  | nil => cases b <;> simp [rawobj_equal]
  | cons x a ih =>
    cases b with
    | nil => simp [rawobj_equal]
    | cons y b =>
      have h := ih b
      simp only [rawobj_equal, List.length_cons, List.zip_cons_cons, List.all_cons,
        Bool.and_eq_true, beq_iff_eq, add_left_inj, List.cons.injEq] at h ⊢
      constructor
      · rintro ⟨h1, h2, h3⟩
        exact ⟨h2, h.mp ⟨h1, h3⟩⟩
      · rintro ⟨h1, h2⟩
        obtain ⟨h3, h4⟩ := h.mpr h2
        exact ⟨h3, h1, h4⟩

theorem rsi_match_iff (a b : Rsi) :
    rsi_match a b = true ↔ a.in_handle = b.in_handle ∧ a.in_token = b.in_token := by
  simp [rsi_match, __rsi_match, rawobj_equal_iff]

theorem rsc_match_iff (a b : Rsc) : rsc_match a b = true ↔ a.handle = b.handle := by
  simp [rsc_match, __rsc_match, rawobj_equal_iff]

/-- C14: `rsi_match a b` holds exactly when the input handles of `a` and `b` have the same
length and the same byte at every position and so have their input tokens. The result
depends on no other field (service, NID, nodemap name, cache head, output handle and
token, status codes), and the relation is reflexive, symmetric and transitive. In the
same way `rsc_match a b` holds exactly when the two handles are byte for byte equal. -/
theorem rsi_match_key_equality :
    (∀ a b : Rsi, rsi_match a b = true ↔
      (a.in_handle.length = b.in_handle.length ∧
        ∀ i, i < a.in_handle.length → a.in_handle[i]? = b.in_handle[i]?) ∧
      (a.in_token.length = b.in_token.length ∧
        ∀ i, i < a.in_token.length → a.in_token[i]? = b.in_token[i]?)) ∧
    (∀ a b : Rsi, rsi_match a b = true ↔ a.in_handle = b.in_handle ∧ a.in_token = b.in_token) ∧
    (∀ a a2 b b2 : Rsi, a2.in_handle = a.in_handle → a2.in_token = a.in_token →
      b2.in_handle = b.in_handle → b2.in_token = b.in_token →
      rsi_match a2 b2 = rsi_match a b) ∧
    (∀ a : Rsi, rsi_match a a = true) ∧
    (∀ a b : Rsi, rsi_match a b = true → rsi_match b a = true) ∧
    (∀ a b c : Rsi, rsi_match a b = true → rsi_match b c = true → rsi_match a c = true) ∧
    (∀ a b : Rsc, rsc_match a b = true ↔ a.handle = b.handle) ∧
    (∀ a b : Rsc, rsc_match a b = true ↔
      (a.handle.length = b.handle.length ∧
        ∀ i, i < a.handle.length → a.handle[i]? = b.handle[i]?)) := by
  have hext : ∀ x y : List Nat, x = y ↔
      (x.length = y.length ∧ ∀ i, i < x.length → x[i]? = y[i]?) := by
    intro x y
    constructor
    · rintro rfl; exact ⟨rfl, fun _ _ => rfl⟩
    · rintro ⟨hl, hb⟩
      apply List.ext_getElem?
      intro i
      by_cases hi : i < x.length
      · exact hb i hi
      · rw [List.getElem?_eq_none (by omega), List.getElem?_eq_none (by omega)]
  refine ⟨?_, rsi_match_iff, ?_, ?_, ?_, ?_, rsc_match_iff, ?_⟩
  · intro a b
    rw [rsi_match_iff, hext, hext]
  · intro a a2 b b2 h1 h2 h3 h4
    simp only [rsi_match, __rsi_match, h1, h2, h3, h4]
  · intro a; rw [rsi_match_iff]; exact ⟨rfl, rfl⟩
  · intro a b h; rw [rsi_match_iff] at h ⊢; exact ⟨h.1.symm, h.2.symm⟩
  · intro a b c h1 h2
    rw [rsi_match_iff] at h1 h2 ⊢
    exact ⟨h1.1.trans h2.1, h1.2.trans h2.2⟩
  · intro a b
    rw [rsc_match_iff, hext]

@[simp] theorem Cache.mod_ents_same {α : Type} (c : Cache α) (p : Nat) (f : α → α) :
    (c.mod p f).ents p = f (c.ents p) := by
  simp [Cache.mod]

@[simp] theorem Cache.mod_ents_other {α : Type} (c : Cache α) (p x : Nat) (f : α → α)
    (h : x ≠ p) : (c.mod p f).ents x = c.ents x := by
  simp [Cache.mod, h]

@[simp] theorem Cache.mod_table {α : Type} (c : Cache α) (p : Nat) (f : α → α) :
    (c.mod p f).table = c.table := rfl

@[simp] theorem Cache.mod_freed {α : Type} (c : Cache α) (p : Nat) (f : α → α) :
    (c.mod p f).freed = c.freed := rfl

/-- C19: `gss_svc_upcall_destroy_ctx` sets `CACHE_NEGATIVE` on the entry that embeds the
context and sets its expiry time to 1, so the entry counts as expired at every later
clock reading. Nothing else changes: the other bits and the reference count of the
entry, its handle, target and context record (mechanism context, uid and gid, role
flags, reverse handle, sequence data), every other entry, the hash table, the init cache
and the trace. -/
theorem destroy_ctx_frame (ctx : Nat) (s : SvcState) :
    (gss_svc_upcall_destroy_ctx ctx s).rsc.ents ctx =
      { s.rsc.ents ctx with
        h := { (s.rsc.ents ctx).h with NEGATIVE := true, expiry_time := 1 } } ∧
    ((gss_svc_upcall_destroy_ctx ctx s).rsc.ents ctx).h.NEGATIVE = true ∧
    ((gss_svc_upcall_destroy_ctx ctx s).rsc.ents ctx).h.expiry_time = 1 ∧
    ((gss_svc_upcall_destroy_ctx ctx s).rsc.ents ctx).h.VALID = (s.rsc.ents ctx).h.VALID ∧
    ((gss_svc_upcall_destroy_ctx ctx s).rsc.ents ctx).h.PENDING = (s.rsc.ents ctx).h.PENDING ∧
    ((gss_svc_upcall_destroy_ctx ctx s).rsc.ents ctx).h.ref = (s.rsc.ents ctx).h.ref ∧
    ((gss_svc_upcall_destroy_ctx ctx s).rsc.ents ctx).handle = (s.rsc.ents ctx).handle ∧
    ((gss_svc_upcall_destroy_ctx ctx s).rsc.ents ctx).target = (s.rsc.ents ctx).target ∧
    ((gss_svc_upcall_destroy_ctx ctx s).rsc.ents ctx).ctx = (s.rsc.ents ctx).ctx ∧
    (∀ x, x ≠ ctx → (gss_svc_upcall_destroy_ctx ctx s).rsc.ents x = s.rsc.ents x) ∧
    (gss_svc_upcall_destroy_ctx ctx s).rsc.table = s.rsc.table ∧
    (gss_svc_upcall_destroy_ctx ctx s).rsc.freed = s.rsc.freed ∧
    (gss_svc_upcall_destroy_ctx ctx s).rsi = s.rsi ∧
    (gss_svc_upcall_destroy_ctx ctx s).trace = s.trace ∧
    (∀ now : Int, 1 < now →
      cache_is_expired ((gss_svc_upcall_destroy_ctx ctx s).rsc.ents ctx).h now = true) := by
  have h0 : (gss_svc_upcall_destroy_ctx ctx s).rsc.ents ctx =
      { s.rsc.ents ctx with
        h := { (s.rsc.ents ctx).h with NEGATIVE := true, expiry_time := 1 } } := by
    simp [gss_svc_upcall_destroy_ctx]
  refine ⟨h0, ?_, ?_, ?_, ?_, ?_, ?_, ?_, ?_, ?_, rfl, rfl, rfl, rfl, ?_⟩
  · rw [h0]
  · rw [h0]
  · rw [h0]
  · rw [h0]
  · rw [h0]
  · rw [h0]
  · rw [h0]
  · rw [h0]
  · intro x hx
    simp [gss_svc_upcall_destroy_ctx, hx]
  · intro now hnow
    rw [h0]
    simp [cache_is_expired, hnow]

theorem Cache.mod_mod {α : Type} (c : Cache α) (p : Nat) (f g : α → α) :
    (c.mod p f).mod p g = c.mod p fun e => g (f e) := by
  simp [Cache.mod]

theorem Cache.mod_self {α : Type} (c : Cache α) (p : Nat) (f : α → α)
    (h : f (c.ents p) = c.ents p) : c.mod p f = c := by
  simp [Cache.mod, h]

theorem rsi_cache_put_get (p : Nat) (c : Cache Rsi) (h : (c.ents p).h.ref ≠ 0) :
    cache_put rsi_cache p (cache_get rsi_cache p c) = some c := by
  have e : ((cache_get rsi_cache p c).mod p fun e =>
      rsi_cache.set_h e { rsi_cache.h e with ref := (rsi_cache.h e).ref - 1 }) = c := by
    rw [cache_get, Cache.mod_mod]
    apply Cache.mod_self
    simp [rsi_cache]
  simp only [cache_put, e]
  rw [if_neg]
  simpa [rsi_cache] using h

theorem rsi_lookup_found {H : SvcHelpers} {key : Rsi} {s : SvcState} {p : Nat}
    (h : s.rsi.table.find? (fun q => rsi_match (s.rsi.ents q) key) = some p) :
    rsi_lookup H key s = (some p, { s with rsi := cache_get rsi_cache p s.rsi }) := by
  have h' : s.rsi.table.find? (fun q => rsi_cache.is_match (s.rsi.ents q) key) = some p := h
  simp only [rsi_lookup, sunrpc_cache_lookup, h']

theorem rsi_lookup_created {H : SvcHelpers} {key : Rsi} {s : SvcState} {q : Nat}
    (h : s.rsi.table.find? (fun q => rsi_match (s.rsi.ents q) key) = none)
    (ha : H.rsi_alloc = some q) :
    rsi_lookup H key s =
      (some q, { s with rsi :=
        { s.rsi with
          ents := Function.update s.rsi.ents q
            { zeroRsi with
              h := { zeroHead with expiry_time := H.seconds_since_boot + CACHE_NEW_EXPIRY,
                                   ref := 2 },
              in_handle := key.in_handle, in_token := key.in_token,
              lustre_svc := key.lustre_svc, nid4 := key.nid4, nm_name := key.nm_name },
          table := q :: s.rsi.table } }) := by
  have h' : s.rsi.table.find? (fun q => rsi_cache.is_match (s.rsi.ents q) key) = none := h
  simp only [rsi_lookup, sunrpc_cache_lookup, h', ha]
  simp [rsi_cache, rsi_init, __rsi_init, zeroRsi]

/-- C13: a reply line whose input handle and input token fields parse (both `qword_get`
calls return a length of at least 0 and both `rawobj_alloc` calls succeed), giving the
key `(ih, it)`. If the entry `p` that matches the key in the init cache does not carry
`CACHE_PENDING`, every completed `rsi_parse` returns `-EINVAL`, leaves both caches exactly
as they were (so the output handle, output token, major and minor status and expiry of
the entry are unchanged, and the reference taken by the lookup is given back) and adds
to the trace only the wake-up of the entry: `rsi_update` is not called. The call
completes whenever the entry holds a reference. If no entry matches the key and the
lookup creates one at address `q`, that entry is not pending either: the call returns
`-EINVAL`, `rsi_update` is not called, the new entry has no output and every other entry
is unchanged. -/
theorem rsi_parse_not_pending (H : SvcHelpers) (mesg : List Char) (s : SvcState)
    (ih it : List Nat)
    (h1 : 0 ≤ (H.qword_get mesg).1)
    (a1 : H.rawobj_alloc (H.qword_get mesg).2.1 (H.qword_get mesg).1 = some ih)
    (h2 : 0 ≤ (H.qword_get (H.qword_get mesg).2.2).1)
    (a2 : H.rawobj_alloc (H.qword_get (H.qword_get mesg).2.2).2.1
      (H.qword_get (H.qword_get mesg).2.2).1 = some it) :
    (∀ p, s.rsi.table.find? (fun q =>
          rsi_match (s.rsi.ents q) { zeroRsi with in_handle := ih, in_token := it }) = some p →
      (s.rsi.ents p).h.PENDING = false →
      (∀ r s', rsi_parse H mesg s = some (r, s') →
        r = -EINVAL ∧ s'.rsi = s.rsi ∧ s'.rsc = s.rsc ∧
        s'.trace = SvcEvent.wake_up p :: s.trace ∧
        (s'.rsi.ents p).out_handle = (s.rsi.ents p).out_handle ∧
        (s'.rsi.ents p).out_token = (s.rsi.ents p).out_token ∧
        (s'.rsi.ents p).major_status = (s.rsi.ents p).major_status ∧
        (s'.rsi.ents p).minor_status = (s.rsi.ents p).minor_status ∧
        (s'.rsi.ents p).h.expiry_time = (s.rsi.ents p).h.expiry_time ∧
        (s'.rsi.ents p).h.ref = (s.rsi.ents p).h.ref ∧
        ∀ old, SvcEvent.rsi_update old ∈ s'.trace → SvcEvent.rsi_update old ∈ s.trace) ∧
      ((s.rsi.ents p).h.ref ≠ 0 →
        rsi_parse H mesg s = some (-EINVAL, { s with trace := SvcEvent.wake_up p :: s.trace }))) ∧
    (s.rsi.table.find? (fun q =>
          rsi_match (s.rsi.ents q) { zeroRsi with in_handle := ih, in_token := it }) = none →
      ∀ q, H.rsi_alloc = some q →
      ∃ s', rsi_parse H mesg s = some (-EINVAL, s') ∧
        s'.trace = SvcEvent.wake_up q :: s.trace ∧ s'.rsc = s.rsc ∧
        (s'.rsi.ents q).h.PENDING = false ∧ (s'.rsi.ents q).h.VALID = false ∧
        (s'.rsi.ents q).out_handle = [] ∧ (s'.rsi.ents q).out_token = [] ∧
        (s'.rsi.ents q).in_handle = ih ∧ (s'.rsi.ents q).in_token = it ∧
        ∀ x, x ≠ q → s'.rsi.ents x = s.rsi.ents x) := by
  have hn1 : ¬ (H.qword_get mesg).1 < 0 := by omega
  have hn2 : ¬ (H.qword_get (H.qword_get mesg).2.2).1 < 0 := by omega
  refine ⟨?_, ?_⟩
  · intro p hfind hpend
    have hl := @rsi_lookup_found H _ s p hfind
    have hval : rsi_parse H mesg s =
        (cache_put rsi_cache p (cache_get rsi_cache p s.rsi)).map fun c =>
          (-EINVAL, { s with rsi := c, trace := SvcEvent.wake_up p :: s.trace }) := by
      have hp2 : ((cache_get rsi_cache p s.rsi).ents p).h.PENDING = false := by
        simp [cache_get, rsi_cache, hpend]
      simp only [rsi_parse, hn1, if_false, a1, hn2, a2, hl, hp2, if_true, rsi_parse_out,
        SvcState.log]
    have hmem : p ∈ s.rsi.table := List.mem_of_find?_eq_some hfind
    refine ⟨?_, ?_⟩
    · intro r s' hret
      by_cases href : (s.rsi.ents p).h.ref = 0
      · exfalso
        rw [hval] at hret
        have hnone : cache_put rsi_cache p (cache_get rsi_cache p s.rsi) = none := by
          simp [cache_put, cache_get, rsi_cache, Cache.mod_mod, href, rsi_put, hmem]
        rw [hnone] at hret
        cases hret
      · rw [hval, rsi_cache_put_get p s.rsi href] at hret
        simp only [Option.map_some', Option.some.injEq, Prod.mk.injEq] at hret
        obtain ⟨rfl, rfl⟩ := hret
        refine ⟨rfl, rfl, rfl, rfl, rfl, rfl, rfl, rfl, rfl, rfl, ?_⟩
        intro old hin
        simpa using hin
    · intro href
      rw [hval, rsi_cache_put_get p s.rsi href]
      rfl
  · intro hnone q hq
    have hl := @rsi_lookup_created H _ s q hnone hq
    generalize hL : rsi_lookup H { zeroRsi with in_handle := ih, in_token := it } s = L at hl
    have hL1 : L.1 = some q := by rw [hl]
    have hp2 : (L.2.rsi.ents q).h.PENDING = false := by rw [hl]; simp [zeroHead]
    have href : ¬ ((L.2.rsi.ents q).h.ref - 1 = 0) := by rw [hl]; simp
    have hval : rsi_parse H mesg s = some (-EINVAL,
        { L.2 with rsi := L.2.rsi.mod q fun e => { e with h := { e.h with ref := e.h.ref - 1 } },
                   trace := SvcEvent.wake_up q :: L.2.trace }) := by
      simp only [rsi_parse, hn1, if_false, a1, hn2, a2, hL, hL1, hp2, if_true, rsi_parse_out,
        SvcState.log, cache_put, rsi_cache, Cache.mod_ents_same, href, Option.map_some']
    refine ⟨_, hval, ?_⟩
    rw [hl]
    refine ⟨rfl, rfl, ?_, ?_, ?_, ?_, ?_, ?_, ?_⟩
    · simp [zeroHead]
    · simp [zeroHead]
    · simp [zeroRsi]
    · simp [zeroRsi]
    · simp
    · simp
    · intro x hx
      simp [Cache.mod, hx]

/-- Worked example for C13: the reply line `demoReply` arrives for negotiation entry 1 of
`demoSvc`, which was answered before and is not pending: `rsi_parse` returns `-EINVAL`,
only wakes the waiters and leaves both caches as they were. -/
theorem rsi_parse_not_pending_witness :
    (demoSvc.rsi.ents 1).h.PENDING = false ∧
    rsi_parse (demoSvcHelpers 100 50) demoReply demoSvc =
      some (-EINVAL, { demoSvc with trace := SvcEvent.wake_up 1 :: demoSvc.trace }) :=
  ⟨by decide,
   ((rsi_parse_not_pending (demoSvcHelpers 100 50) demoReply demoSvc [] [1, 2, 3]
      (by decide) (by decide) (by decide) (by decide)).1 1 (by decide) (by decide)).2
      (by decide)⟩

theorem qword_addhex_loop_room : ∀ (buf : List Nat) (bp : List Char) (len : Int),
    2 * (buf.length : Int) ≤ len →
    qword_addhex_loop buf bp len = ([], bp ++ buf.flatMap hex_byte_pack, len - 2 * buf.length) := by
  intro buf
  induction buf with
  | nil => intro bp len _; simp [qword_addhex_loop]
  | cons b rest ih =>
    intro bp len h
    simp only [List.length_cons, Nat.cast_add, Nat.cast_one] at h
    have h2 : (2 : Int) ≤ len := by omega
    rw [qword_addhex_loop, if_pos h2, ih _ _ (by omega)]
    simp only [List.flatMap_cons, List.append_assoc, List.length_cons, Nat.cast_add,
      Nat.cast_one, Prod.mk.injEq, true_and]
    omega

theorem qword_addhex_room (o : List Char × Int) (buf : List Nat)
    (h : 2 * (buf.length : Int) + 3 ≤ o.2) :
    qword_addhex o buf = (o.1 ++ hexField buf ++ [' '], o.2 - (2 * buf.length + 3)) := by
  have h0 : ¬ o.2 < 0 := by omega
  have h2 : (2 : Int) < o.2 := by omega
  have h1 : ¬ (o.2 - 2 - 2 * (buf.length : Int) < 1) := by omega
  simp only [qword_addhex, h0, if_false, h2, if_true,
    qword_addhex_loop_room buf _ (o.2 - 2) (by omega), ne_eq, not_true_eq_false, false_or, h1,
    hexField, List.append_assoc, Prod.mk.injEq, true_and]
  omega

theorem strlen_take_of_mem : ∀ (l : List Nat), 0 ∈ l →
    l.take (strlen l + 1) = (l.takeWhile fun b => b != 0) ++ [0] := by
  intro l
  induction l with
  | nil => intro h; cases h
  | cons b rest ih =>
    intro h
    by_cases hb : b = 0
    · subst hb
      simp [strlen]
    · have hr : 0 ∈ rest := by
        rcases List.mem_cons.mp h with h | h
        · exact absurd h.symm hb
        · exact h
      have hb' : (b != 0) = true := by simp [hb]
      have := ih hr
      simp only [strlen] at this ⊢
      simp only [List.takeWhile_cons, hb', if_true, List.length_cons, List.take_succ_cons,
        List.cons_append, this]

theorem rsc_cache_put_get (p : Nat) (c : Cache Rsc) (h : (c.ents p).h.ref ≠ 0) :
    cache_put rsc_cache p (cache_get rsc_cache p c) = some c := by
  have e : ((cache_get rsc_cache p c).mod p fun e =>
      rsc_cache.set_h e { rsc_cache.h e with ref := (rsc_cache.h e).ref - 1 }) = c := by
    rw [cache_get, Cache.mod_mod]
    apply Cache.mod_self
    simp [rsc_cache]
  simp only [cache_put, e]
  rw [if_neg]
  simpa [rsc_cache] using h

theorem rsc_cache_put_get_none (p : Nat) (c : Cache Rsc) (h : (c.ents p).h.ref = 0)
    (hm : p ∈ c.table) : cache_put rsc_cache p (cache_get rsc_cache p c) = none := by
  simp [cache_put, cache_get, rsc_cache, Cache.mod_mod, h, rsc_put, hm]

theorem rsc_lookup_found {H : SvcHelpers} {key : Rsc} {s : SvcState} {p : Nat}
    (h : s.rsc.table.find? (fun q => rsc_match (s.rsc.ents q) key) = some p) :
    rsc_lookup H key s = (some p, { s with rsc := cache_get rsc_cache p s.rsc }) := by
  have h' : s.rsc.table.find? (fun q => rsc_cache.is_match (s.rsc.ents q) key) = some p := h
  simp only [rsc_lookup, sunrpc_cache_lookup, h']

theorem rsc_lookup_created {H : SvcHelpers} {key : Rsc} {s : SvcState} {q : Nat}
    (h : s.rsc.table.find? (fun q => rsc_match (s.rsc.ents q) key) = none)
    (ha : H.rsc_alloc = some q) :
    rsc_lookup H key s =
      (some q, { s with rsc :=
        { s.rsc with
          ents := Function.update s.rsc.ents q
            { zeroRsc with
              h := { zeroHead with expiry_time := H.seconds_since_boot + CACHE_NEW_EXPIRY,
                                   ref := 2 },
              handle := key.handle },
          table := q :: s.rsc.table } }) := by
  have h' : s.rsc.table.find? (fun q => rsc_cache.is_match (s.rsc.ents q) key) = none := h
  simp only [rsc_lookup, sunrpc_cache_lookup, h', ha]
  simp [rsc_cache, rsc_init, __rsc_init, zeroRsc, zeroSvcCtx]

theorem rsc_lookup_failed {H : SvcHelpers} {key : Rsc} {s : SvcState}
    (h : s.rsc.table.find? (fun q => rsc_match (s.rsc.ents q) key) = none)
    (ha : H.rsc_alloc = none) : rsc_lookup H key s = (none, s) := by
  have h' : s.rsc.table.find? (fun q => rsc_cache.is_match (s.rsc.ents q) key) = none := h
  simp only [rsc_lookup, sunrpc_cache_lookup, h', ha]

theorem cache_check_rv_eq_zero (h : CacheHead) (now : Int) :
    cache_check_rv h now = 0 ↔ h.VALID = true ∧ h.NEGATIVE = false ∧ now ≤ h.expiry_time := by
  unfold cache_check_rv cache_is_expired
  constructor
  · intro e
    split at e
    · rename_i hc
      obtain ⟨h1, h2, h3⟩ := hc
      refine ⟨h1, h3, ?_⟩
      simpa using h2
    · simp [ENOENT] at e
  · rintro ⟨h1, h2, h3⟩
    rw [if_pos]
    refine ⟨h1, ?_, h2⟩
    simpa using h3

/-- What `gss_svc_searchbyctx` does when the copy of the handle matches entry `p` of the
hash table. -/
theorem gss_svc_searchbyctx_found {H : SvcHelpers} {handle hd : List Nat} {s : SvcState}
    {p : Nat} (hdup : H.rawobj_dup handle = some hd)
    (hfind : s.rsc.table.find? (fun q =>
      rsc_match (s.rsc.ents q) { zeroRsc with handle := hd }) = some p) :
    gss_svc_searchbyctx H handle s =
      if cache_check_rv (s.rsc.ents p).h H.seconds_since_boot = 0 then
        some (some p, { s with rsc := cache_get rsc_cache p s.rsc })
      else if (s.rsc.ents p).h.ref = 0 then none
      else some (none, s) := by
  have hl := @rsc_lookup_found H _ s p hfind
  have hh : ((cache_get rsc_cache p s.rsc).ents p).h =
      { (s.rsc.ents p).h with ref := (s.rsc.ents p).h.ref + 1 } := by
    simp [cache_get, rsc_cache]
  have hrv : cache_check_rv ((cache_get rsc_cache p s.rsc).ents p).h H.seconds_since_boot =
      cache_check_rv (s.rsc.ents p).h H.seconds_since_boot := by
    rw [hh]; rfl
  simp only [gss_svc_searchbyctx, hdup, hl, hrv]
  by_cases hz : cache_check_rv (s.rsc.ents p).h H.seconds_since_boot = 0
  · simp [hz, cache_check_put]
  · simp only [hz, if_false, cache_check_put, ne_eq, not_false_eq_true, if_true]
    by_cases href : (s.rsc.ents p).h.ref = 0
    · rw [rsc_cache_put_get_none p s.rsc href (List.mem_of_find?_eq_some hfind)]
      simp [href]
    · rw [rsc_cache_put_get p s.rsc href]
      simp [href]

/-- What `gss_svc_searchbyctx` does when no entry of the hash table matches the copy of
the handle: the lookup fails or creates an entry that is not valid, and the result is
`NULL`. -/
theorem gss_svc_searchbyctx_absent {H : SvcHelpers} {handle hd : List Nat} {s : SvcState}
    (hdup : H.rawobj_dup handle = some hd)
    (hfind : s.rsc.table.find? (fun q =>
      rsc_match (s.rsc.ents q) { zeroRsc with handle := hd }) = none) :
    ∃ s', gss_svc_searchbyctx H handle s = some (none, s') ∧
      (H.rsc_alloc = none → s' = s) ∧
      ∀ q, H.rsc_alloc = some q → ∀ x, x ≠ q → s'.rsc.ents x = s.rsc.ents x := by
  cases ha : H.rsc_alloc with
  | none =>
    have hl := @rsc_lookup_failed H _ s hfind ha
    exact ⟨s, by simp only [gss_svc_searchbyctx, hdup, hl], fun _ => rfl, fun q hq => by cases hq⟩
  | some q =>
    have hl := @rsc_lookup_created H _ s q hfind ha
    generalize hL : rsc_lookup H { zeroRsc with handle := hd } s = L at hl
    have hL1 : L.1 = some q := by rw [hl]
    have hrv : cache_check_rv (L.2.rsc.ents q).h H.seconds_since_boot ≠ 0 := by
      rw [hl]; simp [cache_check_rv, zeroHead, ENOENT]
    have href : ¬ ((L.2.rsc.ents q).h.ref - 1 = 0) := by rw [hl]; simp
    refine ⟨{ L.2 with rsc := L.2.rsc.mod q fun e =>
        { e with h := { e.h with ref := e.h.ref - 1 } } }, ?_, (fun h => by cases h), ?_⟩
    · simp only [gss_svc_searchbyctx, hdup, hL, hL1, cache_check_put, hrv, ne_eq,
        not_false_eq_true, if_true, cache_put, rsc_cache, Cache.mod_ents_same, href, if_false,
        Option.map_some']
    · intro q' hq' x hx
      cases hq'
      rw [hl]
      simp [Cache.mod, hx]

theorem rsc_match_destroy (p : Nat) (s : SvcState) (key : Rsc) (q : Nat) :
    rsc_match ((gss_svc_upcall_destroy_ctx p s).rsc.ents q) key =
      rsc_match (s.rsc.ents q) key := by
  by_cases hq : q = p
  · subst hq
    simp [gss_svc_upcall_destroy_ctx, rsc_match, __rsc_match]
  · simp [gss_svc_upcall_destroy_ctx, hq]

/-- C18: `gss_svc_upcall_get_ctx` looks the wire handle up through `gss_svc_searchbyctx`.
A completed call returns a context only when the handle could be copied, the copy
matches an entry of the context cache byte for byte, and `cache_check` gives 0 for that
entry, that is the entry is valid, not negative and not past its expiry; the entry then
comes back with the reference of the lookup, and whenever these conditions hold it is
returned. In every other case the result is `NULL`: the copy fails, no entry matches
(the lookup fails or creates an entry that is not valid), or the matching entry is
not valid (still pending), negative or expired. After `gss_svc_upcall_destroy_ctx` the
entry still matches its handle and is negative, and in every state where that is so a
call with that handle, at any later time, returns `NULL` and leaves the state as it
was, so the same holds for each call after it. -/
theorem get_ctx_only_valid (H : SvcHelpers) (handle : List Nat) (s : SvcState) :
    (∀ p s', gss_svc_upcall_get_ctx H handle s = some (some p, s') →
      ∃ hd, H.rawobj_dup handle = some hd ∧
        s.rsc.table.find? (fun q =>
          rsc_match (s.rsc.ents q) { zeroRsc with handle := hd }) = some p ∧
        (s.rsc.ents p).handle = hd ∧
        cache_check_rv (s.rsc.ents p).h H.seconds_since_boot = 0 ∧
        (s.rsc.ents p).h.VALID = true ∧ (s.rsc.ents p).h.NEGATIVE = false ∧
        cache_is_expired (s.rsc.ents p).h H.seconds_since_boot = false ∧
        s' = { s with rsc := cache_get rsc_cache p s.rsc }) ∧
    (∀ hd p, H.rawobj_dup handle = some hd →
      s.rsc.table.find? (fun q =>
        rsc_match (s.rsc.ents q) { zeroRsc with handle := hd }) = some p →
      (s.rsc.ents p).h.VALID = true → (s.rsc.ents p).h.NEGATIVE = false →
      cache_is_expired (s.rsc.ents p).h H.seconds_since_boot = false →
      gss_svc_upcall_get_ctx H handle s =
        some (some p, { s with rsc := cache_get rsc_cache p s.rsc })) ∧
    (H.rawobj_dup handle = none → gss_svc_upcall_get_ctx H handle s = some (none, s)) ∧
    (∀ hd, H.rawobj_dup handle = some hd →
      s.rsc.table.find? (fun q =>
        rsc_match (s.rsc.ents q) { zeroRsc with handle := hd }) = none →
      ∃ s', gss_svc_upcall_get_ctx H handle s = some (none, s')) ∧
    (∀ hd p, H.rawobj_dup handle = some hd →
      s.rsc.table.find? (fun q =>
        rsc_match (s.rsc.ents q) { zeroRsc with handle := hd }) = some p →
      ((s.rsc.ents p).h.VALID = false ∨ (s.rsc.ents p).h.NEGATIVE = true ∨
        cache_is_expired (s.rsc.ents p).h H.seconds_since_boot = true) →
      (∀ r s', gss_svc_upcall_get_ctx H handle s = some (r, s') → r = none ∧ s' = s) ∧
      ((s.rsc.ents p).h.ref ≠ 0 → gss_svc_upcall_get_ctx H handle s = some (none, s))) ∧
    (∀ hd p,
      s.rsc.table.find? (fun q =>
        rsc_match (s.rsc.ents q) { zeroRsc with handle := hd }) = some p →
      (gss_svc_upcall_destroy_ctx p s).rsc.table.find? (fun q =>
        rsc_match ((gss_svc_upcall_destroy_ctx p s).rsc.ents q)
          { zeroRsc with handle := hd }) = some p ∧
      ((gss_svc_upcall_destroy_ctx p s).rsc.ents p).h.NEGATIVE = true) ∧
    (∀ (t : SvcState) (H2 : SvcHelpers) (hd : List Nat) (p : Nat),
      (H2.rawobj_dup handle = none ∨ H2.rawobj_dup handle = some hd) →
      t.rsc.table.find? (fun q =>
        rsc_match (t.rsc.ents q) { zeroRsc with handle := hd }) = some p →
      (t.rsc.ents p).h.NEGATIVE = true →
      (∀ r t', gss_svc_upcall_get_ctx H2 handle t = some (r, t') → r = none ∧ t' = t) ∧
      ((t.rsc.ents p).h.ref ≠ 0 → gss_svc_upcall_get_ctx H2 handle t = some (none, t))) := by
  have hbad : ∀ (H2 : SvcHelpers) (t : SvcState) (hd : List Nat) (p : Nat),
      H2.rawobj_dup handle = some hd →
      t.rsc.table.find? (fun q =>
        rsc_match (t.rsc.ents q) { zeroRsc with handle := hd }) = some p →
      cache_check_rv (t.rsc.ents p).h H2.seconds_since_boot ≠ 0 →
      (∀ r t', gss_svc_upcall_get_ctx H2 handle t = some (r, t') → r = none ∧ t' = t) ∧
      ((t.rsc.ents p).h.ref ≠ 0 → gss_svc_upcall_get_ctx H2 handle t = some (none, t)) := by
    intro H2 t hd p hdup hfind hrv
    have hv := gss_svc_searchbyctx_found hdup hfind
    rw [if_neg hrv] at hv
    refine ⟨?_, ?_⟩
    · intro r t' hret
      simp only [gss_svc_upcall_get_ctx, hv] at hret
      split at hret
      · cases hret
      · simp only [Option.some.injEq, Prod.mk.injEq] at hret
        exact ⟨hret.1.symm, hret.2.symm⟩
    · intro href
      simp only [gss_svc_upcall_get_ctx, hv, if_neg href]
  refine ⟨?_, ?_, ?_, ?_, ?_, ?_, ?_⟩
  · intro p s' hret
    simp only [gss_svc_upcall_get_ctx] at hret
    cases hdup : H.rawobj_dup handle with
    | none => simp [gss_svc_searchbyctx, hdup] at hret
    | some hd =>
      cases hfind : s.rsc.table.find? (fun q =>
          rsc_match (s.rsc.ents q) { zeroRsc with handle := hd }) with
      | none =>
        obtain ⟨s2, h2, -⟩ := gss_svc_searchbyctx_absent hdup hfind
        rw [h2] at hret
        simp at hret
      | some p0 =>
        have hv := gss_svc_searchbyctx_found hdup hfind
        rw [hv] at hret
        by_cases hz : cache_check_rv (s.rsc.ents p0).h H.seconds_since_boot = 0
        · rw [if_pos hz] at hret
          simp only [Option.some.injEq, Prod.mk.injEq] at hret
          obtain ⟨e1, e2⟩ := hret
          subst e1
          have hm := List.find?_some hfind
          have hh : (s.rsc.ents p0).handle = hd := by
            simpa [rsc_match_iff] using hm
          obtain ⟨v1, v2, v3⟩ := (cache_check_rv_eq_zero _ _).mp hz
          refine ⟨hd, rfl, hfind, hh, hz, v1, v2, ?_, e2.symm⟩
          simp [cache_is_expired, v3]
        · rw [if_neg hz] at hret
          split at hret
          · cases hret
          · simp at hret
  · intro hd p hdup hfind v1 v2 v3
    have hz : cache_check_rv (s.rsc.ents p).h H.seconds_since_boot = 0 :=
      (cache_check_rv_eq_zero _ _).mpr ⟨v1, v2, by simpa [cache_is_expired] using v3⟩
    simp only [gss_svc_upcall_get_ctx, gss_svc_searchbyctx_found hdup hfind, if_pos hz]
  · intro hdup
    simp only [gss_svc_upcall_get_ctx, gss_svc_searchbyctx, hdup]
  · intro hd hdup hfind
    obtain ⟨s2, h2, -⟩ := gss_svc_searchbyctx_absent hdup hfind
    exact ⟨s2, h2⟩
  · intro hd p hdup hfind hor
    apply hbad H s hd p hdup hfind
    intro hz
    obtain ⟨v1, v2, v3⟩ := (cache_check_rv_eq_zero _ _).mp hz
    rcases hor with h | h | h
    · rw [v1] at h; cases h
    · rw [v2] at h; cases h
    · simp [cache_is_expired] at h; omega
  · intro hd p hfind
    refine ⟨?_, ?_⟩
    · have : (fun q => rsc_match ((gss_svc_upcall_destroy_ctx p s).rsc.ents q)
          { zeroRsc with handle := hd }) =
          (fun q => rsc_match (s.rsc.ents q) { zeroRsc with handle := hd }) := by
        funext q; exact rsc_match_destroy p s _ q
      rw [this]
      exact hfind
    · simp [gss_svc_upcall_destroy_ctx]
  · intro t H2 hd p hdup hfind hneg
    rcases hdup with hdup | hdup
    · refine ⟨?_, fun _ => by simp only [gss_svc_upcall_get_ctx, gss_svc_searchbyctx, hdup]⟩
      intro r t' hret
      simp only [gss_svc_upcall_get_ctx, gss_svc_searchbyctx, hdup, Option.some.injEq,
        Prod.mk.injEq] at hret
      exact ⟨hret.1.symm, hret.2.symm⟩
    · apply hbad H2 t hd p hdup hfind
      intro hz
      obtain ⟨-, v2, -⟩ := (cache_check_rv_eq_zero _ _).mp hz
      rw [v2] at hneg; cases hneg

/-- Worked example for C18: at time 100 the handle `07 07` resolves to the established
entry 5 of `demoSvc`, which comes back with one more reference; once
`gss_svc_upcall_destroy_ctx` has been applied to that entry the same lookup returns
`NULL`, at time 100 and at time 5000 alike. -/
theorem get_ctx_only_valid_witness :
    gss_svc_upcall_get_ctx (demoSvcHelpers 100 50) [7, 7] demoSvc =
      some (some 5, { demoSvc with rsc := cache_get rsc_cache 5 demoSvc.rsc }) ∧
    gss_svc_upcall_get_ctx (demoSvcHelpers 100 50) [7, 7] (gss_svc_upcall_destroy_ctx 5 demoSvc) =
      some (none, gss_svc_upcall_destroy_ctx 5 demoSvc) ∧
    gss_svc_upcall_get_ctx (demoSvcHelpers 5000 50) [7, 7] (gss_svc_upcall_destroy_ctx 5 demoSvc) =
      some (none, gss_svc_upcall_destroy_ctx 5 demoSvc) := by
  have h := get_ctx_only_valid (demoSvcHelpers 100 50) [7, 7] demoSvc
  have hd := h.2.2.2.2.2.1 [7, 7] 5 (by decide)
  refine ⟨h.2.1 [7, 7] 5 (by decide) (by decide) (by decide) (by decide) (by decide), ?_, ?_⟩
  · exact (h.2.2.2.2.2.2 _ (demoSvcHelpers 100 50) [7, 7] 5 (Or.inr (by decide)) hd.1 hd.2).2
      (by decide)
  · exact (h.2.2.2.2.2.2 _ (demoSvcHelpers 5000 50) [7, 7] 5 (Or.inr (by decide)) hd.1 hd.2).2
      (by decide)

theorem cache_get_mod_put (p : Nat) (c : Cache Rsc) (f : Rsc → Rsc)
    (hf : ∀ e, (f e).h.ref = e.h.ref) (href : (c.ents p).h.ref ≠ 0) :
    cache_put rsc_cache p ((cache_get rsc_cache p c).mod p f) =
      some (c.mod p fun e => { f { e with h := { e.h with ref := e.h.ref + 1 } } with
        h := { (f { e with h := { e.h with ref := e.h.ref + 1 } }).h with ref := e.h.ref } }) := by
  have hr : ((f { c.ents p with h := { (c.ents p).h with ref := (c.ents p).h.ref + 1 } }).h.ref
      - 1 = 0) ↔ (c.ents p).h.ref = 0 := by
    rw [hf]; simp
  simp only [cache_put, cache_get, rsc_cache, Cache.mod_mod, Cache.mod_ents_same, hr, href,
    if_false, Option.some.injEq]
  congr 1
  funext e
  simp [hf]

theorem rsi_lookup_frame (H : SvcHelpers) (key : Rsi) (s : SvcState) :
    (rsi_lookup H key s).2.trace = s.trace ∧ (rsi_lookup H key s).2.rsc = s.rsc ∧
    (rsi_lookup H key s).2.krb5_allow_old_client_csum = s.krb5_allow_old_client_csum :=
  ⟨rfl, rfl, rfl⟩

theorem gss_svc_searchbyctx_frame {H : SvcHelpers} {handle : List Nat} {s t : SvcState}
    {r : Option Nat} (h : gss_svc_searchbyctx H handle s = some (r, t)) :
    t.trace = s.trace ∧ t.rsi = s.rsi ∧
    t.krb5_allow_old_client_csum = s.krb5_allow_old_client_csum := by
  unfold gss_svc_searchbyctx at h
  cases hdup : H.rawobj_dup handle with
  | none =>
    simp only [hdup, Option.some.injEq, Prod.mk.injEq] at h
    obtain ⟨-, rfl⟩ := h
    exact ⟨rfl, rfl, rfl⟩
  | some hd =>
    simp only [hdup] at h
    generalize hL : rsc_lookup H { zeroRsc with handle := hd } s = L at h
    have f1 : L.2.trace = s.trace := by rw [← hL]; rfl
    have f2 : L.2.rsi = s.rsi := by rw [← hL]; rfl
    have f3 : L.2.krb5_allow_old_client_csum = s.krb5_allow_old_client_csum := by
      rw [← hL]; rfl
    cases hl1 : L.1 with
    | none =>
      simp only [hl1, Option.some.injEq, Prod.mk.injEq] at h
      obtain ⟨-, rfl⟩ := h
      exact ⟨f1, f2, f3⟩
    | some found =>
      simp only [hl1, Option.map_eq_some', Prod.mk.injEq] at h
      obtain ⟨c, -, -, rfl⟩ := h
      exact ⟨f1, f2, f3⟩

theorem cache_check_rsi_spec {E : InitEnv} {n p : Nat} {s t : SvcState} {rv : Int}
    (h : cache_check_rsi E n p s = some (rv, t)) :
    rv = E.cache_check n ∧ t.trace = SvcEvent.cache_check_rsi p :: s.trace ∧ t.rsc = s.rsc ∧
    t.krb5_allow_old_client_csum = s.krb5_allow_old_client_csum := by
  simp only [cache_check_rsi, SvcState.log, Option.map_eq_some', Prod.mk.injEq] at h
  obtain ⟨c, -, rfl, rfl⟩ := h
  exact ⟨rfl, rfl, rfl, rfl⟩

/-- What a completed wait of `gss_svc_upcall_handle_init` leaves: without a timeout on
the first `cache_check` its result is final and nothing else happened; after a timeout
the result is that of the second `cache_check`, with at most one sleep in between. -/
theorem handle_init_wait_spec {E : InitEnv} {p : Nat} {s t : SvcState} {rc : Int}
    (h : handle_init_wait E p s = some (rc, t)) :
    t.krb5_allow_old_client_csum = s.krb5_allow_old_client_csum ∧
    ((E.cache_check 0 ≠ -ETIMEDOUT ∧ E.cache_check 0 ≠ -EAGAIN) →
      rc = E.cache_check 0 ∧ t.trace = SvcEvent.cache_check_rsi p :: s.trace ∧ t.rsc = s.rsc) ∧
    ((E.cache_check 0 = -ETIMEDOUT ∨ E.cache_check 0 = -EAGAIN) →
      rc = E.cache_check 1 ∧
      (t.trace = SvcEvent.cache_check_rsi p :: SvcEvent.cache_check_rsi p :: s.trace ∨
       t.trace = SvcEvent.cache_check_rsi p ::
         SvcEvent.schedule_timeout GSS_SVC_UPCALL_TIMEOUT ::
         SvcEvent.cache_check_rsi p :: s.trace)) := by
  simp only [handle_init_wait, Option.bind_eq_some] at h
  obtain ⟨⟨rv1, t1⟩, h1, h⟩ := h
  obtain ⟨e1, tr1, rs1, k1⟩ := cache_check_rsi_spec h1
  simp only [] at h
  by_cases hto : rv1 = -ETIMEDOUT ∨ rv1 = -EAGAIN
  · rw [if_pos hto] at h
    generalize hs2 : (if (t1.rsi.ents p).h.VALID = false then _ else t1 : SvcState) = s2 at h
    simp only [handle_init_wait_retry, Option.bind_eq_some] at h
    obtain ⟨⟨rv2, t2⟩, h2, h⟩ := h
    have hk2 : s2.krb5_allow_old_client_csum = t1.krb5_allow_old_client_csum := by
      rw [← hs2]; split <;> rfl
    have htr2 : s2.trace = t1.trace ∨
        s2.trace = SvcEvent.schedule_timeout GSS_SVC_UPCALL_TIMEOUT :: t1.trace := by
      rw [← hs2]; split
      · right; rfl
      · left; rfl
    obtain ⟨e2, tr2, rs2, k2⟩ := cache_check_rsi_spec h2
    simp only [] at tr2 k2
    have hfin : t.krb5_allow_old_client_csum = t2.krb5_allow_old_client_csum ∧ rc = rv2 ∧
        t.trace = t2.trace := by
      simp only [handle_init_wait_done] at h
      split at h
      · simp only [Option.map_eq_some', Prod.mk.injEq] at h
        obtain ⟨c, -, rfl, rfl⟩ := h
        exact ⟨rfl, rfl, rfl⟩
      · split at h
        · simp only [Option.map_eq_some', Prod.mk.injEq] at h
          obtain ⟨c, -, rfl, rfl⟩ := h
          exact ⟨rfl, rfl, rfl⟩
        · split at h
          · simp only [Option.bind_eq_some, Option.map_eq_some', Prod.mk.injEq] at h
            obtain ⟨c, -, c2, -, rfl, rfl⟩ := h
            exact ⟨rfl, rfl, rfl⟩
          · simp only [Option.map_eq_some', Prod.mk.injEq] at h
            obtain ⟨c, -, rfl, rfl⟩ := h
            exact ⟨rfl, rfl, rfl⟩
    obtain ⟨f1, f2, f3⟩ := hfin
    refine ⟨?_, ?_, ?_⟩
    · rw [f1, k2, hk2, k1]
    · rintro ⟨n1, n2⟩
      rw [e1] at hto
      rcases hto with h | h
      · exact absurd h n1
      · exact absurd h n2
    · intro _
      refine ⟨by rw [f2, e2], ?_⟩
      rw [f3, tr2]
      rcases htr2 with h | h
      · left; rw [h, tr1]
      · right; rw [h, tr1]
  · rw [if_neg hto] at h
    simp only [handle_init_wait_done, Option.map_eq_some', Prod.mk.injEq] at h
    obtain ⟨c, -, rfl, rfl⟩ := h
    refine ⟨k1, ?_, ?_⟩
    · intro _
      exact ⟨e1, tr1, rs1⟩
    · intro hx
      rw [e1] at hto
      exact absurd hx hto

theorem COMPAT_RSC_PUT_frame {p : Nat} {s t : SvcState} (h : COMPAT_RSC_PUT p s = some t) :
    t.trace = s.trace ∧ t.rsi = s.rsi ∧
    (t.rsc.ents p).h.NEGATIVE = (s.rsc.ents p).h.NEGATIVE := by
  simp only [COMPAT_RSC_PUT, Option.map_eq_some'] at h
  obtain ⟨c, hc, rfl⟩ := h
  refine ⟨rfl, rfl, ?_⟩
  simp only [cache_put, rsc_cache, Cache.mod_ents_same] at hc
  split at hc
  · simp only [rsc_put] at hc
    split at hc
    · cases hc
    · cases hc; simp
  · cases hc; simp

/-- What the label `out` of `gss_svc_upcall_handle_init` leaves when it completes. -/
theorem handle_init_out_spec {rsci : Option Nat} {rc : Int} {g : Grctx} {rep : Option Reply}
    {s : SvcState} {res : InitResult} (h : handle_init_out rsci rc g rep s = some res) :
    res.rc = rc ∧ res.grctx = g ∧ res.reply = rep ∧ res.s.trace = s.trace ∧
    ∀ p, rsci = some p → rc ≠ SECSVC_OK → (res.s.rsc.ents p).h.NEGATIVE = true := by
  unfold handle_init_out at h
  cases rsci with
  | none =>
    simp only [Option.some.injEq] at h
    subst h
    exact ⟨rfl, rfl, rfl, rfl, fun p hp => by cases hp⟩
  | some p =>
    simp only [Option.map_eq_some'] at h
    obtain ⟨t, ht, rfl⟩ := h
    obtain ⟨f1, -, f3⟩ := COMPAT_RSC_PUT_frame ht
    refine ⟨rfl, rfl, rfl, ?_, ?_⟩
    · rw [f1]; split <;> rfl
    · intro q hq hne
      cases hq
      simp only [] at f3 ⊢
      rw [f3, if_pos hne]
      simp

/-- What the packing part of `gss_svc_upcall_handle_init` leaves when it completes: the
result is `SECSVC_OK` or `SECSVC_DROP`; with `SECSVC_OK` the output handle was short
enough, `lustre_pack_reply_v2` was called and succeeded and a reply was filled in; with
any other result the context entry ends negative. -/
theorem handle_init_pack_spec {H : SvcHelpers} {E : InitEnv} {req : InitReq} {g : Grctx}
    {rsip rsci : Nat} {s : SvcState} {res : InitResult}
    (h : handle_init_pack H E req g rsip rsci s = some res) :
    (res.rc = SECSVC_OK ∨ res.rc = SECSVC_DROP) ∧
    (res.s.trace = s.trace ∨ res.s.trace = SvcEvent.lustre_pack_reply_v2 :: s.trace) ∧
    res.grctx.src_ctx = g.src_ctx ∧
    (res.rc = SECSVC_OK →
      (s.rsi.ents rsip).out_handle.length ≤ E.PTLRPC_GSS_MAX_HANDLE_SIZE ∧
      E.lustre_pack_reply_v2 = 0 ∧
      res.s.trace = SvcEvent.lustre_pack_reply_v2 :: s.trace ∧
      res.reply.isSome = true ∧ res.grctx.src_init = true) ∧
    (res.rc ≠ SECSVC_OK → (res.s.rsc.ents rsci).h.NEGATIVE = true) := by
  have hne : SECSVC_DROP ≠ SECSVC_OK := by decide
  unfold handle_init_pack at h
  simp only [] at h
  split at h
  · obtain ⟨h1, h2, h3, h4, h5⟩ := handle_init_out_spec h
    refine ⟨Or.inr h1, Or.inl h4, by rw [h2], ?_, fun _ => h5 rsci rfl hne⟩
    intro hok; rw [h1] at hok; exact absurd hok hne
  · rename_i rh hrh
    split at h
    · obtain ⟨h1, h2, h3, h4, h5⟩ := handle_init_out_spec h
      refine ⟨Or.inr h1, Or.inl h4, by rw [h2], ?_, fun _ => h5 rsci rfl hne⟩
      intro hok; rw [h1] at hok; exact absurd hok hne
    · rename_i hlen
      split at h
      · obtain ⟨h1, h2, h3, h4, h5⟩ := handle_init_out_spec h
        refine ⟨Or.inr h1, Or.inr h4, by rw [h2], ?_, fun _ => h5 rsci rfl hne⟩
        intro hok; rw [h1] at hok; exact absurd hok hne
      · rename_i hpack
        split at h
        · obtain ⟨h1, h2, h3, h4, h5⟩ := handle_init_out_spec h
          refine ⟨Or.inl h1, Or.inr h4, by rw [h2], ?_, fun hx => absurd h1 hx⟩
          intro _
          refine ⟨by omega, by simpa using hpack, h4, by rw [h3]; rfl, by rw [h2]⟩
        · cases h

/-- What the reply part of `gss_svc_upcall_handle_init` leaves when it completes. -/
theorem handle_init_reply_spec {H : SvcHelpers} {E : InitEnv} {req : InitReq} {g : Grctx}
    {rsip rsci : Nat} {s : SvcState} {res : InitResult}
    (h : handle_init_reply H E req g rsip rsci s = some res) :
    (res.rc = SECSVC_OK ∨ res.rc = SECSVC_DROP) ∧
    (res.s.trace = s.trace ∨ res.s.trace = SvcEvent.lustre_pack_reply_v2 :: s.trace) ∧
    res.grctx.src_ctx = some rsci ∧
    (res.rc = SECSVC_OK →
      (s.rsi.ents rsip).out_handle.length ≤ E.PTLRPC_GSS_MAX_HANDLE_SIZE ∧
      E.lustre_pack_reply_v2 = 0 ∧
      res.s.trace = SvcEvent.lustre_pack_reply_v2 :: s.trace ∧
      res.reply.isSome = true ∧ res.grctx.src_init = true) ∧
    (res.rc ≠ SECSVC_OK → (res.s.rsc.ents rsci).h.NEGATIVE = true) := by
  have hne : SECSVC_DROP ≠ SECSVC_OK := by decide
  unfold handle_init_reply at h
  simp only [] at h
  split at h
  · cases h
  · rename_i m hm
    split at h
    · obtain ⟨h1, h2, h3, h4, h5⟩ := handle_init_out_spec h
      refine ⟨Or.inr h1, Or.inl h4, by rw [h2], ?_, fun _ => h5 rsci rfl hne⟩
      intro hok; rw [h1] at hok; exact absurd hok hne
    · generalize hs2 : (if req.gw_kcsum = true then _ else _ : SvcState) = s2 at h
      have t1 : s2.trace = s.trace := by rw [← hs2]; split <;> rfl
      have t2 : s2.rsi = s.rsi := by rw [← hs2]; split <;> rfl
      obtain ⟨p1, p2, p3, p4, p5⟩ := handle_init_pack_spec h
      rw [t1] at p2 p4
      rw [t2] at p4
      exact ⟨p1, p2, p3, p4, p5⟩

/-- The ways in which `gss_svc_upcall_handle_init` completes: a copy of the handle or of
the token fails; the lookup in the init cache fails; the wait ends with a non-zero
result; no usable context entry is found for the output handle; or one is found and the
reply part runs. -/
theorem handle_init_cases {H : SvcHelpers} {E : InitEnv} {req : InitReq} {g : Grctx}
    {s : SvcState} {res : InitResult}
    (h : gss_svc_upcall_handle_init H E req g s = some res) :
    ((H.rawobj_dup req.gw_handle = none ∨ H.rawobj_dup req.in_token = none) ∧
      res.rc = SECSVC_DROP ∧ res.s.trace = s.trace) ∨
    ∃ ih it, H.rawobj_dup req.gw_handle = some ih ∧ H.rawobj_dup req.in_token = some it ∧
      (((rsi_lookup H (rsikey req ih it) s).1 = none ∧
        res.rc = (if E.gss_pack_err_notify E.GSS_S_FAILURE 0 = 0 then SECSVC_COMPLETE
                  else SECSVC_DROP) ∧
        res.s.trace = SvcEvent.gss_pack_err_notify E.GSS_S_FAILURE 0 :: s.trace) ∨
       ∃ rsip rc w, (rsi_lookup H (rsikey req ih it) s).1 = some rsip ∧
        handle_init_wait E rsip
          { (rsi_lookup H (rsikey req ih it) s).2 with
            rsi := cache_get rsi_cache rsip (rsi_lookup H (rsikey req ih it) s).2.rsi } =
          some (rc, w) ∧
        ((rc ≠ 0 ∧ res.rc = SECSVC_DROP ∧ res.s.trace = w.trace) ∨
         (rc = 0 ∧ ∃ f, gss_svc_searchbyctx H (w.rsi.ents rsip).out_handle w = some (none, f) ∧
           res.rc = (if E.gss_pack_err_notify (w.rsi.ents rsip).major_status
                        (w.rsi.ents rsip).minor_status = 0 then SECSVC_COMPLETE
                     else SECSVC_DROP) ∧
           res.s.trace = SvcEvent.gss_pack_err_notify (w.rsi.ents rsip).major_status
             (w.rsi.ents rsip).minor_status :: w.trace) ∨
         (rc = 0 ∧ ∃ rsci f,
           gss_svc_searchbyctx H (w.rsi.ents rsip).out_handle w = some (some rsci, f) ∧
           handle_init_reply H E req g rsip rsci f = some res))) := by
  unfold gss_svc_upcall_handle_init at h
  cases hd1 : H.rawobj_dup req.gw_handle with
  | none =>
    simp only [hd1] at h
    obtain ⟨h1, -, -, h4, -⟩ := handle_init_out_spec h
    exact Or.inl ⟨Or.inl rfl, h1, h4⟩
  | some ih =>
    cases hd2 : H.rawobj_dup req.in_token with
    | none =>
      simp only [hd1, hd2] at h
      obtain ⟨h1, -, -, h4, -⟩ := handle_init_out_spec h
      exact Or.inl ⟨Or.inr rfl, h1, h4⟩
    | some it =>
      simp only [hd1, hd2] at h
      refine Or.inr ⟨ih, it, rfl, rfl, ?_⟩
      generalize hL : rsi_lookup H (rsikey req ih it) s = L at h ⊢
      have ftr : L.2.trace = s.trace := by rw [← hL]; rfl
      cases hl1 : L.1 with
      | none =>
        simp only [hl1] at h
        obtain ⟨h1, -, -, h4, -⟩ := handle_init_out_spec h
        exact Or.inl ⟨rfl, h1, by rw [h4]; simp only [SvcState.log, ftr]⟩
      | some rsip =>
        simp only [hl1, Option.bind_eq_some] at h
        obtain ⟨⟨rc, w⟩, hw, h⟩ := h
        refine Or.inr ⟨rsip, rc, w, rfl, hw, ?_⟩
        simp only [] at h
        by_cases hrc : rc = 0
        · rw [if_neg (by simpa using hrc)] at h
          simp only [Option.bind_eq_some] at h
          obtain ⟨⟨fr, f⟩, hf, h⟩ := h
          obtain ⟨g1, -, -⟩ := gss_svc_searchbyctx_frame hf
          cases fr with
          | none =>
            simp only [] at h
            obtain ⟨h1, -, -, h4, -⟩ := handle_init_out_spec h
            exact Or.inr (Or.inl ⟨hrc, f, hf, h1, by rw [h4]; simp only [SvcState.log, g1]⟩)
          | some rsci =>
            simp only [] at h
            exact Or.inr (Or.inr ⟨hrc, rsci, f, hf, h⟩)
        · rw [if_pos (by simpa using hrc)] at h
          obtain ⟨h1, -, -, h4, -⟩ := handle_init_out_spec h
          exact Or.inl ⟨hrc, h1, h4⟩

theorem rsi_cache_put_some (p : Nat) (c : Cache Rsi) (h : (c.ents p).h.ref ≠ 1) :
    cache_put rsi_cache p c =
      some (c.mod p fun e => { e with h := { e.h with ref := e.h.ref - 1 } }) := by
  have : ¬ ((c.ents p).h.ref - 1 = 0) := by omega
  simp only [cache_put, rsi_cache, Cache.mod_ents_same, this, if_false]

theorem cache_check_rsi_completes (E : InitEnv) (n p : Nat) (t : SvcState)
    (ht : 2 ≤ (t.rsi.ents p).h.ref) :
    ∃ t', cache_check_rsi E n p t = some (E.cache_check n, t') ∧
      (t'.rsi.ents p).h.ref =
        (if E.cache_check n ≠ 0 then (t.rsi.ents p).h.ref - 1 else (t.rsi.ents p).h.ref) := by
  by_cases hz : E.cache_check n ≠ 0
  · refine ⟨{ t.log (SvcEvent.cache_check_rsi p) with
        rsi := t.rsi.mod p fun e => { e with h := { e.h with ref := e.h.ref - 1 } } }, ?_, ?_⟩
    · have := rsi_cache_put_some p t.rsi (by omega)
      simp only [cache_check_rsi, cache_check_put, SvcState.log, this]
      rw [if_pos hz]
      rfl
    · simp [hz]
  · refine ⟨t.log (SvcEvent.cache_check_rsi p), ?_, ?_⟩
    · simp only [cache_check_rsi, cache_check_put, SvcState.log]
      rw [if_neg hz]
      rfl
    · simp [hz, SvcState.log]

theorem handle_init_wait_done_completes (p : Nat) (rc : Int) (t : SvcState)
    (ht : 2 ≤ (t.rsi.ents p).h.ref) : (handle_init_wait_done p rc t).isSome = true := by
  simp [handle_init_wait_done, rsi_cache_put_some p t.rsi (by omega)]

theorem handle_init_wait_retry_completes (E : InitEnv) (p : Nat) (s : SvcState)
    (href : 3 ≤ (s.rsi.ents p).h.ref) : (handle_init_wait_retry E p s).isSome = true := by
  obtain ⟨t2, h2, r2⟩ := cache_check_rsi_completes E 1 p s (by omega)
  simp only [handle_init_wait_retry, h2, Option.some_bind]
  by_cases hz : E.cache_check 1 ≠ 0
  · rw [if_pos hz] at r2
    have hd := handle_init_wait_done_completes p (E.cache_check 1) t2 (by omega)
    split
    · exact hd
    · split
      · exact hd
      · exact hd
  · rw [if_neg hz] at r2
    have he0 : E.cache_check 1 = 0 := by simpa using hz
    have n1 : ¬ (E.cache_check 1 = -ETIMEDOUT ∨ E.cache_check 1 = -EAGAIN) := by
      rw [he0]; decide
    have n2 : ¬ E.cache_check 1 = -ENOENT := by rw [he0]; decide
    rw [if_neg n1, if_neg n2, if_pos he0, rsi_cache_put_some p t2.rsi (by omega)]
    simp only [Option.some_bind]
    apply handle_init_wait_done_completes
    simp only [Cache.mod_ents_same]
    omega

/-- The wait of `gss_svc_upcall_handle_init` completes when the init entry holds at
least three references at its start (the one of the hash table, the one of the lookup
and the extra one) and the sleep leaves the reference count of the entry alone. -/
theorem handle_init_wait_completes (E : InitEnv) (p : Nat) (s : SvcState)
    (href : 3 ≤ (s.rsi.ents p).h.ref)
    (hsleep : ∀ c, ((E.schedule_timeout c).1.ents p).h.ref = (c.1.ents p).h.ref) :
    (handle_init_wait E p s).isSome = true := by
  obtain ⟨t1, h1, r1⟩ := cache_check_rsi_completes E 0 p s (by omega)
  simp only [handle_init_wait, h1, Option.some_bind]
  by_cases hto : E.cache_check 0 = -ETIMEDOUT ∨ E.cache_check 0 = -EAGAIN
  · rw [if_pos hto]
    have hnz : E.cache_check 0 ≠ 0 := by
      rcases hto with h | h <;> rw [h] <;> decide
    rw [if_pos hnz] at r1
    apply handle_init_wait_retry_completes
    simp only [cache_get, rsi_cache, Cache.mod_ents_same]
    split
    · simp only [SvcState.log]
      rw [hsleep]
      simp only []
      omega
    · omega
  · rw [if_neg hto]
    apply handle_init_wait_done_completes
    rw [r1]
    split <;> omega

/-- The events that a completed wait adds to the trace, with its result. -/
theorem handle_init_wait_events {E : InitEnv} {p : Nat} {s t : SvcState} {rc : Int}
    (h : handle_init_wait E p s = some (rc, t)) :
    ∃ wev, t.trace = wev ++ s.trace ∧
      ((E.cache_check 0 ≠ -ETIMEDOUT ∧ E.cache_check 0 ≠ -EAGAIN ∧ rc = E.cache_check 0 ∧
          wev = [SvcEvent.cache_check_rsi p]) ∨
       ((E.cache_check 0 = -ETIMEDOUT ∨ E.cache_check 0 = -EAGAIN) ∧ rc = E.cache_check 1 ∧
          (wev = [SvcEvent.cache_check_rsi p, SvcEvent.cache_check_rsi p] ∨
           wev = [SvcEvent.cache_check_rsi p, SvcEvent.schedule_timeout GSS_SVC_UPCALL_TIMEOUT,
                  SvcEvent.cache_check_rsi p]))) := by
  obtain ⟨-, h2, h3⟩ := handle_init_wait_spec h
  by_cases hto : E.cache_check 0 = -ETIMEDOUT ∨ E.cache_check 0 = -EAGAIN
  · obtain ⟨e, htr⟩ := h3 hto
    rcases htr with htr | htr
    · exact ⟨_, htr, Or.inr ⟨hto, e, Or.inl rfl⟩⟩
    · exact ⟨_, htr, Or.inr ⟨hto, e, Or.inr rfl⟩⟩
  · have hn : E.cache_check 0 ≠ -ETIMEDOUT ∧ E.cache_check 0 ≠ -EAGAIN :=
      ⟨fun h => hto (Or.inl h), fun h => hto (Or.inr h)⟩
    obtain ⟨e, htr, -⟩ := h2 hn
    exact ⟨[SvcEvent.cache_check_rsi p], htr, Or.inl ⟨hn.1, hn.2, e, rfl⟩⟩

/-- The events that a completed `gss_svc_upcall_handle_init` adds to the trace: those of
the wait, if it was reached, below at most one event of packing. -/
theorem handle_init_events {H : SvcHelpers} {E : InitEnv} {req : InitReq} {g : Grctx}
    {s : SvcState} {res : InitResult}
    (h : gss_svc_upcall_handle_init H E req g s = some res) :
    (res.rc = SECSVC_DROP ∧ res.s.trace = s.trace) ∨
    (∃ a b, res.s.trace = SvcEvent.gss_pack_err_notify a b :: s.trace) ∨
    ∃ rsip rc wev pre, res.s.trace = pre ++ wev ++ s.trace ∧
      (pre = [] ∨ pre = [SvcEvent.lustre_pack_reply_v2] ∨
        ∃ a b, pre = [SvcEvent.gss_pack_err_notify a b]) ∧
      (rc ≠ 0 → res.rc = SECSVC_DROP) ∧
      ((E.cache_check 0 ≠ -ETIMEDOUT ∧ E.cache_check 0 ≠ -EAGAIN ∧ rc = E.cache_check 0 ∧
          wev = [SvcEvent.cache_check_rsi rsip]) ∨
       ((E.cache_check 0 = -ETIMEDOUT ∨ E.cache_check 0 = -EAGAIN) ∧ rc = E.cache_check 1 ∧
          (wev = [SvcEvent.cache_check_rsi rsip, SvcEvent.cache_check_rsi rsip] ∨
           wev = [SvcEvent.cache_check_rsi rsip,
                  SvcEvent.schedule_timeout GSS_SVC_UPCALL_TIMEOUT,
                  SvcEvent.cache_check_rsi rsip]))) := by
  rcases handle_init_cases h with ⟨-, h1, h2⟩ | ⟨ih, it, -, -, hc⟩
  · exact Or.inl ⟨h1, h2⟩
  · rcases hc with ⟨-, -, h2⟩ | ⟨rsip, rc, w, -, hw, hc⟩
    · exact Or.inr (Or.inl ⟨_, _, h2⟩)
    · obtain ⟨wev, htr, hwev⟩ := handle_init_wait_events hw
      have hbase : ({ (rsi_lookup H (rsikey req ih it) s).2 with
            rsi := cache_get rsi_cache rsip (rsi_lookup H (rsikey req ih it) s).2.rsi } :
            SvcState).trace = s.trace := rfl
      rw [hbase] at htr
      refine Or.inr (Or.inr ⟨rsip, rc, wev, ?_⟩)
      rcases hc with ⟨hrc, h1, h2⟩ | ⟨hrc, f, -, h1, h2⟩ | ⟨hrc, rsci, f, hf, hr⟩
      · exact ⟨[], by rw [h2, htr]; rfl, Or.inl rfl, fun _ => h1, hwev⟩
      · exact ⟨[_], by rw [h2, htr]; rfl, Or.inr (Or.inr ⟨_, _, rfl⟩),
          fun hx => absurd hrc hx, hwev⟩
      · obtain ⟨ftr, -, -⟩ := gss_svc_searchbyctx_frame hf
        obtain ⟨-, p2, -, -, -⟩ := handle_init_reply_spec hr
        rcases p2 with p2 | p2
        · exact ⟨[], by rw [p2, ftr, htr]; rfl, Or.inl rfl, fun hx => absurd hrc hx, hwev⟩
        · exact ⟨[_], by rw [p2, ftr, htr]; rfl, Or.inr (Or.inl rfl),
            fun hx => absurd hrc hx, hwev⟩

/-- C16: bounded wait with a single retry in `gss_svc_upcall_handle_init`. The events
that a completed call adds to the trace contain at most two `cache_check` calls on the
init entry and at most one `schedule_timeout`, and every `schedule_timeout` in them is
for `GSS_SVC_UPCALL_TIMEOUT`, which is 20 seconds. When `cache_check` was called at all:
if its first and its second result are both `-EAGAIN` or `-ETIMEDOUT`, the call returns
`SECSVC_DROP`; if its first result is non-zero and neither `-EAGAIN` nor `-ETIMEDOUT`
(`-ENOENT` for one), the call returns `SECSVC_DROP` after exactly one `cache_check` and
no sleep; a second `cache_check` is made exactly when the first result is `-EAGAIN` or
`-ETIMEDOUT`. The call does complete on these paths: when both copies are made, the key
matches entry `p` of the init cache, `p` holds a reference, a sleep leaves the reference
count of `p` alone, and the wait does not end with result 0, it returns `SECSVC_DROP`. -/
theorem handle_init_bounded_wait (H : SvcHelpers) (E : InitEnv) (req : InitReq) (g : Grctx)
    (s : SvcState) :
    (∀ res, gss_svc_upcall_handle_init H E req g s = some res →
      ∃ ev, res.s.trace = ev ++ s.trace ∧
        ev.countP SvcEvent.is_cache_check ≤ 2 ∧
        ev.countP SvcEvent.is_schedule_timeout ≤ 1 ∧
        (∀ n, SvcEvent.schedule_timeout n ∈ ev → n = GSS_SVC_UPCALL_TIMEOUT) ∧
        GSS_SVC_UPCALL_TIMEOUT = 20 ∧
        (0 < ev.countP SvcEvent.is_cache_check →
          ((E.cache_check 0 = -EAGAIN ∨ E.cache_check 0 = -ETIMEDOUT) →
            (E.cache_check 1 = -EAGAIN ∨ E.cache_check 1 = -ETIMEDOUT) →
            res.rc = SECSVC_DROP) ∧
          (E.cache_check 0 ≠ 0 → E.cache_check 0 ≠ -EAGAIN → E.cache_check 0 ≠ -ETIMEDOUT →
            res.rc = SECSVC_DROP ∧ ev.countP SvcEvent.is_cache_check = 1 ∧
            ev.countP SvcEvent.is_schedule_timeout = 0) ∧
          (ev.countP SvcEvent.is_cache_check = 2 ↔
            (E.cache_check 0 = -EAGAIN ∨ E.cache_check 0 = -ETIMEDOUT)))) ∧
    (∀ ih it p, H.rawobj_dup req.gw_handle = some ih → H.rawobj_dup req.in_token = some it →
      s.rsi.table.find? (fun q => rsi_match (s.rsi.ents q) (rsikey req ih it)) = some p →
      1 ≤ (s.rsi.ents p).h.ref →
      (∀ c, ((E.schedule_timeout c).1.ents p).h.ref = (c.1.ents p).h.ref) →
      E.cache_check 0 ≠ 0 →
      ((E.cache_check 0 = -EAGAIN ∨ E.cache_check 0 = -ETIMEDOUT) → E.cache_check 1 ≠ 0) →
      ∃ res, gss_svc_upcall_handle_init H E req g s = some res ∧ res.rc = SECSVC_DROP) := by
  refine ⟨?_, ?_⟩
  · intro res h
    rcases handle_init_events h with ⟨-, h2⟩ | ⟨a, b, h2⟩ | ⟨rsip, rc, wev, pre, htr, hpre, hdrop, hw⟩
    · exact ⟨[], h2, by simp, by simp, by simp, rfl, by simp⟩
    · refine ⟨[SvcEvent.gss_pack_err_notify a b], h2, ?_, ?_, ?_, rfl, ?_⟩ <;>
        simp [SvcEvent.is_cache_check, SvcEvent.is_schedule_timeout]
    · refine ⟨pre ++ wev, htr, ?_⟩
      have hp1 : pre.countP SvcEvent.is_cache_check = 0 := by
        rcases hpre with rfl | rfl | ⟨a, b, rfl⟩ <;> simp [SvcEvent.is_cache_check]
      have hp2 : pre.countP SvcEvent.is_schedule_timeout = 0 := by
        rcases hpre with rfl | rfl | ⟨a, b, rfl⟩ <;> simp [SvcEvent.is_schedule_timeout]
      have hp3 : ∀ n, SvcEvent.schedule_timeout n ∉ pre := by
        intro n
        rcases hpre with rfl | rfl | ⟨a, b, rfl⟩ <;> simp
      simp only [List.countP_append, hp1, hp2, Nat.zero_add, List.mem_append]
      rcases hw with ⟨n1, n2, hrc, rfl⟩ | ⟨hto, hrc, hwev⟩
      · have c1 : [SvcEvent.cache_check_rsi rsip].countP SvcEvent.is_cache_check = 1 := by
          simp [SvcEvent.is_cache_check]
        have c2 : [SvcEvent.cache_check_rsi rsip].countP SvcEvent.is_schedule_timeout = 0 := by
          simp [SvcEvent.is_schedule_timeout]
        rw [c1, c2]
        refine ⟨by omega, by omega, ?_, rfl, ?_⟩
        · intro n hn
          rcases hn with hn | hn
          · exact absurd hn (hp3 n)
          · simp at hn
        · intro _
          refine ⟨?_, ?_, ?_⟩
          · intro hx
            rcases hx with hx | hx
            · exact absurd hx n2
            · exact absurd hx n1
          · intro hnz _ _
            exact ⟨hdrop (by rw [hrc]; exact hnz), rfl, rfl⟩
          · constructor
            · intro hx; omega
            · intro hx
              rcases hx with hx | hx
              · exact absurd hx n2
              · exact absurd hx n1
      · have c1 : wev.countP SvcEvent.is_cache_check = 2 := by
          rcases hwev with rfl | rfl <;> simp [SvcEvent.is_cache_check]
        have c2 : wev.countP SvcEvent.is_schedule_timeout ≤ 1 := by
          rcases hwev with rfl | rfl <;> simp [SvcEvent.is_schedule_timeout]
        rw [c1]
        refine ⟨by omega, c2, ?_, rfl, ?_⟩
        · intro n hn
          rcases hn with hn | hn
          · exact absurd hn (hp3 n)
          · rcases hwev with rfl | rfl
            · simp at hn
            · simpa using hn
        · intro _
          refine ⟨?_, ?_, ?_⟩
          · intro _ h1
            apply hdrop
            rw [hrc]
            rcases h1 with h1 | h1 <;> rw [h1] <;> decide
          · intro _ n1 n2
            rcases hto with hx | hx
            · exact absurd hx n2
            · exact absurd hx n1
          · constructor
            · intro _
              rcases hto with hx | hx
              · exact Or.inr hx
              · exact Or.inl hx
            · intro _; rfl
  · intro ih it p hd1 hd2 hfind href hsleep hnz hnz2
    have hL := @rsi_lookup_found H (rsikey req ih it) s p hfind
    have h3 : 3 ≤ ((cache_get rsi_cache p (cache_get rsi_cache p s.rsi)).ents p).h.ref := by
      simp only [cache_get, rsi_cache, Cache.mod_ents_same]
      omega
    have hwc := handle_init_wait_completes E p
      { s with rsi := cache_get rsi_cache p (cache_get rsi_cache p s.rsi) } h3 hsleep
    cases hw : handle_init_wait E p
        { s with rsi := cache_get rsi_cache p (cache_get rsi_cache p s.rsi) } with
    | none => rw [hw] at hwc; cases hwc
    | some r =>
      obtain ⟨rc, w⟩ := r
      have hrc : rc ≠ 0 := by
        obtain ⟨wev, -, hcase⟩ := handle_init_wait_events hw
        rcases hcase with ⟨-, -, e, -⟩ | ⟨hto, e, -⟩
        · rw [e]; exact hnz
        · rw [e]
          apply hnz2
          rcases hto with hx | hx
          · exact Or.inr hx
          · exact Or.inl hx
      refine ⟨{ rc := SECSVC_DROP, grctx := g, reply := none, s := w }, ?_, rfl⟩
      unfold gss_svc_upcall_handle_init
      simp only [hd1, hd2, hL, hw, Option.some_bind]
      rw [if_pos hrc]
      rfl

/-- When `gss_svc_searchbyctx` returns an entry, the copy of the handle was made, the
entry is the one that matches it in the hash table, `cache_check` gave 0 for it, and it
holds the reference of the lookup. -/
theorem gss_svc_searchbyctx_some {H : SvcHelpers} {handle : List Nat} {s t : SvcState}
    {p : Nat} (h : gss_svc_searchbyctx H handle s = some (some p, t)) :
    ∃ hd, H.rawobj_dup handle = some hd ∧
      s.rsc.table.find? (fun q => rsc_match (s.rsc.ents q) { zeroRsc with handle := hd }) =
        some p ∧
      cache_check_rv (s.rsc.ents p).h H.seconds_since_boot = 0 ∧
      t = { s with rsc := cache_get rsc_cache p s.rsc } := by
  cases hdup : H.rawobj_dup handle with
  | none =>
    simp [gss_svc_searchbyctx, hdup] at h
  | some hd =>
    refine ⟨hd, rfl, ?_⟩
    cases hfind : s.rsc.table.find? (fun q =>
        rsc_match (s.rsc.ents q) { zeroRsc with handle := hd }) with
    | none =>
      obtain ⟨s', hs', -⟩ := gss_svc_searchbyctx_absent hdup hfind
      rw [hs'] at h
      simp at h
    | some q =>
      rw [gss_svc_searchbyctx_found hdup hfind] at h
      by_cases hz : cache_check_rv (s.rsc.ents q).h H.seconds_since_boot = 0
      · rw [if_pos hz] at h
        simp only [Option.some.injEq, Prod.mk.injEq] at h
        obtain ⟨rfl, rfl⟩ := h
        exact ⟨rfl, hz, rfl⟩
      · rw [if_neg hz] at h
        split at h <;> simp at h

/-- The `gss_svc_searchbyctx` completes when every entry of the hash table holds a
reference. -/
theorem gss_svc_searchbyctx_completes (H : SvcHelpers) (handle : List Nat) (s : SvcState)
    (href : ∀ q ∈ s.rsc.table, 0 < (s.rsc.ents q).h.ref) :
    (gss_svc_searchbyctx H handle s).isSome = true := by
  cases hdup : H.rawobj_dup handle with
  | none => simp [gss_svc_searchbyctx, hdup]
  | some hd =>
    cases hfind : s.rsc.table.find? (fun q =>
        rsc_match (s.rsc.ents q) { zeroRsc with handle := hd }) with
    | none =>
      obtain ⟨s', hs', -⟩ := gss_svc_searchbyctx_absent hdup hfind
      rw [hs']; rfl
    | some q =>
      rw [gss_svc_searchbyctx_found hdup hfind]
      have : (s.rsc.ents q).h.ref ≠ 0 := by
        have := href q (List.mem_of_find?_eq_some hfind)
        omega
      split
      · rfl
      · rfl

theorem rsc_cache_put_some (p : Nat) (c : Cache Rsc) (h : (c.ents p).h.ref ≠ 1) :
    cache_put rsc_cache p c =
      some (c.mod p fun e => { e with h := { e.h with ref := e.h.ref - 1 } }) := by
  have : ¬ ((c.ents p).h.ref - 1 = 0) := by omega
  simp only [cache_put, rsc_cache, Cache.mod_ents_same, this, if_false]

theorem handle_init_out_completes (p : Nat) (rc : Int) (g : Grctx) (rep : Option Reply)
    (s : SvcState) (h : (s.rsc.ents p).h.ref ≠ 1) :
    (handle_init_out (some p) rc g rep s).isSome = true := by
  simp only [handle_init_out, COMPAT_RSC_PUT, Option.isSome_map']
  split
  · rw [rsc_cache_put_some]
    · rfl
    · simpa using h
  · rw [rsc_cache_put_some p s.rsc h]
    rfl

/-- The packing part of `gss_svc_upcall_handle_init` completes when the context entry
holds a reference besides the one that the label `out` drops and the reply buffer has
the shape that the function asserts. -/
theorem handle_init_pack_completes (H : SvcHelpers) (E : InitEnv) (req : InitReq) (g : Grctx)
    (rsip rsci : Nat) (s : SvcState) (href : (s.rsc.ents rsci).h.ref ≠ 1)
    (hbuf : E.lm_bufcount = 3 ∧
      E.sizeof_rephdr + (s.rsi.ents rsip).out_handle.length ≤ E.lm_buflens0 ∧
      (s.rsi.ents rsip).out_token.length ≤ E.lm_buflens2) :
    (handle_init_pack H E req g rsip rsci s).isSome = true := by
  unfold handle_init_pack
  split
  · exact handle_init_out_completes _ _ _ _ _ href
  · simp only []
    split
    · apply handle_init_out_completes
      simpa using href
    · split
      · apply handle_init_out_completes
        simpa [SvcState.log] using href
      · apply handle_init_out_completes
        simpa [SvcState.log] using href

/-- The reply part of `gss_svc_upcall_handle_init` completes when the context entry has
a mechanism context and the reply buffer has the shape that the function asserts. -/
theorem handle_init_reply_completes (H : SvcHelpers) (E : InitEnv) (req : InitReq) (g : Grctx)
    (rsip rsci : Nat) (s : SvcState) (href : (s.rsc.ents rsci).h.ref ≠ 0)
    (hmech : (s.rsc.ents rsci).ctx.gsc_mechctx ≠ none)
    (hbuf : E.lm_bufcount = 3 ∧
      E.sizeof_rephdr + (s.rsi.ents rsip).out_handle.length ≤ E.lm_buflens0 ∧
      (s.rsi.ents rsip).out_token.length ≤ E.lm_buflens2) :
    (handle_init_reply H E req g rsip rsci s).isSome = true := by
  unfold handle_init_reply
  simp only []
  have hm : ((cache_get rsc_cache rsci s.rsc).ents rsci).ctx.gsc_mechctx =
      (s.rsc.ents rsci).ctx.gsc_mechctx := by
    simp [cache_get, rsc_cache]
  have hr : ((cache_get rsc_cache rsci s.rsc).ents rsci).h.ref = (s.rsc.ents rsci).h.ref + 1 := by
    simp [cache_get, rsc_cache]
  cases hmc : (s.rsc.ents rsci).ctx.gsc_mechctx with
  | none => exact absurd hmc hmech
  | some m =>
    rw [hm, hmc]
    simp only []
    split
    · apply handle_init_out_completes
      simp only []
      omega
    · apply handle_init_pack_completes
      · split <;> simp only [Cache.mod_ents_same] <;> omega
      · split <;> exact hbuf

/-- C17: result codes of `gss_svc_upcall_handle_init`. Every completed call returns
`SECSVC_OK`, `SECSVC_COMPLETE` or `SECSVC_DROP`. It returns `SECSVC_COMPLETE` only when
`gss_pack_err_notify` was called and returned 0, either after `rsi_lookup` returned
`NULL` or after the wait ended with 0 and `gss_svc_searchbyctx` returned `NULL` for the
output handle (so no entry of the context cache that matches the handle is valid, not
negative and not expired). It returns `SECSVC_OK` only when the last `cache_check` gave
0, `gss_svc_searchbyctx` found for the output handle an entry that is valid, not
negative and not expired, the output handle is at most `PTLRPC_GSS_MAX_HANDLE_SIZE`
long, `lustre_pack_reply_v2` returned 0 and the reply was filled in. Whenever
`gss_svc_searchbyctx` found an entry and the result is not `SECSVC_OK`, that entry ends
with `CACHE_NEGATIVE` set. The call completes with the stated result when a copy or the
lookup fails, and after a completed wait it completes whenever every entry of the
context cache holds a reference, every valid entry has a mechanism context and the
reply buffer has the shape that the function asserts. -/
theorem handle_init_result_codes (H : SvcHelpers) (E : InitEnv) (req : InitReq) (g : Grctx)
    (s : SvcState) :
    (∀ res, gss_svc_upcall_handle_init H E req g s = some res →
      (res.rc = SECSVC_OK ∨ res.rc = SECSVC_COMPLETE ∨ res.rc = SECSVC_DROP) ∧
      (res.rc = SECSVC_COMPLETE →
        ∃ ih it, H.rawobj_dup req.gw_handle = some ih ∧ H.rawobj_dup req.in_token = some it ∧
          (((rsi_lookup H (rsikey req ih it) s).1 = none ∧
            E.gss_pack_err_notify E.GSS_S_FAILURE 0 = 0 ∧
            res.s.trace = SvcEvent.gss_pack_err_notify E.GSS_S_FAILURE 0 :: s.trace) ∨
           ∃ rsip w f, (rsi_lookup H (rsikey req ih it) s).1 = some rsip ∧
            handle_init_wait E rsip
              { (rsi_lookup H (rsikey req ih it) s).2 with
                rsi := cache_get rsi_cache rsip (rsi_lookup H (rsikey req ih it) s).2.rsi } =
              some (0, w) ∧
            gss_svc_searchbyctx H (w.rsi.ents rsip).out_handle w = some (none, f) ∧
            (∀ hd p, H.rawobj_dup (w.rsi.ents rsip).out_handle = some hd →
              w.rsc.table.find? (fun q =>
                rsc_match (w.rsc.ents q) { zeroRsc with handle := hd }) = some p →
              ¬ ((w.rsc.ents p).h.VALID = true ∧ (w.rsc.ents p).h.NEGATIVE = false ∧
                 H.seconds_since_boot ≤ (w.rsc.ents p).h.expiry_time)) ∧
            E.gss_pack_err_notify (w.rsi.ents rsip).major_status
              (w.rsi.ents rsip).minor_status = 0 ∧
            res.s.trace = SvcEvent.gss_pack_err_notify (w.rsi.ents rsip).major_status
              (w.rsi.ents rsip).minor_status :: w.trace)) ∧
      (res.rc = SECSVC_OK →
        ∃ ih it rsip w rsci f hd,
          H.rawobj_dup req.gw_handle = some ih ∧ H.rawobj_dup req.in_token = some it ∧
          (rsi_lookup H (rsikey req ih it) s).1 = some rsip ∧
          handle_init_wait E rsip
            { (rsi_lookup H (rsikey req ih it) s).2 with
              rsi := cache_get rsi_cache rsip (rsi_lookup H (rsikey req ih it) s).2.rsi } =
            some (0, w) ∧
          (E.cache_check 0 = 0 ∨
            ((E.cache_check 0 = -ETIMEDOUT ∨ E.cache_check 0 = -EAGAIN) ∧
              E.cache_check 1 = 0)) ∧
          gss_svc_searchbyctx H (w.rsi.ents rsip).out_handle w = some (some rsci, f) ∧
          H.rawobj_dup (w.rsi.ents rsip).out_handle = some hd ∧
          w.rsc.table.find? (fun q =>
            rsc_match (w.rsc.ents q) { zeroRsc with handle := hd }) = some rsci ∧
          (w.rsc.ents rsci).h.VALID = true ∧ (w.rsc.ents rsci).h.NEGATIVE = false ∧
          H.seconds_since_boot ≤ (w.rsc.ents rsci).h.expiry_time ∧
          (w.rsi.ents rsip).out_handle.length ≤ E.PTLRPC_GSS_MAX_HANDLE_SIZE ∧
          E.lustre_pack_reply_v2 = 0 ∧
          res.s.trace = SvcEvent.lustre_pack_reply_v2 :: w.trace ∧
          res.reply.isSome = true ∧
          res.grctx.src_ctx = some rsci ∧ res.grctx.src_init = true) ∧
      (∀ ih it rsip w rsci f,
        H.rawobj_dup req.gw_handle = some ih → H.rawobj_dup req.in_token = some it →
        (rsi_lookup H (rsikey req ih it) s).1 = some rsip →
        handle_init_wait E rsip
          { (rsi_lookup H (rsikey req ih it) s).2 with
            rsi := cache_get rsi_cache rsip (rsi_lookup H (rsikey req ih it) s).2.rsi } =
          some (0, w) →
        gss_svc_searchbyctx H (w.rsi.ents rsip).out_handle w = some (some rsci, f) →
        res.rc ≠ SECSVC_OK → (res.s.rsc.ents rsci).h.NEGATIVE = true)) ∧
    ((H.rawobj_dup req.gw_handle = none ∨ H.rawobj_dup req.in_token = none) →
      gss_svc_upcall_handle_init H E req g s =
        some { rc := SECSVC_DROP, grctx := g, reply := none, s := s }) ∧
    (∀ ih it, H.rawobj_dup req.gw_handle = some ih → H.rawobj_dup req.in_token = some it →
      (rsi_lookup H (rsikey req ih it) s).1 = none →
      gss_svc_upcall_handle_init H E req g s =
        some { rc := if E.gss_pack_err_notify E.GSS_S_FAILURE 0 = 0 then SECSVC_COMPLETE
                     else SECSVC_DROP,
               grctx := g, reply := none,
               s := (rsi_lookup H (rsikey req ih it) s).2.log
                 (SvcEvent.gss_pack_err_notify E.GSS_S_FAILURE 0) }) ∧
    (∀ ih it rsip rc w,
      H.rawobj_dup req.gw_handle = some ih → H.rawobj_dup req.in_token = some it →
      (rsi_lookup H (rsikey req ih it) s).1 = some rsip →
      handle_init_wait E rsip
        { (rsi_lookup H (rsikey req ih it) s).2 with
          rsi := cache_get rsi_cache rsip (rsi_lookup H (rsikey req ih it) s).2.rsi } =
        some (rc, w) →
      (∀ q ∈ w.rsc.table, 0 < (w.rsc.ents q).h.ref) →
      (∀ q ∈ w.rsc.table, (w.rsc.ents q).h.VALID = true →
        (w.rsc.ents q).ctx.gsc_mechctx ≠ none) →
      (E.lm_bufcount = 3 ∧
        E.sizeof_rephdr + (w.rsi.ents rsip).out_handle.length ≤ E.lm_buflens0 ∧
        (w.rsi.ents rsip).out_token.length ≤ E.lm_buflens2) →
      (gss_svc_upcall_handle_init H E req g s).isSome = true) := by
  have hDC : SECSVC_DROP ≠ SECSVC_COMPLETE := by decide
  have hDO : SECSVC_DROP ≠ SECSVC_OK := by decide
  have hCO : SECSVC_COMPLETE ≠ SECSVC_OK := by decide
  refine ⟨?_, ?_, ?_, ?_⟩
  · intro res h
    rcases handle_init_cases h with ⟨hdup, h1, -⟩ | ⟨ih, it, hd1, hd2, hc⟩
    · refine ⟨Or.inr (Or.inr h1), ?_, ?_, ?_⟩
      · intro hx; rw [h1] at hx; exact absurd hx hDC
      · intro hx; rw [h1] at hx; exact absurd hx hDO
      · intro ih it rsip w rsci f e1 e2
        rcases hdup with hx | hx
        · rw [hx] at e1; cases e1
        · rw [hx] at e2; cases e2
    · rcases hc with ⟨hl, h1, h2⟩ | ⟨rsip, rc, w, hl, hw, hc⟩
      · refine ⟨?_, ?_, ?_, ?_⟩
        · rw [h1]; split
          · exact Or.inr (Or.inl rfl)
          · exact Or.inr (Or.inr rfl)
        · intro hx
          refine ⟨ih, it, hd1, hd2, Or.inl ⟨hl, ?_, h2⟩⟩
          by_contra hn
          rw [h1, if_neg hn] at hx
          exact absurd hx hDC
        · intro hx
          rw [h1] at hx
          split at hx
          · exact absurd hx hCO
          · exact absurd hx hDO
        · intro ih2 it2 rsip2 w2 rsci2 f2 e1 e2 e3
          rw [hd1] at e1; cases e1
          rw [hd2] at e2; cases e2
          rw [hl] at e3; cases e3
      · rcases hc with ⟨hrc, h1, h2⟩ | ⟨hrc, f, hf, h1, h2⟩ | ⟨hrc, rsci, f, hf, hr⟩
        · refine ⟨Or.inr (Or.inr h1), ?_, ?_, ?_⟩
          · intro hx; rw [h1] at hx; exact absurd hx hDC
          · intro hx; rw [h1] at hx; exact absurd hx hDO
          · intro ih2 it2 rsip2 w2 rsci2 f2 e1 e2 e3 e4
            rw [hd1] at e1; cases e1
            rw [hd2] at e2; cases e2
            rw [hl] at e3; cases e3
            rw [hw] at e4
            simp only [Option.some.injEq, Prod.mk.injEq] at e4
            exact absurd e4.1 hrc
        · subst hrc
          refine ⟨?_, ?_, ?_, ?_⟩
          · rw [h1]; split
            · exact Or.inr (Or.inl rfl)
            · exact Or.inr (Or.inr rfl)
          · intro hx
            refine ⟨ih, it, hd1, hd2, Or.inr ⟨rsip, w, f, hl, hw, hf, ?_, ?_, h2⟩⟩
            · intro hd p e1 e2 hv
              have hz := (cache_check_rv_eq_zero (w.rsc.ents p).h H.seconds_since_boot).mpr hv
              rw [gss_svc_searchbyctx_found e1 e2, if_pos hz] at hf
              simp at hf
            · by_contra hn
              rw [h1, if_neg hn] at hx
              exact absurd hx hDC
          · intro hx
            rw [h1] at hx
            split at hx
            · exact absurd hx hCO
            · exact absurd hx hDO
          · intro ih2 it2 rsip2 w2 rsci2 f2 e1 e2 e3 e4 e5
            rw [hd1] at e1; cases e1
            rw [hd2] at e2; cases e2
            rw [hl] at e3; cases e3
            rw [hw] at e4; cases e4
            rw [hf] at e5; cases e5
        · subst hrc
          obtain ⟨p1, p2, p3, p4, p5⟩ := handle_init_reply_spec hr
          obtain ⟨ftr, frsi, -⟩ := gss_svc_searchbyctx_frame hf
          refine ⟨?_, ?_, ?_, ?_⟩
          · rcases p1 with p1 | p1
            · exact Or.inl p1
            · exact Or.inr (Or.inr p1)
          · intro hx
            rcases p1 with p1 | p1
            · rw [p1] at hx; exact absurd hx.symm hCO
            · rw [p1] at hx; exact absurd hx hDC
          · intro hx
            obtain ⟨q1, q2, q3, q4, q5⟩ := p4 hx
            obtain ⟨hd, e1, e2, e3, -⟩ := gss_svc_searchbyctx_some hf
            obtain ⟨v1, v2, v3⟩ :=
              (cache_check_rv_eq_zero (w.rsc.ents rsci).h H.seconds_since_boot).mp e3
            obtain ⟨wev, -, hcase⟩ := handle_init_wait_events hw
            refine ⟨ih, it, rsip, w, rsci, f, hd, hd1, hd2, hl, hw, ?_, hf, e1, e2, v1, v2, v3,
              ?_, q2, ?_, q4, p3, q5⟩
            · rcases hcase with ⟨-, -, e, -⟩ | ⟨hto, e, -⟩
              · exact Or.inl e.symm
              · exact Or.inr ⟨hto, e.symm⟩
            · rw [← frsi]; exact q1
            · rw [q3, ftr]
          · intro ih2 it2 rsip2 w2 rsci2 f2 e1 e2 e3 e4 e5 hne
            rw [hd1] at e1; cases e1
            rw [hd2] at e2; cases e2
            rw [hl] at e3; cases e3
            rw [hw] at e4; cases e4
            rw [hf] at e5; cases e5
            exact p5 hne
  · intro hdup
    unfold gss_svc_upcall_handle_init
    rcases hdup with hx | hx
    · simp only [hx]; rfl
    · cases hd1 : H.rawobj_dup req.gw_handle with
      | none => rfl
      | some ih => simp only [hx]; rfl
  · intro ih it hd1 hd2 hl
    unfold gss_svc_upcall_handle_init
    simp only [hd1, hd2, hl]
    rfl
  · intro ih it rsip rc w hd1 hd2 hl hw href hmech hbuf
    unfold gss_svc_upcall_handle_init
    simp only [hd1, hd2, hl, hw, Option.some_bind]
    by_cases hrc : rc ≠ 0
    · rw [if_pos hrc]; rfl
    · rw [if_neg hrc]
      have hsc := gss_svc_searchbyctx_completes H (w.rsi.ents rsip).out_handle w href
      cases hf : gss_svc_searchbyctx H (w.rsi.ents rsip).out_handle w with
      | none => rw [hf] at hsc; cases hsc
      | some r =>
        obtain ⟨fr, f⟩ := r
        simp only [Option.some_bind]
        cases fr with
        | none => rfl
        | some rsci =>
          simp only []
          obtain ⟨hd, e1, e2, e3, rfl⟩ := gss_svc_searchbyctx_some hf
          have hmem := List.mem_of_find?_eq_some e2
          obtain ⟨v1, -, -⟩ :=
            (cache_check_rv_eq_zero (w.rsc.ents rsci).h H.seconds_since_boot).mp e3
          apply handle_init_reply_completes
          · have := href rsci hmem
            simp only [cache_get, rsc_cache, Cache.mod_ents_same]
            omega
          · have : ((cache_get rsc_cache rsci w.rsc).ents rsci).ctx.gsc_mechctx =
                (w.rsc.ents rsci).ctx.gsc_mechctx := by
              simp [cache_get, rsc_cache]
            simp only []
            rw [this]
            exact hmech rsci hmem v1
          · exact hbuf

theorem rsi_match_key_equality_witness :
    rsi_match demoRsi { zeroRsi with in_token := [1, 2, 3] } = true ∧
    rsi_match { zeroRsi with in_token := [1, 2, 3] } demoRsi = true ∧
    rsi_match demoRsi { zeroRsi with in_token := [1, 2] } = false ∧
    rsc_match demoRsc { zeroRsc with handle := [7, 7] } = true :=
  ⟨(rsi_match_key_equality.2.1 _ _).mpr ⟨rfl, rfl⟩,
   rsi_match_key_equality.2.2.2.2.1 _ _ ((rsi_match_key_equality.2.1 _ _).mpr ⟨rfl, rfl⟩),
   by decide,
   (rsi_match_key_equality.2.2.2.2.2.2.1 _ _).mpr rfl⟩

theorem destroy_ctx_frame_witness :
    ((gss_svc_upcall_destroy_ctx 5 demoSvc).rsc.ents 5).h.NEGATIVE = true ∧
    ((gss_svc_upcall_destroy_ctx 5 demoSvc).rsc.ents 5).h.expiry_time = 1 ∧
    ((gss_svc_upcall_destroy_ctx 5 demoSvc).rsc.ents 5).ctx = demoRsc.ctx ∧
    cache_is_expired ((gss_svc_upcall_destroy_ctx 5 demoSvc).rsc.ents 5).h 2 = true :=
  ⟨(destroy_ctx_frame 5 demoSvc).2.1, (destroy_ctx_frame 5 demoSvc).2.2.1,
   (destroy_ctx_frame 5 demoSvc).2.2.2.2.2.2.2.2.1,
   (destroy_ctx_frame 5 demoSvc).2.2.2.2.2.2.2.2.2.2.2.2.2.2 2 (by decide)⟩

theorem handle_init_bounded_wait_witness :
    ∃ res ev, gss_svc_upcall_handle_init (demoSvcHelpers 100 2)
        (demoInitEnv fun _ => -ETIMEDOUT) demoInitReq demoGrctx demoSvcPending = some res ∧
      res.rc = SECSVC_DROP ∧ res.s.trace = ev ++ demoSvcPending.trace ∧
      ev.countP SvcEvent.is_cache_check = 2 ∧ ev.countP SvcEvent.is_schedule_timeout ≤ 1 := by
  obtain ⟨h1, h2⟩ := handle_init_bounded_wait (demoSvcHelpers 100 2)
    (demoInitEnv fun _ => -ETIMEDOUT) demoInitReq demoGrctx demoSvcPending
  obtain ⟨res, hres, hrc⟩ := h2 [] [1, 2, 3] 1 rfl rfl (by decide) (by decide)
    (fun _ => rfl) (by decide) (fun _ => by decide)
  obtain ⟨ev, htr, hc1, hc2, -, -, hrest⟩ := h1 res hres
  have hpos : 0 < ev.countP SvcEvent.is_cache_check := by
    have hproj : (gss_svc_upcall_handle_init (demoSvcHelpers 100 2)
        (demoInitEnv fun _ => -ETIMEDOUT) demoInitReq demoGrctx demoSvcPending).map
        (fun r => r.s.trace.countP SvcEvent.is_cache_check) = some 2 := by decide
    rw [hres] at hproj
    simp only [Option.map_some', Option.some.injEq] at hproj
    rw [htr] at hproj
    have : demoSvcPending.trace = [] := rfl
    rw [this, List.append_nil] at hproj
    omega
  exact ⟨res, ev, hres, hrc, htr, (hrest hpos).2.2.mpr (Or.inr rfl), hc2⟩

theorem handle_init_result_codes_witness :
    (∃ res, gss_svc_upcall_handle_init (demoSvcHelpers 100 2) (demoInitEnv fun _ => 0)
        demoInitReq demoGrctx demoSvc = some res ∧
      res.rc = SECSVC_OK ∧ res.reply.isSome = true ∧ res.grctx.src_ctx = some 5) ∧
    (∃ res, gss_svc_upcall_handle_init (demoSvcHelpers 2000 2) (demoInitEnv fun _ => 0)
        demoInitReq demoGrctx demoSvc = some res ∧
      res.rc = SECSVC_COMPLETE ∧ res.s.trace.head? = some (SvcEvent.gss_pack_err_notify 0 0)) ∧
    gss_svc_upcall_handle_init { demoSvcHelpers 100 2 with rawobj_dup := fun _ => none }
        (demoInitEnv fun _ => 0) demoInitReq demoGrctx demoSvc =
      some { rc := SECSVC_DROP, grctx := demoGrctx, reply := none, s := demoSvc } := by
  refine ⟨?_, ?_, ?_⟩
  · have hproj : (gss_svc_upcall_handle_init (demoSvcHelpers 100 2) (demoInitEnv fun _ => 0)
        demoInitReq demoGrctx demoSvc).map (fun r => (r.rc, r.grctx.src_ctx)) =
        some (SECSVC_OK, some 5) := by decide
    cases hret : gss_svc_upcall_handle_init (demoSvcHelpers 100 2) (demoInitEnv fun _ => 0)
        demoInitReq demoGrctx demoSvc with
    | none => rw [hret] at hproj; cases hproj
    | some res =>
      rw [hret] at hproj
      simp only [Option.map_some', Option.some.injEq, Prod.mk.injEq] at hproj
      obtain ⟨-, -, hok, -⟩ := (handle_init_result_codes (demoSvcHelpers 100 2)
        (demoInitEnv fun _ => 0) demoInitReq demoGrctx demoSvc).1 res hret
      obtain ⟨ih, it, rsip, w, rsci, f, hd, -, -, -, -, -, -, -, -, -, -, -, -, -, -, hrep, -, -⟩ :=
        hok hproj.1
      exact ⟨res, rfl, hproj.1, hrep, hproj.2⟩
  · have hproj : (gss_svc_upcall_handle_init (demoSvcHelpers 2000 2) (demoInitEnv fun _ => 0)
        demoInitReq demoGrctx demoSvc).map (fun r => (r.rc, r.s.trace.head?)) =
        some (SECSVC_COMPLETE, some (SvcEvent.gss_pack_err_notify 0 0)) := by decide
    cases hret : gss_svc_upcall_handle_init (demoSvcHelpers 2000 2) (demoInitEnv fun _ => 0)
        demoInitReq demoGrctx demoSvc with
    | none => rw [hret] at hproj; cases hproj
    | some res =>
      rw [hret] at hproj
      simp only [Option.map_some', Option.some.injEq, Prod.mk.injEq] at hproj
      exact ⟨res, rfl, hproj.1, hproj.2⟩
  · exact (handle_init_result_codes { demoSvcHelpers 100 2 with rawobj_dup := fun _ => none }
      (demoInitEnv fun _ => 0) demoInitReq demoGrctx demoSvc).2.1 (Or.inl rfl)

/-- C21: reverse sequence update. When `gss_svc_searchbyctx` resolves the handle to
entry `p` (its copy matches `p`, which is valid, not negative and not expired), every
completed `gss_svc_upcall_update_sequence(handle, seq)` returns 0 and leaves `p` with
`gsc_rvs_seq = (seq + 1) mod 2^32`, whatever the value was, and otherwise exactly as it
was, the reference of the lookup given back; no other entry, nor the table, the init
cache or the trace changes; the call completes when `p` holds a reference. Every
completed call returns 0. When the handle resolves to no valid entry (the copy fails,
the matching entry is not usable, or no entry matches) the call returns 0 and every
entry that existed keeps its record, `gsc_rvs_seq` included. `gss_cli_ctx_refresh_kr`
makes this call, with the handle `gc_svc_handle` and the 32-bit value of `gc_seq`,
exactly when the context is not `NULL`, `gc_svc_handle` is not empty and the sec is
reverse, and returns its result; otherwise it returns 0 and changes nothing. -/
theorem update_sequence_rvs_seq (H : SvcHelpers) (handle : List Nat) (seq : Nat)
    (s : SvcState) :
    (∀ hd p, H.rawobj_dup handle = some hd →
      s.rsc.table.find? (fun q =>
        rsc_match (s.rsc.ents q) { zeroRsc with handle := hd }) = some p →
      (s.rsc.ents p).h.VALID = true → (s.rsc.ents p).h.NEGATIVE = false →
      cache_is_expired (s.rsc.ents p).h H.seconds_since_boot = false →
      (∀ r s', gss_svc_upcall_update_sequence H handle seq s = some (r, s') →
        r = 0 ∧
        (s'.rsc.ents p).ctx.gsc_rvs_seq = (seq + 1) % 2 ^ 32 ∧
        s'.rsc.ents p = { s.rsc.ents p with
          ctx := { (s.rsc.ents p).ctx with gsc_rvs_seq := (seq + 1) % 2 ^ 32 } } ∧
        (s'.rsc.ents p).h.ref = (s.rsc.ents p).h.ref ∧
        (∀ x, x ≠ p → s'.rsc.ents x = s.rsc.ents x) ∧
        s'.rsc.table = s.rsc.table ∧ s'.rsi = s.rsi ∧ s'.trace = s.trace) ∧
      ((s.rsc.ents p).h.ref ≠ 0 →
        (gss_svc_upcall_update_sequence H handle seq s).isSome = true)) ∧
    (∀ r s', gss_svc_upcall_update_sequence H handle seq s = some (r, s') → r = 0) ∧
    (H.rawobj_dup handle = none → gss_svc_upcall_update_sequence H handle seq s = some (0, s)) ∧
    (∀ hd p, H.rawobj_dup handle = some hd →
      s.rsc.table.find? (fun q =>
        rsc_match (s.rsc.ents q) { zeroRsc with handle := hd }) = some p →
      ((s.rsc.ents p).h.VALID = false ∨ (s.rsc.ents p).h.NEGATIVE = true ∨
        cache_is_expired (s.rsc.ents p).h H.seconds_since_boot = true) →
      ∀ r s', gss_svc_upcall_update_sequence H handle seq s = some (r, s') → r = 0 ∧ s' = s) ∧
    (∀ hd, H.rawobj_dup handle = some hd →
      s.rsc.table.find? (fun q =>
        rsc_match (s.rsc.ents q) { zeroRsc with handle := hd }) = none →
      ∃ s', gss_svc_upcall_update_sequence H handle seq s = some (0, s') ∧
        (H.rsc_alloc = none → s' = s) ∧
        ∀ q, H.rsc_alloc = some q → ∀ x, x ≠ q → s'.rsc.ents x = s.rsc.ents x) ∧
    (∀ (g : State) (t : SvcState), gss_cli_ctx_refresh_kr H none g t = some (0, g, t)) ∧
    (∀ (g : State) (t : SvcState) (c : Nat),
      ((g.ctxs c).gc_svc_handle ≠ [] ∧ g.sec_reverse = true →
        gss_cli_ctx_refresh_kr H (some c) g t =
          (gss_svc_upcall_update_sequence H (g.ctxs c).gc_svc_handle
              ((g.ctxs c).gc_seq % 2 ^ 32).toNat t).map fun r =>
            (r.1, g.log (Event.update_sequence (g.ctxs c).gc_svc_handle
              ((g.ctxs c).gc_seq % 2 ^ 32).toNat), r.2)) ∧
      (¬ ((g.ctxs c).gc_svc_handle ≠ [] ∧ g.sec_reverse = true) →
        gss_cli_ctx_refresh_kr H (some c) g t = some (0, g, t))) := by
  refine ⟨?_, ?_, ?_, ?_, ?_, ?_, ?_⟩
  · intro hd p hdup hfind v1 v2 v3
    have hz : cache_check_rv (s.rsc.ents p).h H.seconds_since_boot = 0 :=
      (cache_check_rv_eq_zero _ _).mpr ⟨v1, v2, by simpa [cache_is_expired] using v3⟩
    have hv := gss_svc_searchbyctx_found hdup hfind
    rw [if_pos hz] at hv
    have hm : p ∈ s.rsc.table := List.mem_of_find?_eq_some hfind
    by_cases href : (s.rsc.ents p).h.ref = 0
    · have hnone : gss_svc_upcall_update_sequence H handle seq s = none := by
        simp [gss_svc_upcall_update_sequence, hv, COMPAT_RSC_PUT, cache_put, cache_get,
          rsc_cache, Cache.mod_mod, href, rsc_put, hm]
      refine ⟨?_, fun h => absurd href h⟩
      intro r s' hret
      rw [hnone] at hret
      cases hret
    · have hval : gss_svc_upcall_update_sequence H handle seq s =
          some (0, { s with rsc := s.rsc.mod p fun e =>
            { e with ctx := { e.ctx with gsc_rvs_seq := (seq + 1) % 2 ^ 32 } } }) := by
        simp only [gss_svc_upcall_update_sequence, hv, Option.some_bind, COMPAT_RSC_PUT]
        rw [cache_get_mod_put p s.rsc
          (fun e => { e with ctx := { e.ctx with gsc_rvs_seq := (seq + 1) % 2 ^ 32 } })
          (fun _ => rfl) href]
        rfl
      refine ⟨?_, fun _ => by rw [hval]; rfl⟩
      intro r s' hret
      rw [hval] at hret
      simp only [Option.some.injEq, Prod.mk.injEq] at hret
      obtain ⟨rfl, rfl⟩ := hret
      exact ⟨rfl, by simp, by simp, by simp, fun x hx => by simp [hx], rfl, rfl, rfl⟩
  · intro r s' hret
    simp only [gss_svc_upcall_update_sequence, Option.bind_eq_some] at hret
    obtain ⟨⟨f, t⟩, -, h2⟩ := hret
    cases f with
    | none => simp only [Option.some.injEq, Prod.mk.injEq] at h2; exact h2.1.symm
    | some q =>
      simp only [Option.map_eq_some', Prod.mk.injEq] at h2
      obtain ⟨_, -, h3, -⟩ := h2
      exact h3.symm
  · intro hdup
    simp only [gss_svc_upcall_update_sequence, gss_svc_searchbyctx, hdup, Option.some_bind]
  · intro hd p hdup hfind hor r s' hret
    have hrv : cache_check_rv (s.rsc.ents p).h H.seconds_since_boot ≠ 0 := by
      intro hz
      obtain ⟨v1, v2, v3⟩ := (cache_check_rv_eq_zero _ _).mp hz
      rcases hor with h | h | h
      · rw [v1] at h; cases h
      · rw [v2] at h; cases h
      · simp [cache_is_expired] at h; omega
    have hv := gss_svc_searchbyctx_found hdup hfind
    rw [if_neg hrv] at hv
    simp only [gss_svc_upcall_update_sequence, hv] at hret
    split at hret
    · cases hret
    · simp only [Option.some_bind, Option.some.injEq, Prod.mk.injEq] at hret
      exact ⟨hret.1.symm, hret.2.symm⟩
  · intro hd hdup hfind
    obtain ⟨s2, h2, h3, h4⟩ := gss_svc_searchbyctx_absent hdup hfind
    exact ⟨s2, by simp only [gss_svc_upcall_update_sequence, h2, Option.some_bind], h3, h4⟩
  · intro g t
    rfl
  · intro g t c
    refine ⟨?_, ?_⟩
    · intro h
      simp only [gss_cli_ctx_refresh_kr]
      rw [if_pos h]
    · intro h
      simp only [gss_cli_ctx_refresh_kr]
      rw [if_neg h]

/-- Worked example for C21: context 1 of `demoRvsCli` has used sequence number 41; its
refresh stores 42 in entry 5 of `demoSvc`, whose reference count stays 1. -/
theorem update_sequence_rvs_seq_witness :
    ∃ g' s', gss_cli_ctx_refresh_kr (demoSvcHelpers 100 50) (some 1) demoRvsCli demoSvc =
        some (0, g', s') ∧
      (s'.rsc.ents 5).ctx.gsc_rvs_seq = 42 ∧ (s'.rsc.ents 5).h.ref = 1 := by
  have hall := update_sequence_rvs_seq (demoSvcHelpers 100 50) [7, 7] 41 demoSvc
  have h := hall.1 [7, 7] 5 (by decide) (by decide) (by decide) (by decide) (by decide)
  have hsome := h.2 (by decide)
  have hcli := (hall.2.2.2.2.2.2 demoRvsCli demoSvc 1).1 (by decide)
  have e1 : (demoRvsCli.ctxs 1).gc_svc_handle = [7, 7] := by decide
  have e2 : ((demoRvsCli.ctxs 1).gc_seq % 2 ^ 32).toNat = 41 := by decide
  rw [e1, e2] at hcli
  cases hret : gss_svc_upcall_update_sequence (demoSvcHelpers 100 50) [7, 7] 41 demoSvc with
  | none => rw [hret] at hsome; cases hsome
  | some rs =>
    obtain ⟨r, s'⟩ := rs
    obtain ⟨h1, h2, -, h4, -⟩ := h.1 r s' hret
    subst h1
    rw [hret] at hcli
    refine ⟨_, s', hcli, h2, ?_⟩
    rw [h4]; decide

/-- The flags part of `rsc_parse` when the five `get_int` calls succeed: each flag is
stored as "the value is not 0" and the mapped uid as a 32-bit value. -/
theorem rsc_parse_flags_ok (H : SvcHelpers) (r : Rsc) (m1 m2 m3 m4 m5 m6 : List Char)
    (v1 v2 v3 v4 v5 : Int)
    (g1 : H.get_int m1 = (0, v1, m2)) (g2 : H.get_int m2 = (0, v2, m3))
    (g3 : H.get_int m3 = (0, v3, m4)) (g4 : H.get_int m4 = (0, v4, m5))
    (g5 : H.get_int m5 = (0, v5, m6)) :
    rsc_parse_flags H r m1 =
      some ({ r with ctx := { r.ctx with
                gsc_remote := decide (v1 ≠ 0), gsc_usr_root := decide (v2 ≠ 0),
                gsc_usr_mds := decide (v3 ≠ 0), gsc_usr_oss := decide (v4 ≠ 0),
                gsc_mapped_uid := (v5 % 2 ^ 32).toNat } }, m6) := by
  simp only [rsc_parse_flags, g1, g2, g3, g4, g5, ne_eq, not_true_eq_false, if_false]

/-- The flags part of `rsc_parse` goes to `out` as soon as one of the five `get_int`
calls fails. -/
theorem rsc_parse_flags_fail (H : SvcHelpers) (r : Rsc) (m1 : List Char)
    (h : (H.get_int m1).1 ≠ 0 ∨
      (H.get_int (H.get_int m1).2.2).1 ≠ 0 ∨
      (H.get_int (H.get_int (H.get_int m1).2.2).2.2).1 ≠ 0 ∨
      (H.get_int (H.get_int (H.get_int (H.get_int m1).2.2).2.2).2.2).1 ≠ 0 ∨
      (H.get_int (H.get_int (H.get_int (H.get_int (H.get_int m1).2.2).2.2).2.2).2.2).1 ≠ 0) :
    rsc_parse_flags H r m1 = none := by
  unfold rsc_parse_flags
  simp only []
  by_cases h1 : (H.get_int m1).1 ≠ 0
  · rw [if_pos h1]
  · rw [if_neg h1]
    by_cases h2 : (H.get_int (H.get_int m1).2.2).1 ≠ 0
    · rw [if_pos h2]
    · rw [if_neg h2]
      by_cases h3 : (H.get_int (H.get_int (H.get_int m1).2.2).2.2).1 ≠ 0
      · rw [if_pos h3]
      · rw [if_neg h3]
        by_cases h4 : (H.get_int (H.get_int (H.get_int (H.get_int m1).2.2).2.2).2.2).1 ≠ 0
        · rw [if_pos h4]
        · rw [if_neg h4]
          have h5 : (H.get_int
              (H.get_int (H.get_int (H.get_int (H.get_int m1).2.2).2.2).2.2).2.2).1 ≠ 0 := by
            rcases h with h | h | h | h | h
            · exact absurd h h1
            · exact absurd h h2
            · exact absurd h h3
            · exact absurd h h4
            · exact h
          rw [if_pos h5]

/-- What `rsc_update` does with a negative `new` on an entry that is not valid: the
entry is marked negative in place and becomes valid with the expiry of `new`. -/
theorem rsc_update_negative_inplace (H : SvcHelpers) (new : Rsc) (old : Nat) (s : SvcState)
    (hv : (s.rsc.ents old).h.VALID = false) (hn : new.h.NEGATIVE = true) :
    rsc_update H new old s =
      some (some old, { s with
        trace := SvcEvent.rsc_update old :: s.trace,
        rsc := s.rsc.mod old fun e =>
          { e with h := { e.h with NEGATIVE := true, expiry_time := new.h.expiry_time,
                                   VALID := true, PENDING := false } } }) := by
  simp only [rsc_update, sunrpc_cache_update, SvcState.log, rsc_cache, hv, if_true, cache_fill,
    hn, Option.map_some', cache_fresh]
  simp [Cache.mod]

/-- What `rsc_update` does with a negative `new` on a valid entry when the allocation
succeeds: a new entry with the handle of the old one is linked in front, negative and
valid with the expiry of `new`; the old one expires at once and loses the reference of
the caller. -/
theorem rsc_update_negative_replace (H : SvcHelpers) (new : Rsc) (old q : Nat) (s : SvcState)
    (hv : (s.rsc.ents old).h.VALID = true) (hn : new.h.NEGATIVE = true)
    (ha : H.rsc_alloc = some q) :
    rsc_update H new old s =
      (cache_put rsc_cache old
        (({ s.rsc with
            ents := Function.update s.rsc.ents q
              { zeroRsc with
                h := { zeroHead with NEGATIVE := true, VALID := true,
                                     expiry_time := new.h.expiry_time, ref := 2 },
                handle := (s.rsc.ents old).handle },
            table := q :: s.rsc.table } : Cache Rsc).mod old fun o =>
          { o with h := { o.h with expiry_time := 0, VALID := true, PENDING := false } })).map
        fun c3 => (some q, { s with trace := SvcEvent.rsc_update old :: s.trace, rsc := c3 }) := by
  have hv' : ¬ ((rsc_cache.h (s.rsc.ents old)).VALID = false) := by
    show ¬ ((s.rsc.ents old).h.VALID = false)
    rw [hv]; simp
  simp only [rsc_update, sunrpc_cache_update, SvcState.log]
  rw [if_neg hv']
  simp only [rsc_cache, ha, cache_fill, hn, if_true, Option.some_bind, cache_fresh, rsc_init,
    __rsc_init, zeroRsc, zeroHead, CACHE_NEW_EXPIRY, zeroSvcCtx, Option.map_map]
  rfl

/-- What `rsc_update` does on a valid entry when the allocation fails: the reference of
the caller is dropped and the result is `NULL`. -/
theorem rsc_update_alloc_fail (H : SvcHelpers) (new : Rsc) (old : Nat) (s : SvcState)
    (hv : (s.rsc.ents old).h.VALID = true) (ha : H.rsc_alloc = none) :
    rsc_update H new old s =
      (cache_put rsc_cache old s.rsc).map fun c =>
        (none, { s with trace := SvcEvent.rsc_update old :: s.trace, rsc := c }) := by
  have hv' : ¬ ((rsc_cache.h (s.rsc.ents old)).VALID = false) := by
    show ¬ ((s.rsc.ents old).h.VALID = false)
    rw [hv]; simp
  simp only [rsc_update, sunrpc_cache_update, SvcState.log]
  rw [if_neg hv']
  simp only [rsc_cache, ha, Option.map_map]
  rfl

theorem rsc_cache_put_frame {p : Nat} {c c' : Cache Rsc} (h : cache_put rsc_cache p c = some c') :
    c'.table = c.table ∧
    c'.ents = (c.mod p fun e => { e with h := { e.h with ref := e.h.ref - 1 } }).ents := by
  simp only [cache_put, rsc_cache, Cache.mod_ents_same] at h
  split at h
  · simp only [rsc_put] at h
    split at h
    · cases h
    · cases h; exact ⟨rfl, rfl⟩
  · cases h; exact ⟨rfl, rfl⟩

theorem rsc_parse_out_some {p : Nat} {st r : Int} {s s' : SvcState}
    (h : rsc_parse_out (some p) st s = some (r, s')) :
    r = st ∧ s'.trace = s.trace ∧ s'.rsi = s.rsi ∧ s'.rsc.table = s.rsc.table ∧
    s'.rsc.ents = (s.rsc.mod p fun e => { e with h := { e.h with ref := e.h.ref - 1 } }).ents := by
  simp only [rsc_parse_out, Option.map_eq_some', Prod.mk.injEq] at h
  obtain ⟨c, hc, rfl, rfl⟩ := h
  obtain ⟨f1, f2⟩ := rsc_cache_put_frame hc
  exact ⟨rfl, rfl, rfl, f1, f2⟩

theorem rsc_match_of_handle (a k : Rsc) (h : a.handle = k.handle) : rsc_match a k = true :=
  (rsc_match_iff a k).mpr h

theorem rsc_match_congr (a b k : Rsc) (h : a.handle = b.handle) :
    rsc_match a k = rsc_match b k := by
  simp only [rsc_match, __rsc_match, h]

/-- The text of `rsc_parse` on a reply line that carries a handle, a non-zero expiry,
the four flags and the mapped uid but no uid field. -/
theorem rsc_parse_negative_eq (H : SvcHelpers) (M : MechHelpers) (mesg : List Char)
    (s : SvcState) (len : Int) (buf hdl : List Nat) (m0 m1 m2 m3 m4 m5 m6 : List Char)
    (expiry v1 v2 v3 v4 v5 : Int)
    (hq : H.qword_get mesg = (len, buf, m0)) (hlen : 0 ≤ len)
    (ha : H.rawobj_alloc buf len = some hdl)
    (he : H.get_expiry m0 = (expiry, m1)) (hne : expiry ≠ 0)
    (g1 : H.get_int m1 = (0, v1, m2)) (g2 : H.get_int m2 = (0, v2, m3))
    (g3 : H.get_int m3 = (0, v3, m4)) (g4 : H.get_int m4 = (0, v4, m5))
    (g5 : H.get_int m5 = (0, v5, m6)) (hu : (H.get_int m6).1 = -ENOENT) :
    rsc_parse H M mesg s =
      match (rsc_lookup H (rsc_parse_rsci hdl v1 v2 v3 v4 v5) s).1 with
      | none => some (-ENOMEM, (rsc_lookup H (rsc_parse_rsci hdl v1 v2 v3 v4 v5) s).2)
      | some rscp =>
        (rsc_update H
          { rsc_parse_rsci hdl v1 v2 v3 v4 v5 with
            h := { zeroHead with NEGATIVE := true, expiry_time := expiry } }
          rscp (rsc_lookup H (rsc_parse_rsci hdl v1 v2 v3 v4 v5) s).2).bind fun r =>
            rsc_parse_out r.1 0 r.2 := by
  have hf := rsc_parse_flags_ok H { zeroRsc with handle := hdl } m1 m2 m3 m4 m5 m6
    v1 v2 v3 v4 v5 g1 g2 g3 g4 g5
  have hlt : ¬ len < 0 := by omega
  have hne2 : ¬ (-ENOENT = -EINVAL) := by decide
  have hkey : ({ zeroRsc with
      handle := hdl,
      ctx := { ({ zeroRsc with handle := hdl } : Rsc).ctx with
               gsc_remote := decide (v1 ≠ 0), gsc_usr_root := decide (v2 ≠ 0),
               gsc_usr_mds := decide (v3 ≠ 0), gsc_usr_oss := decide (v4 ≠ 0),
               gsc_mapped_uid := (v5 % 2 ^ 32).toNat } } : Rsc) =
      rsc_parse_rsci hdl v1 v2 v3 v4 v5 := rfl
  simp only [rsc_parse, hq, hlt, if_false, ha, he, hne, hf, hkey]
  cases hl : (rsc_lookup H (rsc_parse_rsci hdl v1 v2 v3 v4 v5) s).1 with
  | none => simp only [rsc_parse_out]
  | some rscp =>
    simp only [rsc_parse_ctx, hu, hne2, if_false, if_true]
    rfl

/-- The text of `rsc_parse` on a reply line whose handle, expiry, flags and mapped uid
parse and whose mechanism data the mechanism refuses to import: after the lookup the
function goes to `out` with `-EINVAL`. -/
theorem rsc_parse_refused_eq (H : SvcHelpers) (M : MechHelpers) (mesg : List Char)
    (s : SvcState) (len : Int) (buf hdl : List Nat) (m0 m1 m2 m3 m4 m5 m6 : List Char)
    (expiry v1 v2 v3 v4 v5 : Int) (gm : String)
    (hq : H.qword_get mesg = (len, buf, m0)) (hlen : 0 ≤ len)
    (ha : H.rawobj_alloc buf len = some hdl)
    (he : H.get_expiry m0 = (expiry, m1)) (hne : expiry ≠ 0)
    (g1 : H.get_int m1 = (0, v1, m2)) (g2 : H.get_int m2 = (0, v2, m3))
    (g3 : H.get_int m3 = (0, v3, m4)) (g4 : H.get_int m4 = (0, v4, m5))
    (g5 : H.get_int m5 = (0, v5, m6))
    (hu1 : (H.get_int m6).1 ≠ -EINVAL) (hu2 : (H.get_int m6).1 ≠ -ENOENT)
    (hg : (H.get_int (H.get_int m6).2.2).1 = 0)
    (hn1 : 0 ≤ (H.qword_get (H.get_int (H.get_int m6).2.2).2.2).1)
    (hgm : M.lgss_name_to_mech (H.qword_get (H.get_int (H.get_int m6).2.2).2.2).2.1 = some gm)
    (hn2 : 0 ≤ (H.qword_get (H.qword_get (H.get_int (H.get_int m6).2.2).2.2).2.2).1)
    (himp : M.lgss_import_sec_context
      ((H.qword_get (H.qword_get (H.get_int (H.get_int m6).2.2).2.2).2.2).2.1.take
        (H.qword_get (H.qword_get (H.get_int (H.get_int m6).2.2).2.2).2.2).1.toNat) gm = none) :
    rsc_parse H M mesg s =
      rsc_parse_out (rsc_lookup H (rsc_parse_rsci hdl v1 v2 v3 v4 v5) s).1 (-EINVAL)
        (rsc_lookup H (rsc_parse_rsci hdl v1 v2 v3 v4 v5) s).2 := by
  have hf := rsc_parse_flags_ok H { zeroRsc with handle := hdl } m1 m2 m3 m4 m5 m6
    v1 v2 v3 v4 v5 g1 g2 g3 g4 g5
  have hlt : ¬ len < 0 := by omega
  have hkey : ({ zeroRsc with
      handle := hdl,
      ctx := { ({ zeroRsc with handle := hdl } : Rsc).ctx with
               gsc_remote := decide (v1 ≠ 0), gsc_usr_root := decide (v2 ≠ 0),
               gsc_usr_mds := decide (v3 ≠ 0), gsc_usr_oss := decide (v4 ≠ 0),
               gsc_mapped_uid := (v5 % 2 ^ 32).toNat } } : Rsc) =
      rsc_parse_rsci hdl v1 v2 v3 v4 v5 := rfl
  simp only [rsc_parse, hq, hlt, if_false, ha, he, hne, hf, hkey]
  cases hl : (rsc_lookup H (rsc_parse_rsci hdl v1 v2 v3 v4 v5) s).1 with
  | none => rfl
  | some rscp =>
    simp only [rsc_parse_ctx, hu1, hu2, if_false, hg, ne_eq, not_true_eq_false,
      not_lt.mpr hn1, hgm, not_lt.mpr hn2, himp]

/-- C23 (amended): a reply line of the context channel whose handle (allocated as
`hdl`), expiry, flags, mapped uid, uid, gid and mechanism name parse and whose
mechanism data `lgss_import_sec_context` refuses. Every completed `rsc_parse` returns
`-EINVAL` (`-ENOMEM` when the lookup itself came back `NULL`) without calling
`rsc_update`, and the entry for the handle is not marked negative: an entry that
matched the handle keeps its record, its flags and its reference count, and the whole
cache is as before; an entry that the lookup had to create stays as created, not valid
and not negative, with the reference of the hash table. The call completes when every
entry of the hash table holds a reference. -/
theorem rsc_parse_import_refused (H : SvcHelpers) (M : MechHelpers) (mesg : List Char)
    (s : SvcState) (len : Int) (buf hdl : List Nat) (m0 m1 m2 m3 m4 m5 m6 : List Char)
    (expiry v1 v2 v3 v4 v5 : Int) (gm : String)
    (hq : H.qword_get mesg = (len, buf, m0)) (hlen : 0 ≤ len)
    (ha : H.rawobj_alloc buf len = some hdl)
    (he : H.get_expiry m0 = (expiry, m1)) (hne : expiry ≠ 0)
    (g1 : H.get_int m1 = (0, v1, m2)) (g2 : H.get_int m2 = (0, v2, m3))
    (g3 : H.get_int m3 = (0, v3, m4)) (g4 : H.get_int m4 = (0, v4, m5))
    (g5 : H.get_int m5 = (0, v5, m6))
    (hu1 : (H.get_int m6).1 ≠ -EINVAL) (hu2 : (H.get_int m6).1 ≠ -ENOENT)
    (hg : (H.get_int (H.get_int m6).2.2).1 = 0)
    (hn1 : 0 ≤ (H.qword_get (H.get_int (H.get_int m6).2.2).2.2).1)
    (hgm : M.lgss_name_to_mech (H.qword_get (H.get_int (H.get_int m6).2.2).2.2).2.1 = some gm)
    (hn2 : 0 ≤ (H.qword_get (H.qword_get (H.get_int (H.get_int m6).2.2).2.2).2.2).1)
    (himp : M.lgss_import_sec_context
      ((H.qword_get (H.qword_get (H.get_int (H.get_int m6).2.2).2.2).2.2).2.1.take
        (H.qword_get (H.qword_get (H.get_int (H.get_int m6).2.2).2.2).2.2).1.toNat) gm = none) :
    (∀ r s', rsc_parse H M mesg s = some (r, s') →
      (r = -EINVAL ∨ r = -ENOMEM) ∧ s'.trace = s.trace ∧ s'.rsi = s.rsi ∧
      (∀ p, s.rsc.table.find? (fun q =>
          rsc_match (s.rsc.ents q) { zeroRsc with handle := hdl }) = some p →
        r = -EINVAL ∧ s' = s ∧
        (s'.rsc.ents p).h.NEGATIVE = (s.rsc.ents p).h.NEGATIVE) ∧
      (s.rsc.table.find? (fun q =>
          rsc_match (s.rsc.ents q) { zeroRsc with handle := hdl }) = none →
        (H.rsc_alloc = none → r = -ENOMEM ∧ s' = s) ∧
        ∀ q, H.rsc_alloc = some q →
          r = -EINVAL ∧ s'.rsc.table = q :: s.rsc.table ∧
          s'.rsc.ents q =
            { zeroRsc with
              h := { zeroHead with expiry_time := H.seconds_since_boot + CACHE_NEW_EXPIRY,
                                   ref := 1 },
              handle := hdl } ∧
          (s'.rsc.ents q).h.NEGATIVE = false ∧ (s'.rsc.ents q).h.VALID = false ∧
          ∀ x, x ≠ q → s'.rsc.ents x = s.rsc.ents x)) ∧
    ((∀ q ∈ s.rsc.table, 0 < (s.rsc.ents q).h.ref) →
      (rsc_parse H M mesg s).isSome = true) := by
  have heq := rsc_parse_refused_eq H M mesg s len buf hdl m0 m1 m2 m3 m4 m5 m6
    expiry v1 v2 v3 v4 v5 gm hq hlen ha he hne g1 g2 g3 g4 g5 hu1 hu2 hg hn1 hgm hn2 himp
  have hfun : (fun q => rsc_match (s.rsc.ents q) { zeroRsc with handle := hdl }) =
      fun q => rsc_match (s.rsc.ents q) (rsc_parse_rsci hdl v1 v2 v3 v4 v5) := by
    funext x
    simp only [rsc_match, __rsc_match, rsc_parse_rsci]
  rw [hfun, heq]
  cases hfind : s.rsc.table.find? (fun q =>
      rsc_match (s.rsc.ents q) (rsc_parse_rsci hdl v1 v2 v3 v4 v5)) with
  | some p0 =>
    have hm : p0 ∈ s.rsc.table := List.mem_of_find?_eq_some hfind
    rw [rsc_lookup_found hfind]
    simp only [rsc_parse_out]
    refine ⟨?_, ?_⟩
    · intro r s' h
      by_cases href : (s.rsc.ents p0).h.ref = 0
      · rw [rsc_cache_put_get_none p0 s.rsc href hm] at h
        cases h
      · rw [rsc_cache_put_get p0 s.rsc href] at h
        simp only [Option.map_some', Option.some.injEq, Prod.mk.injEq] at h
        obtain ⟨rfl, rfl⟩ := h
        refine ⟨Or.inl rfl, rfl, rfl, ?_, ?_⟩
        · intro p _
          exact ⟨rfl, rfl, rfl⟩
        · intro hx; cases hx
    · intro href
      have h1 : (s.rsc.ents p0).h.ref ≠ 0 := by
        have := href p0 hm
        omega
      rw [rsc_cache_put_get p0 s.rsc h1]
      rfl
  | none =>
    cases halloc : H.rsc_alloc with
    | none =>
      rw [rsc_lookup_failed hfind halloc]
      simp only [rsc_parse_out]
      refine ⟨?_, fun _ => rfl⟩
      intro r s' h
      simp only [Option.some.injEq, Prod.mk.injEq] at h
      obtain ⟨rfl, rfl⟩ := h
      refine ⟨Or.inr rfl, rfl, rfl, (fun p hp => by cases hp), fun _ => ⟨fun _ => ⟨rfl, rfl⟩, ?_⟩⟩
      intro q hq; cases hq
    | some q =>
      rw [rsc_lookup_created hfind halloc]
      simp only [rsc_parse_out]
      rw [rsc_cache_put_some _ _ (by simp)]
      simp only [Option.map_some']
      refine ⟨?_, fun _ => rfl⟩
      intro r s' h
      simp only [Option.some.injEq, Prod.mk.injEq] at h
      obtain ⟨rfl, rfl⟩ := h
      refine ⟨Or.inl rfl, rfl, rfl, (fun p hp => by cases hp), fun _ => ⟨?_, ?_⟩⟩
      · intro hx; cases hx
      · intro q' hq'
        cases hq'
        refine ⟨rfl, rfl, ?_, ?_, ?_, ?_⟩
        · simp [Cache.mod, rsc_parse_rsci]
        · simp [Cache.mod, zeroHead]
        · simp [Cache.mod, zeroHead]
        · intro x hx
          simp [Cache.mod, hx]

/-- Worked example for C23: the line `demoRscRefused` for the new handle `09 09`
carries mechanism data that `demoMech` refuses; the call returns `-EINVAL` and leaves
the entry 50 that the lookup created neither negative nor valid. -/
theorem rsc_parse_import_refused_witness :
    ∃ s', rsc_parse (demoSvcHelpers 100 50) demoMech demoRscRefused demoSvc =
        some (-EINVAL, s') ∧
      s'.rsc.table = [50, 5] ∧ (s'.rsc.ents 50).h.NEGATIVE = false ∧
      (s'.rsc.ents 50).h.VALID = false ∧ s'.trace = [] := by
  have h := rsc_parse_import_refused (demoSvcHelpers 100 50) demoMech demoRscRefused demoSvc
    2 [9, 9] [9, 9] "500 0 1 0 0 1000 1000 1000 krb5 \\x02ff\n".toList
    "0 1 0 0 1000 1000 1000 krb5 \\x02ff\n".toList "1 0 0 1000 1000 1000 krb5 \\x02ff\n".toList
    "0 0 1000 1000 1000 krb5 \\x02ff\n".toList "0 1000 1000 1000 krb5 \\x02ff\n".toList
    "1000 1000 1000 krb5 \\x02ff\n".toList "1000 1000 krb5 \\x02ff\n".toList
    500 0 1 0 0 1000 "krb5"
    (by decide) (by decide) (by decide) (by decide) (by decide) (by decide) (by decide)
    (by decide) (by decide) (by decide) (by decide) (by decide) (by decide) (by decide)
    (by decide) (by decide) (by decide)
  obtain ⟨hpost, hcomp⟩ := h
  have hsome := hcomp (by decide)
  cases hret : rsc_parse (demoSvcHelpers 100 50) demoMech demoRscRefused demoSvc with
  | none => rw [hret] at hsome; cases hsome
  | some rs =>
    obtain ⟨r, s'⟩ := rs
    obtain ⟨-, htr, -, -, hnew⟩ := hpost r s' hret
    obtain ⟨hr, htab, -, hneg, hval, -⟩ := (hnew (by decide)).2 50 (by decide)
    subst hr
    exact ⟨s', rfl, htab, hneg, hval, htr⟩

/-- Counterexample to C23 as stated: `demoMech` refuses the mechanism data `02 ff` of the
line `demoRscRefused`; after `rsc_parse` the entry that a lookup finds for the handle
`09 09` is entry 50, and it is not marked negative. -/
theorem rsc_parse_import_refused_counterexample :
    demoMech.lgss_import_sec_context [2, 255] "krb5" = none ∧
    (rsc_parse (demoSvcHelpers 100 50) demoMech demoRscRefused demoSvc).map
      (fun r => (r.1,
        r.2.rsc.table.find? (fun q =>
          rsc_match (r.2.rsc.ents q) { zeroRsc with handle := [9, 9] }),
        (r.2.rsc.ents 50).h.NEGATIVE)) = some (-EINVAL, some 50, false) := by
  refine ⟨by decide, by decide⟩

/-- The text of `rsc_parse` on a reply line whose handle parses and is allocated and
whose expiry is 0 or one of whose flags or whose mapped uid does not parse: the
function goes to `out` before any lookup, where the status becomes `-ENOMEM`. -/
theorem rsc_parse_malformed (H : SvcHelpers) (M : MechHelpers) (mesg : List Char)
    (s : SvcState) (len : Int) (buf hdl : List Nat) (m0 m1 : List Char) (expiry : Int)
    (hq : H.qword_get mesg = (len, buf, m0)) (hlen : 0 ≤ len)
    (ha : H.rawobj_alloc buf len = some hdl)
    (he : H.get_expiry m0 = (expiry, m1))
    (hbad : expiry = 0 ∨ (H.get_int m1).1 ≠ 0 ∨
      (H.get_int (H.get_int m1).2.2).1 ≠ 0 ∨
      (H.get_int (H.get_int (H.get_int m1).2.2).2.2).1 ≠ 0 ∨
      (H.get_int (H.get_int (H.get_int (H.get_int m1).2.2).2.2).2.2).1 ≠ 0 ∨
      (H.get_int (H.get_int (H.get_int (H.get_int (H.get_int m1).2.2).2.2).2.2).2.2).1 ≠ 0) :
    rsc_parse H M mesg s = some (-ENOMEM, s) := by
  have hlt : ¬ len < 0 := by omega
  simp only [rsc_parse, hq, hlt, if_false, ha, he]
  by_cases h0 : expiry = 0
  · rw [if_pos h0]; rfl
  · rw [if_neg h0]
    rcases hbad with h | h
    · exact absurd h h0
    · rw [rsc_parse_flags_fail H _ m1 h]
      rfl

/-- C27, the code at the failing inputs: for the line `demoRscNoExpiry` (handle `09 09`,
expiry 0) and for the line `demoRscBadFlag` (handle `09 09`, expiry 500, a root flag
that is not an integer) the allocator has memory and no lookup or update is made, yet
`rsc_parse` returns `-ENOMEM`, not `-EINVAL`, and leaves the caches as they were. -/
theorem rsc_parse_malformed_result :
    (demoSvcHelpers 100 50).rawobj_alloc [9, 9] 2 = some [9, 9] ∧
    (demoSvcHelpers 100 50).rsc_alloc = some 50 ∧
    rsc_parse (demoSvcHelpers 100 50) demoMech demoRscNoExpiry demoSvc =
      some (-ENOMEM, demoSvc) ∧
    rsc_parse (demoSvcHelpers 100 50) demoMech demoRscBadFlag demoSvc =
      some (-ENOMEM, demoSvc) ∧
    -ENOMEM ≠ -EINVAL :=
  ⟨by decide, by decide,
   rsc_parse_malformed (demoSvcHelpers 100 50) demoMech demoRscNoExpiry demoSvc 2 [9, 9] [9, 9]
     "0 0 1 0 0 1000\n".toList "0 1 0 0 1000\n".toList 0
     (by decide) (by decide) (by decide) (by decide) (Or.inl rfl),
   rsc_parse_malformed (demoSvcHelpers 100 50) demoMech demoRscBadFlag demoSvc 2 [9, 9] [9, 9]
     "500 0 yes 0 0 1000\n".toList "0 yes 0 0 1000\n".toList 500
     (by decide) (by decide) (by decide) (by decide)
     (Or.inr (Or.inr (Or.inl (by decide)))),
   by decide⟩

/-- The text of `rsi_parse` on a reply line for a pending entry `p` whose key, expiry,
major and minor status parse and whose output handle or output token field
`qword_get` rejects: the function goes to `out` with the status 0 that the last
`kstrtoint` left, without calling `rsi_update`. -/
theorem rsi_parse_bad_output (H : SvcHelpers) (mesg : List Char) (s : SvcState)
    (l1 l2 l3 l4 l5 : Int) (b1 b2 b3 b4 b5 ih it : List Nat) (ma mb mc md me mf : List Char)
    (expiry major minor : Int) (p : Nat)
    (hq1 : H.qword_get mesg = (l1, b1, ma)) (h1 : 0 ≤ l1)
    (a1 : H.rawobj_alloc b1 l1 = some ih)
    (hq2 : H.qword_get ma = (l2, b2, mb)) (h2 : 0 ≤ l2)
    (a2 : H.rawobj_alloc b2 l2 = some it)
    (hfind : s.rsi.table.find? (fun q =>
      rsi_match (s.rsi.ents q) { zeroRsi with in_handle := ih, in_token := it }) = some p)
    (hpend : (s.rsi.ents p).h.PENDING = true)
    (he : H.get_expiry mb = (expiry, mc)) (hne : expiry ≠ 0)
    (hq3 : H.qword_get mc = (l3, b3, md)) (h3 : 0 < l3) (k3 : H.kstrtoint b3 = (0, major))
    (hq4 : H.qword_get md = (l4, b4, me)) (h4 : 0 < l4) (k4 : H.kstrtoint b4 = (0, minor))
    (hq5 : H.qword_get me = (l5, b5, mf))
    (hbad : l5 < 0 ∨
      (0 ≤ l5 ∧ H.rawobj_alloc b5 l5 ≠ none ∧ (H.qword_get mf).1 < 0)) :
    rsi_parse H mesg s =
      rsi_parse_out (some p) 0 { s with rsi := cache_get rsi_cache p s.rsi } := by
  have n1 : ¬ l1 < 0 := by omega
  have n2 : ¬ l2 < 0 := by omega
  have n3 : ¬ l3 ≤ 0 := by omega
  have n4 : ¬ l4 ≤ 0 := by omega
  have hL := @rsi_lookup_found H { zeroRsi with in_handle := ih, in_token := it } s p hfind
  have hp2 : ((cache_get rsi_cache p s.rsi).ents p).h.PENDING = true := by
    simp [cache_get, rsi_cache, hpend]
  simp only [rsi_parse, hq1, n1, if_false, a1, hq2, n2, a2, hL, hp2, Bool.true_eq_false,
    rsi_parse_fields, he, hne, hq3, n3, k3, ne_eq, not_true_eq_false, hq4, n4, k4, hq5]
  rcases hbad with h5 | ⟨h5, a5, h6⟩
  · rw [if_pos h5]
  · rw [if_neg (by omega)]
    cases hoh : H.rawobj_alloc b5 l5 with
    | none => exact absurd hoh a5
    | some oh =>
      simp only []
      rw [if_pos h6]

/-- What the label `out` of `rsi_parse` leaves after a lookup that found the entry: the
waiters are woken and the reference of the lookup is given back. -/
theorem rsi_parse_out_found (p : Nat) (st : Int) (s : SvcState)
    (href : (s.rsi.ents p).h.ref ≠ 0) :
    rsi_parse_out (some p) st { s with rsi := cache_get rsi_cache p s.rsi } =
      some (st, { s with trace := SvcEvent.wake_up p :: s.trace }) := by
  simp only [rsi_parse_out, SvcState.log, rsi_cache_put_get p s.rsi href, Option.map_some']

/-- C28, the code at the failing inputs: entry 1 of `demoSvcPending` is pending for the
key (empty handle, token `01 02 03`). On the reply line `demoReplyBadHandle`, whose
output handle field `qword_get` rejects, and on `demoReplyBadToken`, whose output token
field it rejects, `rsi_parse` returns 0 although `rsi_update` was not called: the trace
holds the wake-up only and the entry is still pending, not valid and without output. -/
theorem rsi_parse_bad_output_result :
    ((demoSvcHelpers 100 2).qword_get "\\x07zz \\x04\n".toList).1 = -1 ∧
    ((demoSvcHelpers 100 2).qword_get "\\x0g\n".toList).1 = -1 ∧
    rsi_parse (demoSvcHelpers 100 2) demoReplyBadHandle demoSvcPending =
      some (0, { demoSvcPending with trace := [SvcEvent.wake_up 1] }) ∧
    rsi_parse (demoSvcHelpers 100 2) demoReplyBadToken demoSvcPending =
      some (0, { demoSvcPending with trace := [SvcEvent.wake_up 1] }) ∧
    (demoSvcPending.rsi.ents 1).h.PENDING = true ∧
    (demoSvcPending.rsi.ents 1).h.VALID = false ∧
    (demoSvcPending.rsi.ents 1).out_handle = [] := by
  refine ⟨by decide, by decide, ?_, ?_, by decide, by decide, by decide⟩
  · rw [rsi_parse_bad_output (demoSvcHelpers 100 2) demoReplyBadHandle demoSvcPending
      0 3 1 1 (-1) [] [1, 2, 3] [48] [48] [] [] [1, 2, 3]
      "\\x010203 500 0 0 \\x07zz \\x04\n".toList "500 0 0 \\x07zz \\x04\n".toList
      "0 0 \\x07zz \\x04\n".toList "0 \\x07zz \\x04\n".toList "\\x07zz \\x04\n".toList
      "\\x07zz \\x04\n".toList 500 0 0 1
      (by decide) (by decide) (by decide) (by decide) (by decide) (by decide) (by decide)
      (by decide) (by decide) (by decide) (by decide) (by decide) (by decide) (by decide)
      (by decide) (by decide) (by decide) (Or.inl (by decide))]
    exact rsi_parse_out_found 1 0 demoSvcPending (by decide)
  · rw [rsi_parse_bad_output (demoSvcHelpers 100 2) demoReplyBadToken demoSvcPending
      0 3 1 1 2 [] [1, 2, 3] [48] [48] [7, 7] [] [1, 2, 3]
      "\\x010203 500 0 0 \\x0707 \\x0g\n".toList "500 0 0 \\x0707 \\x0g\n".toList
      "0 0 \\x0707 \\x0g\n".toList "0 \\x0707 \\x0g\n".toList "\\x0707 \\x0g\n".toList
      "\\x0g\n".toList 500 0 0 1
      (by decide) (by decide) (by decide) (by decide) (by decide) (by decide) (by decide)
      (by decide) (by decide) (by decide) (by decide) (by decide) (by decide) (by decide)
      (by decide) (by decide) (by decide)
      (Or.inr ⟨by decide, by decide, by decide⟩)]
    exact rsi_parse_out_found 1 0 demoSvcPending (by decide)

/-- The reference count of the init entry after a wait of `gss_svc_upcall_handle_init`
that ends with a `cache_check` result of 0, from a count of at least three at the label
`cache_check` and with a sleep that leaves the count alone: one less when the first
`cache_check` answers 0, two less when the first times out and the second answers 0. -/
theorem handle_init_wait_refs (E : InitEnv) (p : Nat) (s : SvcState)
    (href : 3 ≤ (s.rsi.ents p).h.ref)
    (hsleep : ∀ c, ((E.schedule_timeout c).1.ents p).h.ref = (c.1.ents p).h.ref) :
    (E.cache_check 0 = 0 →
      ∃ t, handle_init_wait E p s = some (0, t) ∧
        (t.rsi.ents p).h.ref = (s.rsi.ents p).h.ref - 1) ∧
    ((E.cache_check 0 = -ETIMEDOUT ∨ E.cache_check 0 = -EAGAIN) → E.cache_check 1 = 0 →
      ∃ t, handle_init_wait E p s = some (0, t) ∧
        (t.rsi.ents p).h.ref = (s.rsi.ents p).h.ref - 2) := by
  obtain ⟨t1, h1, r1⟩ := cache_check_rsi_completes E 0 p s (by omega)
  constructor
  · intro h0
    have hto : ¬ (E.cache_check 0 = -ETIMEDOUT ∨ E.cache_check 0 = -EAGAIN) := by
      rw [h0]; decide
    rw [if_neg (by simp [h0])] at r1
    simp only [handle_init_wait, h1, Option.some_bind]
    rw [if_neg hto]
    simp only [handle_init_wait_done, rsi_cache_put_some p t1.rsi (by omega), Option.map_some',
      h0]
    exact ⟨_, rfl, by simp only [Cache.mod_ents_same]; omega⟩
  · intro hto h0
    have hnz : E.cache_check 0 ≠ 0 := by
      rcases hto with h | h <;> rw [h] <;> decide
    rw [if_pos hnz] at r1
    simp only [handle_init_wait, h1, Option.some_bind]
    rw [if_pos hto]
    have n1 : ¬ (E.cache_check 1 = -ETIMEDOUT ∨ E.cache_check 1 = -EAGAIN) := by
      rw [h0]; decide
    have n2 : ¬ E.cache_check 1 = -ENOENT := by rw [h0]; decide
    have key : ∀ u : SvcState, (u.rsi.ents p).h.ref = (s.rsi.ents p).h.ref →
        ∃ t, handle_init_wait_retry E p u = some (0, t) ∧
          (t.rsi.ents p).h.ref = (s.rsi.ents p).h.ref - 2 := by
      intro u hu
      obtain ⟨t2, h2, r2⟩ := cache_check_rsi_completes E 1 p u (by omega)
      rw [if_neg (by simp [h0])] at r2
      simp only [handle_init_wait_retry, h2, Option.some_bind]
      rw [if_neg n1, if_neg n2, if_pos h0, rsi_cache_put_some p t2.rsi (by omega)]
      simp only [Option.some_bind, handle_init_wait_done]
      rw [rsi_cache_put_some p _ (by simp only [Cache.mod_ents_same]; omega)]
      simp only [Option.map_some', h0]
      exact ⟨_, rfl, by simp only [Cache.mod_ents_same]; omega⟩
    apply key
    simp only [cache_get, rsi_cache, Cache.mod_ents_same]
    split
    · simp only [SvcState.log]
      rw [hsleep]
      simp only []
      omega
    · omega

/-- C30, the code at the failing inputs: entry 1 of `demoSvc` is the answered init entry
for the key of `demoInitReq`, held by the hash table only (one reference). When the first
`cache_check` answers 0 the call ends with `SECSVC_OK` and two references on the entry:
it read the output handle holding one reference, which it never gives back. When the
first `cache_check` answers `-EAGAIN` and the second 0, the call ends with `SECSVC_OK`
and one reference on the entry: it read the output handle holding none. When the first
`cache_check` answers 0 and the call then fails with `SECSVC_DROP` (a `krb5` context and
a request without `LUSTRE_GSS_PACK_KCSUM`), the entry is left with two references: the
one of the lookup is not released. -/
theorem handle_init_reference_counts :
    (demoSvc.rsi.ents 1).h.ref = 1 ∧
    (gss_svc_upcall_handle_init (demoSvcHelpers 100 2) (demoInitEnv fun _ => 0)
        demoInitReq demoGrctx demoSvc).map (fun r => (r.rc, (r.s.rsi.ents 1).h.ref)) =
      some (SECSVC_OK, 2) ∧
    (gss_svc_upcall_handle_init (demoSvcHelpers 100 2)
        (demoInitEnv fun n => if n = 0 then -EAGAIN else 0)
        demoInitReq demoGrctx demoSvc).map (fun r => (r.rc, (r.s.rsi.ents 1).h.ref)) =
      some (SECSVC_OK, 1) ∧
    (gss_svc_upcall_handle_init (demoSvcHelpers 100 2) (demoInitEnv fun _ => 0)
        { demoInitReq with gw_kcsum := false } demoGrctx demoSvc).map
        (fun r => (r.rc, (r.s.rsi.ents 1).h.ref)) =
      some (SECSVC_DROP, 2) ∧
    (handle_init_wait (demoInitEnv fun _ => 0) 1
        { demoSvc with rsi := cache_get rsi_cache 1 (cache_get rsi_cache 1 demoSvc.rsi) }).map
        (fun r => (r.1, (r.2.rsi.ents 1).h.ref)) = some (0, 2) ∧
    (handle_init_wait (demoInitEnv fun n => if n = 0 then -EAGAIN else 0) 1
        { demoSvc with rsi := cache_get rsi_cache 1 (cache_get rsi_cache 1 demoSvc.rsi) }).map
        (fun r => (r.1, (r.2.rsi.ents 1).h.ref)) = some (0, 1) := by
  refine ⟨by decide, by decide, by decide, by decide, ?_, ?_⟩
  · obtain ⟨t, h, r⟩ := (handle_init_wait_refs (demoInitEnv fun _ => 0) 1
      { demoSvc with rsi := cache_get rsi_cache 1 (cache_get rsi_cache 1 demoSvc.rsi) }
      (by decide) (fun _ => rfl)).1 rfl
    rw [h, Option.map_some', r]
    rfl
  · obtain ⟨t, h, r⟩ := (handle_init_wait_refs
      (demoInitEnv fun n => if n = 0 then -EAGAIN else 0) 1
      { demoSvc with rsi := cache_get rsi_cache 1 (cache_get rsi_cache 1 demoSvc.rsi) }
      (by decide) (fun _ => rfl)).2 (Or.inr rfl) rfl
    rw [h, Option.map_some', r]
    rfl

theorem hash_mem_round_last (E : HashEnv) (length : Int) (st : HashSt)
    (h : st.len = length) :
    ∃ st1, (∀ mem1, hash_mem_round E mem1 length st = some st1) ∧ st1.len = 0 ∧
      st1.reads = st.reads ∧ st1.rounds = st.rounds + 1 ∧ st1.hash < 2 ^ E.BITS_PER_LONG := by
  have h1 : ¬ ((-1 : Int) = INT_MAX) := by decide
  refine ⟨{ hash := E.hash_long (st.hash ^^^ ((st.l * 2 ^ 8 % 2 ^ E.BITS_PER_LONG) |||
                 (st.len % 256).toNat)) E.BITS_PER_LONG % 2 ^ E.BITS_PER_LONG,
             l := (st.l * 2 ^ 8 % 2 ^ E.BITS_PER_LONG) ||| (st.len % 256).toNat,
             len := 0, buf := st.buf, reads := st.reads, rounds := st.rounds + 1 },
    ?_, rfl, rfl, rfl, Nat.mod_lt _ (Nat.pos_pow_of_pos _ (by decide))⟩
  intro mem1
  simp [hash_mem_round, h, h1]

theorem hash_mem_round_next (E : HashEnv) (mem : Nat → Nat) (length : Int) (st : HashSt)
    (h : st.len ≠ length) (hmax : st.len ≠ INT_MAX) :
    ∃ st1, hash_mem_round E mem length st = some st1 ∧ st1.len = st.len + 1 ∧
      st1.buf = st.buf + 1 ∧ st1.reads = st.reads ++ [st.buf] ∧
      st1.rounds = st.rounds + 1 := by
  simp only [hash_mem_round, h, decide_False, Bool.false_eq_true, if_false, hmax]
  exact ⟨_, rfl, rfl, rfl, rfl, rfl⟩

/-- The run of the loop of `hash_mem` over `n` bytes from the round that has read `k`
of them: it ends after `n - k + 1` more rounds, not earlier, having read the offsets
below `n` in order. -/
theorem hash_mem_loop_spec (E : HashEnv) (mem : Nat → Nat) (n : Nat) (hn : (n : Int) ≤ INT_MAX) :
    ∀ (m k : Nat) (st : HashSt), k + m = n → st.len = (k : Int) → st.buf = k →
      st.reads = List.range k → st.rounds = k →
      ∃ st1, (∀ fuel, m + 1 ≤ fuel → hash_mem_loop E mem n fuel st = some st1) ∧
        (∀ fuel, fuel ≤ m → hash_mem_loop E mem n fuel st = none) ∧
        st1.rounds = n + 1 ∧ st1.reads = List.range n ∧
        st1.hash < 2 ^ E.BITS_PER_LONG := by
  intro m
  induction m with
  | zero =>
    intro k st hk hl hb hr hc
    have hkn : k = n := by omega
    subst hkn
    obtain ⟨st1, hround, e1, e2, e3, e4⟩ := hash_mem_round_last E (k : Int) st hl
    refine ⟨st1, ?_, ?_, ?_, ?_, e4⟩
    · intro fuel hf
      obtain ⟨f, rfl⟩ : ∃ f, fuel = f + 1 := ⟨fuel - 1, by omega⟩
      simp only [hash_mem_loop, hround, Option.some_bind, ne_eq, e1, not_true_eq_false,
        if_false]
    · intro fuel hf
      obtain rfl : fuel = 0 := by omega
      rfl
    · rw [e3, hc]
    · rw [e2, hr]
  | succ m ih =>
    intro k st hk hl hb hr hc
    have hne : st.len ≠ (n : Int) := by rw [hl]; omega
    have hmax : st.len ≠ INT_MAX := by rw [hl]; omega
    obtain ⟨sn, hround, e1, e2, e3, e4⟩ := hash_mem_round_next E mem (n : Int) st hne hmax
    obtain ⟨st1, h1, h2, h3, h4, h5⟩ := ih (k + 1) sn (by omega)
      (by rw [e1, hl]; push_cast; rfl) (by rw [e2, hb])
      (by rw [e3, hr, hb, List.range_succ]) (by rw [e4, hc])
    have hnz : sn.len ≠ 0 := by rw [e1, hl]; omega
    refine ⟨st1, ?_, ?_, h3, h4, h5⟩
    · intro fuel hf
      obtain ⟨f, rfl⟩ : ∃ f, fuel = f + 1 := ⟨fuel - 1, by omega⟩
      simp only [hash_mem_loop, hround, Option.some_bind, ne_eq, hnz, not_false_eq_true,
        if_true]
      exact h1 f (by omega)
    · intro fuel hf
      cases fuel with
      | zero => rfl
      | succ f =>
        simp only [hash_mem_loop, hround, Option.some_bind, ne_eq, hnz, not_false_eq_true,
          if_true]
        exact h2 f (by omega)

/-- The loop of `hash_mem` over `n` bytes does not depend on the memory at offsets
from `n` on. -/
theorem hash_mem_loop_congr (E : HashEnv) (mem mem1 : Nat → Nat) (n : Nat)
    (hn : (n : Int) ≤ INT_MAX) (hm : ∀ i, i < n → mem1 i = mem i) :
    ∀ (fuel : Nat) (st : HashSt), st.len = (st.buf : Int) → st.buf ≤ n →
      hash_mem_loop E mem1 n fuel st = hash_mem_loop E mem n fuel st := by
  intro fuel
  induction fuel with
  | zero => intro st _ _; rfl
  | succ f ih =>
    intro st hl hb
    by_cases hlast : st.len = (n : Int)
    · obtain ⟨st1, hround, e1, -⟩ := hash_mem_round_last E (n : Int) st hlast
      simp only [hash_mem_loop, hround, Option.some_bind, ne_eq, e1, not_true_eq_false,
        if_false]
    · have hlt : st.buf < n := by omega
      have hmax : st.len ≠ INT_MAX := by omega
      have hnz : st.len + 1 ≠ 0 := by omega
      simp only [hash_mem_loop, hash_mem_round, hlast, decide_False, Bool.false_eq_true,
        if_false, hmax, hm st.buf hlt, Option.some_bind, ne_eq, hnz, not_false_eq_true, if_true]
      apply ih
      · simp only [hl]; push_cast; rfl
      · exact hlt

theorem toInt32_small (n : Nat) (h : (n : Int) ≤ INT_MAX) : toInt32 n = n := by
  have h1 : n < 2 ^ 31 := by
    have : (n : Int) < 2 ^ 31 := by
      have : INT_MAX = 2 ^ 31 - 1 := rfl
      omega
    exact_mod_cast this
  have h2 : n % 2 ^ 32 = n := Nat.mod_eq_of_lt (by omega)
  simp only [toInt32, h2, h1, if_true]

/-- The run of `hash_mem` over `n` bytes. -/
theorem hash_mem_spec (E : HashEnv) (mem : Nat → Nat) (n bits : Nat)
    (hn : (n : Int) ≤ INT_MAX) (hbits : bits ≤ E.BITS_PER_LONG) :
    ∃ r, (∀ fuel, n + 1 ≤ fuel → hash_mem E fuel mem n bits = some r) ∧
      (∀ fuel, fuel ≤ n → hash_mem E fuel mem n bits = none) ∧
      r.rounds = n + 1 ∧ r.reads = List.range n ∧ r.value < 2 ^ bits := by
  obtain ⟨st1, h1, h2, h3, h4, h5⟩ := hash_mem_loop_spec E mem n hn n 0
    { hash := 0, l := 0, len := 0, buf := 0, reads := [], rounds := 0 }
    (by omega) rfl rfl rfl rfl
  refine ⟨{ value := st1.hash >>> (E.BITS_PER_LONG - bits), reads := st1.reads,
            rounds := st1.rounds }, fun fuel hf => ?_, fun fuel hf => ?_, h3, h4, ?_⟩
  · simp only [hash_mem, h1 fuel hf, Option.map_some']
  · simp only [hash_mem, h2 fuel hf, Option.map_none']
  · show st1.hash >>> (E.BITS_PER_LONG - bits) < 2 ^ bits
    rw [Nat.shiftRight_eq_div_pow, Nat.div_lt_iff_lt_mul (Nat.pos_pow_of_pos _ (by decide)),
      ← pow_add, Nat.add_sub_cancel' hbits]
    exact h5

theorem hash_mem_congr (E : HashEnv) (mem mem1 : Nat → Nat) (n bits : Nat)
    (hn : (n : Int) ≤ INT_MAX) (hm : ∀ i, i < n → mem1 i = mem i) (fuel : Nat) :
    hash_mem E fuel mem1 n bits = hash_mem E fuel mem n bits := by
  simp only [hash_mem]
  rw [hash_mem_loop_congr E mem mem1 n hn hm fuel _ rfl (Nat.zero_le n)]

theorem toInt32_hash (v bits : Nat) (hb : bits ≤ RSC_HASHBITS) (hv : v < 2 ^ bits) :
    toInt32 v = v ∧ (0 : Int) ≤ toInt32 v ∧ toInt32 v < ((2 ^ bits : Nat) : Int) := by
  have h1 : 2 ^ bits ≤ 2 ^ RSC_HASHBITS := Nat.pow_le_pow_right (by decide) hb
  have h2 : (2 : Nat) ^ RSC_HASHBITS = 1024 := by decide
  have h3 : toInt32 v = v := toInt32_small v (by
    have : INT_MAX = 2 ^ 31 - 1 := rfl
    omega)
  rw [h3]
  exact ⟨rfl, by omega, by exact_mod_cast hv⟩

/-- C29: over a header environment whose `unsigned long` has at least `RSC_HASHBITS`
bits, `hash_mem` on a buffer of `n` bytes, `0 ≤ n ≤ INT_MAX`, ends after exactly `n + 1`
rounds of its loop (any bound of at least `n + 1` rounds gives the result, no smaller
bound does), reads the offsets `0 .. n-1` of the buffer in order and no other (none for
`n = 0`), does not depend on the memory at other offsets, and returns a value below
`2 ^ bits` for `bits ≤ BITS_PER_LONG`. `rsi_hash` returns a value in `[0, RSI_HASHMAX)`
and `rsc_hash` one in `[0, RSC_HASHMAX)`, and two keys that `rsi_match` (`rsc_match`)
takes as equal have the same `rsi_hash` (`rsc_hash`). -/
theorem hash_mem_well_defined (E : HashEnv) (hB : RSC_HASHBITS ≤ E.BITS_PER_LONG) :
    (∀ (mem : Nat → Nat) (n bits : Nat), (n : Int) ≤ INT_MAX → bits ≤ E.BITS_PER_LONG →
      ∃ r, (∀ fuel, n + 1 ≤ fuel → hash_mem E fuel mem n bits = some r) ∧
        (∀ fuel, fuel ≤ n → hash_mem E fuel mem n bits = none) ∧
        r.rounds = n + 1 ∧ r.reads = List.range n ∧ r.value < 2 ^ bits ∧
        (∀ mem1, (∀ i, i < n → mem1 i = mem i) →
          ∀ fuel, hash_mem E fuel mem1 n bits = hash_mem E fuel mem n bits)) ∧
    (∀ (item : Rsi) (fuel : Nat), (item.in_handle.length : Int) ≤ INT_MAX →
      (item.in_token.length : Int) ≤ INT_MAX →
      item.in_handle.length < fuel → item.in_token.length < fuel →
      ∃ v, rsi_hash E fuel item = some v ∧ 0 ≤ v ∧ v < (RSI_HASHMAX : Int)) ∧
    (∀ (rsci : Rsc) (fuel : Nat), (rsci.handle.length : Int) ≤ INT_MAX →
      rsci.handle.length < fuel →
      ∃ v, rsc_hash E fuel rsci = some v ∧ 0 ≤ v ∧ v < (RSC_HASHMAX : Int)) ∧
    (∀ (fuel : Nat) (a b : Rsi), rsi_match a b = true → rsi_hash E fuel a = rsi_hash E fuel b) ∧
    (∀ (fuel : Nat) (a b : Rsc), rsc_match a b = true →
      rsc_hash E fuel a = rsc_hash E fuel b) := by
  have hB6 : RSI_HASHBITS ≤ E.BITS_PER_LONG := le_trans (by decide) hB
  refine ⟨?_, ?_, ?_, ?_, ?_⟩
  · intro mem n bits hn hbits
    obtain ⟨r, h1, h2, h3, h4, h5⟩ := hash_mem_spec E mem n bits hn hbits
    exact ⟨r, h1, h2, h3, h4, h5, fun mem1 hm fuel => hash_mem_congr E mem mem1 n bits hn hm fuel⟩
  · intro item fuel hn1 hn2 hf1 hf2
    obtain ⟨a, ha, -, -, -, hav⟩ :=
      hash_mem_spec E (rawobj_data item.in_handle) item.in_handle.length RSI_HASHBITS hn1 hB6
    obtain ⟨b, hb, -, -, -, hbv⟩ :=
      hash_mem_spec E (rawobj_data item.in_token) item.in_token.length RSI_HASHBITS hn2 hB6
    have hx : a.value ^^^ b.value < 2 ^ RSI_HASHBITS := Nat.xor_lt_two_pow hav hbv
    obtain ⟨-, h0, h1⟩ := toInt32_hash _ RSI_HASHBITS (by decide) hx
    refine ⟨toInt32 (a.value ^^^ b.value), ?_, h0, h1⟩
    simp only [rsi_hash, toInt32_small _ hn1, toInt32_small _ hn2, ha fuel (by omega),
      hb fuel (by omega), Option.some_bind, Option.map_some']
  · intro rsci fuel hn hf
    obtain ⟨a, ha, -, -, -, hav⟩ :=
      hash_mem_spec E (rawobj_data rsci.handle) rsci.handle.length RSC_HASHBITS hn hB
    obtain ⟨-, h0, h1⟩ := toInt32_hash _ RSC_HASHBITS (le_refl _) hav
    refine ⟨toInt32 a.value, ?_, h0, h1⟩
    simp only [rsc_hash, toInt32_small _ hn, ha fuel (by omega), Option.map_some']
  · intro fuel a b hm
    obtain ⟨h1, h2⟩ := (rsi_match_iff a b).mp hm
    simp only [rsi_hash, h1, h2]
  · intro fuel a b hm
    have h1 := (rsc_match_iff a b).mp hm
    simp only [rsc_hash, h1]

theorem hash_mem_well_defined_witness :
    RSC_HASHBITS ≤ demoHashEnv.BITS_PER_LONG ∧
    (∃ r, hash_mem demoHashEnv 4 (rawobj_data [1, 2, 3]) 3 RSI_HASHBITS = some r ∧
      hash_mem demoHashEnv 3 (rawobj_data [1, 2, 3]) 3 RSI_HASHBITS = none ∧
      r.rounds = 4 ∧ r.reads = [0, 1, 2] ∧ r.value < 64) ∧
    (∃ r, hash_mem demoHashEnv 1 (rawobj_data []) 0 RSI_HASHBITS = some r ∧
      r.rounds = 1 ∧ r.reads = []) ∧
    (∃ v, rsi_hash demoHashEnv 4 demoRsi = some v ∧ 0 ≤ v ∧ v < 64) ∧
    (∃ v, rsc_hash demoHashEnv 4 demoRsc = some v ∧ 0 ≤ v ∧ v < 1024) ∧
    rsi_match demoRsi { demoRsi with lustre_svc := 7, out_handle := [] } = true ∧
    rsi_hash demoHashEnv 4 demoRsi =
      rsi_hash demoHashEnv 4 { demoRsi with lustre_svc := 7, out_handle := [] } := by
  have h := hash_mem_well_defined demoHashEnv (by decide)
  obtain ⟨r, h1, h2, h3, h4, h5, -⟩ := h.1 (rawobj_data [1, 2, 3]) 3 RSI_HASHBITS
    (by decide) (by decide)
  obtain ⟨r0, g1, -, g3, g4, -⟩ := h.1 (rawobj_data []) 0 RSI_HASHBITS (by decide) (by decide)
  refine ⟨by decide, ⟨r, h1 4 (by decide), h2 3 (by decide), h3, h4, h5⟩,
    ⟨r0, g1 1 (by decide), g3, g4⟩,
    h.2.1 demoRsi 4 (by decide) (by decide) (by decide) (by decide),
    h.2.2.1 demoRsc 4 (by decide) (by decide), by decide,
    h.2.2.2.1 4 demoRsi { demoRsi with lustre_svc := 7, out_handle := [] } (by decide)⟩

theorem hexField_length (buf : List Nat) : (hexField buf).length = 2 * buf.length + 2 := by
  have h : ∀ l : List Nat, (l.flatMap hex_byte_pack).length = 2 * l.length := by
    intro l
    induction l with
    | nil => rfl
    | cons b rest ih =>
      simp only [List.flatMap_cons, List.length_append, ih, List.length_cons, hex_byte_pack,
        List.length_nil]
      omega
  simp only [hexField, List.length_append, h, List.length_cons, List.length_nil]
  omega

theorem requestLine_length (H : SvcHelpers) (rsi : Rsi) (idx : Nat) :
    (requestLine H rsi idx).length =
      2 * ((H.obj_bytes 4 rsi.lustre_svc).length + (H.obj_bytes 8 rsi.nid4).length +
        (H.obj_bytes 8 idx).length + (rsi.nm_name.take (strlen rsi.nm_name + 1)).length +
        rsi.in_handle.length + rsi.in_token.length) + 18 := by
  simp only [requestLine, List.length_append, hexField_length, List.length_cons,
    List.length_nil]
  omega

/-- The loop of `qword_addhex` uses up two characters of room for every two it writes
and never leaves negative room. -/
theorem qword_addhex_loop_len : ∀ (buf : List Nat) (bp : List Char) (len : Int), 0 ≤ len →
    0 ≤ (qword_addhex_loop buf bp len).2.2 ∧
    ((qword_addhex_loop buf bp len).2.1.length : Int) + (qword_addhex_loop buf bp len).2.2 =
      bp.length + len := by
  intro buf
  induction buf with
  | nil => intro bp len h; exact ⟨h, rfl⟩
  | cons b rest ih =>
    intro bp len h
    by_cases h2 : (2 : Int) ≤ len
    · rw [qword_addhex_loop, if_pos h2]
      obtain ⟨i1, i2⟩ := ih (bp ++ hex_byte_pack b) (len - 2) (by omega)
      refine ⟨i1, ?_⟩
      rw [i2]
      simp only [List.length_append, hex_byte_pack, List.length_cons, List.length_nil,
        Nat.cast_add]
      push_cast
      omega
    · rw [qword_addhex_loop, if_neg h2]
      exact ⟨h, rfl⟩

/-- The loop of `qword_addhex` on a field that needs more room than there is stops with
bytes left over or without room for the separator. -/
theorem qword_addhex_loop_short : ∀ (buf : List Nat) (bp : List Char) (len : Int),
    len < 2 * (buf.length : Int) + 1 →
    (qword_addhex_loop buf bp len).1 ≠ [] ∨ (qword_addhex_loop buf bp len).2.2 < 1 := by
  intro buf
  induction buf with
  | nil =>
    intro bp len h
    right
    simp only [qword_addhex_loop, List.length_nil, Nat.cast_zero] at h ⊢
    omega
  | cons b rest ih =>
    intro bp len h
    by_cases h2 : (2 : Int) ≤ len
    · rw [qword_addhex_loop, if_pos h2]
      apply ih
      simp only [List.length_cons, Nat.cast_add, Nat.cast_one] at h
      omega
    · rw [qword_addhex_loop, if_neg h2]
      left
      simp

/-- A non-empty field that does not fit leaves the room at -1. -/
theorem qword_addhex_short (o : List Char × Int) (buf : List Nat) (h0 : 0 ≤ o.2)
    (hne : buf ≠ []) (h : o.2 < 2 * (buf.length : Int) + 3) : (qword_addhex o buf).2 = -1 := by
  have n0 : ¬ o.2 < 0 := by omega
  simp only [qword_addhex, n0, if_false]
  by_cases h2 : (2 : Int) < o.2
  · rw [if_pos h2]
    have hs := qword_addhex_loop_short buf (o.1 ++ ['\\', 'x']) (o.2 - 2) (by omega)
    rw [if_pos hs]
  · rw [if_neg h2]
    rw [if_pos (Or.inl hne)]

/-- The text that `qword_addhex` has written never exceeds the room it started from. -/
theorem qword_addhex_bound (B : Int) (o : List Char × Int) (buf : List Nat)
    (h1 : (o.1.length : Int) ≤ B) (h2 : 0 ≤ o.2 → (o.1.length : Int) + o.2 ≤ B) :
    ((qword_addhex o buf).1.length : Int) ≤ B ∧
    (0 ≤ (qword_addhex o buf).2 →
      ((qword_addhex o buf).1.length : Int) + (qword_addhex o buf).2 ≤ B) := by
  by_cases hneg : o.2 < 0
  · simp only [qword_addhex, hneg, if_true]
    exact ⟨h1, h2⟩
  · have hsum := h2 (by omega)
    have key : ∀ r : List Nat × List Char × Int, 0 ≤ r.2.2 →
        (r.2.1.length : Int) + r.2.2 ≤ B →
        (((if r.1 ≠ [] ∨ r.2.2 < 1 then (r.2.1, (-1 : Int))
            else (r.2.1 ++ [' '], r.2.2 - 1)).1.length : Int) ≤ B) ∧
        (0 ≤ (if r.1 ≠ [] ∨ r.2.2 < 1 then (r.2.1, (-1 : Int))
            else (r.2.1 ++ [' '], r.2.2 - 1)).2 →
          ((if r.1 ≠ [] ∨ r.2.2 < 1 then (r.2.1, (-1 : Int))
            else (r.2.1 ++ [' '], r.2.2 - 1)).1.length : Int) +
          (if r.1 ≠ [] ∨ r.2.2 < 1 then (r.2.1, (-1 : Int))
            else (r.2.1 ++ [' '], r.2.2 - 1)).2 ≤ B) := by
      intro r hr hs
      by_cases hc : r.1 ≠ [] ∨ r.2.2 < 1
      · rw [if_pos hc]
        refine ⟨by simp only []; omega, fun h => ?_⟩
        simp only [] at h
        omega
      · rw [if_neg hc]
        have : ¬ r.2.2 < 1 := fun h => hc (Or.inr h)
        simp only [List.length_append, List.length_cons, List.length_nil, Nat.cast_add,
          Nat.cast_one]
        refine ⟨by omega, fun _ => by omega⟩
    simp only [qword_addhex, hneg, if_false]
    by_cases h3 : (2 : Int) < o.2
    · rw [if_pos h3]
      obtain ⟨l1, l2⟩ := qword_addhex_loop_len buf (o.1 ++ ['\\', 'x']) (o.2 - 2) (by omega)
      apply key _ l1
      rw [l2]
      simp only [List.length_append, List.length_cons, List.length_nil, Nat.cast_add]
      push_cast
      omega
    · rw [if_neg h3]
      exact key (buf, o.1, o.2) (by simp only []; omega) hsum

/-- The text that `rsi_request` leaves is no longer than the room it was given. -/
theorem rsi_request_text_le (H : SvcHelpers) (rsi : Rsi) (blen : Int) (g : State)
    (t : List Char) (h : (rsi_request H rsi blen g).1 = some t) : (t.length : Int) ≤ blen := by
  by_cases hb : blen < 0
  · exfalso
    have e : ∀ buf, qword_addhex (([] : List Char), blen) buf = ([], blen) := by
      intro buf
      simp only [qword_addhex, hb, if_true]
    simp only [rsi_request, e, if_true] at h
    cases h
  · have b0 : ((([] : List Char), blen).1.length : Int) ≤ blen ∧
        (0 ≤ (([] : List Char), blen).2 →
          ((([] : List Char), blen).1.length : Int) + (([] : List Char), blen).2 ≤ blen) := by
      simp only [List.length_nil, Nat.cast_zero, zero_add, le_refl, implies_true, and_true]
      omega
    have b1 := qword_addhex_bound blen _ (H.obj_bytes 4 rsi.lustre_svc) b0.1 b0.2
    have b2 := qword_addhex_bound blen _ (H.obj_bytes 8 rsi.nid4) b1.1 b1.2
    have b3 := qword_addhex_bound blen _
      (H.obj_bytes 8 (if rsi.in_handle.length = 0 then gss_get_next_ctx_index g else (0, g)).1)
      b2.1 b2.2
    have b4 := qword_addhex_bound blen _ (rsi.nm_name.take (strlen rsi.nm_name + 1)) b3.1 b3.2
    have b5 := qword_addhex_bound blen _ rsi.in_handle b4.1 b4.2
    have b6 := qword_addhex_bound blen _ rsi.in_token b5.1 b5.2
    have key : ∀ (o6 : List Char × Int), (o6.1.length : Int) ≤ blen →
        (if o6.1 = [] then none else some (o6.1.dropLast ++ ['\n'])) = some t →
        (t.length : Int) ≤ blen := by
      intro o6 hle he
      by_cases hnil : o6.1 = []
      · rw [if_pos hnil] at he
        cases he
      · rw [if_neg hnil] at he
        simp only [Option.some.injEq] at he
        rw [← he]
        have : 0 < o6.1.length := List.length_pos.mpr hnil
        simp only [List.length_append, List.length_dropLast, List.length_cons, List.length_nil]
        omega
    exact key _ b6.1 h

/-- In a buffer without room for the whole request line `rsi_request` does not leave
that line. -/
theorem rsi_request_short (H : SvcHelpers) (rsi : Rsi) (blen : Int) (g : State) (idx : Nat)
    (h : blen < 2 * (((H.obj_bytes 4 rsi.lustre_svc).length + (H.obj_bytes 8 rsi.nid4).length +
        (H.obj_bytes 8 idx).length +
        (rsi.nm_name.take (strlen rsi.nm_name + 1)).length + rsi.in_handle.length +
        rsi.in_token.length : Nat) : Int) + 18) :
    (rsi_request H rsi blen g).1 ≠ some (requestLine H rsi idx) := by
  intro e
  have hle := rsi_request_text_le H rsi blen g _ e
  rw [requestLine_length] at hle
  push_cast at hle h
  omega

/-- In a buffer with room for the whole request line `rsi_request` leaves that line. -/
theorem rsi_request_room (H : SvcHelpers) (rsi : Rsi) (blen : Int) (g : State)
    (hroom : 2 * (((H.obj_bytes 4 rsi.lustre_svc).length + (H.obj_bytes 8 rsi.nid4).length +
        (H.obj_bytes 8 (if rsi.in_handle.length = 0 then g.ctx_index else 0)).length +
        (rsi.nm_name.take (strlen rsi.nm_name + 1)).length + rsi.in_handle.length +
        rsi.in_token.length : Nat) : Int) + 18 ≤ blen) :
    rsi_request H rsi blen g =
      (some (requestLine H rsi (if rsi.in_handle.length = 0 then g.ctx_index else 0)),
       blen - (2 * (((H.obj_bytes 4 rsi.lustre_svc).length + (H.obj_bytes 8 rsi.nid4).length +
        (H.obj_bytes 8 (if rsi.in_handle.length = 0 then g.ctx_index else 0)).length +
        (rsi.nm_name.take (strlen rsi.nm_name + 1)).length + rsi.in_handle.length +
        rsi.in_token.length : Nat) : Int) + 18),
       (if rsi.in_handle.length = 0 then gss_get_next_ctx_index g else (0, g)).2) := by
  have hi : (if rsi.in_handle.length = 0 then gss_get_next_ctx_index g else (0, g)).1 =
      (if rsi.in_handle.length = 0 then g.ctx_index else 0) := by
    split <;> rfl
  simp only [Nat.cast_add] at hroom
  have e1 := qword_addhex_room ([], blen) (H.obj_bytes 4 rsi.lustre_svc)
    (by simp only []; omega)
  have e2 := qword_addhex_room (qword_addhex ([], blen) (H.obj_bytes 4 rsi.lustre_svc))
    (H.obj_bytes 8 rsi.nid4) (by rw [e1]; simp only []; omega)
  have e3 := qword_addhex_room
    (qword_addhex (qword_addhex ([], blen) (H.obj_bytes 4 rsi.lustre_svc))
      (H.obj_bytes 8 rsi.nid4))
    (H.obj_bytes 8 (if rsi.in_handle.length = 0 then g.ctx_index else 0))
    (by rw [e2, e1]; simp only []; omega)
  have e4 := qword_addhex_room
    (qword_addhex (qword_addhex (qword_addhex ([], blen) (H.obj_bytes 4 rsi.lustre_svc))
      (H.obj_bytes 8 rsi.nid4))
      (H.obj_bytes 8 (if rsi.in_handle.length = 0 then g.ctx_index else 0)))
    (rsi.nm_name.take (strlen rsi.nm_name + 1))
    (by rw [e3, e2, e1]; simp only []; omega)
  have e5 := qword_addhex_room
    (qword_addhex (qword_addhex (qword_addhex (qword_addhex ([], blen)
      (H.obj_bytes 4 rsi.lustre_svc)) (H.obj_bytes 8 rsi.nid4))
      (H.obj_bytes 8 (if rsi.in_handle.length = 0 then g.ctx_index else 0)))
      (rsi.nm_name.take (strlen rsi.nm_name + 1)))
    rsi.in_handle
    (by rw [e4, e3, e2, e1]; simp only []; omega)
  have e6 := qword_addhex_room
    (qword_addhex (qword_addhex (qword_addhex (qword_addhex (qword_addhex ([], blen)
      (H.obj_bytes 4 rsi.lustre_svc)) (H.obj_bytes 8 rsi.nid4))
      (H.obj_bytes 8 (if rsi.in_handle.length = 0 then g.ctx_index else 0)))
      (rsi.nm_name.take (strlen rsi.nm_name + 1))) rsi.in_handle)
    rsi.in_token
    (by rw [e5, e4, e3, e2, e1]; simp only []; omega)
  simp only [rsi_request, hi]
  rw [e6, e5, e4, e3, e2, e1]
  simp only []
  rw [if_neg (by simp), List.dropLast_concat]
  simp only [List.append_assoc, List.nil_append, requestLine, Prod.mk.injEq, true_and,
    and_true, Nat.cast_add]
  omega

/-- With room for the first five fields but not for a non-empty input token,
`rsi_request` leaves the room at -1. -/
theorem rsi_request_overflow (H : SvcHelpers) (rsi : Rsi) (blen : Int) (g : State)
    (h5 : 2 * (((H.obj_bytes 4 rsi.lustre_svc).length + (H.obj_bytes 8 rsi.nid4).length +
        (H.obj_bytes 8 (if rsi.in_handle.length = 0 then g.ctx_index else 0)).length +
        (rsi.nm_name.take (strlen rsi.nm_name + 1)).length + rsi.in_handle.length : Nat) : Int)
        + 15 ≤ blen)
    (hne : rsi.in_token ≠ [])
    (hshort : blen < 2 * (((H.obj_bytes 4 rsi.lustre_svc).length +
        (H.obj_bytes 8 rsi.nid4).length +
        (H.obj_bytes 8 (if rsi.in_handle.length = 0 then g.ctx_index else 0)).length +
        (rsi.nm_name.take (strlen rsi.nm_name + 1)).length + rsi.in_handle.length +
        rsi.in_token.length : Nat) : Int) + 18) :
    (rsi_request H rsi blen g).2.1 = -1 := by
  have hi : (if rsi.in_handle.length = 0 then gss_get_next_ctx_index g else (0, g)).1 =
      (if rsi.in_handle.length = 0 then g.ctx_index else 0) := by
    split <;> rfl
  simp only [Nat.cast_add] at h5 hshort
  have e1 := qword_addhex_room ([], blen) (H.obj_bytes 4 rsi.lustre_svc)
    (by simp only []; omega)
  have e2 := qword_addhex_room (qword_addhex ([], blen) (H.obj_bytes 4 rsi.lustre_svc))
    (H.obj_bytes 8 rsi.nid4) (by rw [e1]; simp only []; omega)
  have e3 := qword_addhex_room
    (qword_addhex (qword_addhex ([], blen) (H.obj_bytes 4 rsi.lustre_svc))
      (H.obj_bytes 8 rsi.nid4))
    (H.obj_bytes 8 (if rsi.in_handle.length = 0 then g.ctx_index else 0))
    (by rw [e2, e1]; simp only []; omega)
  have e4 := qword_addhex_room
    (qword_addhex (qword_addhex (qword_addhex ([], blen) (H.obj_bytes 4 rsi.lustre_svc))
      (H.obj_bytes 8 rsi.nid4))
      (H.obj_bytes 8 (if rsi.in_handle.length = 0 then g.ctx_index else 0)))
    (rsi.nm_name.take (strlen rsi.nm_name + 1))
    (by rw [e3, e2, e1]; simp only []; omega)
  have e5 := qword_addhex_room
    (qword_addhex (qword_addhex (qword_addhex (qword_addhex ([], blen)
      (H.obj_bytes 4 rsi.lustre_svc)) (H.obj_bytes 8 rsi.nid4))
      (H.obj_bytes 8 (if rsi.in_handle.length = 0 then g.ctx_index else 0)))
      (rsi.nm_name.take (strlen rsi.nm_name + 1)))
    rsi.in_handle
    (by rw [e4, e3, e2, e1]; simp only []; omega)
  simp only [rsi_request, hi]
  apply qword_addhex_short _ _ _ hne
  · rw [e5, e4, e3, e2, e1]; simp only []; omega
  · rw [e5, e4, e3, e2, e1]; simp only []; omega

/-- C15 (amended): the request line of `rsi_request`. The text is the six fields, each
`\x` followed by two hexadecimal digits per byte, in the order service, peer NID,
suggested index, nodemap name, input handle, input token, separated by blanks and ended
by a newline in the place of the last blank, exactly when the buffer has room for that
line (two characters for each byte of the fields and 18 more), and then the room left
is what the line did not use. In a smaller buffer the text is not that line; when the
first five fields fit and a non-empty input token does not, the room is left at -1.
The name field is the first `strlen + 1` bytes of the name array, that is the name and
its NUL when the array holds one. With a non-empty input handle the index is 0 and the
global counter is not touched; with an empty one the index is the value of
`gss_get_next_ctx_index`, which returns the counter as it was and leaves it one higher
modulo `2 ^ 64`, so that two calls in a row return different values. -/
theorem rsi_request_line (H : SvcHelpers) (rsi : Rsi) (blen : Int) (g : State) :
    ((rsi_request H rsi blen g).1 = some (
      hexField (H.obj_bytes 4 rsi.lustre_svc) ++ [' '] ++
      hexField (H.obj_bytes 8 rsi.nid4) ++ [' '] ++
      hexField (H.obj_bytes 8 (if rsi.in_handle.length = 0 then g.ctx_index else 0)) ++ [' '] ++
      hexField (rsi.nm_name.take (strlen rsi.nm_name + 1)) ++ [' '] ++
      hexField rsi.in_handle ++ [' '] ++
      hexField rsi.in_token ++ ['\n']) ↔
      2 * (((H.obj_bytes 4 rsi.lustre_svc).length + (H.obj_bytes 8 rsi.nid4).length +
        (H.obj_bytes 8 (if rsi.in_handle.length = 0 then g.ctx_index else 0)).length +
        (rsi.nm_name.take (strlen rsi.nm_name + 1)).length + rsi.in_handle.length +
        rsi.in_token.length : Nat) : Int) + 18 ≤ blen) ∧
    (2 * (((H.obj_bytes 4 rsi.lustre_svc).length + (H.obj_bytes 8 rsi.nid4).length +
        (H.obj_bytes 8 (if rsi.in_handle.length = 0 then g.ctx_index else 0)).length +
        (rsi.nm_name.take (strlen rsi.nm_name + 1)).length + rsi.in_handle.length +
        rsi.in_token.length : Nat) : Int) + 18 ≤ blen →
      (rsi_request H rsi blen g).2.1 = blen -
        (2 * (((H.obj_bytes 4 rsi.lustre_svc).length + (H.obj_bytes 8 rsi.nid4).length +
          (H.obj_bytes 8 (if rsi.in_handle.length = 0 then g.ctx_index else 0)).length +
          (rsi.nm_name.take (strlen rsi.nm_name + 1)).length + rsi.in_handle.length +
          rsi.in_token.length : Nat) : Int) + 18)) ∧
    (2 * (((H.obj_bytes 4 rsi.lustre_svc).length + (H.obj_bytes 8 rsi.nid4).length +
        (H.obj_bytes 8 (if rsi.in_handle.length = 0 then g.ctx_index else 0)).length +
        (rsi.nm_name.take (strlen rsi.nm_name + 1)).length + rsi.in_handle.length : Nat) : Int)
        + 15 ≤ blen →
      rsi.in_token ≠ [] →
      blen < 2 * (((H.obj_bytes 4 rsi.lustre_svc).length + (H.obj_bytes 8 rsi.nid4).length +
        (H.obj_bytes 8 (if rsi.in_handle.length = 0 then g.ctx_index else 0)).length +
        (rsi.nm_name.take (strlen rsi.nm_name + 1)).length + rsi.in_handle.length +
        rsi.in_token.length : Nat) : Int) + 18 →
      (rsi_request H rsi blen g).2.1 = -1) ∧
    (0 ∈ rsi.nm_name →
      rsi.nm_name.take (strlen rsi.nm_name + 1) =
        (rsi.nm_name.takeWhile fun b => b != 0) ++ [0] ∧
      (rsi.nm_name.take (strlen rsi.nm_name + 1)).length = strlen rsi.nm_name + 1) ∧
    (rsi.in_handle.length ≠ 0 → (rsi_request H rsi blen g).2.2 = g) ∧
    (rsi.in_handle.length = 0 →
      (rsi_request H rsi blen g).2.2 = (gss_get_next_ctx_index g).2 ∧
      (gss_get_next_ctx_index g).1 = g.ctx_index ∧
      (gss_get_next_ctx_index g).2.ctx_index = (g.ctx_index + 1) % 2 ^ 64) ∧
    (gss_get_next_ctx_index (gss_get_next_ctx_index g).2).1 ≠ (gss_get_next_ctx_index g).1 := by
  refine ⟨⟨?_, ?_⟩, ?_, ?_, ?_, ?_, ?_, ?_⟩
  · intro h
    by_contra hlt
    exact rsi_request_short H rsi blen g
      (if rsi.in_handle.length = 0 then g.ctx_index else 0) (not_le.mp hlt) h
  · intro hroom
    rw [rsi_request_room H rsi blen g hroom]
    rfl
  · intro hroom
    rw [rsi_request_room H rsi blen g hroom]
  · exact rsi_request_overflow H rsi blen g
  · intro h0
    have e := strlen_take_of_mem rsi.nm_name h0
    refine ⟨e, ?_⟩
    rw [e]
    simp [strlen]
  · intro h
    simp [rsi_request, h]
  · intro h
    simp [rsi_request, h, gss_get_next_ctx_index]
  · simp only [gss_get_next_ctx_index]
    intro h
    have : (g.ctx_index + 1) % 2 ^ 64 < 2 ^ 64 := Nat.mod_lt _ (by norm_num)
    by_cases hlt : g.ctx_index + 1 < 2 ^ 64
    · rw [Nat.mod_eq_of_lt hlt] at h; omega
    · omega

/-- Worked example for C15: the request line for the negotiation entry `demoRsi`, whose
input handle is empty, written into a page-sized buffer while the global counter is 0:
the suggested index is 0 and the counter is 1 afterwards; the line takes 68 characters
of the 4096. -/
theorem rsi_request_line_witness :
    (rsi_request (demoSvcHelpers 100 50) demoRsi 4096 demoEmpty).1 =
      some "\\x01000000 \\x0a00000000000000 \\x0000000000000000 \\x6400 \\x \\x010203\n".toList ∧
    (rsi_request (demoSvcHelpers 100 50) demoRsi 4096 demoEmpty).2.1 = 4028 ∧
    (rsi_request (demoSvcHelpers 100 50) demoRsi 4096 demoEmpty).2.2.ctx_index = 1 := by
  have h := rsi_request_line (demoSvcHelpers 100 50) demoRsi 4096 demoEmpty
  refine ⟨?_, ?_, ?_⟩
  · rw [h.1.mpr (by decide)]; decide
  · rw [h.2.1 (by decide)]; decide
  · rw [(h.2.2.2.2.2.1 (by decide)).1]; decide

/-- Counterexample to C15 as stated: for the entry `demoRsiLong`, whose input token has
2100 bytes, and a page-sized buffer the six fields need 4262 characters; `rsi_request`
does not leave the six-field line and the room ends at -1. -/
theorem rsi_request_line_counterexample :
    demoRsiLong.in_token.length = 2100 ∧
    (rsi_request (demoSvcHelpers 100 50) demoRsiLong 4096 demoEmpty).1 ≠ some (
      hexField ((demoSvcHelpers 100 50).obj_bytes 4 demoRsiLong.lustre_svc) ++ [' '] ++
      hexField ((demoSvcHelpers 100 50).obj_bytes 8 demoRsiLong.nid4) ++ [' '] ++
      hexField ((demoSvcHelpers 100 50).obj_bytes 8 0) ++ [' '] ++
      hexField (demoRsiLong.nm_name.take (strlen demoRsiLong.nm_name + 1)) ++ [' '] ++
      hexField demoRsiLong.in_handle ++ [' '] ++
      hexField demoRsiLong.in_token ++ ['\n']) ∧
    (rsi_request (demoSvcHelpers 100 50) demoRsiLong 4096 demoEmpty).2.1 = -1 := by
  have hlen : demoRsiLong.in_token.length = 2100 := List.length_replicate _ _
  have hne : demoRsiLong.in_token ≠ [] := by
    intro h
    rw [h] at hlen
    cases hlen
  have h5 : ((demoSvcHelpers 100 50).obj_bytes 4 demoRsiLong.lustre_svc).length +
      ((demoSvcHelpers 100 50).obj_bytes 8 demoRsiLong.nid4).length +
      ((demoSvcHelpers 100 50).obj_bytes 8
        (if demoRsiLong.in_handle.length = 0 then demoEmpty.ctx_index else 0)).length +
      (demoRsiLong.nm_name.take (strlen demoRsiLong.nm_name + 1)).length +
      demoRsiLong.in_handle.length = 22 := by decide
  have h50 : ((demoSvcHelpers 100 50).obj_bytes 4 demoRsiLong.lustre_svc).length +
      ((demoSvcHelpers 100 50).obj_bytes 8 demoRsiLong.nid4).length +
      ((demoSvcHelpers 100 50).obj_bytes 8 0).length +
      (demoRsiLong.nm_name.take (strlen demoRsiLong.nm_name + 1)).length +
      demoRsiLong.in_handle.length = 22 := by decide
  refine ⟨hlen, ?_, ?_⟩
  · apply rsi_request_short (demoSvcHelpers 100 50) demoRsiLong 4096 demoEmpty 0
    rw [h50, hlen]
    decide
  · apply rsi_request_overflow (demoSvcHelpers 100 50) demoRsiLong 4096 demoEmpty
    · rw [h5]; decide
    · exact hne
    · rw [h5, hlen]; decide

theorem rsc_cache_put_last {p : Nat} {c c1 : Cache Rsc} (h : cache_put rsc_cache p c = some c1)
    (href : (c.ents p).h.ref = 1) : p ∉ c.table := by
  simp only [cache_put, rsc_cache, Cache.mod_ents_same, href, sub_self, if_true, rsc_put,
    Cache.mod_table] at h
  intro hm
  rw [if_pos hm] at h
  cases h

/-- What the lookup and the negative update of `rsc_parse` leave. Every completed run
returns 0 or `-ENOMEM`; it returns `-ENOMEM` exactly when the allocator has no memory
and an entry is needed (none matches the handle, or the matching one is valid and has to
be replaced), and then the context cache is as before. With 0 the first entry of the
hash table that matches the handle is negative and valid and expires as the line says;
its context fields are not taken from the line: an entry marked in place keeps the ones
it had, a new entry has them cleared. The run completes when every entry of the hash
table holds a reference and the allocator does not hand out the address of the entry
that is replaced. -/
theorem rsc_negative_result (H : SvcHelpers) (key neg : Rsc) (s : SvcState)
    (hn : neg.h.NEGATIVE = true) :
    (∀ r s',
      (match (rsc_lookup H key s).1 with
        | none => some (-ENOMEM, (rsc_lookup H key s).2)
        | some rscp =>
          (rsc_update H neg rscp (rsc_lookup H key s).2).bind fun r =>
            rsc_parse_out r.1 0 r.2) = some (r, s') →
      (r = 0 ∨ r = -ENOMEM) ∧
      (r = -ENOMEM ↔ H.rsc_alloc = none ∧
        ∀ p0, s.rsc.table.find? (fun q => rsc_match (s.rsc.ents q) key) = some p0 →
          (s.rsc.ents p0).h.VALID = true) ∧
      (r = -ENOMEM → s'.rsc = s.rsc ∧ s'.rsi = s.rsi) ∧
      (r = 0 → ∃ p rscp,
        s'.rsc.table.find? (fun q => rsc_match (s'.rsc.ents q) key) = some p ∧
        (s'.rsc.ents p).handle = key.handle ∧
        (s'.rsc.ents p).h.NEGATIVE = true ∧ (s'.rsc.ents p).h.VALID = true ∧
        (s'.rsc.ents p).h.expiry_time = neg.h.expiry_time ∧
        s'.trace = SvcEvent.rsc_update rscp :: s.trace ∧ s'.rsi = s.rsi ∧
        (s'.rsc.ents p).ctx =
          (match s.rsc.table.find? (fun q => rsc_match (s.rsc.ents q) key) with
            | some p0 => if (s.rsc.ents p0).h.VALID = true then zeroSvcCtx
                         else (s.rsc.ents p0).ctx
            | none => zeroSvcCtx))) ∧
    ((∀ q ∈ s.rsc.table, 0 < (s.rsc.ents q).h.ref) →
      (∀ p0, s.rsc.table.find? (fun q => rsc_match (s.rsc.ents q) key) = some p0 →
        H.rsc_alloc ≠ some p0) →
      (match (rsc_lookup H key s).1 with
        | none => some (-ENOMEM, (rsc_lookup H key s).2)
        | some rscp =>
          (rsc_update H neg rscp (rsc_lookup H key s).2).bind fun r =>
            rsc_parse_out r.1 0 r.2).isSome = true) := by
  have hENOMEM : (-ENOMEM : Int) ≠ 0 := by decide
  have hENOMEM2 : (0 : Int) ≠ -ENOMEM := by decide
  cases hfind : s.rsc.table.find? (fun q => rsc_match (s.rsc.ents q) key) with
  | some p0 =>
    have hm : p0 ∈ s.rsc.table := List.mem_of_find?_eq_some hfind
    have hmatch0 := List.find?_some hfind
    have hmatch : (s.rsc.ents p0).handle = key.handle := (rsc_match_iff _ _).mp hmatch0
    rw [rsc_lookup_found hfind]
    simp only []
    cases hv : (s.rsc.ents p0).h.VALID with
    | true =>
      have hv0 : (({ s with rsc := cache_get rsc_cache p0 s.rsc } : SvcState).rsc.ents p0).h.VALID
          = true := by
        simp [cache_get, rsc_cache, hv]
      cases halloc : H.rsc_alloc with
      | none =>
        rw [rsc_update_alloc_fail H neg p0 _ hv0 halloc]
        refine ⟨?_, ?_⟩
        · intro r s' h
          by_cases href : (s.rsc.ents p0).h.ref = 0
          · rw [show ({ s with rsc := cache_get rsc_cache p0 s.rsc } : SvcState).rsc =
              cache_get rsc_cache p0 s.rsc from rfl, rsc_cache_put_get_none p0 s.rsc href hm] at h
            cases h
          · rw [show ({ s with rsc := cache_get rsc_cache p0 s.rsc } : SvcState).rsc =
              cache_get rsc_cache p0 s.rsc from rfl, rsc_cache_put_get p0 s.rsc href] at h
            simp only [Option.map_some', Option.some_bind, rsc_parse_out, Option.some.injEq,
              Prod.mk.injEq] at h
            obtain ⟨rfl, rfl⟩ := h
            refine ⟨Or.inr rfl, ⟨fun _ => ⟨rfl, ?_⟩, fun _ => rfl⟩, fun _ => ⟨rfl, rfl⟩,
              fun hx => absurd hx hENOMEM⟩
            intro p1 hp1
            simp only [Option.some.injEq] at hp1
            rw [← hp1]; exact hv
        · intro href _
          have h1 := href p0 hm
          rw [rsc_cache_put_some]
          · rfl
          · simp only [cache_get, rsc_cache, Cache.mod_ents_same]
            omega
      | some q =>
        rw [rsc_update_negative_replace H neg p0 q _ hv0 hn halloc]
        refine ⟨?_, ?_⟩
        · intro r s' h
          simp only [Option.bind_eq_some, Option.map_eq_some'] at h
          obtain ⟨x, ⟨c3, hc3, rfl⟩, h⟩ := h
          obtain ⟨f1, f2⟩ := rsc_cache_put_frame hc3
          by_cases hq : q = p0
          · exfalso
            subst hq
            simp only [rsc_parse_out, Option.map_eq_some'] at h
            obtain ⟨c4, hc4, -⟩ := h
            have hmem : q ∈ c3.table := by
              rw [f1]
              simp only [Cache.mod_table]
              exact List.mem_cons_self _ _
            refine rsc_cache_put_last hc4 ?_ hmem
            show (c3.ents q).h.ref = 1
            rw [f2]
            simp [Cache.mod, zeroHead]
          · obtain ⟨rfl, htr, hrsi, htab, hents⟩ := rsc_parse_out_some h
            simp only [] at htr hrsi htab hents
            have hq_ent : s'.rsc.ents q =
                { zeroRsc with
                  h := { zeroHead with NEGATIVE := true, VALID := true,
                                       expiry_time := neg.h.expiry_time, ref := 1 },
                  handle := (s.rsc.ents p0).handle } := by
              rw [hents, Cache.mod_ents_same, f2, Cache.mod_ents_other _ _ _ _ hq,
                Cache.mod_ents_other _ _ _ _ hq]
              simp [cache_get, rsc_cache]
            refine ⟨Or.inl rfl, ⟨fun hx => absurd hx hENOMEM2, fun hx => ?_⟩,
              fun hx => absurd hx hENOMEM2,
              fun _ => ⟨q, p0, ?_, ?_, ?_, ?_, ?_, htr, hrsi, ?_⟩⟩
            · cases hx.1
            · rw [htab, f1]
              simp only [Cache.mod_table]
              apply List.find?_cons_of_pos
              apply rsc_match_of_handle
              rw [hq_ent]; exact hmatch
            · rw [hq_ent]; exact hmatch
            · rw [hq_ent]
            · rw [hq_ent]
            · rw [hq_ent]
            · rw [hq_ent]
              simp only [hv, if_true]
              rfl
        · intro href hnew
          have hq : q ≠ p0 := fun e => hnew p0 rfl (e ▸ rfl)
          have h1 := href p0 hm
          rw [rsc_cache_put_some]
          · simp only [Option.map_some', Option.some_bind, rsc_parse_out]
            rw [rsc_cache_put_some]
            · rfl
            · simp only [Cache.mod_ents_other _ _ _ _ hq]
              simp [Cache.mod, hq]
          · simp only [Cache.mod_ents_same]
            simp only [Function.update_noteq (Ne.symm hq), cache_get, rsc_cache,
              Cache.mod_ents_same]
            omega
    | false =>
      have hv0 : (({ s with rsc := cache_get rsc_cache p0 s.rsc } : SvcState).rsc.ents p0).h.VALID
          = false := by
        simp [cache_get, rsc_cache, hv]
      rw [rsc_update_negative_inplace H neg p0 _ hv0 hn]
      simp only [Option.some_bind]
      refine ⟨?_, ?_⟩
      · intro r s' h
        obtain ⟨rfl, htr, hrsi, htab, hents⟩ := rsc_parse_out_some h
        simp only [] at htr hrsi htab hents
        have hall : ∀ x, (s'.rsc.ents x).handle = (s.rsc.ents x).handle := by
          intro x
          rw [hents]
          by_cases hx : x = p0
          · subst hx; simp [cache_get, rsc_cache]
          · simp [cache_get, rsc_cache, hx]
        refine ⟨Or.inl rfl, ⟨fun hx => absurd hx hENOMEM2, fun hx => ?_⟩,
          fun hx => absurd hx hENOMEM2,
          fun _ => ⟨p0, p0, ?_, ?_, ?_, ?_, ?_, htr, hrsi, ?_⟩⟩
        · have := hx.2 p0 rfl
          rw [hv] at this
          cases this
        · rw [htab]
          simp only [Cache.mod_table, cache_get]
          have hfun : (fun q => rsc_match (s'.rsc.ents q) key) =
              fun q => rsc_match (s.rsc.ents q) key := by
            funext x
            exact rsc_match_congr _ _ _ (hall x)
          rw [hfun]
          exact hfind
        · rw [hall]; exact hmatch
        · rw [hents]; simp
        · rw [hents]; simp
        · rw [hents]; simp
        · rw [hents]
          simp [cache_get, rsc_cache, hv]
      · intro href _
        have h1 := href p0 hm
        simp only [rsc_parse_out]
        rw [rsc_cache_put_some]
        · rfl
        · simp only [Cache.mod_ents_same, cache_get, rsc_cache]
          omega
  | none =>
    cases halloc : H.rsc_alloc with
    | none =>
      rw [rsc_lookup_failed hfind halloc]
      simp only []
      refine ⟨?_, fun _ _ => rfl⟩
      intro r s' h
      simp only [Option.some.injEq, Prod.mk.injEq] at h
      obtain ⟨rfl, rfl⟩ := h
      refine ⟨Or.inr rfl, ⟨fun _ => ⟨trivial, fun p1 hp1 => by cases hp1⟩, fun _ => rfl⟩,
        fun _ => ⟨rfl, rfl⟩, fun hx => absurd hx hENOMEM⟩
    | some q =>
      rw [rsc_lookup_created hfind halloc]
      simp only []
      rw [rsc_update_negative_inplace H neg q _ (by simp [zeroHead]) hn]
      simp only [Option.some_bind]
      refine ⟨?_, ?_⟩
      · intro r s' h
        obtain ⟨rfl, htr, hrsi, htab, hents⟩ := rsc_parse_out_some h
        simp only [] at htr hrsi htab hents
        have hq_ent : s'.rsc.ents q =
            { zeroRsc with
              h := { zeroHead with NEGATIVE := true, VALID := true, PENDING := false,
                                   expiry_time := neg.h.expiry_time, ref := 1 },
              handle := key.handle } := by
          rw [hents]
          simp [Cache.mod, zeroHead]
        refine ⟨Or.inl rfl, ⟨fun hx => absurd hx hENOMEM2, fun hx => ?_⟩,
          fun hx => absurd hx hENOMEM2,
          fun _ => ⟨q, q, ?_, ?_, ?_, ?_, ?_, htr, hrsi, ?_⟩⟩
        · cases hx.1
        · rw [htab]
          simp only [Cache.mod_table]
          apply List.find?_cons_of_pos
          apply rsc_match_of_handle
          rw [hq_ent]
        · rw [hq_ent]
        · rw [hq_ent]
        · rw [hq_ent]
        · rw [hq_ent]
        · rw [hq_ent]
          rfl
      · intro _ _
        simp only [rsc_parse_out]
        rw [rsc_cache_put_some]
        · rfl
        · simp [Cache.mod]

theorem rsc_find_key (c : Cache Rsc) (k1 k2 : Rsc) (h : k1.handle = k2.handle) :
    c.table.find? (fun q => rsc_match (c.ents q) k1) =
      c.table.find? (fun q => rsc_match (c.ents q) k2) := by
  have hfun : (fun q => rsc_match (c.ents q) k1) = fun q => rsc_match (c.ents q) k2 := by
    funext x
    simp only [rsc_match, __rsc_match, h]
  rw [hfun]

/-- C22 (amended): a reply line of the context channel that carries a handle (`qword_get`
succeeds and the handle is allocated as `hdl`), a non-zero expiry, the four integer
flags and the mapped uid, but no uid field (`get_int` gives `-ENOENT`). `rsc_parse`
fills its local entry with each flag stored as "the value is not 0", so as 0 or 1, marks
it negative with the expiry of the line and hands it to `rsc_update`; the mechanism layer
is not consulted, so no mechanism context is imported. Every completed call returns 0 or
`-ENOMEM`, and `-ENOMEM` exactly when the allocator has no memory and an entry is needed
(no entry matches the handle, or the matching one is valid and has to be replaced); the
context cache is then as before. When the call returns 0, the first entry of the hash
table that matches the handle carries `CACHE_NEGATIVE`, is valid and has the expiry of
the line, and `rsc_update` was called once; the context fields of that entry, the four
flags among them, are not those of the line: an entry marked in place keeps the fields
it had, a newly allocated entry has them cleared. The call completes when every entry
of the hash table holds a reference and the allocator does not hand out the address of
the entry that is replaced. -/
theorem rsc_parse_negative_reply (H : SvcHelpers) (M : MechHelpers) (mesg : List Char)
    (s : SvcState) (len : Int) (buf hdl : List Nat) (m0 m1 m2 m3 m4 m5 m6 : List Char)
    (expiry v1 v2 v3 v4 v5 : Int)
    (hq : H.qword_get mesg = (len, buf, m0)) (hlen : 0 ≤ len)
    (ha : H.rawobj_alloc buf len = some hdl)
    (he : H.get_expiry m0 = (expiry, m1)) (hne : expiry ≠ 0)
    (g1 : H.get_int m1 = (0, v1, m2)) (g2 : H.get_int m2 = (0, v2, m3))
    (g3 : H.get_int m3 = (0, v3, m4)) (g4 : H.get_int m4 = (0, v4, m5))
    (g5 : H.get_int m5 = (0, v5, m6)) (hu : (H.get_int m6).1 = -ENOENT) :
    rsc_parse_flags H { zeroRsc with handle := hdl } m1 =
      some (rsc_parse_rsci hdl v1 v2 v3 v4 v5, m6) ∧
    ((rsc_parse_rsci hdl v1 v2 v3 v4 v5).ctx.gsc_remote = true ↔ v1 ≠ 0) ∧
    ((rsc_parse_rsci hdl v1 v2 v3 v4 v5).ctx.gsc_usr_root = true ↔ v2 ≠ 0) ∧
    ((rsc_parse_rsci hdl v1 v2 v3 v4 v5).ctx.gsc_usr_mds = true ↔ v3 ≠ 0) ∧
    ((rsc_parse_rsci hdl v1 v2 v3 v4 v5).ctx.gsc_usr_oss = true ↔ v4 ≠ 0) ∧
    rsc_parse H M mesg s =
      (match (rsc_lookup H (rsc_parse_rsci hdl v1 v2 v3 v4 v5) s).1 with
      | none => some (-ENOMEM, (rsc_lookup H (rsc_parse_rsci hdl v1 v2 v3 v4 v5) s).2)
      | some rscp =>
        (rsc_update H
          { rsc_parse_rsci hdl v1 v2 v3 v4 v5 with
            h := { zeroHead with NEGATIVE := true, expiry_time := expiry } }
          rscp (rsc_lookup H (rsc_parse_rsci hdl v1 v2 v3 v4 v5) s).2).bind fun r =>
            rsc_parse_out r.1 0 r.2) ∧
    (∀ M2 : MechHelpers, rsc_parse H M2 mesg s = rsc_parse H M mesg s) ∧
    (∀ r s', rsc_parse H M mesg s = some (r, s') →
      (r = 0 ∨ r = -ENOMEM) ∧
      (r = -ENOMEM ↔ H.rsc_alloc = none ∧
        ∀ p0, s.rsc.table.find? (fun q =>
            rsc_match (s.rsc.ents q) { zeroRsc with handle := hdl }) = some p0 →
          (s.rsc.ents p0).h.VALID = true) ∧
      (r = -ENOMEM → s'.rsc = s.rsc ∧ s'.rsi = s.rsi) ∧
      (r = 0 → ∃ p rscp,
        s'.rsc.table.find? (fun q =>
          rsc_match (s'.rsc.ents q) { zeroRsc with handle := hdl }) = some p ∧
        (s'.rsc.ents p).handle = hdl ∧
        (s'.rsc.ents p).h.NEGATIVE = true ∧ (s'.rsc.ents p).h.VALID = true ∧
        (s'.rsc.ents p).h.expiry_time = expiry ∧
        s'.trace = SvcEvent.rsc_update rscp :: s.trace ∧ s'.rsi = s.rsi ∧
        (s'.rsc.ents p).ctx =
          (match s.rsc.table.find? (fun q =>
              rsc_match (s.rsc.ents q) { zeroRsc with handle := hdl }) with
            | some p0 => if (s.rsc.ents p0).h.VALID = true then zeroSvcCtx
                         else (s.rsc.ents p0).ctx
            | none => zeroSvcCtx))) ∧
    ((∀ q ∈ s.rsc.table, 0 < (s.rsc.ents q).h.ref) →
      (∀ p0, s.rsc.table.find? (fun q =>
          rsc_match (s.rsc.ents q) { zeroRsc with handle := hdl }) = some p0 →
        H.rsc_alloc ≠ some p0) →
      (rsc_parse H M mesg s).isSome = true) := by
  have heq := fun M0 => rsc_parse_negative_eq H M0 mesg s len buf hdl m0 m1 m2 m3 m4 m5 m6
    expiry v1 v2 v3 v4 v5 hq hlen ha he hne g1 g2 g3 g4 g5 hu
  obtain ⟨hpost, hcomp⟩ := rsc_negative_result H (rsc_parse_rsci hdl v1 v2 v3 v4 v5)
    { rsc_parse_rsci hdl v1 v2 v3 v4 v5 with
      h := { zeroHead with NEGATIVE := true, expiry_time := expiry } } s rfl
  have hk : ∀ c : Cache Rsc,
      c.table.find? (fun q => rsc_match (c.ents q) { zeroRsc with handle := hdl }) =
        c.table.find? (fun q => rsc_match (c.ents q) (rsc_parse_rsci hdl v1 v2 v3 v4 v5)) :=
    fun c => rsc_find_key c _ _ rfl
  refine ⟨rsc_parse_flags_ok H _ m1 m2 m3 m4 m5 m6 v1 v2 v3 v4 v5 g1 g2 g3 g4 g5, ?_, ?_, ?_, ?_,
    heq M, fun M2 => by rw [heq M2, heq M], ?_, ?_⟩
  · simp [rsc_parse_rsci]
  · simp [rsc_parse_rsci]
  · simp [rsc_parse_rsci]
  · simp [rsc_parse_rsci]
  · intro r s' h
    rw [heq M] at h
    rw [hk s.rsc]
    obtain ⟨p1, p2, p3, p4⟩ := hpost r s' h
    refine ⟨p1, p2, p3, ?_⟩
    intro hr
    obtain ⟨p, rscp, q1, q2, q3, q4, q5, q6, q7, q8⟩ := p4 hr
    refine ⟨p, rscp, ?_, q2, q3, q4, q5, q6, q7, q8⟩
    rw [hk s'.rsc]
    exact q1
  · intro href hnew
    rw [heq M]
    rw [hk s.rsc] at hnew
    exact hcomp href hnew

/-- Worked example for C22: the line `demoRscNegative` for the new handle `09 09` with
the flags 0, 2, 0, 1 creates entry 50 in front of the table, negative and valid with
expiry 500; the root flag 2 is read as 1 into the local record, and the context fields
of entry 50 are cleared. -/
theorem rsc_parse_negative_reply_witness :
    (rsc_parse_rsci [9, 9] 0 2 0 1 1000).ctx.gsc_usr_root = true ∧
    ∃ s', rsc_parse (demoSvcHelpers 100 50) demoMech demoRscNegative demoSvc = some (0, s') ∧
      s'.rsc.table.find? (fun q =>
        rsc_match (s'.rsc.ents q) { zeroRsc with handle := [9, 9] }) = some 50 ∧
      (s'.rsc.ents 50).h.NEGATIVE = true ∧ (s'.rsc.ents 50).h.expiry_time = 500 ∧
      (s'.rsc.ents 50).ctx = zeroSvcCtx := by
  have h := rsc_parse_negative_reply (demoSvcHelpers 100 50) demoMech demoRscNegative demoSvc
    2 [9, 9] [9, 9] "500 0 2 0 1 1000\n".toList "0 2 0 1 1000\n".toList "2 0 1 1000\n".toList
    "0 1 1000\n".toList "1 1000\n".toList "1000\n".toList "\n".toList 500 0 2 0 1 1000
    (by decide) (by decide) (by decide) (by decide) (by decide) (by decide) (by decide)
    (by decide) (by decide) (by decide) (by decide)
  obtain ⟨-, -, hroot, -, -, -, -, hpost, hcomp⟩ := h
  refine ⟨hroot.mpr (by decide), ?_⟩
  have hsome := hcomp (by decide) (by decide)
  cases hret : rsc_parse (demoSvcHelpers 100 50) demoMech demoRscNegative demoSvc with
  | none => rw [hret] at hsome; cases hsome
  | some rs =>
    obtain ⟨r, s'⟩ := rs
    obtain ⟨h01, hiff, -, hent⟩ := hpost r s' hret
    have hr : r = 0 := by
      rcases h01 with h0 | h1
      · exact h0
      · exact absurd (hiff.mp h1).1 (by decide)
    subst hr
    obtain ⟨p, rscp, q1, q2, q3, q4, q5, q6, q7, q8⟩ := hent rfl
    have htab : (rsc_parse (demoSvcHelpers 100 50) demoMech demoRscNegative demoSvc).map
        (fun x => x.2.rsc.table.find? (fun q =>
          rsc_match (x.2.rsc.ents q) { zeroRsc with handle := [9, 9] })) = some (some 50) := by
      decide
    rw [hret] at htab
    simp only [Option.map_some', Option.some.injEq] at htab
    have hp : p = 50 := by
      rw [htab] at q1
      exact (Option.some.inj q1).symm
    subst hp
    refine ⟨s', rfl, htab, q3, q5, ?_⟩
    rw [q8]
    decide

/-- Counterexample to C22 as stated. The line `demoRscNegative` has the root flag 2 and
the oss flag 1; `rsc_parse` returns 0 and entry 50 for the handle is negative with
expiry 500, but its root and oss flags are clear. The line `demoRscNegativeOld` names
the handle of the valid entry 5; when the allocator has no memory `rsc_parse` returns
`-ENOMEM`, not 0, and entry 5 is not negative. -/
theorem rsc_parse_negative_reply_counterexample :
    ((demoSvcHelpers 100 50).get_int "2 0 1 1000\n".toList).2.1 = 2 ∧
    ((demoSvcHelpers 100 50).get_int "1 1000\n".toList).2.1 = 1 ∧
    (rsc_parse (demoSvcHelpers 100 50) demoMech demoRscNegative demoSvc).map
      (fun r => (r.1, (r.2.rsc.ents 50).handle, (r.2.rsc.ents 50).h.NEGATIVE,
        (r.2.rsc.ents 50).h.expiry_time, (r.2.rsc.ents 50).ctx.gsc_usr_root,
        (r.2.rsc.ents 50).ctx.gsc_usr_oss)) =
      some (0, [9, 9], true, 500, false, false) ∧
    (demoSvc.rsc.ents 5).handle = [7, 7] ∧ (demoSvc.rsc.ents 5).h.VALID = true ∧
    (rsc_parse { demoSvcHelpers 100 50 with rsc_alloc := none } demoMech demoRscNegativeOld
        demoSvc).map
      (fun r => (r.1, (r.2.rsc.ents 5).h.NEGATIVE, r.2.rsc.table)) =
      some (-ENOMEM, false, [5]) := by
  decide

end GssSvcUpcall
